import Mathlib

/-!
# MPU6050 driver (`lib/mpu6050/inv_mpu.c`): shallow embedding and verified properties

The driver keeps a cache of the chip configuration (`struct chip_cfg_s`) and talks to
the chip through two blocking transport calls (`i2c_write`, `i2c_read`) and a delay.
The embedding is by explicit state passing:

* the platform is a parameter `T : Platform W` over an arbitrary world type `W`: its
  transport, where a call may succeed or fail and may change the world in any way, and
  the width of its `unsigned int` (the sources are built both for AVR, 16-bit `int`, and
  for the Pico, 32-bit `int`);
* the driver state `St W` holds the cache, the world and a log of every transport call
  and delay issued so far, so that "no transport I/O" and "writes byte d to register r"
  are statements about the log;
* `unsigned char` / `unsigned short` values are `Nat` (reduced `% 256` / `% 65536`
  where the C code can overflow), `short` / `long` / status codes are `Int`.

The build modelled is the one the file selects with `#define MPU6050` (no `MPU6500`,
no `AK89xx_SECONDARY`). The bus address `st.hw->addr` is the same constant in every
transport call and is left implicit. The only expression of the driver whose value
depends on the width of `int` is the bank-boundary test `tmp[1] + length > bank_size`
of `mpu_write_mem` and `mpu_read_mem`.
-/

namespace InvMpu

/-! ## Register map and hardware description -/

/-- Register addresses, `struct gyro_reg_s`. -/
structure gyro_reg_s where
  who_am_i : Nat
  rate_div : Nat
  lpf : Nat
  prod_id : Nat
  user_ctrl : Nat
  fifo_en : Nat
  gyro_cfg : Nat
  accel_cfg : Nat
  accel_cfg2 : Nat
  lp_accel_odr : Nat
  motion_thr : Nat
  motion_dur : Nat
  fifo_count_h : Nat
  fifo_r_w : Nat
  raw_gyro : Nat
  raw_accel : Nat
  temp : Nat
  int_enable : Nat
  dmp_int_status : Nat
  int_status : Nat
  accel_intel : Nat
  pwr_mgmt_1 : Nat
  pwr_mgmt_2 : Nat
  int_pin_cfg : Nat
  mem_r_w : Nat
  accel_offs : Nat
  i2c_mst : Nat
  bank_sel : Nat
  mem_start_addr : Nat
  prgm_start_h : Nat

/-- Device description, `struct hw_s`. -/
structure hw_s where
  addr : Nat
  max_fifo : Nat
  num_reg : Nat
  temp_sens : Nat
  temp_offset : Int
  bank_size : Nat

/-- The register table `reg` of the MPU6050 build (fields the initializer omits are 0). -/
@[reducible] def reg : gyro_reg_s where
  who_am_i := 0x75
  rate_div := 0x19
  lpf := 0x1A
  prod_id := 0x0C
  user_ctrl := 0x6A
  fifo_en := 0x23
  gyro_cfg := 0x1B
  accel_cfg := 0x1C
  accel_cfg2 := 0
  lp_accel_odr := 0
  motion_thr := 0x1F
  motion_dur := 0x20
  fifo_count_h := 0x72
  fifo_r_w := 0x74
  raw_gyro := 0x43
  raw_accel := 0x3B
  temp := 0x41
  int_enable := 0x38
  dmp_int_status := 0x39
  int_status := 0x3A
  accel_intel := 0
  pwr_mgmt_1 := 0x6B
  pwr_mgmt_2 := 0x6C
  int_pin_cfg := 0x37
  mem_r_w := 0x6F
  accel_offs := 0x06
  i2c_mst := 0x24
  bank_sel := 0x6D
  mem_start_addr := 0x6E
  prgm_start_h := 0x70

/-- The device table `hw`. -/
@[reducible] def hw : hw_s where
  addr := 0x68
  max_fifo := 1024
  num_reg := 118
  temp_sens := 340
  temp_offset := -521
  bank_size := 256

/-! ### `enum lpf_e`, `enum gyro_fsr_e`, `enum accel_fsr_e`, `enum clock_sel_e`,
`enum lp_accel_rate_e` -/

@[reducible] def INV_FILTER_256HZ_NOLPF2 : Nat := 0
@[reducible] def INV_FILTER_188HZ : Nat := 1
@[reducible] def INV_FILTER_98HZ : Nat := 2
@[reducible] def INV_FILTER_42HZ : Nat := 3
@[reducible] def INV_FILTER_20HZ : Nat := 4
@[reducible] def INV_FILTER_10HZ : Nat := 5
@[reducible] def INV_FILTER_5HZ : Nat := 6
@[reducible] def INV_FILTER_2100HZ_NOLPF : Nat := 7

@[reducible] def INV_FSR_250DPS : Nat := 0
@[reducible] def INV_FSR_500DPS : Nat := 1
@[reducible] def INV_FSR_1000DPS : Nat := 2
@[reducible] def INV_FSR_2000DPS : Nat := 3

@[reducible] def INV_FSR_2G : Nat := 0
@[reducible] def INV_FSR_4G : Nat := 1
@[reducible] def INV_FSR_8G : Nat := 2
@[reducible] def INV_FSR_16G : Nat := 3

@[reducible] def INV_CLK_INTERNAL : Nat := 0
@[reducible] def INV_CLK_PLL : Nat := 1

@[reducible] def INV_LPA_1_25HZ : Nat := 0
@[reducible] def INV_LPA_5HZ : Nat := 1
@[reducible] def INV_LPA_20HZ : Nat := 2
@[reducible] def INV_LPA_40HZ : Nat := 3

/-! ### Bit definitions (`#define BIT_...`) -/

@[reducible] def BIT_FIFO_EN : Nat := 0x40
@[reducible] def BIT_DMP_EN : Nat := 0x80
@[reducible] def BIT_FIFO_RST : Nat := 0x04
@[reducible] def BIT_DMP_RST : Nat := 0x08
@[reducible] def BIT_FIFO_OVERFLOW : Nat := 0x10
@[reducible] def BIT_DATA_RDY_EN : Nat := 0x01
@[reducible] def BIT_DMP_INT_EN : Nat := 0x02
@[reducible] def BIT_RESET : Nat := 0x80
@[reducible] def BIT_SLEEP : Nat := 0x40
@[reducible] def BIT_AUX_IF_EN : Nat := 0x20
@[reducible] def BIT_ACTL : Nat := 0x80
@[reducible] def BIT_LATCH_EN : Nat := 0x20
@[reducible] def BIT_ANY_RD_CLR : Nat := 0x10
@[reducible] def BIT_BYPASS_EN : Nat := 0x02
@[reducible] def BIT_LPA_CYCLE : Nat := 0x20
@[reducible] def BIT_STBY_XA : Nat := 0x20
@[reducible] def BIT_STBY_YA : Nat := 0x10
@[reducible] def BIT_STBY_ZA : Nat := 0x08
@[reducible] def BIT_STBY_XG : Nat := 0x04
@[reducible] def BIT_STBY_YG : Nat := 0x02
@[reducible] def BIT_STBY_ZG : Nat := 0x01
@[reducible] def BIT_STBY_XYZA : Nat := BIT_STBY_XA ||| BIT_STBY_YA ||| BIT_STBY_ZA
@[reducible] def BIT_STBY_XYZG : Nat := BIT_STBY_XG ||| BIT_STBY_YG ||| BIT_STBY_ZG

@[reducible] def MAX_PACKET_LENGTH : Nat := 12
@[reducible] def LOAD_CHUNK : Nat := 16

/-! ### Sensor masks

The masks `INV_X_GYRO` ... `INV_XYZ_COMPASS` are declared in `inv_mpu.h`, which is not
part of the sources at hand. -/

/-- Modelled from the spec: the header `inv_mpu.h` declaring the sensor masks is missing;
the cache "uses the same masks as fifo_en", a bitmask over the channels gyro X/Y/Z, accel
and compass, so gyro X is the FIFO-enable register's bit 6. -/
@[reducible] def INV_X_GYRO : Nat := 0x40
/-- Modelled from the spec: missing header `inv_mpu.h`; gyro Y channel, FIFO-enable bit 5. -/
@[reducible] def INV_Y_GYRO : Nat := 0x20
/-- Modelled from the spec: missing header `inv_mpu.h`; gyro Z channel, FIFO-enable bit 4. -/
@[reducible] def INV_Z_GYRO : Nat := 0x10
/-- Modelled from the spec: missing header `inv_mpu.h`; the three gyro channels together. -/
@[reducible] def INV_XYZ_GYRO : Nat := INV_X_GYRO ||| INV_Y_GYRO ||| INV_Z_GYRO
/-- Modelled from the spec: missing header `inv_mpu.h`; accel channel, FIFO-enable bit 3. -/
@[reducible] def INV_XYZ_ACCEL : Nat := 0x08
/-- Modelled from the spec: missing header `inv_mpu.h`; compass channel, bit 0. -/
@[reducible] def INV_XYZ_COMPASS : Nat := 0x01

/-! ## Driver state -/

/-- The snapshot `struct motion_int_cache_s`. -/
structure motion_int_cache_s where
  gyro_fsr : Nat
  accel_fsr : Nat
  lpf : Nat
  sample_rate : Nat
  sensors_on : Nat
  fifo_sensors : Nat
  dmp_on : Nat
  deriving DecidableEq, Repr

/-- The cached chip configuration `struct chip_cfg_s`. -/
structure chip_cfg_s where
  gyro_fsr : Nat
  accel_fsr : Nat
  sensors : Nat
  lpf : Nat
  clk_src : Nat
  sample_rate : Nat
  fifo_enable : Nat
  int_enable : Nat
  bypass_mode : Nat
  accel_half : Nat
  lp_accel_mode : Nat
  int_motion_only : Nat
  cache : motion_int_cache_s
  active_low_int : Nat
  latched_int : Nat
  dmp_on : Nat
  dmp_loaded : Nat
  dmp_sample_rate : Nat
  deriving DecidableEq, Repr

/-- One entry of the transport log: a register write with the bytes sent and whether the
transport accepted it, a register read with the byte count and whether it succeeded, or
a call of `delay_ms`. -/
inductive Ev where
  | write (r : Nat) (data : List Nat) (ok : Bool)
  | read (r : Nat) (len : Nat) (ok : Bool)
  | delay (ms : Nat)
  deriving DecidableEq, Repr

/-- The platform the driver is built for. `write w r data` sends `data` to register `r`
and reports success; `read w r len` asks for `len` bytes from register `r` and returns
them on success; both may change the world behind the transport. `uint_bits` is the
width of the C type `unsigned int`, in which `unsigned char + unsigned short` is
computed when `int` has 16 bits (the AVR build); C guarantees at least 16 bits. -/
structure Platform (W : Type) where
  write : W → Nat → List Nat → Bool × W
  read : W → Nat → Nat → Option (List Nat) × W
  uint_bits : Nat
  uint_bits_ge : 16 ≤ uint_bits

/-- The driver state `st`: cache, world behind the transport, and the log. -/
structure St (W : Type) where
  cfg : chip_cfg_s
  bus : W
  log : List Ev

variable {W : Type}

/-- The bytes a read of `len` bytes leaves in the caller's buffer: exactly `len` values,
each an `unsigned char`. -/
def readBytes (l : List Nat) (len : Nat) : List Nat :=
  (List.range len).map (fun i => l.getD i 0 % 256)

/-- The macro `i2c_write` (`!twi_writeToPointer`): non-zero (`true`) means failure. -/
def i2c_write (T : Platform W) (s : St W) (r : Nat) (data : List Nat) : Bool × St W :=
  let res := T.write s.bus r data
  (!res.1, { s with bus := res.2, log := s.log ++ [Ev.write r data res.1] })

/-- The macro `i2c_read` (`!twi_readFromPointer`): non-zero (`true`) means failure; on
success the second component holds the `len` bytes read. -/
def i2c_read (T : Platform W) (s : St W) (r : Nat) (len : Nat) : Bool × List Nat × St W :=
  let res := T.read s.bus r len
  (res.1.isNone,
    (match res.1 with
      | some l => readBytes l len
      | none => []),
    { s with bus := res.2, log := s.log ++ [Ev.read r len res.1.isSome] })

/-- The macro `delay_ms`. -/
def delay_ms (s : St W) (ms : Nat) : St W :=
  { s with log := s.log ++ [Ev.delay ms] }

/-- Store into a 12-byte (or any) local buffer: the first `bytes.length` cells are
overwritten, the rest keep their content. -/
def bufStore (buf bytes : List Nat) : List Nat :=
  bytes ++ buf.drop bytes.length

/-- Conversion of a 16-bit pattern to `short`. -/
def toShort (x : Nat) : Int :=
  if x % 65536 < 32768 then (x % 65536 : Nat) else ((x % 65536 : Nat) : Int) - 65536

/-- Conversion of an 8-bit pattern to `int8_t`. -/
def toInt8 (x : Nat) : Int :=
  if x % 256 < 128 then (x % 256 : Nat) else ((x % 256 : Nat) : Int) - 256

/-! ## Early returns

The three statement patterns `if (i2c_write(...)) return e;`, `if (i2c_read(...)) return e;`
and `if (callee(...)) return e;`, each followed by the rest of the function. -/

/-- After a transport write `w`: take `fail` when it failed, else continue with `k`. -/
def onFail {α : Type} (w : Bool × St W) (fail : St W → α) (k : St W → α) : α :=
  if w.1 then fail w.2 else k w.2

/-- After a transport read `rd`: take `fail` when it failed, else continue with `k` on the
bytes read. -/
def onFailR {α : Type} (rd : Bool × List Nat × St W) (fail : St W → α)
    (k : List Nat → St W → α) : α :=
  if rd.1 then fail rd.2.2 else k rd.2.1 rd.2.2

/-- After a driver call with status `r.1`: take `fail` when it is non-zero, else continue
with `k`. -/
def onErr {α : Type} (r : Int × St W) (fail : St W → α) (k : St W → α) : α :=
  if r.1 ≠ 0 then fail r.2 else k r.2

/-- Store a new cache in the driver state. -/
def St.setCfg (s : St W) (c : chip_cfg_s) : St W := { s with cfg := c }

/-! ## Interrupt configuration -/

/-- `set_int_enable`. -/
def set_int_enable (T : Platform W) (s : St W) (enable : Nat) : Int × St W :=
  if s.cfg.dmp_on ≠ 0 then
    let tmp := if enable ≠ 0 then BIT_DMP_INT_EN else 0x00
    onFail (i2c_write T s reg.int_enable [tmp]) (fun s1 => (-1, s1)) fun s1 =>
    (0, s1.setCfg { s1.cfg with int_enable := tmp })
  else
    if s.cfg.sensors = 0 then (-1, s)
    else if enable ≠ 0 ∧ s.cfg.int_enable ≠ 0 then (0, s)
    else
      let tmp := if enable ≠ 0 then BIT_DATA_RDY_EN else 0x00
      onFail (i2c_write T s reg.int_enable [tmp]) (fun s1 => (-1, s1)) fun s1 =>
      (0, s1.setCfg { s1.cfg with int_enable := tmp })

/-- `mpu_set_int_level`. -/
def mpu_set_int_level (s : St W) (active_low : Nat) : Int × St W :=
  (0, s.setCfg { s.cfg with active_low_int := active_low })

/-- The byte `tmp` that `mpu_set_int_latched` composes for the interrupt-pin
configuration register. -/
def int_latched_byte (cfg : chip_cfg_s) (enable : Nat) : Nat :=
  let tmp0 := if enable ≠ 0 then BIT_LATCH_EN ||| BIT_ANY_RD_CLR else 0
  let tmp1 := if cfg.bypass_mode ≠ 0 then tmp0 ||| BIT_BYPASS_EN else tmp0
  if cfg.active_low_int ≠ 0 then tmp1 ||| BIT_ACTL else tmp1

/-- `mpu_set_int_latched`. -/
def mpu_set_int_latched (T : Platform W) (s : St W) (enable : Nat) : Int × St W :=
  if s.cfg.latched_int = enable then (0, s)
  else
    onFail (i2c_write T s reg.int_pin_cfg [int_latched_byte s.cfg enable])
      (fun s1 => (-1, s1)) fun s1 =>
    (0, s1.setCfg { s1.cfg with latched_int := enable })

/-- The byte `tmp` that `mpu_set_bypass` composes for the interrupt-pin configuration
register in its `bypass_on` branch. -/
def bypass_on_byte (cfg : chip_cfg_s) : Nat :=
  let tmp0 := BIT_BYPASS_EN
  let tmp1 := if cfg.active_low_int ≠ 0 then tmp0 ||| BIT_ACTL else tmp0
  if cfg.latched_int ≠ 0 then tmp1 ||| (BIT_LATCH_EN ||| BIT_ANY_RD_CLR) else tmp1

/-- The byte `tmp` that `mpu_set_bypass` composes for the interrupt-pin configuration
register in its `else` branch. -/
def bypass_off_byte (cfg : chip_cfg_s) : Nat :=
  let tmp0 := if cfg.active_low_int ≠ 0 then BIT_ACTL else 0
  if cfg.latched_int ≠ 0 then tmp0 ||| (BIT_LATCH_EN ||| BIT_ANY_RD_CLR) else tmp0

/-- The user-control byte `mpu_set_bypass` writes back in its `else` branch, from the
byte `tmp` it read. -/
def bypass_off_user_ctrl (cfg : chip_cfg_s) (tmp : Nat) : Nat :=
  if cfg.sensors &&& INV_XYZ_COMPASS ≠ 0 then tmp ||| BIT_AUX_IF_EN else tmp &&& 0xDF

/-- `mpu_set_bypass`. -/
def mpu_set_bypass (T : Platform W) (s : St W) (bypass_on : Nat) : Int × St W :=
  if s.cfg.bypass_mode = bypass_on then (0, s)
  else if bypass_on ≠ 0 then
    onFailR (i2c_read T s reg.user_ctrl 1) (fun s1 => (-1, s1)) fun tmp s1 =>
    onFail (i2c_write T s1 reg.user_ctrl [tmp.getD 0 0 &&& 0xDF]) (fun s2 => (-1, s2)) fun s2 =>
    let s3 := delay_ms s2 3
    onFail (i2c_write T s3 reg.int_pin_cfg [bypass_on_byte s3.cfg]) (fun s4 => (-1, s4)) fun s4 =>
    (0, s4.setCfg { s4.cfg with bypass_mode := bypass_on })
  else
    onFailR (i2c_read T s reg.user_ctrl 1) (fun s1 => (-1, s1)) fun tmp s1 =>
    onFail (i2c_write T s1 reg.user_ctrl [bypass_off_user_ctrl s1.cfg (tmp.getD 0 0)])
      (fun s2 => (-1, s2)) fun s2 =>
    let s3 := delay_ms s2 3
    onFail (i2c_write T s3 reg.int_pin_cfg [bypass_off_byte s3.cfg]) (fun s4 => (-1, s4)) fun s4 =>
    (0, s4.setCfg { s4.cfg with bypass_mode := bypass_on })

/-! ## FIFO reset -/

/-- The user-control byte that re-enables DMP and FIFO in the DMP branch of
`mpu_reset_fifo`. -/
def reset_dmp_user_ctrl (cfg : chip_cfg_s) : Nat :=
  if cfg.sensors &&& INV_XYZ_COMPASS ≠ 0
    then (BIT_DMP_EN ||| BIT_FIFO_EN) ||| BIT_AUX_IF_EN else BIT_DMP_EN ||| BIT_FIFO_EN

/-- The user-control byte that re-enables the FIFO in the non-DMP branch of
`mpu_reset_fifo`. -/
def reset_fifo_user_ctrl (cfg : chip_cfg_s) : Nat :=
  if cfg.bypass_mode ≠ 0 ∨ ¬ (cfg.sensors &&& INV_XYZ_COMPASS ≠ 0)
    then BIT_FIFO_EN else BIT_FIFO_EN ||| BIT_AUX_IF_EN

/-- `mpu_reset_fifo`. -/
def mpu_reset_fifo (T : Platform W) (s : St W) : Int × St W :=
  if s.cfg.sensors = 0 then (-1, s)
  else
    onFail (i2c_write T s reg.int_enable [0]) (fun s1 => (-1, s1)) fun s1 =>
    onFail (i2c_write T s1 reg.fifo_en [0]) (fun s2 => (-1, s2)) fun s2 =>
    onFail (i2c_write T s2 reg.user_ctrl [0]) (fun s3 => (-1, s3)) fun s3 =>
    if s3.cfg.dmp_on ≠ 0 then
      onFail (i2c_write T s3 reg.user_ctrl [BIT_FIFO_RST ||| BIT_DMP_RST])
        (fun s4 => (-1, s4)) fun s4 =>
      let s5 := delay_ms s4 50
      onFail (i2c_write T s5 reg.user_ctrl [reset_dmp_user_ctrl s5.cfg])
        (fun s6 => (-1, s6)) fun s6 =>
      onFail (i2c_write T s6 reg.int_enable [if s6.cfg.int_enable ≠ 0 then BIT_DMP_INT_EN else 0])
        (fun s7 => (-1, s7)) fun s7 =>
      onFail (i2c_write T s7 reg.fifo_en [0]) (fun s8 => (-1, s8)) fun s8 =>
      (0, s8)
    else
      onFail (i2c_write T s3 reg.user_ctrl [BIT_FIFO_RST]) (fun s4 => (-1, s4)) fun s4 =>
      onFail (i2c_write T s4 reg.user_ctrl [reset_fifo_user_ctrl s4.cfg])
        (fun s5 => (-1, s5)) fun s5 =>
      let s6 := delay_ms s5 50
      onFail (i2c_write T s6 reg.int_enable [if s6.cfg.int_enable ≠ 0 then BIT_DATA_RDY_EN else 0])
        (fun s7 => (-1, s7)) fun s7 =>
      onFail (i2c_write T s7 reg.fifo_en [s7.cfg.fifo_enable]) (fun s8 => (-1, s8)) fun s8 =>
      (0, s8)

/-! ## Full-scale ranges, filter and sample rate -/

/-- `mpu_get_gyro_fsr`: status and the value stored through `fsr`. -/
def mpu_get_gyro_fsr (s : St W) : Int × Nat :=
  if s.cfg.gyro_fsr = INV_FSR_250DPS then (0, 250)
  else if s.cfg.gyro_fsr = INV_FSR_500DPS then (0, 500)
  else if s.cfg.gyro_fsr = INV_FSR_1000DPS then (0, 1000)
  else if s.cfg.gyro_fsr = INV_FSR_2000DPS then (0, 2000)
  else (0, 0)

/-- The `switch (fsr)` of `mpu_set_gyro_fsr`: the byte `data`, or `none` for the
`default` case. -/
def gyro_fsr_data (fsr : Nat) : Option Nat :=
  if fsr = 250 then some (INV_FSR_250DPS <<< 3)
  else if fsr = 500 then some (INV_FSR_500DPS <<< 3)
  else if fsr = 1000 then some (INV_FSR_1000DPS <<< 3)
  else if fsr = 2000 then some (INV_FSR_2000DPS <<< 3)
  else none

/-- `mpu_set_gyro_fsr`. -/
def mpu_set_gyro_fsr (T : Platform W) (s : St W) (fsr : Nat) : Int × St W :=
  if s.cfg.sensors = 0 then (-1, s)
  else
    match gyro_fsr_data fsr with
    | none => (-1, s)
    | some data =>
      if s.cfg.gyro_fsr = data >>> 3 then (0, s)
      else
        onFail (i2c_write T s reg.gyro_cfg [data]) (fun s1 => (-1, s1)) fun s1 =>
        (0, s1.setCfg { s1.cfg with gyro_fsr := data >>> 3 })

/-- `mpu_get_accel_fsr`: status and the value stored through `fsr` (`none` when the
function returns before storing). The store is an `unsigned char`. -/
def mpu_get_accel_fsr (s : St W) : Int × Option Nat :=
  let sel : Option Nat :=
    if s.cfg.accel_fsr = INV_FSR_2G then some 2
    else if s.cfg.accel_fsr = INV_FSR_4G then some 4
    else if s.cfg.accel_fsr = INV_FSR_8G then some 8
    else if s.cfg.accel_fsr = INV_FSR_16G then some 16
    else none
  match sel with
  | none => (-1, none)
  | some fsr =>
    if s.cfg.accel_half ≠ 0 then (0, some ((fsr <<< 1) % 256)) else (0, some fsr)

/-- The `switch (fsr)` of `mpu_set_accel_fsr`: the byte `data`, or `none` for the
`default` case. -/
def accel_fsr_data (fsr : Nat) : Option Nat :=
  if fsr = 2 then some (INV_FSR_2G <<< 3)
  else if fsr = 4 then some (INV_FSR_4G <<< 3)
  else if fsr = 8 then some (INV_FSR_8G <<< 3)
  else if fsr = 16 then some (INV_FSR_16G <<< 3)
  else none

/-- `mpu_set_accel_fsr`. -/
def mpu_set_accel_fsr (T : Platform W) (s : St W) (fsr : Nat) : Int × St W :=
  if s.cfg.sensors = 0 then (-1, s)
  else
    match accel_fsr_data fsr with
    | none => (-1, s)
    | some data =>
      if s.cfg.accel_fsr = data >>> 3 then (0, s)
      else
        onFail (i2c_write T s reg.accel_cfg [data]) (fun s1 => (-1, s1)) fun s1 =>
        (0, s1.setCfg { s1.cfg with accel_fsr := data >>> 3 })

/-- `mpu_get_lpf`: status and the value stored through `lpf`. -/
def mpu_get_lpf (s : St W) : Int × Nat :=
  if s.cfg.lpf = INV_FILTER_188HZ then (0, 188)
  else if s.cfg.lpf = INV_FILTER_98HZ then (0, 98)
  else if s.cfg.lpf = INV_FILTER_42HZ then (0, 42)
  else if s.cfg.lpf = INV_FILTER_20HZ then (0, 20)
  else if s.cfg.lpf = INV_FILTER_10HZ then (0, 10)
  else if s.cfg.lpf = INV_FILTER_5HZ then (0, 5)
  else (0, 0)

/-- The filter code `data` that `mpu_set_lpf` selects for a requested bandwidth. -/
def lpf_data (lpf : Nat) : Nat :=
  if lpf ≥ 188 then INV_FILTER_188HZ
  else if lpf ≥ 98 then INV_FILTER_98HZ
  else if lpf ≥ 42 then INV_FILTER_42HZ
  else if lpf ≥ 20 then INV_FILTER_20HZ
  else if lpf ≥ 10 then INV_FILTER_10HZ
  else INV_FILTER_5HZ

/-- `mpu_set_lpf`. -/
def mpu_set_lpf (T : Platform W) (s : St W) (lpf : Nat) : Int × St W :=
  if s.cfg.sensors = 0 then (-1, s)
  else
    let data := lpf_data lpf
    if s.cfg.lpf = data then (0, s)
    else
      onFail (i2c_write T s reg.lpf [data]) (fun s1 => (-1, s1)) fun s1 =>
      (0, s1.setCfg { s1.cfg with lpf := data })

/-- `mpu_get_sample_rate`: status and the value stored through `rate` (`none` while the
DMP is on). -/
def mpu_get_sample_rate (s : St W) : Int × Option Nat :=
  if s.cfg.dmp_on ≠ 0 then (-1, none) else (0, some s.cfg.sample_rate)

/-- `mpu_get_fifo_config`. -/
def mpu_get_fifo_config (s : St W) : Int × Nat :=
  (0, s.cfg.fifo_enable)

/-- `mpu_configure_fifo`. -/
def mpu_configure_fifo (T : Platform W) (s : St W) (sensors : Nat) : Int × St W :=
  let sensors := sensors &&& 0xFE
  if s.cfg.dmp_on ≠ 0 then (0, s)
  else
    if s.cfg.sensors = 0 then (-1, s)
    else
      let prev := s.cfg.fifo_enable
      let s1 := s.setCfg { s.cfg with fifo_enable := sensors &&& s.cfg.sensors }
      let result : Int := if s1.cfg.fifo_enable ≠ sensors then -1 else 0
      let s2 := if sensors ≠ 0 ∨ s1.cfg.lp_accel_mode ≠ 0
        then (set_int_enable T s1 1).2 else (set_int_enable T s1 0).2
      if sensors ≠ 0 then
        onErr (mpu_reset_fifo T s2)
          (fun s3 => (-1, s3.setCfg { s3.cfg with fifo_enable := prev }))
          fun s3 => (result, s3)
      else (result, s2)

/-- The wake-frequency code `tmp[1]` that `mpu_lp_accel_mode` selects (MPU6050 branch). -/
def lpa_rate (rate : Nat) : Nat :=
  if rate = 1 then INV_LPA_1_25HZ
  else if rate ≤ 5 then INV_LPA_5HZ
  else if rate ≤ 20 then INV_LPA_20HZ
  else INV_LPA_40HZ

/-- The argument of the `mpu_set_lpf` call in the same branch of `mpu_lp_accel_mode`. -/
def lpa_lpf (rate : Nat) : Nat :=
  if rate = 1 then 5
  else if rate ≤ 5 then 5
  else if rate ≤ 20 then 10
  else 20

/-- `mpu_lp_accel_mode` (MPU6050 branch). -/
def mpu_lp_accel_mode (T : Platform W) (s : St W) (rate : Nat) : Int × St W :=
  if rate = 0 then
    let s1 := (mpu_set_int_latched T s 0).2
    onFail (i2c_write T s1 reg.pwr_mgmt_1 [0, BIT_STBY_XYZG]) (fun s2 => (-1, s2)) fun s2 =>
    (0, s2.setCfg { s2.cfg with lp_accel_mode := 0 })
  else
    let s1 := (mpu_set_int_latched T s 1).2
    let tmp0 := BIT_LPA_CYCLE
    let s2 := (mpu_set_lpf T s1 (lpa_lpf rate)).2
    let tmp1 := ((lpa_rate rate <<< 6) ||| BIT_STBY_XYZG) % 256
    onFail (i2c_write T s2 reg.pwr_mgmt_1 [tmp0, tmp1]) (fun s3 => (-1, s3)) fun s3 =>
    let s4 := s3.setCfg { s3.cfg with
      sensors := INV_XYZ_ACCEL, clk_src := 0, lp_accel_mode := 1 }
    (0, (mpu_configure_fifo T s4 0).2)

/-- The divider byte `data` of `mpu_set_sample_rate`: the rate is clamped to [4, 1000],
then `data = 1000 / rate - 1` as an `unsigned char`. -/
def rate_div_data (rate : Nat) : Nat :=
  let rate := if rate < 4 then 4 else if rate > 1000 then 1000 else rate
  (1000 / rate - 1) % 256

/-- `mpu_set_sample_rate`. -/
def mpu_set_sample_rate (T : Platform W) (s : St W) (rate : Nat) : Int × St W :=
  if s.cfg.sensors = 0 then (-1, s)
  else if s.cfg.dmp_on ≠ 0 then (-1, s)
  else
    if s.cfg.lp_accel_mode ≠ 0 ∧ (rate ≠ 0 ∧ rate ≤ 40) then
      (0, (mpu_lp_accel_mode T s rate).2)
    else
      let s0 := if s.cfg.lp_accel_mode ≠ 0 then (mpu_lp_accel_mode T s 0).2 else s
      let data := rate_div_data rate
      onFail (i2c_write T s0 reg.rate_div [data]) (fun s1 => (-1, s1)) fun s1 =>
      let s2 := s1.setCfg { s1.cfg with sample_rate := 1000 / (1 + data) }
      (0, (mpu_set_lpf T s2 (s2.cfg.sample_rate >>> 1)).2)

/-- `mpu_get_compass_sample_rate` (build without `AK89xx_SECONDARY`). -/
def mpu_get_compass_sample_rate (_s : St W) : Int × Nat := (-1, 0)

/-- `mpu_set_compass_sample_rate` (build without `AK89xx_SECONDARY`). -/
def mpu_set_compass_sample_rate (s : St W) (_rate : Nat) : Int × St W := (-1, s)

/-- `mpu_get_accel_sens`: status and the value stored through `sens` (`none` when the
function returns before storing). -/
def mpu_get_accel_sens (s : St W) : Int × Option Nat :=
  let sel : Option Nat :=
    if s.cfg.accel_fsr = INV_FSR_2G then some 16384
    else if s.cfg.accel_fsr = INV_FSR_4G then some 8092
    else if s.cfg.accel_fsr = INV_FSR_8G then some 4096
    else if s.cfg.accel_fsr = INV_FSR_16G then some 2048
    else none
  match sel with
  | none => (-1, none)
  | some sens => if s.cfg.accel_half ≠ 0 then (0, some (sens >>> 1)) else (0, some sens)

/-- `mpu_get_power_state`: the cached sensor mask converted to `int8_t`. -/
def mpu_get_power_state (s : St W) : Int := toInt8 s.cfg.sensors

/-- `mpu_get_dmp_state`. -/
def mpu_get_dmp_state (s : St W) : Int × Nat := (0, s.cfg.dmp_on)

/-- The power-management-1 byte `data` that `mpu_set_sensors` derives from the mask. -/
def sensors_clk (sensors : Nat) : Nat :=
  if sensors &&& INV_XYZ_GYRO ≠ 0 then INV_CLK_PLL
  else if sensors ≠ 0 then 0 else BIT_SLEEP

/-- The power-management-2 (standby) byte `data` that `mpu_set_sensors` derives from the
mask. -/
def sensors_stby (sensors : Nat) : Nat :=
  let d0 := 0
  let d1 := if ¬ (sensors &&& INV_X_GYRO ≠ 0) then d0 ||| BIT_STBY_XG else d0
  let d2 := if ¬ (sensors &&& INV_Y_GYRO ≠ 0) then d1 ||| BIT_STBY_YG else d1
  let d3 := if ¬ (sensors &&& INV_Z_GYRO ≠ 0) then d2 ||| BIT_STBY_ZG else d2
  if ¬ (sensors &&& INV_XYZ_ACCEL ≠ 0) then d3 ||| BIT_STBY_XYZA else d3

/-- `mpu_set_sensors`. -/
def mpu_set_sensors (T : Platform W) (s : St W) (sensors : Nat) : Int × St W :=
  let data := sensors_clk sensors
  onFail (i2c_write T s reg.pwr_mgmt_1 [data])
    (fun s1 => (-1, s1.setCfg { s1.cfg with sensors := 0 })) fun s1 =>
  let s2 := s1.setCfg { s1.cfg with clk_src := data &&& 0xBF }
  onFail (i2c_write T s2 reg.pwr_mgmt_2 [sensors_stby sensors])
    (fun s3 => (-1, s3.setCfg { s3.cfg with sensors := 0 })) fun s3 =>
  let s4 := if sensors ≠ 0 ∧ sensors ≠ INV_XYZ_ACCEL
    then (mpu_set_int_latched T s3 0).2 else s3
  let s5 := s4.setCfg { s4.cfg with sensors := sensors, lp_accel_mode := 0 }
  (0, delay_ms s5 50)

/-! ## Raw register access -/

/-- The loop of `mpu_reg_dump` over the register numbers still to visit. -/
def reg_dump_loop (T : Platform W) : List Nat → St W → Int × St W
  | [], s => (0, s)
  | ii :: rest, s =>
    if ii = reg.fifo_r_w ∨ ii = reg.mem_r_w then reg_dump_loop T rest s
    else
      onFailR (i2c_read T s ii 1) (fun s1 => (-1, s1)) fun _ s1 =>
      reg_dump_loop T rest s1

/-- `mpu_reg_dump`. -/
def mpu_reg_dump (T : Platform W) (s : St W) : Int × St W :=
  reg_dump_loop T (List.range hw.num_reg) s

/-- `mpu_read_reg`: status, the byte stored through `data` (if any) and the state. The
status is the value of the macro `i2c_read`, 0 or 1. -/
def mpu_read_reg (T : Platform W) (s : St W) (r : Nat) : Int × Option Nat × St W :=
  if r = reg.fifo_r_w ∨ r = reg.mem_r_w then (-1, none, s)
  else if r ≥ hw.num_reg then (-1, none, s)
  else
    onFailR (i2c_read T s r 1) (fun s1 => (1, none, s1)) fun data s1 =>
    (0, some (data.getD 0 0), s1)

/-- The big-endian 16-bit word at cells `i`, `i + 1` of a byte buffer, as a `short`. -/
def shortAt (data : List Nat) (i : Nat) : Int :=
  toShort ((data.getD i 0 <<< 8) ||| data.getD (i + 1) 0)

/-- The big-endian 16-bit word at cells `i`, `i + 1` of a byte buffer, as a `long`. -/
def longAt (data : List Nat) (i : Nat) : Int :=
  (((data.getD i 0 <<< 8) ||| data.getD (i + 1) 0 : Nat) : Int)

/-- `mpu_get_gyro_reg`: status, the three values stored through `data`, the state. -/
def mpu_get_gyro_reg (T : Platform W) (s : St W) : Int × Option (Int × Int × Int) × St W :=
  if ¬ (s.cfg.sensors &&& INV_XYZ_GYRO ≠ 0) then (-1, none, s)
  else
    onFailR (i2c_read T s reg.raw_gyro 6) (fun s1 => (-1, none, s1)) fun tmp s1 =>
    (0, some (shortAt tmp 0, shortAt tmp 2, shortAt tmp 4), s1)

/-- `mpu_get_accel_reg`: status, the three values stored through `data`, the state. -/
def mpu_get_accel_reg (T : Platform W) (s : St W) : Int × Option (Int × Int × Int) × St W :=
  if ¬ (s.cfg.sensors &&& INV_XYZ_ACCEL ≠ 0) then (-1, none, s)
  else
    onFailR (i2c_read T s reg.raw_accel 6) (fun s1 => (-1, none, s1)) fun tmp s1 =>
    (0, some (shortAt tmp 0, shortAt tmp 2, shortAt tmp 4), s1)

/-- `mpu_get_temperature`, up to the raw reading: status, the `short` value `raw`, the
state. The conversion of `raw` to the q16 result is floating-point and is not modelled. -/
def mpu_get_temperature (T : Platform W) (s : St W) : Int × Option Int × St W :=
  if s.cfg.sensors = 0 then (-1, none, s)
  else
    onFailR (i2c_read T s reg.temp 2) (fun s1 => (-1, none, s1)) fun tmp s1 =>
    (0, some (shortAt tmp 0), s1)

/-- `mpu_get_int_status`. -/
def mpu_get_int_status (T : Platform W) (s : St W) : Int × Option Int × St W :=
  if s.cfg.sensors = 0 then (-1, none, s)
  else
    onFailR (i2c_read T s reg.dmp_int_status 2) (fun s1 => (-1, none, s1)) fun tmp s1 =>
    (0, some (shortAt tmp 0), s1)

/-! ## Bias registers -/

/-- The three two-byte reads shared by `mpu_read_6500_accel_bias`,
`mpu_read_6050_accel_bias` and `mpu_read_gyro_bias`, at registers `r0`, `r1`, `r2`. -/
def read_bias (T : Platform W) (s : St W) (r0 r1 r2 : Nat) :
    Int × Option (Int × Int × Int) × St W :=
  onFailR (i2c_read T s r0 2) (fun s1 => (-1, none, s1)) fun d0 s1 =>
  onFailR (i2c_read T s1 r1 2) (fun s2 => (-1, none, s2)) fun d1 s2 =>
  onFailR (i2c_read T s2 r2 2) (fun s3 => (-1, none, s3)) fun d2 s3 =>
  (0, some (longAt d0 0, longAt d1 0, longAt d2 0), s3)

/-- `mpu_read_6500_accel_bias`. -/
def mpu_read_6500_accel_bias (T : Platform W) (s : St W) :
    Int × Option (Int × Int × Int) × St W :=
  read_bias T s 0x77 0x7A 0x7D

/-- `mpu_read_6050_accel_bias`. -/
def mpu_read_6050_accel_bias (T : Platform W) (s : St W) :
    Int × Option (Int × Int × Int) × St W :=
  read_bias T s 0x06 0x08 0x0A

/-- `mpu_read_gyro_bias`. -/
def mpu_read_gyro_bias (T : Platform W) (s : St W) :
    Int × Option (Int × Int × Int) × St W :=
  read_bias T s 0x13 0x15 0x17

/-- The byte `(x >> 8) & 0xff` of a `long`. -/
def hiByte (x : Int) : Nat := ((x / 256) % 256).toNat

/-- The byte `x & 0xff` of a `long`. -/
def loByte (x : Int) : Nat := (x % 256).toNat

/-- The three two-byte writes that end each bias setter, at registers `r0`, `r1`, `r2`. -/
def write_bias (T : Platform W) (s : St W) (r0 r1 r2 : Nat) (v : Int × Int × Int) :
    Int × St W :=
  onFail (i2c_write T s r0 [hiByte v.1, loByte v.1]) (fun s1 => (-1, s1)) fun s1 =>
  onFail (i2c_write T s1 r1 [hiByte v.2.1, loByte v.2.1]) (fun s2 => (-1, s2)) fun s2 =>
  onFail (i2c_write T s2 r2 [hiByte v.2.2, loByte v.2.2]) (fun s3 => (-1, s3)) fun s3 =>
  (0, s3)

/-- `mpu_set_gyro_bias_reg`. -/
def mpu_set_gyro_bias_reg (T : Platform W) (s : St W) (gyro_bias : Int × Int × Int) :
    Int × St W :=
  let rd := mpu_read_gyro_bias T s
  match rd.2.1 with
  | none => (-1, rd.2.2)
  | some g =>
    write_bias T rd.2.2 0x13 0x15 0x17
      (g.1 - gyro_bias.1, g.2.1 - gyro_bias.2.1, g.2.2 - gyro_bias.2.2)

/-- The value `x & ~1` of a `long`. -/
def clearBit0 (x : Int) : Int := x - x % 2

/-- `mpu_set_accel_bias_6050_reg`. -/
def mpu_set_accel_bias_6050_reg (T : Platform W) (s : St W) (accel_bias : Int × Int × Int) :
    Int × St W :=
  let rd := mpu_read_6050_accel_bias T s
  match rd.2.1 with
  | none => (-1, rd.2.2)
  | some a =>
    write_bias T rd.2.2 0x06 0x08 0x0A
      (a.1 - clearBit0 accel_bias.1, a.2.1 - clearBit0 accel_bias.2.1,
        a.2.2 - clearBit0 accel_bias.2.2)

/-- `mpu_set_accel_bias_6500_reg`. -/
def mpu_set_accel_bias_6500_reg (T : Platform W) (s : St W) (accel_bias : Int × Int × Int) :
    Int × St W :=
  let rd := mpu_read_6500_accel_bias T s
  match rd.2.1 with
  | none => (-1, rd.2.2)
  | some a =>
    write_bias T rd.2.2 0x77 0x7A 0x7D
      (a.1 - clearBit0 accel_bias.1, a.2.1 - clearBit0 accel_bias.2.1,
        a.2.2 - clearBit0 accel_bias.2.2)

/-! ## FIFO engine -/

/-- What `mpu_read_fifo` stores through its output pointers: `none` means the cell was
not written by the call. `div_by_zero` records that the call evaluated
`fifo_count / packet_size` with `packet_size = 0`. -/
structure fifo_out where
  gyro0 : Option Int
  gyro1 : Option Int
  gyro2 : Option Int
  accel0 : Option Int
  accel1 : Option Int
  accel2 : Option Int
  sensors : Option Nat
  more : Option Nat
  div_by_zero : Bool
  deriving DecidableEq, Repr

/-- No output cell written. -/
def fifo_out.untouched : fifo_out :=
  ⟨none, none, none, none, none, none, none, none, false⟩

/-- The value of `packet_size` that `mpu_read_fifo` computes from `fifo_enable`. -/
def fifo_packet_size (fifo_enable : Nat) : Nat :=
  let p0 := 0
  let p1 := if fifo_enable &&& INV_X_GYRO ≠ 0 then (p0 + 2) % 256 else p0
  let p2 := if fifo_enable &&& INV_Y_GYRO ≠ 0 then (p1 + 2) % 256 else p1
  let p3 := if fifo_enable &&& INV_Z_GYRO ≠ 0 then (p2 + 2) % 256 else p2
  if fifo_enable &&& INV_XYZ_ACCEL ≠ 0 then (p3 + 6) % 256 else p3

/-- The decoding tail of `mpu_read_fifo`: from the buffer `data`, the packet size and
`fifo_enable`, the output cells written (starting from `out`) in the order accel,
gyro X, gyro Y, gyro Z; also the final value of `index`. -/
def fifo_decode (data : List Nat) (packet_size fifo_enable : Nat) (out : fifo_out) :
    fifo_out × Nat :=
  let index := 0
  let a : fifo_out × Nat :=
    if index ≠ packet_size ∧ fifo_enable &&& INV_XYZ_ACCEL ≠ 0 then
      ({ out with
          accel0 := some (shortAt data (index + 0))
          accel1 := some (shortAt data (index + 2))
          accel2 := some (shortAt data (index + 4))
          sensors := some (out.sensors.getD 0 ||| INV_XYZ_ACCEL) }, (index + 6) % 65536)
    else (out, index)
  let x : fifo_out × Nat :=
    if a.2 ≠ packet_size ∧ fifo_enable &&& INV_X_GYRO ≠ 0 then
      ({ a.1 with
          gyro0 := some (shortAt data (a.2 + 0))
          sensors := some (a.1.sensors.getD 0 ||| INV_X_GYRO) }, (a.2 + 2) % 65536)
    else a
  let y : fifo_out × Nat :=
    if x.2 ≠ packet_size ∧ fifo_enable &&& INV_Y_GYRO ≠ 0 then
      ({ x.1 with
          gyro1 := some (shortAt data (x.2 + 0))
          sensors := some (x.1.sensors.getD 0 ||| INV_Y_GYRO) }, (x.2 + 2) % 65536)
    else x
  if y.2 ≠ packet_size ∧ fifo_enable &&& INV_Z_GYRO ≠ 0 then
    ({ y.1 with
        gyro2 := some (shortAt data (y.2 + 0))
        sensors := some (y.1.sensors.getD 0 ||| INV_Z_GYRO) }, (y.2 + 2) % 65536)
  else y

/-- The `unsigned short` value `fifo_count = (data[0] << 8) | data[1]`. -/
def fifo_count_of (data : List Nat) : Nat :=
  ((data.getD 0 0 <<< 8) ||| data.getD 1 0) % 65536

/-- The tail of `mpu_read_fifo` after the overflow check: read one packet into the
buffer `data`, store `more`, clear the mask and decode. -/
def read_fifo_packet (T : Platform W) (s : St W) (data : List Nat) (packet_size fifo_count : Nat)
    (out : fifo_out) : Int × fifo_out × St W :=
  onFailR (i2c_read T s reg.fifo_r_w packet_size) (fun s1 => (-1, out, s1)) fun pkt s1 =>
  let data1 := bufStore data pkt
  let out1 := { out with
    more := some ((fifo_count / packet_size - 1) % 256)
    div_by_zero := decide (packet_size = 0)
    sensors := some 0 }
  (0, (fifo_decode data1 packet_size s1.cfg.fifo_enable out1).1, s1)

/-- `mpu_read_fifo`: status, the output cells, the state. The local 12-byte buffer
`data` starts zeroed. -/
def mpu_read_fifo (T : Platform W) (s : St W) : Int × fifo_out × St W :=
  let data0 := List.replicate MAX_PACKET_LENGTH 0
  let out0 := fifo_out.untouched
  if s.cfg.dmp_on ≠ 0 then (-1, out0, s) else
  let out1 := { out0 with sensors := some 0 }
  if s.cfg.sensors = 0 then (-1, out1, s) else
  if s.cfg.fifo_enable = 0 then (-1, out1, s) else
  let packet_size := fifo_packet_size s.cfg.fifo_enable
  onFailR (i2c_read T s reg.fifo_count_h 2) (fun s1 => (-1, out1, s1)) fun cnt s1 =>
  let data1 := bufStore data0 cnt
  let fifo_count := fifo_count_of data1
  if fifo_count < packet_size then (0, out1, s1) else
  if fifo_count > hw.max_fifo >>> 1 then
    onFailR (i2c_read T s1 reg.int_status 1) (fun s2 => (-1, out1, s2)) fun st s2 =>
    let data2 := bufStore data1 st
    if data2.getD 0 0 &&& BIT_FIFO_OVERFLOW ≠ 0 then
      (-2, out1, (mpu_reset_fifo T s2).2)
    else read_fifo_packet T s2 data2 packet_size fifo_count out1
  else read_fifo_packet T s1 data1 packet_size fifo_count out1

/-- What `mpu_read_fifo_stream` stores through `data` and `more`. -/
structure stream_out where
  data : Option (List Nat)
  more : Option Nat
  div_by_zero : Bool
  deriving DecidableEq, Repr

/-- The tail of `mpu_read_fifo_stream` after the overflow check: read `length` bytes and
store `more`. -/
def read_stream_packet (T : Platform W) (s : St W) (length fifo_count : Nat) :
    Int × stream_out × St W :=
  onFailR (i2c_read T s reg.fifo_r_w length) (fun s1 => (-7, ⟨none, none, false⟩, s1))
    fun pkt s1 =>
  (0, { data := some pkt, more := some ((fifo_count / length - 1) % 256),
        div_by_zero := decide (length = 0) }, s1)

/-- `mpu_read_fifo_stream`. -/
def mpu_read_fifo_stream (T : Platform W) (s : St W) (length : Nat) : Int × stream_out × St W :=
  let out0 : stream_out := ⟨none, none, false⟩
  if s.cfg.dmp_on = 0 then (-1, out0, s) else
  if s.cfg.sensors = 0 then (-2, out0, s) else
  onFailR (i2c_read T s reg.fifo_count_h 2) (fun s1 => (-3, out0, s1)) fun tmp s1 =>
  let fifo_count := fifo_count_of tmp
  if fifo_count < length then (-4, { out0 with more := some 0 }, s1) else
  if fifo_count > hw.max_fifo >>> 1 then
    onFailR (i2c_read T s1 reg.int_status 1) (fun s2 => (-5, out0, s2)) fun st s2 =>
    if st.getD 0 0 &&& BIT_FIFO_OVERFLOW ≠ 0 then
      (-6, out0, (mpu_reset_fifo T s2).2)
    else read_stream_packet T s2 length fifo_count
  else read_stream_packet T s1 length fifo_count

/-! ## DMP memory and firmware -/

/-- `mpu_write_mem`. A null `data` pointer is `none`; otherwise the first `length` bytes
of the buffer are sent. The sum `tmp[1] + length` is an `unsigned int` (or a wider
`int`), so it is taken modulo `2 ^ uint_bits`. -/
def mpu_write_mem (T : Platform W) (s : St W) (mem_addr length : Nat) (data : Option (List Nat)) :
    Int × St W :=
  match data with
  | none => (-1, s)
  | some bytes =>
    if s.cfg.sensors = 0 then (-1, s) else
    let tmp0 := (mem_addr >>> 8) % 256
    let tmp1 := mem_addr &&& 0xFF
    if (tmp1 + length) % 2 ^ T.uint_bits > hw.bank_size then (-1, s) else
    onFail (i2c_write T s reg.bank_sel [tmp0, tmp1]) (fun s1 => (-1, s1)) fun s1 =>
    onFail (i2c_write T s1 reg.mem_r_w (bytes.take length)) (fun s2 => (-1, s2)) fun s2 =>
    (0, s2)

/-- `mpu_read_mem`: status, the bytes stored through `data` (if the read happened and
succeeded), the state. `data_null` says that the `data` pointer is null. -/
def mpu_read_mem (T : Platform W) (s : St W) (mem_addr length : Nat) (data_null : Bool) :
    Int × Option (List Nat) × St W :=
  if data_null then (-1, none, s) else
  if s.cfg.sensors = 0 then (-1, none, s) else
  let tmp0 := (mem_addr >>> 8) % 256
  let tmp1 := mem_addr &&& 0xFF
  if (tmp1 + length) % 2 ^ T.uint_bits > hw.bank_size then (-1, none, s) else
  onFail (i2c_write T s reg.bank_sel [tmp0, tmp1]) (fun s1 => (-1, none, s1)) fun s1 =>
  onFailR (i2c_read T s1 reg.mem_r_w length) (fun s2 => (-1, none, s2)) fun data s2 =>
  (0, some data, s2)

/-- The bytes `pgm_read_byte(firmware + ii + index)`, `index < this_write`, that one
iteration copies into `firmware_chunk`. -/
def firmware_chunk (firmware : List Nat) (ii this_write : Nat) : List Nat :=
  (List.range this_write).map (fun index => firmware.getD (ii + index) 0)

/-- The chunk loop of `mpu_load_firmware`, from loop counter `ii`, with an explicit
bound `fuel` on the number of iterations: `none` when the bound is hit before the loop
condition `ii < length` fails; `some (0, s)` when the loop runs to its end; the error
status otherwise. -/
def load_loop (T : Platform W) (length : Nat) (firmware : List Nat) :
    Nat → Nat → St W → Option (Int × St W)
  | 0, ii, s => if ii < length then none else some (0, s)
  | fuel + 1, ii, s =>
    if ii < length then
      let this_write := min LOAD_CHUNK (length - ii)
      let chunk := firmware_chunk firmware ii this_write
      onErr (mpu_write_mem T s ii this_write (some chunk)) (fun s1 => some (-2, s1)) fun s1 =>
      let rd := mpu_read_mem T s1 ii this_write false
      if rd.1 ≠ 0 then some (-3, rd.2.2) else
      if chunk ≠ (rd.2.1.getD []).take this_write then some (-4, rd.2.2) else
      load_loop T length firmware fuel ((ii + this_write) % 65536) rd.2.2
    else some (0, s)

/-- `mpu_load_firmware`. A null `firmware` pointer is `none`. The loop is given `length`
iterations, one per byte of the image. -/
def mpu_load_firmware (T : Platform W) (s : St W) (length : Nat) (firmware : Option (List Nat))
    (start_addr sample_rate : Nat) : Option (Int × St W) :=
  if s.cfg.dmp_loaded ≠ 0 then some (-1, s) else
  match firmware with
  | none => some (-1, s)
  | some fw =>
    match load_loop T length fw length 0 s with
    | none => none
    | some r =>
      onErr r (fun s1 => some (r.1, s1)) fun s1 =>
      let tmp0 := (start_addr >>> 8) % 256
      let tmp1 := start_addr &&& 0xFF
      onFail (i2c_write T s1 reg.prgm_start_h [tmp0, tmp1]) (fun s2 => some (-5, s2)) fun s2 =>
      some (0, s2.setCfg { s2.cfg with dmp_loaded := 1, dmp_sample_rate := sample_rate })

/-- `mpu_set_dmp_state`. -/
def mpu_set_dmp_state (T : Platform W) (s : St W) (enable : Nat) : Int × St W :=
  if s.cfg.dmp_on = enable then (0, s)
  else if enable ≠ 0 then
    if s.cfg.dmp_loaded = 0 then (-1, s) else
    let s1 := (set_int_enable T s 0).2
    let s2 := (mpu_set_bypass T s1 0).2
    let s3 := (mpu_set_sample_rate T s2 s2.cfg.dmp_sample_rate).2
    onFail (i2c_write T s3 0x23 [0]) (fun s4 => (-1, s4)) fun s4 =>
    let s5 := s4.setCfg { s4.cfg with dmp_on := 1 }
    let s6 := (set_int_enable T s5 1).2
    (0, (mpu_reset_fifo T s6).2)
  else
    let s1 := (set_int_enable T s 0).2
    onFail (i2c_write T s1 0x23 [s1.cfg.fifo_enable]) (fun s2 => (-1, s2)) fun s2 =>
    let s3 := s2.setCfg { s2.cfg with dmp_on := 0 }
    (0, (mpu_reset_fifo T s3).2)

/-! ## Initialisation -/

/-- The cache after the assignments of `mpu_init` that precede its first setter call:
`accel_half`, the "invalid" sentinels, and the fixed defaults. -/
def init_cfg (c : chip_cfg_s) : chip_cfg_s :=
  { c with
    accel_half := 0
    sensors := 0xFF
    gyro_fsr := 0xFF
    accel_fsr := 0xFF
    lpf := 0xFF
    sample_rate := 0xFFFF
    fifo_enable := 0xFF
    bypass_mode := 0xFF
    clk_src := INV_CLK_PLL
    active_low_int := 1
    latched_int := 0
    int_motion_only := 0
    lp_accel_mode := 0
    cache := ⟨0, 0, 0, 0, 0, 0, 0⟩
    dmp_on := 0
    dmp_loaded := 0
    dmp_sample_rate := 0 }

/-- `mpu_init`. -/
def mpu_init (T : Platform W) (s : St W) : Int × St W :=
  onFail (i2c_write T s reg.pwr_mgmt_1 [BIT_RESET]) (fun s1 => (-1, s1)) fun s1 =>
  let s2 := delay_ms s1 500
  onFail (i2c_write T s2 reg.pwr_mgmt_1 [0x00]) (fun s3 => (-2, s3)) fun s3 =>
  let s4 := s3.setCfg (init_cfg s3.cfg)
  onErr (mpu_set_gyro_fsr T s4 2000) (fun s5 => (-30, s5)) fun s5 =>
  onErr (mpu_set_accel_fsr T s5 2) (fun s6 => (-31, s6)) fun s6 =>
  onErr (mpu_set_lpf T s6 42) (fun s7 => (-32, s7)) fun s7 =>
  onErr (mpu_set_sample_rate T s7 50) (fun s8 => (-33, s8)) fun s8 =>
  onErr (mpu_configure_fifo T s8 0) (fun s9 => (-34, s9)) fun s9 =>
  onErr (mpu_set_bypass T s9 0) (fun s10 => (-4, s10)) fun s10 =>
  (0, (mpu_set_sensors T s10 0).2)

/-! ## Sequences of driver operations -/

/-- The public operations of the driver that touch the driver state (cache, transport
or log), with their arguments. The pure getters (`mpu_get_gyro_fsr`, `mpu_get_lpf`, ...)
read the cache only and are not listed. -/
inductive Op where
  | reg_dump
  | read_reg (r : Nat)
  | init
  | lp_accel_mode (rate : Nat)
  | get_gyro_reg
  | get_accel_reg
  | get_temperature
  | read_6500_accel_bias
  | read_6050_accel_bias
  | read_gyro_bias
  | set_gyro_bias_reg (b : Int × Int × Int)
  | set_accel_bias_6050_reg (b : Int × Int × Int)
  | set_accel_bias_6500_reg (b : Int × Int × Int)
  | reset_fifo
  | set_gyro_fsr (fsr : Nat)
  | set_accel_fsr (fsr : Nat)
  | set_lpf (lpf : Nat)
  | set_sample_rate (rate : Nat)
  | set_compass_sample_rate (rate : Nat)
  | configure_fifo (sensors : Nat)
  | set_sensors (sensors : Nat)
  | get_int_status
  | read_fifo
  | read_fifo_stream (length : Nat)
  | set_bypass (bypass_on : Nat)
  | set_int_level (active_low : Nat)
  | set_int_latched (enable : Nat)
  | write_mem (mem_addr length : Nat) (data : Option (List Nat))
  | read_mem (mem_addr length : Nat) (data_null : Bool)
  | load_firmware (length : Nat) (firmware : Option (List Nat)) (start_addr sample_rate : Nat)
  | set_dmp_state (enable : Nat)

/-- The state after one operation (`none` only if the chunk loop of `mpu_load_firmware`
hits its iteration bound). -/
def applyOp (T : Platform W) (s : St W) : Op → Option (St W)
  | .reg_dump => some (mpu_reg_dump T s).2
  | .read_reg r => some (mpu_read_reg T s r).2.2
  | .init => some (mpu_init T s).2
  | .lp_accel_mode rate => some (mpu_lp_accel_mode T s rate).2
  | .get_gyro_reg => some (mpu_get_gyro_reg T s).2.2
  | .get_accel_reg => some (mpu_get_accel_reg T s).2.2
  | .get_temperature => some (mpu_get_temperature T s).2.2
  | .read_6500_accel_bias => some (mpu_read_6500_accel_bias T s).2.2
  | .read_6050_accel_bias => some (mpu_read_6050_accel_bias T s).2.2
  | .read_gyro_bias => some (mpu_read_gyro_bias T s).2.2
  | .set_gyro_bias_reg b => some (mpu_set_gyro_bias_reg T s b).2
  | .set_accel_bias_6050_reg b => some (mpu_set_accel_bias_6050_reg T s b).2
  | .set_accel_bias_6500_reg b => some (mpu_set_accel_bias_6500_reg T s b).2
  | .reset_fifo => some (mpu_reset_fifo T s).2
  | .set_gyro_fsr fsr => some (mpu_set_gyro_fsr T s fsr).2
  | .set_accel_fsr fsr => some (mpu_set_accel_fsr T s fsr).2
  | .set_lpf lpf => some (mpu_set_lpf T s lpf).2
  | .set_sample_rate rate => some (mpu_set_sample_rate T s rate).2
  | .set_compass_sample_rate rate => some (mpu_set_compass_sample_rate s rate).2
  | .configure_fifo sensors => some (mpu_configure_fifo T s sensors).2
  | .set_sensors sensors => some (mpu_set_sensors T s sensors).2
  | .get_int_status => some (mpu_get_int_status T s).2.2
  | .read_fifo => some (mpu_read_fifo T s).2.2
  | .read_fifo_stream length => some (mpu_read_fifo_stream T s length).2.2
  | .set_bypass bypass_on => some (mpu_set_bypass T s bypass_on).2
  | .set_int_level active_low => some (mpu_set_int_level s active_low).2
  | .set_int_latched enable => some (mpu_set_int_latched T s enable).2
  | .write_mem mem_addr length data => some (mpu_write_mem T s mem_addr length data).2
  | .read_mem mem_addr length data_null => some (mpu_read_mem T s mem_addr length data_null).2.2
  | .load_firmware length firmware start_addr sample_rate =>
    (mpu_load_firmware T s length firmware start_addr sample_rate).map Prod.snd
  | .set_dmp_state enable => some (mpu_set_dmp_state T s enable).2

/-- The state after a sequence of operations, left to right. -/
def runOps (T : Platform W) (s : St W) : List Op → Option (St W)
  | [] => some s
  | op :: rest =>
    match applyOp T s op with
    | none => none
    | some s1 => runOps T s1 rest

/-- Whether an operation is `mpu_init`. -/
def Op.isInit : Op → Bool
  | .init => true
  | _ => false

/-! ## Concrete platforms used to evaluate the driver -/

/-- An AVR platform (16-bit `unsigned int`) on which every transfer succeeds and every
read returns zeros. -/
def okBus : Platform Unit where
  write := fun _ _ _ => (true, ())
  read := fun _ _ len => (some (List.replicate len 0), ())
  uint_bits := 16
  uint_bits_ge := Nat.le_refl 16

/-- The all-zero cache. -/
def cfg0 : chip_cfg_s :=
  ⟨0, 0, 0, 0, 0, 0, 0, 0, 0, 0, 0, 0, ⟨0, 0, 0, 0, 0, 0, 0⟩, 0, 0, 0, 0, 0⟩

/-- A start state over `okBus`: zero cache, empty log. -/
def st0 : St Unit := ⟨cfg0, (), []⟩

/-- A state over `okBus` with gyro and accel awake (sensors = 0x78), DMP off. -/
def stAwake : St Unit := ⟨{ cfg0 with sensors := 0x78 }, (), []⟩

/-- A state over the unit world with gyro and accel awake and the DMP on. -/
def stDmp : St Unit := ⟨{ cfg0 with sensors := 0x78, dmp_on := 1 }, (), []⟩

/-- A state over the unit world with gyro and accel awake and streamed to the FIFO. -/
def stFifo : St Unit := ⟨{ cfg0 with sensors := 0x78, fifo_enable := 0x78 }, (), []⟩

/-- An AVR platform on which every transfer succeeds, the FIFO count reads as
0x0258 = 600 bytes and the interrupt status reads as 0x10 (overflow). -/
def ovBus : Platform Unit where
  write := fun _ _ _ => (true, ())
  read := fun _ r len =>
    (some (if r = 0x72 then [2, 88] else if r = 0x3A then [0x10] else List.replicate len 0), ())
  uint_bits := 16
  uint_bits_ge := Nat.le_refl 16

/-- An AVR platform on which every transfer succeeds, the FIFO count reads as 24 bytes
and the FIFO data register returns the bytes 1, 2, 3, ... -/
def pkBus : Platform Unit where
  write := fun _ _ _ => (true, ())
  read := fun _ r len =>
    (some (if r = 0x72 then [0, 24] else if r = 0x74 then (List.range len).map (· + 1)
      else List.replicate len 0), ())
  uint_bits := 16
  uint_bits_ge := Nat.le_refl 16

/-- The state after loading a two-byte all-zero image over `okBus` (which reads back
zeros), starting from `stAwake`. -/
def stLoaded : St Unit :=
  ((mpu_load_firmware okBus stAwake 2 (some [0, 0]) 0x400 200).getD (0, stAwake)).2

/-- A few operations that follow the load in the evaluations below. -/
def opsAfterLoad : List Op :=
  [Op.set_sensors 0x08, Op.set_dmp_state 1, Op.reset_fifo, Op.set_sample_rate 100]

/-- The state after `opsAfterLoad` from `stLoaded`. -/
def stLater : St Unit := (runOps okBus stLoaded opsAfterLoad).getD stLoaded

/-- The size `this_write` of the chunk that starts at `ii`. -/
def chunk_len (length ii : Nat) : Nat := min LOAD_CHUNK (length - ii)

/-- The `mpu_write_mem` call of the loop iteration at `ii`. -/
def chunk_write (T : Platform W) (length : Nat) (fw : List Nat) (ii : Nat) (s : St W) :
    Int × St W :=
  mpu_write_mem T s ii (chunk_len length ii)
    (some (firmware_chunk fw ii (chunk_len length ii)))

/-- The `mpu_read_mem` call of the loop iteration at `ii`, issued in the state the write
left. -/
def chunk_read (T : Platform W) (length : Nat) (fw : List Nat) (ii : Nat) (s : St W) :
    Int × Option (List Nat) × St W :=
  mpu_read_mem T (chunk_write T length fw ii s).2 ii (chunk_len length ii) false

/-- The `memcmp` of the loop iteration at `ii` finds no difference. -/
def chunk_same (T : Platform W) (length : Nat) (fw : List Nat) (ii : Nat) (s : St W) : Prop :=
  firmware_chunk fw ii (chunk_len length ii) =
    ((chunk_read T length fw ii s).2.1.getD []).take (chunk_len length ii)

/-- Starting the chunk loop at counter `ii0` in state `s0`, every chunk before counter
`ii` is written, read back and found equal, and the loop arrives at `ii` in state `s`. -/
inductive ChunksVerified (T : Platform W) (length : Nat) (fw : List Nat) :
    Nat → St W → Nat → St W → Prop where
  | done (ii : Nat) (s : St W) : ChunksVerified T length fw ii s ii s
  | step (ii0 : Nat) (s0 : St W) (ii : Nat) (s : St W) (hlt : ii0 < length)
      (hw : (chunk_write T length fw ii0 s0).1 = 0)
      (hr : (chunk_read T length fw ii0 s0).1 = 0)
      (hm : chunk_same T length fw ii0 s0)
      (rest : ChunksVerified T length fw ((ii0 + chunk_len length ii0) % 65536)
        (chunk_read T length fw ii0 s0).2.2 ii s) :
      ChunksVerified T length fw ii0 s0 ii s

/-- The log grew from `s` to `s1` only by events that satisfy `P`. -/
def LogExt (P : Ev → Prop) (s s1 : St W) : Prop :=
  ∃ evs, s1.log = s.log ++ evs ∧ ∀ e ∈ evs, P e

/-- The event is a transport read. -/
def Ev.isRead : Ev → Bool
  | .read _ _ _ => true
  | _ => false

/-- An observable of the cache that no configuration operation can change: it ignores
every field that an operation other than `mpu_init` and `mpu_load_firmware` stores. -/
structure IgnoresConfig {β : Type} (π : chip_cfg_s → β) : Prop where
  gyro_fsr : ∀ c v, π { c with gyro_fsr := v } = π c
  accel_fsr : ∀ c v, π { c with accel_fsr := v } = π c
  sensors : ∀ c v, π { c with sensors := v } = π c
  lpf : ∀ c v, π { c with lpf := v } = π c
  clk_src : ∀ c v, π { c with clk_src := v } = π c
  sample_rate : ∀ c v, π { c with sample_rate := v } = π c
  fifo_enable : ∀ c v, π { c with fifo_enable := v } = π c
  int_enable : ∀ c v, π { c with int_enable := v } = π c
  bypass_mode : ∀ c v, π { c with bypass_mode := v } = π c
  lp_accel_mode : ∀ c v, π { c with lp_accel_mode := v } = π c
  active_low_int : ∀ c v, π { c with active_low_int := v } = π c
  latched_int : ∀ c v, π { c with latched_int := v } = π c
  dmp_on : ∀ c v, π { c with dmp_on := v } = π c

/-- The event is a transfer on register `r`. -/
def Ev.onReg (r : Nat) : Ev → Bool
  | .write r1 _ _ => r1 == r
  | .read r1 _ _ => r1 == r
  | .delay _ => false

/-! ## A chip with DMP memory behind the transport -/

/-- The part of the chip that the firmware loader talks to: the bank and start-address
registers, the DMP memory as a map from address (bank * 256 + offset) to byte, and the
bytes last written to the program-start register pair. -/
structure Chip where
  bank : Nat
  start : Nat
  mem : Nat → Nat
  prgm_start : List Nat

/-- The memory address that the bank and start-address registers select. -/
def Chip.cell (c : Chip) : Nat := c.bank * 256 + c.start

/-- The bytes that a read of `len` bytes from the memory register returns; the cell at
address `bad`, if any, reads back with its lowest bit flipped. -/
def Chip.readMem (c : Chip) (bad : Option Nat) (len : Nat) : List Nat :=
  (List.range len).map fun i =>
    if bad = some (c.cell + i) then (c.mem (c.cell + i) + 1) % 2 + c.mem (c.cell + i) / 2 * 2
    else c.mem (c.cell + i)

/-- The memory after `data` has been written through the memory register. -/
def Chip.writeMem (c : Chip) (data : List Nat) : Nat → Nat :=
  fun a => if c.cell ≤ a ∧ a < c.cell + data.length then data.getD (a - c.cell) 0 else c.mem a

/-- A platform whose `unsigned int` has `max 16 bits` bits and on which every transfer
succeeds. A two-byte write at the bank-select register sets the bank and the start
address, a write at the memory register stores the bytes from the selected address on, a
read of the memory register returns the bytes stored there (with the cell `bad`, if any,
faulty), and a write at the program-start register is remembered. Every other register
ignores writes and reads as zeros. -/
def dmpChip (bits : Nat) (bad : Option Nat) : Platform Chip where
  write := fun c r data =>
    if r = reg.bank_sel then
      (true, { c with bank := data.getD 0 c.bank, start := data.getD 1 c.start })
    else if r = reg.mem_r_w then (true, { c with mem := c.writeMem data })
    else if r = reg.prgm_start_h then (true, { c with prgm_start := data })
    else (true, c)
  read := fun c r len =>
    if r = reg.mem_r_w then (some (c.readMem bad len), c)
    else (some (List.replicate len 0), c)
  uint_bits := max 16 bits
  uint_bits_ge := Nat.le_max_left 16 bits

/-- A chip with all-zero memory. -/
def chip0 : Chip := ⟨0, 0, fun _ => 0, []⟩

/-- A state over the chip with gyro and accel awake and no DMP image loaded. -/
def stChip : St Chip := ⟨{ cfg0 with sensors := 0x78 }, chip0, []⟩

/-- A 20-byte image: the bytes 1, 2, ..., 20. -/
def fw20 : List Nat := (List.range 20).map (· + 1)

/-! ## A register file behind the transport -/

/-- The register map after the bytes `data` have been written from register `r` on (the
register address auto-increments; a register keeps the low 8 bits). -/
def regWrite (w : Nat → Nat) (r : Nat) (data : List Nat) : Nat → Nat :=
  fun a => if r ≤ a ∧ a < r + data.length then data.getD (a - r) 0 % 256 else w a

/-- A platform whose `unsigned int` has `max 16 bits` bits, with a plain register file
behind the transport: every transfer succeeds, a write stores its bytes in consecutive
registers and a read returns the bytes of consecutive registers. -/
def regFile (bits : Nat) : Platform (Nat → Nat) where
  write := fun w r data => (true, regWrite w r data)
  read := fun w r len => (some ((List.range len).map fun i => w (r + i)), w)
  uint_bits := max 16 bits
  uint_bits_ge := Nat.le_max_left 16 bits

/-- The big-endian 16-bit value held by the register pair `r`, `r + 1`. -/
def reg16 (w : Nat → Nat) (r : Nat) : Nat := w r % 256 * 256 + w (r + 1) % 256

/-- The event records an outcome that the platform can produce: for a transfer, some
state of the world in which the platform answers with the recorded success flag. -/
def Ev.outcomeOf (T : Platform W) : Ev → Prop
  | .write r d ok => ∃ w, (T.write w r d).1 = ok
  | .read r n ok => ∃ w, (T.read w r n).1.isSome = ok
  | .delay _ => True

/-- An AVR platform over the unit world on which every write succeeds except those to
the register `bad`, and every read returns zeros. -/
def failOn (bad : Nat) : Platform Unit where
  write := fun _ r _ => (r != bad, ())
  read := fun _ _ len => (some (List.replicate len 0), ())
  uint_bits := 16
  uint_bits_ge := Nat.le_refl 16

/-- The state in which `mpu_configure_fifo` calls `mpu_reset_fifo` when the requested
mask without the compass bit is non-empty: the new `fifo_enable` is cached and
`set_int_enable(1)` has run. -/
def configure_fifo_reset_state (T : Platform W) (s : St W) (mask : Nat) : St W :=
  (set_int_enable T
    (s.setCfg { s.cfg with fifo_enable := (mask &&& 0xFE) &&& s.cfg.sensors }) 1).2

/-- A state over the unit world with gyro and accel awake and only the accel streamed to
the FIFO. -/
def stFifoAccel : St Unit := ⟨{ cfg0 with sensors := 0x78, fifo_enable := 0x08 }, (), []⟩

/-- The success flag of a logged event (a delay always succeeds). -/
def Ev.ok : Ev → Bool
  | .write _ _ ok => ok
  | .read _ _ ok => ok
  | .delay _ => true

/-- A state over the unit world with gyro and accel awake, gyro range 2000 dps, accel
range 2 g, the 42 Hz filter, bypass off and unlatched interrupts cached. -/
def stTuned : St Unit :=
  ⟨{ cfg0 with sensors := 0x78, gyro_fsr := 3, accel_fsr := 0, lpf := 3 }, (), []⟩

/-- From state `s` to state `s1` the log grew by exactly the events `evs`, each an outcome
the platform can produce. -/
def Ran (T : Platform W) (s s1 : St W) (evs : List Ev) : Prop :=
  s1.log = s.log ++ evs ∧ ∀ e ∈ evs, Ev.outcomeOf T e

/-- The transfers of `mpu_init` whose failure it reports, in order and all successful, up
to and including the rate-divider write: reset (-1), the 500 ms delay, wake (-2), gyro
range (-30), accel range (-31), filter (-32), rate divider (-33). -/
def init_steps : List Ev :=
  [Ev.write reg.pwr_mgmt_1 [BIT_RESET] true, Ev.delay 500, Ev.write reg.pwr_mgmt_1 [0x00] true,
    Ev.write reg.gyro_cfg [0x18] true, Ev.write reg.accel_cfg [0x00] true,
    Ev.write reg.lpf [INV_FILTER_42HZ] true, Ev.write reg.rate_div [19] true]

/-- The ways the `mpu_set_bypass(0)` call of `mpu_init` can fail: at the user-control
read, at the user-control write, or at the interrupt-pin write. -/
def init_bypass_failure (tail : List Ev) : Prop :=
  tail = [Ev.read reg.user_ctrl 1 false] ∨
  (∃ d, tail = [Ev.read reg.user_ctrl 1 true, Ev.write reg.user_ctrl [d] false]) ∨
  (∃ d, tail = [Ev.read reg.user_ctrl 1 true, Ev.write reg.user_ctrl [d] true,
    Ev.delay 3, Ev.write reg.int_pin_cfg [BIT_ACTL] false])

/-- The transfers of a successful `mpu_set_bypass(0)` call of `mpu_init`. -/
def init_bypass_ok (d : Nat) : List Ev :=
  [Ev.read reg.user_ctrl 1 true, Ev.write reg.user_ctrl [d] true, Ev.delay 3,
    Ev.write reg.int_pin_cfg [BIT_ACTL] true]

/-- The three ways through the final, unchecked `mpu_set_sensors(0)` call of `mpu_init`. -/
def init_power_down (tail : List Ev) : Prop :=
  tail = [Ev.write reg.pwr_mgmt_1 [BIT_SLEEP] false] ∨
  tail = [Ev.write reg.pwr_mgmt_1 [BIT_SLEEP] true, Ev.write reg.pwr_mgmt_2 [0x3F] false] ∨
  tail = [Ev.write reg.pwr_mgmt_1 [BIT_SLEEP] true, Ev.write reg.pwr_mgmt_2 [0x3F] true,
    Ev.delay 50]

/-- An AVR platform over the unit world on which every write succeeds and every read
fails. -/
def noReadBus : Platform Unit where
  write := fun _ _ _ => (true, ())
  read := fun _ _ _ => (none, ())
  uint_bits := 16
  uint_bits_ge := Nat.le_refl 16

/-- An AVR platform on which every transfer succeeds, the FIFO count reads as
0x0202 = 514 bytes and every other read returns zeros (so the overflow bit is clear). -/
def cntBus : Platform Unit where
  write := fun _ _ _ => (true, ())
  read := fun _ r len => (some (if r = 0x72 then [2, 2] else List.replicate len 0), ())
  uint_bits := 16
  uint_bits_ge := Nat.le_refl 16

/-- A state over the unit world with gyro and accel awake and only gyro X streamed to
the FIFO (packet size 2). -/
def stFifoGyroX : St Unit := ⟨{ cfg0 with sensors := 0x78, fifo_enable := 0x40 }, (), []⟩

/-- A state over the unit world with only the accelerometer awake. -/
def stAccel : St Unit := ⟨{ cfg0 with sensors := 0x08 }, (), []⟩

/-- The loop header of `mpu_load_firmware` on its own: the pairs `(ii, this_write)` of the
iterations that `for (ii = 0; ii < length; ii += this_write)` runs through when no
iteration returns early, under the same bound on the number of iterations as `load_loop`.
The counter is an `unsigned short`. -/
def load_chunks (length : Nat) : Nat → Nat → List (Nat × Nat)
  | 0, _ => []
  | fuel + 1, ii =>
    if ii < length then
      (ii, min LOAD_CHUNK (length - ii)) ::
        load_chunks length fuel ((ii + min LOAD_CHUNK (length - ii)) % 65536)
    else []

/-- An AVR platform over the unit world on which the write of the single byte 0 to the
power-management-1 register (the wake-up write of `mpu_init`) fails and every other
transfer succeeds, reads returning zeros. -/
def failWake : Platform Unit where
  write := fun _ r d => (!(r == reg.pwr_mgmt_1 && d == [0]), ())
  read := fun _ _ len => (some (List.replicate len 0), ())
  uint_bits := 16
  uint_bits_ge := Nat.le_refl 16

/-! ## The chunk schedule as the specification words it

The two definitions below do not come from the source: they spell out the schedule that
the firmware loader is said to follow, so that the loop of the source (`load_loop`) can be
compared with it. -/

/-- Specification side: the chunks of an image of `length` bytes. Chunk `j` starts at
address `16 * j` and holds `min 16 (length - 16 * j)` bytes, for `j` below `length / 16`
rounded up. -/
def spec_chunks (length : Nat) : List (Nat × Nat) :=
  (List.range ((length + 15) / 16)).map (fun j => (16 * j, min 16 (length - 16 * j)))

/-- Specification side: pass the chunks `(address, size)` of a list, in order, to
`mpu_write_mem` and then `mpu_read_mem`, comparing what is read back with what was
written; stop at the first chunk whose write fails (-2), whose read-back fails (-3) or
whose read-back differs (-4), and return 0 after the last chunk. -/
def spec_load_chunks (T : Platform W) (fw : List Nat) : List (Nat × Nat) → St W → Int × St W
  | [], s => (0, s)
  | c :: rest, s =>
    if (mpu_write_mem T s c.1 c.2 (some (firmware_chunk fw c.1 c.2))).1 ≠ 0 then
      (-2, (mpu_write_mem T s c.1 c.2 (some (firmware_chunk fw c.1 c.2))).2)
    else if (mpu_read_mem T (mpu_write_mem T s c.1 c.2 (some (firmware_chunk fw c.1 c.2))).2
        c.1 c.2 false).1 ≠ 0 then
      (-3, (mpu_read_mem T (mpu_write_mem T s c.1 c.2 (some (firmware_chunk fw c.1 c.2))).2
        c.1 c.2 false).2.2)
    else if firmware_chunk fw c.1 c.2 ≠
        ((mpu_read_mem T (mpu_write_mem T s c.1 c.2 (some (firmware_chunk fw c.1 c.2))).2
          c.1 c.2 false).2.1.getD []).take c.2 then
      (-4, (mpu_read_mem T (mpu_write_mem T s c.1 c.2 (some (firmware_chunk fw c.1 c.2))).2
        c.1 c.2 false).2.2)
    else
      spec_load_chunks T fw rest
        (mpu_read_mem T (mpu_write_mem T s c.1 c.2 (some (firmware_chunk fw c.1 c.2))).2
          c.1 c.2 false).2.2

/-- Specification side: the four transfers of one chunk `(address, size)` when each of
them succeeds: bank select with the address split into bank and offset, the write of the
chunk bytes, bank select again, the read-back of `size` bytes. -/
def spec_chunk_events (fw : List Nat) (c : Nat × Nat) : List Ev :=
  [Ev.write reg.bank_sel [c.1 / 256, c.1 % 256] true,
    Ev.write reg.mem_r_w (firmware_chunk fw c.1 c.2) true,
    Ev.write reg.bank_sel [c.1 / 256, c.1 % 256] true,
    Ev.read reg.mem_r_w c.2 true]
/-! # Properties -/

/-! ## Transport primitives and early returns -/

@[simp] theorem i2c_write_cfg (T : Platform W) (s : St W) (r : Nat) (d : List Nat) :
    (i2c_write T s r d).2.cfg = s.cfg := rfl

theorem i2c_write_fail_iff (T : Platform W) (s : St W) (r : Nat) (d : List Nat) :
    (i2c_write T s r d).1 = !(T.write s.bus r d).1 := rfl

@[simp] theorem i2c_write_log (T : Platform W) (s : St W) (r : Nat) (d : List Nat) :
    (i2c_write T s r d).2.log = s.log ++ [Ev.write r d (T.write s.bus r d).1] := rfl

@[simp] theorem i2c_read_cfg (T : Platform W) (s : St W) (r len : Nat) :
    (i2c_read T s r len).2.2.cfg = s.cfg := rfl

@[simp] theorem i2c_read_log (T : Platform W) (s : St W) (r len : Nat) :
    (i2c_read T s r len).2.2.log = s.log ++ [Ev.read r len (T.read s.bus r len).1.isSome] :=
  rfl

@[simp] theorem delay_ms_cfg (s : St W) (ms : Nat) : (delay_ms s ms).cfg = s.cfg := rfl

@[simp] theorem delay_ms_log (s : St W) (ms : Nat) :
    (delay_ms s ms).log = s.log ++ [Ev.delay ms] := rfl

@[simp] theorem setCfg_cfg (s : St W) (c : chip_cfg_s) : (s.setCfg c).cfg = c := rfl

@[simp] theorem setCfg_log (s : St W) (c : chip_cfg_s) : (s.setCfg c).log = s.log := rfl

@[simp] theorem setCfg_bus (s : St W) (c : chip_cfg_s) : (s.setCfg c).bus = s.bus := rfl

/-- Case rule for `onFail`: a property of the result follows from the property on both
branches. -/
theorem onFail_rule {α : Type} (Q : α → Prop) (w : Bool × St W) (fail k : St W → α)
    (hf : w.1 = true → Q (fail w.2)) (hk : w.1 = false → Q (k w.2)) :
    Q (onFail w fail k) := by
  unfold onFail
  cases h : w.1
  · simpa using hk h
  · simpa using hf h

/-- Case rule for `onFailR`. -/
theorem onFailR_rule {α : Type} (Q : α → Prop) (rd : Bool × List Nat × St W)
    (fail : St W → α) (k : List Nat → St W → α)
    (hf : rd.1 = true → Q (fail rd.2.2)) (hk : rd.1 = false → Q (k rd.2.1 rd.2.2)) :
    Q (onFailR rd fail k) := by
  unfold onFailR
  cases h : rd.1
  · simpa using hk h
  · simpa using hf h

/-- Case rule for `onErr`. -/
theorem onErr_rule {α : Type} (Q : α → Prop) (r : Int × St W) (fail k : St W → α)
    (hf : r.1 ≠ 0 → Q (fail r.2)) (hk : r.1 = 0 → Q (k r.2)) :
    Q (onErr r fail k) := by
  unfold onErr
  by_cases h : r.1 = 0
  · simpa [h] using hk h
  · simpa [h] using hf h

/-- A state predicate that holds after a transport write and is kept by both branches
holds after `onFail`. -/
theorem onFail_inv (Inv : St W → Prop) (w : Bool × St W) (fail k : St W → Int × St W)
    (hw : Inv w.2) (hf : ∀ s1, Inv s1 → Inv (fail s1).2) (hk : ∀ s1, Inv s1 → Inv (k s1).2) :
    Inv (onFail w fail k).2 :=
  onFail_rule (fun r => Inv r.2) w fail k (fun _ => hf _ hw) (fun _ => hk _ hw)

/-- A state predicate that holds after a transport read and is kept by both branches
holds after `onFailR`. -/
theorem onFailR_inv (Inv : St W → Prop) (rd : Bool × List Nat × St W)
    (fail : St W → Int × St W) (k : List Nat → St W → Int × St W)
    (hw : Inv rd.2.2) (hf : ∀ s1, Inv s1 → Inv (fail s1).2)
    (hk : ∀ d s1, Inv s1 → Inv (k d s1).2) :
    Inv (onFailR rd fail k).2 :=
  onFailR_rule (fun r => Inv r.2) rd fail k (fun _ => hf _ hw) (fun _ => hk _ _ hw)

/-- The same as `onFailR_inv` for functions that also return output cells. -/
theorem onFailR_inv3 {β : Type} (Inv : St W → Prop) (rd : Bool × List Nat × St W)
    (fail : St W → Int × β × St W) (k : List Nat → St W → Int × β × St W)
    (hw : Inv rd.2.2) (hf : ∀ s1, Inv s1 → Inv (fail s1).2.2)
    (hk : ∀ d s1, Inv s1 → Inv (k d s1).2.2) :
    Inv (onFailR rd fail k).2.2 :=
  onFailR_rule (fun r => Inv r.2.2) rd fail k (fun _ => hf _ hw) (fun _ => hk _ _ hw)

/-- The same as `onFail_inv` for functions that also return output cells. -/
theorem onFail_inv3 {β : Type} (Inv : St W → Prop) (w : Bool × St W)
    (fail k : St W → Int × β × St W)
    (hw : Inv w.2) (hf : ∀ s1, Inv s1 → Inv (fail s1).2.2)
    (hk : ∀ s1, Inv s1 → Inv (k s1).2.2) :
    Inv (onFail w fail k).2.2 :=
  onFail_rule (fun r => Inv r.2.2) w fail k (fun _ => hf _ hw) (fun _ => hk _ hw)

/-- A state predicate that holds after a driver call and is kept by both branches holds
after `onErr`. -/
theorem onErr_inv (Inv : St W → Prop) (r : Int × St W) (fail k : St W → Int × St W)
    (hw : Inv r.2) (hf : ∀ s1, Inv s1 → Inv (fail s1).2) (hk : ∀ s1, Inv s1 → Inv (k s1).2) :
    Inv (onErr r fail k).2 :=
  onErr_rule (fun r => Inv r.2) r fail k (fun _ => hf _ hw) (fun _ => hk _ hw)

/-! ## Stepping through a transfer -/

/-- Case rule for a checked write: the continuation sees a state with the same cache
whose log has grown by the write event, flagged with the outcome. -/
theorem write_rule {α : Type} (Q : α → Prop) (T : Platform W) (s : St W) (r : Nat)
    (d : List Nat) (fail k : St W → α)
    (hf : ∀ s1 : St W, s1.cfg = s.cfg → s1.log = s.log ++ [Ev.write r d false] →
      Ev.outcomeOf T (Ev.write r d false) → Q (fail s1))
    (hk : ∀ s1 : St W, s1.cfg = s.cfg → s1.log = s.log ++ [Ev.write r d true] →
      Ev.outcomeOf T (Ev.write r d true) → Q (k s1)) :
    Q (onFail (i2c_write T s r d) fail k) := by
  refine onFail_rule Q _ _ _ (fun h => ?_) (fun h => ?_)
  · have hb : (T.write s.bus r d).1 = false := by
      rw [i2c_write_fail_iff] at h
      simpa using h
    exact hf _ rfl (by rw [i2c_write_log, hb]) ⟨s.bus, hb⟩
  · have hb : (T.write s.bus r d).1 = true := by
      rw [i2c_write_fail_iff] at h
      simpa using h
    exact hk _ rfl (by rw [i2c_write_log, hb]) ⟨s.bus, hb⟩

/-- Case rule for a checked read: the continuation sees the bytes read and a state with
the same cache whose log has grown by the read event, flagged with the outcome. -/
theorem read_rule {α : Type} (Q : α → Prop) (T : Platform W) (s : St W) (r n : Nat)
    (fail : St W → α) (k : List Nat → St W → α)
    (hf : ∀ s1 : St W, s1.cfg = s.cfg → s1.log = s.log ++ [Ev.read r n false] →
      Ev.outcomeOf T (Ev.read r n false) → Q (fail s1))
    (hk : ∀ (data : List Nat) (s1 : St W), s1.cfg = s.cfg →
      s1.log = s.log ++ [Ev.read r n true] → Ev.outcomeOf T (Ev.read r n true) →
      Q (k data s1)) :
    Q (onFailR (i2c_read T s r n) fail k) := by
  refine onFailR_rule Q _ _ _ (fun h => ?_) (fun h => ?_)
  · have hb : (T.read s.bus r n).1.isSome = false := by
      have h1 : (T.read s.bus r n).1.isNone = true := h
      cases hx : (T.read s.bus r n).1 with
      | none => rfl
      | some l => rw [hx] at h1; cases h1
    exact hf _ rfl (by rw [i2c_read_log, hb]) ⟨s.bus, hb⟩
  · have hb : (T.read s.bus r n).1.isSome = true := by
      have h1 : (T.read s.bus r n).1.isNone = false := h
      cases hx : (T.read s.bus r n).1 with
      | none => rw [hx] at h1; cases h1
      | some l => rfl
    exact hk _ _ rfl (by rw [i2c_read_log, hb]) ⟨s.bus, hb⟩
/-! ## Which cache fields each operation can change

An observable `π` of the cache is kept by an operation as soon as `π` does not depend on
the fields the operation may store to. -/

/-- `set_int_enable` keeps every observable that ignores `int_enable`. -/
theorem set_int_enable_keep {β : Type} (π : chip_cfg_s → β)
    (h : ∀ c v, π { c with int_enable := v } = π c) (T : Platform W) (s : St W) (e : Nat) :
    π (set_int_enable T s e).2.cfg = π s.cfg := by
  unfold set_int_enable
  dsimp only
  split_ifs
  all_goals first
    | rfl
    | exact onFail_inv (fun s' => π s'.cfg = π s.cfg) _ _ _ rfl (fun _ h1 => h1)
        (fun s1 h1 => (h s1.cfg _).trans h1)

/-- `mpu_reset_fifo` changes no cache field. -/
@[simp] theorem mpu_reset_fifo_cfg (T : Platform W) (s : St W) :
    (mpu_reset_fifo T s).2.cfg = s.cfg := by
  unfold mpu_reset_fifo
  split_ifs
  · rfl
  refine onFail_inv (fun s' => s'.cfg = s.cfg) _ _ _ rfl (fun _ h => h) (fun s1 h1 => ?_)
  refine onFail_inv (fun s' => s'.cfg = s.cfg) _ _ _ h1 (fun _ h => h) (fun s2 h2 => ?_)
  refine onFail_inv (fun s' => s'.cfg = s.cfg) _ _ _ h2 (fun _ h => h) (fun s3 h3 => ?_)
  split_ifs
  · refine onFail_inv (fun s' => s'.cfg = s.cfg) _ _ _ h3 (fun _ h => h) (fun s4 h4 => ?_)
    refine onFail_inv (fun s' => s'.cfg = s.cfg) _ _ _ h4 (fun _ h => h) (fun s5 h5 => ?_)
    refine onFail_inv (fun s' => s'.cfg = s.cfg) _ _ _ h5 (fun _ h => h) (fun s6 h6 => ?_)
    exact onFail_inv (fun s' => s'.cfg = s.cfg) _ _ _ h6 (fun _ h => h) (fun s7 h7 => h7)
  · refine onFail_inv (fun s' => s'.cfg = s.cfg) _ _ _ h3 (fun _ h => h) (fun s4 h4 => ?_)
    refine onFail_inv (fun s' => s'.cfg = s.cfg) _ _ _ h4 (fun _ h => h) (fun s5 h5 => ?_)
    refine onFail_inv (fun s' => s'.cfg = s.cfg) _ _ _ h5 (fun _ h => h) (fun s6 h6 => ?_)
    exact onFail_inv (fun s' => s'.cfg = s.cfg) _ _ _ h6 (fun _ h => h) (fun s7 h7 => h7)

/-- `mpu_set_int_latched` keeps every observable that ignores `latched_int`. -/
theorem mpu_set_int_latched_keep {β : Type} (π : chip_cfg_s → β)
    (h : ∀ c v, π { c with latched_int := v } = π c) (T : Platform W) (s : St W) (e : Nat) :
    π (mpu_set_int_latched T s e).2.cfg = π s.cfg := by
  unfold mpu_set_int_latched
  split_ifs
  · rfl
  · exact onFail_inv (fun s' => π s'.cfg = π s.cfg) _ _ _ rfl (fun _ h1 => h1)
      (fun s1 h1 => (h s1.cfg _).trans h1)

/-- `mpu_set_bypass` keeps every observable that ignores `bypass_mode`. -/
theorem mpu_set_bypass_keep {β : Type} (π : chip_cfg_s → β)
    (h : ∀ c v, π { c with bypass_mode := v } = π c) (T : Platform W) (s : St W) (b : Nat) :
    π (mpu_set_bypass T s b).2.cfg = π s.cfg := by
  unfold mpu_set_bypass
  split_ifs
  · rfl
  · refine onFailR_inv (fun s' => π s'.cfg = π s.cfg) _ _ _ rfl (fun _ h1 => h1)
      (fun d s1 h1 => ?_)
    refine onFail_inv (fun s' => π s'.cfg = π s.cfg) _ _ _ h1 (fun _ h1 => h1)
      (fun s2 h2 => ?_)
    exact onFail_inv (fun s' => π s'.cfg = π s.cfg) _ _ _ h2 (fun _ h1 => h1)
      (fun s4 h4 => (h s4.cfg _).trans h4)
  · refine onFailR_inv (fun s' => π s'.cfg = π s.cfg) _ _ _ rfl (fun _ h1 => h1)
      (fun d s1 h1 => ?_)
    refine onFail_inv (fun s' => π s'.cfg = π s.cfg) _ _ _ h1 (fun _ h1 => h1)
      (fun s2 h2 => ?_)
    exact onFail_inv (fun s' => π s'.cfg = π s.cfg) _ _ _ h2 (fun _ h1 => h1)
      (fun s4 h4 => (h s4.cfg _).trans h4)

/-- `mpu_set_gyro_fsr` keeps every observable that ignores `gyro_fsr`. -/
theorem mpu_set_gyro_fsr_keep {β : Type} (π : chip_cfg_s → β)
    (h : ∀ c v, π { c with gyro_fsr := v } = π c) (T : Platform W) (s : St W) (x : Nat) :
    π (mpu_set_gyro_fsr T s x).2.cfg = π s.cfg := by
  unfold mpu_set_gyro_fsr
  split_ifs
  · rfl
  · cases gyro_fsr_data x with
    | none => rfl
    | some d =>
      dsimp only
      split_ifs
      · rfl
      · exact onFail_inv (fun s' => π s'.cfg = π s.cfg) _ _ _ rfl (fun _ h1 => h1)
          (fun s1 h1 => (h s1.cfg _).trans h1)

/-- `mpu_set_accel_fsr` keeps every observable that ignores `accel_fsr`. -/
theorem mpu_set_accel_fsr_keep {β : Type} (π : chip_cfg_s → β)
    (h : ∀ c v, π { c with accel_fsr := v } = π c) (T : Platform W) (s : St W) (x : Nat) :
    π (mpu_set_accel_fsr T s x).2.cfg = π s.cfg := by
  unfold mpu_set_accel_fsr
  split_ifs
  · rfl
  · cases accel_fsr_data x with
    | none => rfl
    | some d =>
      dsimp only
      split_ifs
      · rfl
      · exact onFail_inv (fun s' => π s'.cfg = π s.cfg) _ _ _ rfl (fun _ h1 => h1)
          (fun s1 h1 => (h s1.cfg _).trans h1)

/-- `mpu_set_lpf` keeps every observable that ignores `lpf`. -/
theorem mpu_set_lpf_keep {β : Type} (π : chip_cfg_s → β)
    (h : ∀ c v, π { c with lpf := v } = π c) (T : Platform W) (s : St W) (x : Nat) :
    π (mpu_set_lpf T s x).2.cfg = π s.cfg := by
  unfold mpu_set_lpf
  dsimp only
  split_ifs
  · rfl
  · rfl
  · exact onFail_inv (fun s' => π s'.cfg = π s.cfg) _ _ _ rfl (fun _ h1 => h1)
      (fun s1 h1 => (h s1.cfg _).trans h1)

/-- `mpu_configure_fifo` keeps every observable that ignores `fifo_enable` and
`int_enable`. -/
theorem mpu_configure_fifo_keep {β : Type} (π : chip_cfg_s → β)
    (hf : ∀ c v, π { c with fifo_enable := v } = π c)
    (hi : ∀ c v, π { c with int_enable := v } = π c) (T : Platform W) (s : St W) (m : Nat) :
    π (mpu_configure_fifo T s m).2.cfg = π s.cfg := by
  unfold mpu_configure_fifo
  dsimp only
  have key : ∀ e, π (set_int_enable T
      (s.setCfg { s.cfg with fifo_enable := m &&& 0xFE &&& s.cfg.sensors }) e).2.cfg = π s.cfg :=
    fun e => (set_int_enable_keep π hi T _ e).trans (hf s.cfg _)
  split_ifs
  all_goals first
    | rfl
    | exact key 1
    | exact key 0
    | exact onErr_inv (fun s' => π s'.cfg = π s.cfg) _ _ _
        ((congrArg π (mpu_reset_fifo_cfg T _)).trans (key 1))
        (fun s3 h3 => (hf s3.cfg _).trans h3) (fun s3 h3 => h3)
    | exact onErr_inv (fun s' => π s'.cfg = π s.cfg) _ _ _
        ((congrArg π (mpu_reset_fifo_cfg T _)).trans (key 0))
        (fun s3 h3 => (hf s3.cfg _).trans h3) (fun s3 h3 => h3)

/-- `mpu_set_sensors` keeps every observable that ignores `sensors`, `clk_src`,
`latched_int` and `lp_accel_mode`. -/
theorem mpu_set_sensors_keep {β : Type} (π : chip_cfg_s → β)
    (hs : ∀ c v, π { c with sensors := v } = π c)
    (hc : ∀ c v, π { c with clk_src := v } = π c)
    (hl : ∀ c v, π { c with latched_int := v } = π c)
    (hp : ∀ c v, π { c with lp_accel_mode := v } = π c) (T : Platform W) (s : St W) (m : Nat) :
    π (mpu_set_sensors T s m).2.cfg = π s.cfg := by
  unfold mpu_set_sensors
  dsimp only
  refine onFail_inv (fun s' => π s'.cfg = π s.cfg) _ _ _ rfl
    (fun s1 h1 => (hs s1.cfg _).trans h1) (fun s1 h1 => ?_)
  refine onFail_inv (fun s' => π s'.cfg = π s.cfg) _ _ _ ((hc s1.cfg _).trans h1)
    (fun s3 h3 => (hs s3.cfg _).trans h3) (fun s3 h3 => ?_)
  have h4 : π (if m ≠ 0 ∧ m ≠ INV_XYZ_ACCEL
      then (mpu_set_int_latched T s3 0).2 else s3).cfg = π s.cfg := by
    split_ifs
    · exact (mpu_set_int_latched_keep π hl T s3 0).trans h3
    · exact h3
  revert h4
  generalize (if m ≠ 0 ∧ m ≠ INV_XYZ_ACCEL then (mpu_set_int_latched T s3 0).2 else s3) = s4
  intro h4
  exact (hp { s4.cfg with sensors := m } 0).trans ((hs s4.cfg m).trans h4)

/-! ## Filter bandwidth -/

/-- With a sensor awake and the filter-register write accepted, `mpu_set_lpf` returns 0
and caches the selected filter code. -/
theorem mpu_set_lpf_ok (T : Platform W) (s : St W) (hz : Nat)
    (hs : s.cfg.sensors ≠ 0)
    (hw : ∀ d, (T.write s.bus reg.lpf [d]).1 = true) :
    (mpu_set_lpf T s hz).1 = 0 ∧ (mpu_set_lpf T s hz).2.cfg.lpf = lpf_data hz := by
  simp only [mpu_set_lpf, onFail, if_neg hs, i2c_write_fail_iff, hw]
  split_ifs <;> simp_all

/-- The bandwidth `mpu_get_lpf` reports for the code `lpf_data hz`. -/
theorem mpu_get_lpf_of_data (s1 : St W) (hz : Nat) (h : s1.cfg.lpf = lpf_data hz) :
    mpu_get_lpf s1 = (0, if hz ≥ 188 then 188 else if hz ≥ 98 then 98 else if hz ≥ 42 then 42
      else if hz ≥ 20 then 20 else if hz ≥ 10 then 10 else 5) := by
  unfold mpu_get_lpf
  rw [h]
  unfold lpf_data
  by_cases h1 : hz ≥ 188
  · simp [h1]
  by_cases h2 : hz ≥ 98
  · simp [h1, h2]
  by_cases h3 : hz ≥ 42
  · simp [h1, h2, h3]
  by_cases h4 : hz ≥ 20
  · simp [h1, h2, h3, h4]
  by_cases h5 : hz ≥ 10
  · simp [h1, h2, h3, h4, h5]
  · simp [h1, h2, h3, h4, h5]

/-- `mpu_set_lpf` issues at most one transport call, a write to the filter register. -/
theorem mpu_set_lpf_log (T : Platform W) (s : St W) (x : Nat) :
    (mpu_set_lpf T s x).2.log = s.log ∨
      ∃ d ok, (mpu_set_lpf T s x).2.log = s.log ++ [Ev.write reg.lpf [d] ok] := by
  simp only [mpu_set_lpf, onFail]
  split_ifs
  · exact Or.inl rfl
  · exact Or.inl rfl
  · exact Or.inr ⟨_, _, rfl⟩
  · exact Or.inr ⟨_, _, rfl⟩

/-- C1: for every requested bandwidth `hz`, with a sensor awake and the filter-register
write succeeding, `mpu_set_lpf hz` returns 0 and afterwards `mpu_get_lpf` returns 0 and
reports a tier of {188, 98, 42, 20, 10, 5}: the tier 5 when `hz < 5`, and otherwise the
largest tier that is at most `hz`. -/
theorem mpu_set_lpf_snaps (T : Platform W) (s : St W) (hz : Nat)
    (hs : s.cfg.sensors ≠ 0)
    (hw : ∀ d, (T.write s.bus reg.lpf [d]).1 = true) :
    (mpu_set_lpf T s hz).1 = 0 ∧
    (mpu_get_lpf (mpu_set_lpf T s hz).2).1 = 0 ∧
    (mpu_get_lpf (mpu_set_lpf T s hz).2).2 ∈ [188, 98, 42, 20, 10, 5] ∧
    (hz < 5 → (mpu_get_lpf (mpu_set_lpf T s hz).2).2 = 5) ∧
    (5 ≤ hz → (mpu_get_lpf (mpu_set_lpf T s hz).2).2 ≤ hz ∧
      ∀ t ∈ [188, 98, 42, 20, 10, 5], t ≤ hz → t ≤ (mpu_get_lpf (mpu_set_lpf T s hz).2).2) := by
  obtain ⟨h1, h2⟩ := mpu_set_lpf_ok T s hz hs hw
  rw [mpu_get_lpf_of_data _ hz h2]
  refine ⟨h1, rfl, ?_, ?_, ?_⟩
  · show (if hz ≥ 188 then 188 else _) ∈ _
    split_ifs <;> decide
  · intro h
    show (if hz ≥ 188 then 188 else _) = 5
    split_ifs <;> omega
  · intro h
    show (if hz ≥ 188 then 188 else _) ≤ hz ∧ ∀ t ∈ _, t ≤ hz → t ≤ (if hz ≥ 188 then 188 else _)
    refine ⟨by split_ifs <;> omega, ?_⟩
    intro t ht hle
    simp only [List.mem_cons, List.mem_singleton, List.not_mem_nil, or_false] at ht
    split_ifs <;> omega

/-- Witness for C1 on the always-succeeding transport: 150 snaps to 98, 188 to 188 and
3 to 5. -/
theorem mpu_set_lpf_snaps_witness :
    (stAwake.cfg.sensors ≠ 0 ∧ ∀ d, (okBus.write stAwake.bus reg.lpf [d]).1 = true) ∧
    (mpu_get_lpf (mpu_set_lpf okBus stAwake 150).2).2 = 98 ∧
    (mpu_get_lpf (mpu_set_lpf okBus stAwake 188).2).2 = 188 ∧
    (mpu_get_lpf (mpu_set_lpf okBus stAwake 3).2).2 = 5 ∧
    (mpu_set_lpf okBus stAwake 150).1 = 0 ∧
    (mpu_get_lpf (mpu_set_lpf okBus stAwake 150).2).2 ∈ [188, 98, 42, 20, 10, 5] :=
  ⟨⟨by decide, fun _ => rfl⟩, by decide, by decide, by decide,
    (mpu_set_lpf_snaps okBus stAwake 150 (by decide) (fun _ => rfl)).1,
    (mpu_set_lpf_snaps okBus stAwake 150 (by decide) (fun _ => rfl)).2.2.1⟩

/-! ## Sample rate -/

/-- The clamped divider fits a byte, so the `unsigned char` conversion loses nothing. -/
theorem rate_div_data_eq (hz : Nat) :
    rate_div_data hz = 1000 / min (max hz 4) 1000 - 1 ∧ rate_div_data hz < 256 := by
  have hc : (if hz < 4 then 4 else if hz > 1000 then 1000 else hz) = min (max hz 4) 1000 := by
    split_ifs <;> omega
  have hlt : 1000 / min (max hz 4) 1000 - 1 < 256 := by
    have h4 : 4 ≤ min (max hz 4) 1000 := by omega
    have : 1000 / min (max hz 4) 1000 ≤ 1000 / 4 := Nat.div_le_div_left h4 (by norm_num)
    omega
  simp only [rate_div_data, hc, Nat.mod_eq_of_lt hlt]
  exact ⟨trivial, hlt⟩

/-- C2: for every requested rate `hz`, with a sensor awake, DMP off, low-power-accel mode
off and the rate-divider write succeeding, `mpu_set_sample_rate hz` returns 0, its first
transport call is the write of the single byte `d = 1000 / c - 1` (which fits a byte) to
the rate-divider register, where `c = min (max hz 4) 1000`, followed by at most one
write to the filter register, and it caches `sample_rate = 1000 / (1 + d)`. -/
theorem mpu_set_sample_rate_divider (T : Platform W) (s : St W) (hz : Nat)
    (hs : s.cfg.sensors ≠ 0) (hd : s.cfg.dmp_on = 0) (hl : s.cfg.lp_accel_mode = 0)
    (hw : ∀ d, (T.write s.bus reg.rate_div [d]).1 = true) :
    (mpu_set_sample_rate T s hz).1 = 0 ∧
    1000 / min (max hz 4) 1000 - 1 < 256 ∧
    (∃ rest, (mpu_set_sample_rate T s hz).2.log =
        s.log ++ Ev.write reg.rate_div [1000 / min (max hz 4) 1000 - 1] true :: rest ∧
        (rest = [] ∨ ∃ d ok, rest = [Ev.write reg.lpf [d] ok])) ∧
    (mpu_set_sample_rate T s hz).2.cfg.sample_rate =
      1000 / (1 + (1000 / min (max hz 4) 1000 - 1)) := by
  obtain ⟨hdat, hlt⟩ := rate_div_data_eq hz
  simp only [mpu_set_sample_rate, onFail, if_neg hs, hd, hl, ne_eq, not_true_eq_false,
    false_and, if_false, i2c_write_fail_iff, hw, Bool.not_true, hdat, Bool.false_eq_true]
  refine ⟨trivial, hdat ▸ hlt, ?_, ?_⟩
  · rcases mpu_set_lpf_log T _ _ with h | ⟨d, ok, h⟩
    · exact ⟨[], by rw [h]; simp [hw], Or.inl rfl⟩
    · exact ⟨[Ev.write reg.lpf [d] ok], by rw [h]; simp [hw], Or.inr ⟨d, ok, rfl⟩⟩
  · exact mpu_set_lpf_keep (fun c => c.sample_rate) (fun _ _ => rfl) T _ _

/-- Witness for C2 on the always-succeeding transport: 50 Hz gives divider 19 and rate
50; 7 Hz gives divider 141 and rate 7. -/
theorem mpu_set_sample_rate_divider_witness :
    (stAwake.cfg.sensors ≠ 0 ∧ stAwake.cfg.dmp_on = 0 ∧ stAwake.cfg.lp_accel_mode = 0 ∧
      ∀ d, (okBus.write stAwake.bus reg.rate_div [d]).1 = true) ∧
    (1000 / min (max 50 4) 1000 - 1 = 19 ∧ 1000 / (1 + 19) = 50) ∧
    (1000 / min (max 7 4) 1000 - 1 = 141 ∧ 1000 / (1 + 141) = 7) ∧
    (mpu_set_sample_rate okBus stAwake 50).1 = 0 ∧
    (mpu_set_sample_rate okBus stAwake 50).2.cfg.sample_rate = 50 ∧
    (mpu_set_sample_rate okBus stAwake 7).2.cfg.sample_rate = 7 :=
  ⟨⟨by decide, rfl, rfl, fun _ => rfl⟩, by decide, by decide,
    (mpu_set_sample_rate_divider okBus stAwake 50 (by decide) rfl rfl (fun _ => rfl)).1,
    (mpu_set_sample_rate_divider okBus stAwake 50 (by decide) rfl rfl (fun _ => rfl)).2.2.2,
    (mpu_set_sample_rate_divider okBus stAwake 7 (by decide) rfl rfl (fun _ => rfl)).2.2.2⟩

/-! ## FIFO mask against sensor mask -/

theorem LogExt.refl (P : Ev → Prop) (s : St W) : LogExt P s s :=
  ⟨[], by simp, by simp⟩

theorem LogExt.trans {P : Ev → Prop} {s s1 s2 : St W} (h1 : LogExt P s s1)
    (h2 : LogExt P s1 s2) : LogExt P s s2 := by
  obtain ⟨e1, h1, p1⟩ := h1
  obtain ⟨e2, h2, p2⟩ := h2
  refine ⟨e1 ++ e2, by rw [h2, h1, List.append_assoc], ?_⟩
  intro e he
  rcases List.mem_append.mp he with h | h
  · exact p1 e h
  · exact p2 e h

theorem LogExt.write {P : Ev → Prop} (T : Platform W) (s : St W) (r : Nat) (d : List Nat)
    (h : ∀ ok, P (Ev.write r d ok)) : LogExt P s (i2c_write T s r d).2 :=
  ⟨[Ev.write r d (T.write s.bus r d).1], rfl, by simpa using h _⟩

theorem LogExt.delay {P : Ev → Prop} (s : St W) (ms : Nat) (h : P (Ev.delay ms)) :
    LogExt P s (delay_ms s ms) :=
  ⟨[Ev.delay ms], rfl, by simpa using h⟩

/-- `mpu_reset_fifo` issues no transport read: its log entries are writes and delays. -/
theorem mpu_reset_fifo_log (T : Platform W) (s : St W) :
    LogExt (fun e => e.isRead = false) s (mpu_reset_fifo T s).2 := by
  have W1 : ∀ (s1 : St W) r d, LogExt (fun e => e.isRead = false) s s1 →
      LogExt (fun e => e.isRead = false) s (i2c_write T s1 r d).2 :=
    fun s1 r d h => h.trans (LogExt.write T s1 r d (fun _ => rfl))
  have D1 : ∀ (s1 : St W) ms, LogExt (fun e => e.isRead = false) s s1 →
      LogExt (fun e => e.isRead = false) s (delay_ms s1 ms) :=
    fun s1 ms h => h.trans (LogExt.delay s1 ms rfl)
  unfold mpu_reset_fifo
  split_ifs
  · exact LogExt.refl _ s
  refine onFail_inv (LogExt _ s) _ _ _ (W1 _ _ _ (LogExt.refl _ s)) (fun _ h => h)
    (fun s1 h1 => ?_)
  refine onFail_inv (LogExt _ s) _ _ _ (W1 _ _ _ h1) (fun _ h => h) (fun s2 h2 => ?_)
  refine onFail_inv (LogExt _ s) _ _ _ (W1 _ _ _ h2) (fun _ h => h) (fun s3 h3 => ?_)
  split_ifs
  · refine onFail_inv (LogExt _ s) _ _ _ (W1 _ _ _ h3) (fun _ h => h) (fun s4 h4 => ?_)
    refine onFail_inv (LogExt _ s) _ _ _ (W1 _ _ _ (D1 _ _ h4)) (fun _ h => h)
      (fun s5 h5 => ?_)
    refine onFail_inv (LogExt _ s) _ _ _ (W1 _ _ _ h5) (fun _ h => h) (fun s6 h6 => ?_)
    exact onFail_inv (LogExt _ s) _ _ _ (W1 _ _ _ h6) (fun _ h => h) (fun s7 h7 => h7)
  · refine onFail_inv (LogExt _ s) _ _ _ (W1 _ _ _ h3) (fun _ h => h) (fun s4 h4 => ?_)
    refine onFail_inv (LogExt _ s) _ _ _ (W1 _ _ _ h4) (fun _ h => h) (fun s5 h5 => ?_)
    refine onFail_inv (LogExt _ s) _ _ _ (W1 _ _ _ (D1 _ _ h5)) (fun _ h => h)
      (fun s6 h6 => ?_)
    exact onFail_inv (LogExt _ s) _ _ _ (W1 _ _ _ h6) (fun _ h => h) (fun s7 h7 => h7)

/-! ## FIFO overflow -/

/-- The length of what a read returns. -/
@[simp] theorem readBytes_length (l : List Nat) (len : Nat) : (readBytes l len).length = len := by
  simp [readBytes]

/-- The cells of what a read returns. -/
theorem readBytes_getD (l : List Nat) (len i : Nat) (h : i < len) :
    (readBytes l len).getD i 0 = l.getD i 0 % 256 := by
  simp [readBytes, List.getD_eq_getElem?_getD, List.getElem?_map, List.getElem?_range h]

/-- The first cells of a buffer after a store are the bytes stored. -/
theorem bufStore_getD (buf bytes : List Nat) (i : Nat) (h : i < bytes.length) :
    (bufStore buf bytes).getD i 0 = bytes.getD i 0 := by
  simp [bufStore, List.getD_eq_getElem?_getD, List.getElem?_append_left h]

/-- The FIFO count is the big-endian value of the two bytes read. -/
theorem fifo_count_of_bytes (data : List Nat) (h0 : data.getD 0 0 < 256)
    (h1 : data.getD 1 0 < 256) :
    fifo_count_of data = data.getD 0 0 * 256 + data.getD 1 0 := by
  unfold fifo_count_of
  have e : (data.getD 0 0 <<< 8) ||| data.getD 1 0 = 2 ^ 8 * data.getD 0 0 + data.getD 1 0 := by
    rw [Nat.shiftLeft_eq, Nat.mul_comm]
    exact (Nat.mul_add_lt_is_or (by simpa using h1) _).symm
  rw [e]
  omega

/-- The FIFO count decoded from a two-byte read. -/
theorem fifo_count_of_read (cnt : List Nat) :
    fifo_count_of (readBytes cnt 2) = cnt.getD 0 0 % 256 * 256 + cnt.getD 1 0 % 256 := by
  rw [fifo_count_of_bytes, readBytes_getD _ _ _ (by norm_num), readBytes_getD _ _ _ (by norm_num)]
  · rw [readBytes_getD _ _ _ (by norm_num)]
    exact Nat.mod_lt _ (by norm_num)
  · rw [readBytes_getD _ _ _ (by norm_num)]
    exact Nat.mod_lt _ (by norm_num)

/-- A successful read, spelled out: status, bytes, and the state with the world the
transport returned and the read logged. -/
theorem i2c_read_ok (T : Platform W) (s : St W) (r len : Nat) (l : List Nat) (w1 : W)
    (h : T.read s.bus r len = (some l, w1)) :
    i2c_read T s r len = (false, readBytes l len, ⟨s.cfg, w1, s.log ++ [Ev.read r len true]⟩) := by
  simp [i2c_read, h]

/-- C4 fails as stated for `mpu_read_fifo_stream`: with the DMP on, a FIFO count of 600
(above 512) and the overflow bit set in the interrupt status, a request for 1000 bytes
returns -4 after the count read alone; the interrupt status is never read and the FIFO
is not reset. -/
theorem fifo_stream_overflow_not_checked :
    (ovBus.read stDmp.bus reg.fifo_count_h 2).1 = some [2, 88] ∧ 512 < 2 * 256 + 88 ∧
    (ovBus.read stDmp.bus reg.int_status 1).1 = some [0x10] ∧ 0x10 &&& BIT_FIFO_OVERFLOW ≠ 0 ∧
    (mpu_read_fifo_stream ovBus stDmp 1000).1 = -4 ∧
    (mpu_read_fifo_stream ovBus stDmp 1000).2.2.log = [Ev.read reg.fifo_count_h 2 true] := by
  decide

/-- C4, amended: with a sensor awake, when the FIFO byte count read from the chip
exceeds `max_fifo / 2` and the interrupt-status read that follows shows the overflow
bit, `mpu_read_fifo` (DMP off, FIFO mask non-empty) returns -2 with the sensor mask
output 0 and no other output written, and `mpu_read_fifo_stream` (DMP on), provided
the count is at least the requested length, returns -6 with no output written. In both
cases the state is the one `mpu_reset_fifo` leaves when called after the two reads, and
no transport read is issued after them, so the FIFO data register is never read. -/
theorem fifo_overflow_resets (T : Platform W) (s : St W) (length : Nat) (cnt st : List Nat)
    (w1 w2 : W) (hs : s.cfg.sensors ≠ 0)
    (hc : T.read s.bus reg.fifo_count_h 2 = (some cnt, w1))
    (hn : hw.max_fifo / 2 < cnt.getD 0 0 % 256 * 256 + cnt.getD 1 0 % 256)
    (hi : T.read w1 reg.int_status 1 = (some st, w2))
    (ho : st.getD 0 0 % 256 &&& BIT_FIFO_OVERFLOW ≠ 0) :
    (s.cfg.dmp_on = 0 → s.cfg.fifo_enable ≠ 0 →
      mpu_read_fifo T s = (-2, { fifo_out.untouched with sensors := some 0 },
        (mpu_reset_fifo T ⟨s.cfg, w2, s.log ++ [Ev.read reg.fifo_count_h 2 true] ++
          [Ev.read reg.int_status 1 true]⟩).2)) ∧
    (s.cfg.dmp_on ≠ 0 → length ≤ cnt.getD 0 0 % 256 * 256 + cnt.getD 1 0 % 256 →
      mpu_read_fifo_stream T s length = (-6, ⟨none, none, false⟩,
        (mpu_reset_fifo T ⟨s.cfg, w2, s.log ++ [Ev.read reg.fifo_count_h 2 true] ++
          [Ev.read reg.int_status 1 true]⟩).2)) ∧
    LogExt (fun e => e.isRead = false)
      ⟨s.cfg, w2, s.log ++ [Ev.read reg.fifo_count_h 2 true] ++ [Ev.read reg.int_status 1 true]⟩
      (mpu_reset_fifo T ⟨s.cfg, w2, s.log ++ [Ev.read reg.fifo_count_h 2 true] ++
          [Ev.read reg.int_status 1 true]⟩).2 := by
  have hcount := fifo_count_of_read cnt
  have hst : (readBytes st 1).getD 0 0 = st.getD 0 0 % 256 := readBytes_getD _ _ _ (by norm_num)
  have hmax : hw.max_fifo >>> 1 = hw.max_fifo / 2 := by decide
  refine ⟨?_, ?_, mpu_reset_fifo_log T _⟩
  · intro hd hf
    have hps : fifo_packet_size s.cfg.fifo_enable ≤
        cnt.getD 0 0 % 256 * 256 + cnt.getD 1 0 % 256 := by
      have : fifo_packet_size s.cfg.fifo_enable ≤ 12 := by
        unfold fifo_packet_size
        dsimp only
        split_ifs <;> decide
      have : hw.max_fifo / 2 = 512 := by decide
      omega
    have hb : fifo_count_of (bufStore (List.replicate MAX_PACKET_LENGTH 0) (readBytes cnt 2)) =
        cnt.getD 0 0 % 256 * 256 + cnt.getD 1 0 % 256 := by
      rw [← hcount]
      unfold fifo_count_of
      rw [bufStore_getD _ _ 0 (by simp), bufStore_getD _ _ 1 (by simp)]
    have hb2 : (bufStore (bufStore (List.replicate MAX_PACKET_LENGTH 0) (readBytes cnt 2))
        (readBytes st 1)).getD 0 0 = st.getD 0 0 % 256 := by
      rw [bufStore_getD _ _ 0 (by simp), hst]
    unfold mpu_read_fifo
    simp only [hd, ne_eq, not_true_eq_false, if_false, if_neg hs, if_neg hf]
    rw [i2c_read_ok T s _ _ cnt w1 hc]
    simp only [onFailR, Bool.false_eq_true, if_false, hb, if_neg (not_lt.mpr hps), hmax,
      if_pos hn]
    rw [i2c_read_ok T _ _ _ st w2 hi]
    simp only [Bool.false_eq_true, if_false, hb2, if_pos ho]
  · intro hd hl
    unfold mpu_read_fifo_stream
    simp only [if_neg hd, if_neg hs]
    rw [i2c_read_ok T s _ _ cnt w1 hc]
    simp only [onFailR, Bool.false_eq_true, if_false, hcount, if_neg (not_lt.mpr hl), hmax,
      if_pos hn]
    rw [i2c_read_ok T _ _ _ st w2 hi]
    simp only [Bool.false_eq_true, if_false, hst, if_pos ho]

/-- Witness for the amended C4 on the overflowing transport: `mpu_read_fifo` returns -2
and `mpu_read_fifo_stream` asked for 28 bytes returns -6. -/
theorem fifo_overflow_resets_witness :
    (stFifo.cfg.sensors ≠ 0 ∧ ovBus.read stFifo.bus reg.fifo_count_h 2 = (some [2, 88], ()) ∧
      hw.max_fifo / 2 < [2, 88].getD 0 0 % 256 * 256 + [2, 88].getD 1 0 % 256 ∧
      ovBus.read () reg.int_status 1 = (some [0x10], ()) ∧
      [0x10].getD 0 0 % 256 &&& BIT_FIFO_OVERFLOW ≠ 0) ∧
    (mpu_read_fifo ovBus stFifo).1 = -2 ∧
    (mpu_read_fifo ovBus stFifo).2.1 = { fifo_out.untouched with sensors := some 0 } ∧
    (mpu_read_fifo_stream ovBus stDmp 28).1 = -6 :=
  ⟨⟨by decide, rfl, by decide, rfl, by decide⟩,
    congrArg (fun r => r.1) ((fifo_overflow_resets ovBus stFifo 0 [2, 88] [0x10] () ()
      (by decide) rfl (by decide) rfl (by decide)).1 rfl (by decide)),
    congrArg (fun r => r.2.1) ((fifo_overflow_resets ovBus stFifo 0 [2, 88] [0x10] () ()
      (by decide) rfl (by decide) rfl (by decide)).1 rfl (by decide)),
    congrArg (fun r => r.1) ((fifo_overflow_resets ovBus stDmp 28 [2, 88] [0x10] () ()
      (by decide) rfl (by decide) rfl (by decide)).2.1 (by decide) (by decide))⟩

/-! ## FIFO packet layout -/

/-- A single-bit mask selects either nothing or the bit itself. -/
theorem and_two_pow_cases (x i : Nat) : x &&& 2 ^ i = 0 ∨ x &&& 2 ^ i = 2 ^ i := by
  cases h : x.testBit i
  · left
    apply Nat.eq_of_testBit_eq
    intro j
    simp only [Nat.testBit_and, Nat.testBit_two_pow, Nat.zero_testBit]
    by_cases hj : i = j
    · subst hj
      simp [h]
    · simp [hj]
  · right
    apply Nat.eq_of_testBit_eq
    intro j
    simp only [Nat.testBit_and, Nat.testBit_two_pow]
    by_cases hj : i = j
    · subst hj
      simp [h]
    · simp [hj]

/-- The four channel masks select either nothing or their own bit. -/
theorem channel_mask_cases (fe : Nat) :
    (fe &&& INV_X_GYRO = 0 ∨ fe &&& INV_X_GYRO = INV_X_GYRO) ∧
    (fe &&& INV_Y_GYRO = 0 ∨ fe &&& INV_Y_GYRO = INV_Y_GYRO) ∧
    (fe &&& INV_Z_GYRO = 0 ∨ fe &&& INV_Z_GYRO = INV_Z_GYRO) ∧
    (fe &&& INV_XYZ_ACCEL = 0 ∨ fe &&& INV_XYZ_ACCEL = INV_XYZ_ACCEL) :=
  ⟨and_two_pow_cases fe 6, and_two_pow_cases fe 5, and_two_pow_cases fe 4,
    and_two_pow_cases fe 3⟩

/-- The mask restricted to the four FIFO channels is the union of its four bits. -/
theorem channel_mask_split (fe : Nat) :
    fe &&& (INV_XYZ_GYRO ||| INV_XYZ_ACCEL) =
      (fe &&& INV_X_GYRO) ||| (fe &&& INV_Y_GYRO) ||| (fe &&& INV_Z_GYRO) |||
        (fe &&& INV_XYZ_ACCEL) := by
  simp only [INV_XYZ_GYRO, Nat.and_or_distrib_left]

/-- The packet size in closed form: 2 bytes per gyro axis present, 6 for accel; the
`unsigned char` additions never wrap. -/
theorem fifo_packet_size_eq (fe : Nat) :
    fifo_packet_size fe =
      (if fe &&& INV_X_GYRO ≠ 0 then 2 else 0) + (if fe &&& INV_Y_GYRO ≠ 0 then 2 else 0) +
      (if fe &&& INV_Z_GYRO ≠ 0 then 2 else 0) + (if fe &&& INV_XYZ_ACCEL ≠ 0 then 6 else 0) := by
  unfold fifo_packet_size
  dsimp only
  split_ifs <;> rfl

/-- A 16-bit word that lies inside the bytes just stored is read from those bytes. -/
theorem shortAt_bufStore (buf pkt : List Nat) (i : Nat) (h : i + 1 < pkt.length) :
    shortAt (bufStore buf pkt) i = shortAt pkt i := by
  unfold shortAt
  rw [bufStore_getD _ _ i (by omega), bufStore_getD _ _ (i + 1) h]

/-- The decoding step, in closed form. With a packet `pkt` of exactly `packet_size`
bytes at the start of the buffer, the cells are filled front to back: accel (three
words at bytes 0..5) if its bit is set, then gyro X, Y, Z (one word each), each exactly
when its own bit is set; the final index is the packet size; the mask reported is
`fifo_enable` restricted to the four channel bits. -/
theorem fifo_decode_layout (buf pkt : List Nat) (fe : Nat) (out : fifo_out)
    (hlen : pkt.length = fifo_packet_size fe) (hs : out.sensors = some 0) :
    fifo_decode (bufStore buf pkt) (fifo_packet_size fe) fe out =
      ({ out with
          accel0 := if fe &&& INV_XYZ_ACCEL ≠ 0 then some (shortAt pkt 0) else out.accel0
          accel1 := if fe &&& INV_XYZ_ACCEL ≠ 0 then some (shortAt pkt 2) else out.accel1
          accel2 := if fe &&& INV_XYZ_ACCEL ≠ 0 then some (shortAt pkt 4) else out.accel2
          gyro0 := if fe &&& INV_X_GYRO ≠ 0
            then some (shortAt pkt (if fe &&& INV_XYZ_ACCEL ≠ 0 then 6 else 0)) else out.gyro0
          gyro1 := if fe &&& INV_Y_GYRO ≠ 0
            then some (shortAt pkt ((if fe &&& INV_XYZ_ACCEL ≠ 0 then 6 else 0) +
              (if fe &&& INV_X_GYRO ≠ 0 then 2 else 0))) else out.gyro1
          gyro2 := if fe &&& INV_Z_GYRO ≠ 0
            then some (shortAt pkt ((if fe &&& INV_XYZ_ACCEL ≠ 0 then 6 else 0) +
              (if fe &&& INV_X_GYRO ≠ 0 then 2 else 0) +
              (if fe &&& INV_Y_GYRO ≠ 0 then 2 else 0))) else out.gyro2
          sensors := some (fe &&& (INV_XYZ_GYRO ||| INV_XYZ_ACCEL)) },
        fifo_packet_size fe) := by
  obtain ⟨cx, cy, cz, ca⟩ := channel_mask_cases fe
  rw [channel_mask_split]
  rw [fifo_packet_size_eq] at hlen ⊢
  unfold fifo_decode
  cases out with
  | mk g0 g1 g2 a0 a1 a2 sens more dz =>
    simp only at hs
    subst hs
    rcases ca with ca | ca <;> rcases cx with cx | cx <;> rcases cy with cy | cy <;>
      rcases cz with cz | cz <;>
      · simp only [ca, cx, cy, cz] at hlen ⊢
        norm_num at hlen ⊢ <;> simp [shortAt_bufStore, hlen]

/-- The packet-reading tail of `mpu_read_fifo`, when it stores `more`: the read of
`packet_size` bytes from the FIFO data register succeeded, the status is 0 and the
cells are those of `fifo_decode_layout` on the bytes read. -/
theorem read_fifo_packet_decodes (T : Platform W) (s : St W) (data : List Nat) (fe count : Nat)
    (out : fifo_out) (hfe : s.cfg.fifo_enable = fe)
    (h : (read_fifo_packet T s data (fifo_packet_size fe) count out).2.1.more ≠ out.more) :
    ∃ l, (T.read s.bus reg.fifo_r_w (fifo_packet_size fe)).1 = some l ∧
      read_fifo_packet T s data (fifo_packet_size fe) count out =
        (0, (fifo_decode (bufStore data (readBytes l (fifo_packet_size fe)))
            (fifo_packet_size fe) fe
            { out with
              more := some ((count / fifo_packet_size fe - 1) % 256)
              div_by_zero := decide (fifo_packet_size fe = 0)
              sensors := some 0 }).1,
          (i2c_read T s reg.fifo_r_w (fifo_packet_size fe)).2.2) := by
  unfold read_fifo_packet onFailR i2c_read at h ⊢
  cases hr : (T.read s.bus reg.fifo_r_w (fifo_packet_size fe)).1 with
  | none =>
    exfalso
    apply h
    simp [hr]
  | some l =>
    refine ⟨l, rfl, ?_⟩
    simp [hr, hfe]

theorem LogExt.mono {P Q : Ev → Prop} {s s1 : St W} (h : LogExt P s s1)
    (hPQ : ∀ e, P e → Q e) : LogExt Q s s1 := by
  obtain ⟨evs, h1, h2⟩ := h
  exact ⟨evs, h1, fun e he => hPQ e (h2 e he)⟩

theorem LogExt.read {P : Ev → Prop} (T : Platform W) (s : St W) (r len : Nat)
    (h : ∀ ok, P (Ev.read r len ok)) : LogExt P s (i2c_read T s r len).2.2 :=
  ⟨[Ev.read r len (T.read s.bus r len).1.isSome], rfl, by simpa using h _⟩

/-- The paths through `mpu_read_fifo`: a property holds of its result as soon as it holds
of every result that leaves `more` unwritten after transport calls other than reads of
the FIFO data register and with the cache unchanged, and of the result of the packet-reading tail started in any
state with the same cache reached by such calls. -/
theorem mpu_read_fifo_cases (T : Platform W) (s : St W) (P : Int × fifo_out × St W → Prop)
    (h1 : ∀ r : Int × fifo_out × St W, r.2.1.more = none → r.2.2.cfg = s.cfg →
      LogExt (fun e => ∀ n ok, e ≠ Ev.read reg.fifo_r_w n ok) s r.2.2 → P r)
    (h2 : ∀ (s2 : St W) (data : List Nat) (count : Nat), s2.cfg = s.cfg →
      LogExt (fun e => ∀ n ok, e ≠ Ev.read reg.fifo_r_w n ok) s s2 →
      P (read_fifo_packet T s2 data (fifo_packet_size s.cfg.fifo_enable) count
        { fifo_out.untouched with sensors := some 0 })) :
    P (mpu_read_fifo T s) := by
  have R1 : ∀ (s1 : St W) r len, r ≠ reg.fifo_r_w →
      LogExt (fun e => ∀ n ok, e ≠ Ev.read reg.fifo_r_w n ok) s s1 →
      LogExt (fun e => ∀ n ok, e ≠ Ev.read reg.fifo_r_w n ok) s (i2c_read T s1 r len).2.2 :=
    fun s1 r len hr h => h.trans (LogExt.read T s1 r len (fun _ _ _ he => hr (by cases he; rfl)))
  unfold mpu_read_fifo
  dsimp only
  split_ifs
  · exact h1 _ rfl rfl (LogExt.refl _ s)
  · exact h1 _ rfl rfl (LogExt.refl _ s)
  · exact h1 _ rfl rfl (LogExt.refl _ s)
  · refine onFailR_rule P _ _ _ (fun _ => h1 _ rfl rfl (R1 _ _ _ (by decide) (LogExt.refl _ s)))
      (fun _ => ?_)
    split_ifs
    · exact h1 _ rfl rfl (R1 _ _ _ (by decide) (LogExt.refl _ s))
    · refine onFailR_rule P _ _ _
        (fun _ => h1 _ rfl rfl (R1 _ _ _ (by decide) (R1 _ _ _ (by decide) (LogExt.refl _ s))))
        (fun _ => ?_)
      split_ifs
      · refine h1 _ rfl (mpu_reset_fifo_cfg T _) ?_
        exact (R1 _ _ _ (by decide) (R1 _ _ _ (by decide) (LogExt.refl _ s))).trans
          ((mpu_reset_fifo_log T _).mono (fun e he n ok h => by rw [h] at he; cases he))
      · exact h2 _ _ _ rfl (R1 _ _ _ (by decide) (R1 _ _ _ (by decide) (LogExt.refl _ s)))
    · exact h2 _ _ _ rfl (R1 _ _ _ (by decide) (LogExt.refl _ s))

/-- C5: when `mpu_read_fifo` reads a packet (it stores `more`), the read of
`packet_size` bytes from the FIFO data register succeeded, the status is 0, and with
`pkt` the bytes read the outputs are: accel from the words at bytes 0, 2, 4 exactly when
the accel bit is in `fifo_enable`; then gyro X, gyro Y, gyro Z, one word each, each
written exactly when its own bit is in `fifo_enable`, at the byte offset that follows
the fields present before it; the offsets end at the packet size; and the sensor mask
is `fifo_enable` restricted to the gyro X/Y/Z and accel bits. Words are big-endian
16-bit values read as `short`. -/
theorem mpu_read_fifo_decodes (T : Platform W) (s : St W)
    (h : (mpu_read_fifo T s).2.1.more ≠ none) :
    ∃ (s2 : St W) (l : List Nat),
      (T.read s2.bus reg.fifo_r_w (fifo_packet_size s.cfg.fifo_enable)).1 = some l ∧
      (mpu_read_fifo T s).2.2 =
        (i2c_read T s2 reg.fifo_r_w (fifo_packet_size s.cfg.fifo_enable)).2.2 ∧
      (mpu_read_fifo T s).1 = 0 ∧
      (mpu_read_fifo T s).2.1.accel0 = (if s.cfg.fifo_enable &&& INV_XYZ_ACCEL ≠ 0
        then some (shortAt (readBytes l (fifo_packet_size s.cfg.fifo_enable)) 0) else none) ∧
      (mpu_read_fifo T s).2.1.accel1 = (if s.cfg.fifo_enable &&& INV_XYZ_ACCEL ≠ 0
        then some (shortAt (readBytes l (fifo_packet_size s.cfg.fifo_enable)) 2) else none) ∧
      (mpu_read_fifo T s).2.1.accel2 = (if s.cfg.fifo_enable &&& INV_XYZ_ACCEL ≠ 0
        then some (shortAt (readBytes l (fifo_packet_size s.cfg.fifo_enable)) 4) else none) ∧
      (mpu_read_fifo T s).2.1.gyro0 = (if s.cfg.fifo_enable &&& INV_X_GYRO ≠ 0
        then some (shortAt (readBytes l (fifo_packet_size s.cfg.fifo_enable))
          (if s.cfg.fifo_enable &&& INV_XYZ_ACCEL ≠ 0 then 6 else 0)) else none) ∧
      (mpu_read_fifo T s).2.1.gyro1 = (if s.cfg.fifo_enable &&& INV_Y_GYRO ≠ 0
        then some (shortAt (readBytes l (fifo_packet_size s.cfg.fifo_enable))
          ((if s.cfg.fifo_enable &&& INV_XYZ_ACCEL ≠ 0 then 6 else 0) +
            (if s.cfg.fifo_enable &&& INV_X_GYRO ≠ 0 then 2 else 0))) else none) ∧
      (mpu_read_fifo T s).2.1.gyro2 = (if s.cfg.fifo_enable &&& INV_Z_GYRO ≠ 0
        then some (shortAt (readBytes l (fifo_packet_size s.cfg.fifo_enable))
          ((if s.cfg.fifo_enable &&& INV_XYZ_ACCEL ≠ 0 then 6 else 0) +
            (if s.cfg.fifo_enable &&& INV_X_GYRO ≠ 0 then 2 else 0) +
            (if s.cfg.fifo_enable &&& INV_Y_GYRO ≠ 0 then 2 else 0))) else none) ∧
      (if s.cfg.fifo_enable &&& INV_XYZ_ACCEL ≠ 0 then 6 else 0) +
          (if s.cfg.fifo_enable &&& INV_X_GYRO ≠ 0 then 2 else 0) +
          (if s.cfg.fifo_enable &&& INV_Y_GYRO ≠ 0 then 2 else 0) +
          (if s.cfg.fifo_enable &&& INV_Z_GYRO ≠ 0 then 2 else 0) =
        fifo_packet_size s.cfg.fifo_enable ∧
      (mpu_read_fifo T s).2.1.sensors =
        some (s.cfg.fifo_enable &&& (INV_XYZ_GYRO ||| INV_XYZ_ACCEL)) := by
  revert h
  refine mpu_read_fifo_cases T s (fun r => r.2.1.more ≠ none → ∃ (s2 : St W) (l : List Nat),
      (T.read s2.bus reg.fifo_r_w (fifo_packet_size s.cfg.fifo_enable)).1 = some l ∧
      r.2.2 = (i2c_read T s2 reg.fifo_r_w (fifo_packet_size s.cfg.fifo_enable)).2.2 ∧
      r.1 = 0 ∧
      r.2.1.accel0 = (if s.cfg.fifo_enable &&& INV_XYZ_ACCEL ≠ 0
        then some (shortAt (readBytes l (fifo_packet_size s.cfg.fifo_enable)) 0) else none) ∧
      r.2.1.accel1 = (if s.cfg.fifo_enable &&& INV_XYZ_ACCEL ≠ 0
        then some (shortAt (readBytes l (fifo_packet_size s.cfg.fifo_enable)) 2) else none) ∧
      r.2.1.accel2 = (if s.cfg.fifo_enable &&& INV_XYZ_ACCEL ≠ 0
        then some (shortAt (readBytes l (fifo_packet_size s.cfg.fifo_enable)) 4) else none) ∧
      r.2.1.gyro0 = (if s.cfg.fifo_enable &&& INV_X_GYRO ≠ 0
        then some (shortAt (readBytes l (fifo_packet_size s.cfg.fifo_enable))
          (if s.cfg.fifo_enable &&& INV_XYZ_ACCEL ≠ 0 then 6 else 0)) else none) ∧
      r.2.1.gyro1 = (if s.cfg.fifo_enable &&& INV_Y_GYRO ≠ 0
        then some (shortAt (readBytes l (fifo_packet_size s.cfg.fifo_enable))
          ((if s.cfg.fifo_enable &&& INV_XYZ_ACCEL ≠ 0 then 6 else 0) +
            (if s.cfg.fifo_enable &&& INV_X_GYRO ≠ 0 then 2 else 0))) else none) ∧
      r.2.1.gyro2 = (if s.cfg.fifo_enable &&& INV_Z_GYRO ≠ 0
        then some (shortAt (readBytes l (fifo_packet_size s.cfg.fifo_enable))
          ((if s.cfg.fifo_enable &&& INV_XYZ_ACCEL ≠ 0 then 6 else 0) +
            (if s.cfg.fifo_enable &&& INV_X_GYRO ≠ 0 then 2 else 0) +
            (if s.cfg.fifo_enable &&& INV_Y_GYRO ≠ 0 then 2 else 0))) else none) ∧
      (if s.cfg.fifo_enable &&& INV_XYZ_ACCEL ≠ 0 then 6 else 0) +
          (if s.cfg.fifo_enable &&& INV_X_GYRO ≠ 0 then 2 else 0) +
          (if s.cfg.fifo_enable &&& INV_Y_GYRO ≠ 0 then 2 else 0) +
          (if s.cfg.fifo_enable &&& INV_Z_GYRO ≠ 0 then 2 else 0) =
        fifo_packet_size s.cfg.fifo_enable ∧
      r.2.1.sensors = some (s.cfg.fifo_enable &&& (INV_XYZ_GYRO ||| INV_XYZ_ACCEL)))
    (fun r hr _ _ h => absurd hr h) ?_
  intro s2 data count hcfg _ hm
  obtain ⟨l, hl, he⟩ := read_fifo_packet_decodes T s2 data s.cfg.fifo_enable count _
    (congrArg (fun c => c.fifo_enable) hcfg) hm
  rw [he, fifo_decode_layout _ _ _ _ (readBytes_length _ _) rfl]
  refine ⟨s2, l, hl, rfl, rfl, rfl, rfl, rfl, rfl, rfl, rfl, ?_, rfl⟩
  rw [fifo_packet_size_eq]
  omega

/-- Witness for C5 on a transport whose FIFO holds the bytes 1, 2, 3, ...: with gyro and
accel streamed, the packet is 12 bytes, accel is decoded from bytes 0..5 and the gyro
axes from bytes 6..11. -/
theorem mpu_read_fifo_decodes_witness :
    (mpu_read_fifo pkBus stFifo).2.1.more ≠ none ∧
    (mpu_read_fifo pkBus stFifo).1 = 0 ∧
    (mpu_read_fifo pkBus stFifo).2.1.accel0 = some 0x0102 ∧
    (mpu_read_fifo pkBus stFifo).2.1.accel2 = some 0x0506 ∧
    (mpu_read_fifo pkBus stFifo).2.1.gyro0 = some 0x0708 ∧
    (mpu_read_fifo pkBus stFifo).2.1.gyro2 = some 0x0B0C ∧
    (mpu_read_fifo pkBus stFifo).2.1.sensors = some 0x78 :=
  ⟨by decide,
    (mpu_read_fifo_decodes pkBus stFifo (by decide)).elim
      (fun _ h2 => h2.elim (fun _ hl => hl.2.2.1)),
    by decide, by decide, by decide, by decide, by decide⟩

/-- The loop of `mpu_reg_dump` changes no cache field. -/
theorem reg_dump_loop_cfg (T : Platform W) (l : List Nat) (s : St W) :
    (reg_dump_loop T l s).2.cfg = s.cfg := by
  induction l generalizing s with
  | nil => rfl
  | cons ii rest ih =>
    unfold reg_dump_loop
    split_ifs
    · exact ih s
    · exact onFailR_inv (fun s' => s'.cfg = s.cfg) _ _ _ rfl (fun _ h => h)
        (fun _ s1 h1 => (ih s1).trans h1)

/-- `mpu_reg_dump` changes no cache field. -/
theorem mpu_reg_dump_cfg (T : Platform W) (s : St W) : (mpu_reg_dump T s).2.cfg = s.cfg :=
  reg_dump_loop_cfg T _ s

/-- `mpu_read_reg` changes no cache field. -/
theorem mpu_read_reg_cfg (T : Platform W) (s : St W) (r : Nat) :
    (mpu_read_reg T s r).2.2.cfg = s.cfg := by
  unfold mpu_read_reg
  split_ifs
  · rfl
  · rfl
  · exact onFailR_inv3 (fun s' => s'.cfg = s.cfg) _ _ _ rfl (fun _ h => h) (fun _ _ h => h)

/-- `mpu_get_gyro_reg` changes no cache field. -/
theorem mpu_get_gyro_reg_cfg (T : Platform W) (s : St W) :
    (mpu_get_gyro_reg T s).2.2.cfg = s.cfg := by
  unfold mpu_get_gyro_reg
  split_ifs
  all_goals first
    | rfl
    | exact onFailR_inv3 (fun s' => s'.cfg = s.cfg) _ _ _ rfl (fun _ h => h) (fun _ _ h => h)

/-- `mpu_get_accel_reg` changes no cache field. -/
theorem mpu_get_accel_reg_cfg (T : Platform W) (s : St W) :
    (mpu_get_accel_reg T s).2.2.cfg = s.cfg := by
  unfold mpu_get_accel_reg
  split_ifs
  all_goals first
    | rfl
    | exact onFailR_inv3 (fun s' => s'.cfg = s.cfg) _ _ _ rfl (fun _ h => h) (fun _ _ h => h)

/-- `mpu_get_temperature` changes no cache field. -/
theorem mpu_get_temperature_cfg (T : Platform W) (s : St W) :
    (mpu_get_temperature T s).2.2.cfg = s.cfg := by
  unfold mpu_get_temperature
  split_ifs
  all_goals first
    | rfl
    | exact onFailR_inv3 (fun s' => s'.cfg = s.cfg) _ _ _ rfl (fun _ h => h) (fun _ _ h => h)

/-- `mpu_get_int_status` changes no cache field. -/
theorem mpu_get_int_status_cfg (T : Platform W) (s : St W) :
    (mpu_get_int_status T s).2.2.cfg = s.cfg := by
  unfold mpu_get_int_status
  split_ifs
  all_goals first
    | rfl
    | exact onFailR_inv3 (fun s' => s'.cfg = s.cfg) _ _ _ rfl (fun _ h => h) (fun _ _ h => h)

/-- The bias reads change no cache field. -/
theorem read_bias_cfg (T : Platform W) (s : St W) (r0 r1 r2 : Nat) :
    (read_bias T s r0 r1 r2).2.2.cfg = s.cfg := by
  unfold read_bias
  refine onFailR_inv3 (fun s' => s'.cfg = s.cfg) _ _ _ rfl (fun _ h => h) (fun _ s1 h1 => ?_)
  refine onFailR_inv3 (fun s' => s'.cfg = s.cfg) _ _ _ h1 (fun _ h => h) (fun _ s2 h2 => ?_)
  exact onFailR_inv3 (fun s' => s'.cfg = s.cfg) _ _ _ h2 (fun _ h => h) (fun _ _ h => h)

/-- The bias writes change no cache field. -/
theorem write_bias_cfg (T : Platform W) (s : St W) (r0 r1 r2 : Nat) (v : Int × Int × Int) :
    (write_bias T s r0 r1 r2 v).2.cfg = s.cfg := by
  unfold write_bias
  refine onFail_inv (fun s' => s'.cfg = s.cfg) _ _ _ rfl (fun _ h => h) (fun s1 h1 => ?_)
  refine onFail_inv (fun s' => s'.cfg = s.cfg) _ _ _ h1 (fun _ h => h) (fun s2 h2 => ?_)
  exact onFail_inv (fun s' => s'.cfg = s.cfg) _ _ _ h2 (fun _ h => h) (fun _ h => h)

/-- `mpu_set_gyro_bias_reg` changes no cache field. -/
theorem mpu_set_gyro_bias_reg_cfg (T : Platform W) (s : St W) (b : Int × Int × Int) :
    (mpu_set_gyro_bias_reg T s b).2.cfg = s.cfg := by
  unfold mpu_set_gyro_bias_reg mpu_read_gyro_bias
  dsimp only
  cases (read_bias T s 0x13 0x15 0x17).2.1 with
  | none => exact read_bias_cfg T s _ _ _
  | some g => exact (write_bias_cfg T _ _ _ _ _).trans (read_bias_cfg T s _ _ _)

/-- `mpu_set_accel_bias_6050_reg` changes no cache field. -/
theorem mpu_set_accel_bias_6050_reg_cfg (T : Platform W) (s : St W) (b : Int × Int × Int) :
    (mpu_set_accel_bias_6050_reg T s b).2.cfg = s.cfg := by
  unfold mpu_set_accel_bias_6050_reg mpu_read_6050_accel_bias
  dsimp only
  cases (read_bias T s 0x06 0x08 0x0A).2.1 with
  | none => exact read_bias_cfg T s _ _ _
  | some g => exact (write_bias_cfg T _ _ _ _ _).trans (read_bias_cfg T s _ _ _)

/-- `mpu_set_accel_bias_6500_reg` changes no cache field. -/
theorem mpu_set_accel_bias_6500_reg_cfg (T : Platform W) (s : St W) (b : Int × Int × Int) :
    (mpu_set_accel_bias_6500_reg T s b).2.cfg = s.cfg := by
  unfold mpu_set_accel_bias_6500_reg mpu_read_6500_accel_bias
  dsimp only
  cases (read_bias T s 0x77 0x7A 0x7D).2.1 with
  | none => exact read_bias_cfg T s _ _ _
  | some g => exact (write_bias_cfg T _ _ _ _ _).trans (read_bias_cfg T s _ _ _)

/-- `mpu_read_fifo` changes no cache field. -/
theorem mpu_read_fifo_cfg (T : Platform W) (s : St W) : (mpu_read_fifo T s).2.2.cfg = s.cfg := by
  refine mpu_read_fifo_cases T s (fun r => r.2.2.cfg = s.cfg) ?_ ?_
  · intro r _ h _
    exact h
  · intro s2 data count hcfg _
    unfold read_fifo_packet
    exact onFailR_inv3 (fun s' => s'.cfg = s.cfg) _ _ _ hcfg (fun _ h => h) (fun _ _ h => h)

/-- `mpu_read_fifo_stream` changes no cache field. -/
theorem mpu_read_fifo_stream_cfg (T : Platform W) (s : St W) (length : Nat) :
    (mpu_read_fifo_stream T s length).2.2.cfg = s.cfg := by
  have tail : ∀ (s2 : St W) c, s2.cfg = s.cfg →
      (read_stream_packet T s2 length c).2.2.cfg = s.cfg := by
    intro s2 c h2
    unfold read_stream_packet
    exact onFailR_inv3 (fun s' => s'.cfg = s.cfg) _ _ _ h2 (fun _ h => h) (fun _ _ h => h)
  unfold mpu_read_fifo_stream
  dsimp only
  split_ifs
  · rfl
  · rfl
  · refine onFailR_inv3 (fun s' => s'.cfg = s.cfg) _ _ _ rfl (fun _ h => h) (fun _ s1 h1 => ?_)
    dsimp only
    split_ifs
    · exact h1
    · refine onFailR_inv3 (fun s' => s'.cfg = s.cfg) _ _ _ h1 (fun _ h => h)
        (fun _ s2 h2 => ?_)
      dsimp only
      split_ifs
      · exact (mpu_reset_fifo_cfg T s2).trans h2
      · exact tail s2 _ h2
    · exact tail s1 _ h1

/-- `mpu_write_mem` changes no cache field. -/
theorem mpu_write_mem_cfg (T : Platform W) (s : St W) (a n : Nat) (d : Option (List Nat)) :
    (mpu_write_mem T s a n d).2.cfg = s.cfg := by
  unfold mpu_write_mem
  cases d with
  | none => rfl
  | some bytes =>
    dsimp only
    split_ifs
    · rfl
    · rfl
    · refine onFail_inv (fun s' => s'.cfg = s.cfg) _ _ _ rfl (fun _ h => h) (fun s1 h1 => ?_)
      exact onFail_inv (fun s' => s'.cfg = s.cfg) _ _ _ h1 (fun _ h => h) (fun _ h => h)

/-- `mpu_read_mem` changes no cache field. -/
theorem mpu_read_mem_cfg (T : Platform W) (s : St W) (a n : Nat) (b : Bool) :
    (mpu_read_mem T s a n b).2.2.cfg = s.cfg := by
  unfold mpu_read_mem
  dsimp only
  split_ifs
  · rfl
  · rfl
  · rfl
  · refine onFail_inv3 (fun s' => s'.cfg = s.cfg) _ _ _ rfl (fun _ h => h) (fun s1 h1 => ?_)
    exact onFailR_inv3 (fun s' => s'.cfg = s.cfg) _ _ _ h1 (fun _ h => h) (fun _ _ h => h)

/-! ## Observables no configuration operation changes -/

/-- `mpu_lp_accel_mode` keeps every observable that ignores the configuration fields. -/
theorem mpu_lp_accel_mode_keep {β : Type} (π : chip_cfg_s → β) (hπ : IgnoresConfig π)
    (T : Platform W) (s : St W) (rate : Nat) :
    π (mpu_lp_accel_mode T s rate).2.cfg = π s.cfg := by
  unfold mpu_lp_accel_mode
  split_ifs
  · dsimp only
    exact onFail_inv (fun s' => π s'.cfg = π s.cfg) _ _ _
      (mpu_set_int_latched_keep π hπ.latched_int T s 0) (fun _ h => h)
      (fun s2 h2 => (hπ.lp_accel_mode s2.cfg _).trans h2)
  · dsimp only
    refine onFail_inv (fun s' => π s'.cfg = π s.cfg) _ _ _
      ((mpu_set_lpf_keep π hπ.lpf T _ _).trans (mpu_set_int_latched_keep π hπ.latched_int T s 1))
      (fun _ h => h) (fun s3 h3 => ?_)
    refine (mpu_configure_fifo_keep π hπ.fifo_enable hπ.int_enable T _ 0).trans ?_
    exact (hπ.lp_accel_mode { s3.cfg with sensors := INV_XYZ_ACCEL, clk_src := 0 } 1).trans
      ((hπ.clk_src { s3.cfg with sensors := INV_XYZ_ACCEL } 0).trans
        ((hπ.sensors s3.cfg INV_XYZ_ACCEL).trans h3))

/-- `mpu_set_sample_rate` keeps every observable that ignores the configuration fields. -/
theorem mpu_set_sample_rate_keep {β : Type} (π : chip_cfg_s → β) (hπ : IgnoresConfig π)
    (T : Platform W) (s : St W) (rate : Nat) :
    π (mpu_set_sample_rate T s rate).2.cfg = π s.cfg := by
  unfold mpu_set_sample_rate
  dsimp only
  split_ifs
  all_goals first
    | rfl
    | exact mpu_lp_accel_mode_keep π hπ T s rate
    | exact onFail_inv (fun s' => π s'.cfg = π s.cfg) _ _ _
        (mpu_lp_accel_mode_keep π hπ T s 0) (fun _ h => h)
        (fun s1 h1 => (mpu_set_lpf_keep π hπ.lpf T _ _).trans
          ((hπ.sample_rate s1.cfg _).trans h1))
    | exact onFail_inv (fun s' => π s'.cfg = π s.cfg) _ _ _ rfl (fun _ h => h)
        (fun s1 h1 => (mpu_set_lpf_keep π hπ.lpf T _ _).trans
          ((hπ.sample_rate s1.cfg _).trans h1))

/-- `mpu_set_dmp_state` keeps every observable that ignores the configuration fields. -/
theorem mpu_set_dmp_state_keep {β : Type} (π : chip_cfg_s → β) (hπ : IgnoresConfig π)
    (T : Platform W) (s : St W) (enable : Nat) :
    π (mpu_set_dmp_state T s enable).2.cfg = π s.cfg := by
  unfold mpu_set_dmp_state
  split_ifs
  · rfl
  · rfl
  · dsimp only
    have h3 : π (mpu_set_sample_rate T (mpu_set_bypass T (set_int_enable T s 0).2 0).2
        (mpu_set_bypass T (set_int_enable T s 0).2 0).2.cfg.dmp_sample_rate).2.cfg = π s.cfg :=
      (mpu_set_sample_rate_keep π hπ T _ _).trans
        ((mpu_set_bypass_keep π hπ.bypass_mode T _ 0).trans
          (set_int_enable_keep π hπ.int_enable T s 0))
    refine onFail_inv (fun s' => π s'.cfg = π s.cfg) _ _ _ h3 (fun _ h => h) (fun s4 h4 => ?_)
    exact (congrArg π (mpu_reset_fifo_cfg T _)).trans
      ((set_int_enable_keep π hπ.int_enable T _ 1).trans ((hπ.dmp_on s4.cfg 1).trans h4))
  · dsimp only
    refine onFail_inv (fun s' => π s'.cfg = π s.cfg) _ _ _
      (set_int_enable_keep π hπ.int_enable T s 0) (fun _ h => h) (fun s2 h2 => ?_)
    exact (congrArg π (mpu_reset_fifo_cfg T _)).trans ((hπ.dmp_on s2.cfg 0).trans h2)

/-- Every operation other than `mpu_init` and `mpu_load_firmware` keeps every observable
that ignores the configuration fields. -/
theorem applyOp_keep {β : Type} (π : chip_cfg_s → β) (hπ : IgnoresConfig π)
    (T : Platform W) (s s1 : St W) (op : Op) (hi : op.isInit = false)
    (hl : ∀ n f a r, op ≠ Op.load_firmware n f a r) (h : applyOp T s op = some s1) :
    π s1.cfg = π s.cfg := by
  cases op with
  | init => simp [Op.isInit] at hi
  | load_firmware n f a r => exact absurd rfl (hl n f a r)
  | reg_dump =>
    injection h with h; subst h; exact congrArg π (mpu_reg_dump_cfg T s)
  | read_reg r =>
    injection h with h; subst h; exact congrArg π (mpu_read_reg_cfg T s r)
  | lp_accel_mode rate =>
    injection h with h; subst h; exact mpu_lp_accel_mode_keep π hπ T s rate
  | get_gyro_reg =>
    injection h with h; subst h; exact congrArg π (mpu_get_gyro_reg_cfg T s)
  | get_accel_reg =>
    injection h with h; subst h; exact congrArg π (mpu_get_accel_reg_cfg T s)
  | get_temperature =>
    injection h with h; subst h; exact congrArg π (mpu_get_temperature_cfg T s)
  | read_6500_accel_bias =>
    injection h with h; subst h; exact congrArg π (read_bias_cfg T s _ _ _)
  | read_6050_accel_bias =>
    injection h with h; subst h; exact congrArg π (read_bias_cfg T s _ _ _)
  | read_gyro_bias =>
    injection h with h; subst h; exact congrArg π (read_bias_cfg T s _ _ _)
  | set_gyro_bias_reg b =>
    injection h with h; subst h; exact congrArg π (mpu_set_gyro_bias_reg_cfg T s b)
  | set_accel_bias_6050_reg b =>
    injection h with h; subst h; exact congrArg π (mpu_set_accel_bias_6050_reg_cfg T s b)
  | set_accel_bias_6500_reg b =>
    injection h with h; subst h; exact congrArg π (mpu_set_accel_bias_6500_reg_cfg T s b)
  | reset_fifo =>
    injection h with h; subst h; exact congrArg π (mpu_reset_fifo_cfg T s)
  | set_gyro_fsr fsr =>
    injection h with h; subst h; exact mpu_set_gyro_fsr_keep π hπ.gyro_fsr T s fsr
  | set_accel_fsr fsr =>
    injection h with h; subst h; exact mpu_set_accel_fsr_keep π hπ.accel_fsr T s fsr
  | set_lpf lpf =>
    injection h with h; subst h; exact mpu_set_lpf_keep π hπ.lpf T s lpf
  | set_sample_rate rate =>
    injection h with h; subst h; exact mpu_set_sample_rate_keep π hπ T s rate
  | set_compass_sample_rate rate =>
    injection h with h; subst h; rfl
  | configure_fifo m =>
    injection h with h; subst h
    exact mpu_configure_fifo_keep π hπ.fifo_enable hπ.int_enable T s m
  | set_sensors m =>
    injection h with h; subst h
    exact mpu_set_sensors_keep π hπ.sensors hπ.clk_src hπ.latched_int hπ.lp_accel_mode T s m
  | get_int_status =>
    injection h with h; subst h; exact congrArg π (mpu_get_int_status_cfg T s)
  | read_fifo =>
    injection h with h; subst h; exact congrArg π (mpu_read_fifo_cfg T s)
  | read_fifo_stream n =>
    injection h with h; subst h; exact congrArg π (mpu_read_fifo_stream_cfg T s n)
  | set_bypass b =>
    injection h with h; subst h; exact mpu_set_bypass_keep π hπ.bypass_mode T s b
  | set_int_level a =>
    injection h with h; subst h; exact hπ.active_low_int s.cfg a
  | set_int_latched e =>
    injection h with h; subst h; exact mpu_set_int_latched_keep π hπ.latched_int T s e
  | write_mem a n d =>
    injection h with h; subst h; exact congrArg π (mpu_write_mem_cfg T s a n d)
  | read_mem a n b =>
    injection h with h; subst h; exact congrArg π (mpu_read_mem_cfg T s a n b)
  | set_dmp_state e =>
    injection h with h; subst h; exact mpu_set_dmp_state_keep π hπ T s e

/-! ## DMP one-shot load -/

/-- The observable `dmp_loaded` ignores the configuration fields. -/
theorem ignoresConfig_dmp_loaded : IgnoresConfig (fun c : chip_cfg_s => c.dmp_loaded) :=
  ⟨fun _ _ => rfl, fun _ _ => rfl, fun _ _ => rfl, fun _ _ => rfl, fun _ _ => rfl,
    fun _ _ => rfl, fun _ _ => rfl, fun _ _ => rfl, fun _ _ => rfl, fun _ _ => rfl,
    fun _ _ => rfl, fun _ _ => rfl, fun _ _ => rfl⟩

/-- Once the DMP is marked loaded, `mpu_load_firmware` returns -1 at once: same state,
hence no transport call and no cache change. -/
theorem mpu_load_firmware_loaded (T : Platform W) (s : St W) (length : Nat)
    (firmware : Option (List Nat)) (start_addr sample_rate : Nat)
    (h : s.cfg.dmp_loaded ≠ 0) :
    mpu_load_firmware T s length firmware start_addr sample_rate = some (-1, s) := by
  unfold mpu_load_firmware
  rw [if_pos h]

/-- The chunk loop changes no cache field. -/
theorem load_loop_cfg (T : Platform W) (length : Nat) (fw : List Nat) (fuel ii : Nat) (s : St W)
    (r : Int × St W) (h : load_loop T length fw fuel ii s = some r) : r.2.cfg = s.cfg := by
  induction fuel generalizing ii s with
  | zero =>
    unfold load_loop at h
    split_ifs at h
    injection h with h
    subst h
    rfl
  | succ fuel ih =>
    unfold load_loop at h
    split_ifs at h with hlt
    · revert h
      dsimp only
      refine onErr_rule (fun x : Option (Int × St W) => x = some r → r.2.cfg = s.cfg) _ _ _
        (fun _ h => ?_) (fun _ => ?_)
      · injection h with h
        subst h
        exact mpu_write_mem_cfg T s _ _ _
      · split_ifs
        · intro h
          injection h with h
          subst h
          exact (mpu_read_mem_cfg T _ _ _ _).trans (mpu_write_mem_cfg T s _ _ _)
        · intro h
          injection h with h
          subst h
          exact (mpu_read_mem_cfg T _ _ _ _).trans (mpu_write_mem_cfg T s _ _ _)
        · intro h
          exact (ih _ _ h).trans
            ((mpu_read_mem_cfg T _ _ _ _).trans (mpu_write_mem_cfg T s _ _ _))
    · injection h with h
      subst h
      rfl

/-- What `mpu_load_firmware` does to `dmp_loaded`: a call that returns 0 leaves it 1; any
other call leaves it as it was. -/
theorem mpu_load_firmware_dmp_loaded (T : Platform W) (s : St W) (length : Nat)
    (firmware : Option (List Nat)) (start_addr sample_rate : Nat) (r : Int × St W)
    (h : mpu_load_firmware T s length firmware start_addr sample_rate = some r) :
    (r.1 = 0 → r.2.cfg.dmp_loaded = 1) ∧ (r.1 ≠ 0 → r.2.cfg.dmp_loaded = s.cfg.dmp_loaded) := by
  unfold mpu_load_firmware at h
  split_ifs at h with hl
  · injection h with h
    subst h
    exact ⟨fun h0 => absurd h0 (by simp), fun _ => rfl⟩
  · cases firmware with
    | none =>
      injection h with h
      subst h
      exact ⟨fun h0 => absurd h0 (by simp), fun _ => rfl⟩
    | some fw =>
      dsimp only at h
      cases hloop : load_loop T length fw length 0 s with
      | none => rw [hloop] at h; cases h
      | some r1 =>
        rw [hloop] at h
        dsimp only at h
        have hcfg := load_loop_cfg T length fw length 0 s r1 hloop
        revert h
        refine onErr_rule (fun x : Option (Int × St W) => x = some r →
            (r.1 = 0 → r.2.cfg.dmp_loaded = 1) ∧
            (r.1 ≠ 0 → r.2.cfg.dmp_loaded = s.cfg.dmp_loaded)) _ _ _
          (fun hne h => ?_) (fun _ => ?_)
        · injection h with h
          subst h
          exact ⟨fun h0 => absurd h0 hne, fun _ => congrArg (fun c => c.dmp_loaded) hcfg⟩
        · refine onFail_rule (fun x : Option (Int × St W) => x = some r →
              (r.1 = 0 → r.2.cfg.dmp_loaded = 1) ∧
              (r.1 ≠ 0 → r.2.cfg.dmp_loaded = s.cfg.dmp_loaded)) _ _ _
            (fun _ h => ?_) (fun _ h => ?_)
          · injection h with h
            subst h
            exact ⟨fun h0 => absurd h0 (by simp),
              fun _ => congrArg (fun c => c.dmp_loaded) hcfg⟩
          · injection h with h
            subst h
            exact ⟨fun _ => rfl, fun h0 => absurd rfl h0⟩

/-- No operation other than `mpu_init` changes a non-zero `dmp_loaded`. -/
theorem applyOp_dmp_loaded (T : Platform W) (s s1 : St W) (op : Op) (hi : op.isInit = false)
    (hl : s.cfg.dmp_loaded ≠ 0) (h : applyOp T s op = some s1) :
    s1.cfg.dmp_loaded = s.cfg.dmp_loaded := by
  by_cases hop : ∃ n f a r, op = Op.load_firmware n f a r
  · obtain ⟨n, f, a, r, rfl⟩ := hop
    change Option.map Prod.snd (mpu_load_firmware T s n f a r) = some s1 at h
    rw [mpu_load_firmware_loaded T s n f a r hl] at h
    injection h with h
    subst h
    rfl
  · exact applyOp_keep (fun c => c.dmp_loaded) ignoresConfig_dmp_loaded T s s1 op hi
      (fun n f a r he => hop ⟨n, f, a, r, he⟩) h

/-- No sequence of operations without `mpu_init` changes a non-zero `dmp_loaded`. -/
theorem runOps_dmp_loaded (T : Platform W) (ops : List Op) (s s1 : St W)
    (hi : ∀ op ∈ ops, op.isInit = false) (hl : s.cfg.dmp_loaded ≠ 0)
    (h : runOps T s ops = some s1) : s1.cfg.dmp_loaded = s.cfg.dmp_loaded := by
  induction ops generalizing s with
  | nil =>
    injection h with h
    subst h
    rfl
  | cons op rest ih =>
    unfold runOps at h
    cases hop : applyOp T s op with
    | none => rw [hop] at h; cases h
    | some s2 =>
      rw [hop] at h
      have h2 := applyOp_dmp_loaded T s s2 op (hi op (List.mem_cons_self _ _)) hl hop
      rw [← h2]
      exact ih s2 (fun o ho => hi o (List.mem_cons_of_mem _ ho)) (by rw [h2]; exact hl) h

/-- C7: after one `mpu_load_firmware` call has returned 0, and after any further
sequence of driver operations without `mpu_init` (any arguments, any transport),
`dmp_loaded` is still 1 and every later `mpu_load_firmware` call returns -1 with the
state unchanged: no transport read or write, no cache change. Moreover no single
operation other than `mpu_init` changes a non-zero `dmp_loaded`. -/
theorem mpu_load_firmware_one_shot (T : Platform W) (s s1 s2 : St W) (ops : List Op)
    (length : Nat) (firmware : Option (List Nat)) (start_addr sample_rate : Nat)
    (length2 : Nat) (firmware2 : Option (List Nat)) (start_addr2 sample_rate2 : Nat)
    (hload : mpu_load_firmware T s length firmware start_addr sample_rate = some (0, s1))
    (hops : ∀ op ∈ ops, op.isInit = false) (hrun : runOps T s1 ops = some s2) :
    s2.cfg.dmp_loaded = 1 ∧
    mpu_load_firmware T s2 length2 firmware2 start_addr2 sample_rate2 = some (-1, s2) ∧
    (∀ (op : Op) (s3 : St W), op.isInit = false → applyOp T s2 op = some s3 →
      s3.cfg.dmp_loaded = 1) := by
  have h1 : s1.cfg.dmp_loaded = 1 :=
    (mpu_load_firmware_dmp_loaded T s length firmware start_addr sample_rate (0, s1) hload).1 rfl
  have h2 : s2.cfg.dmp_loaded = 1 :=
    (runOps_dmp_loaded T ops s1 s2 hops (by rw [h1]; decide) hrun).trans h1
  refine ⟨h2, mpu_load_firmware_loaded T s2 _ _ _ _ (by rw [h2]; decide), ?_⟩
  intro op s3 hi h
  exact (applyOp_dmp_loaded T s2 s3 op hi (by rw [h2]; decide) h).trans h2

/-- Witness for C7 on the always-succeeding transport: a two-byte image is loaded, a few
operations follow, and a second load is refused with the state untouched. -/
theorem mpu_load_firmware_one_shot_witness :
    (mpu_load_firmware okBus stAwake 2 (some [0, 0]) 0x400 200 = some (0, stLoaded) ∧
      (∀ op ∈ opsAfterLoad, op.isInit = false) ∧
      runOps okBus stLoaded opsAfterLoad = some stLater) ∧
    stLater.cfg.dmp_loaded = 1 ∧
    mpu_load_firmware okBus stLater 16 (some (List.replicate 16 7)) 0 50 = some (-1, stLater) :=
  ⟨⟨rfl, by decide, rfl⟩,
    (mpu_load_firmware_one_shot okBus stAwake stLoaded stLater opsAfterLoad 2 (some [0, 0])
      0x400 200 16 (some (List.replicate 16 7)) 0 50 rfl (by decide) rfl).1,
    (mpu_load_firmware_one_shot okBus stAwake stLoaded stLater opsAfterLoad 2 (some [0, 0])
      0x400 200 16 (some (List.replicate 16 7)) 0 50 rfl (by decide) rfl).2.1⟩

/-! ## DMP memory banks -/

/-- The low byte of an address. -/
theorem and_255_eq_mod (x : Nat) : x &&& 0xFF = x % 256 :=
  Nat.and_pow_two_sub_one_eq_mod x 8

/-- A bank-crossing transfer whose end offset does not wrap in `unsigned int` is refused
by `mpu_write_mem` and `mpu_read_mem` with the state untouched: no transport call, not
even the bank-select write. This covers every 16-bit length when `unsigned int` has more
than 16 bits, and lengths up to 65280 when it has 16. -/
theorem mem_bank_crossing_refused (T : Platform W) (s : St W) (mem_addr length : Nat)
    (data : Option (List Nat)) (data_null : Bool)
    (hgt : mem_addr % 256 + length > 256)
    (hno : mem_addr % 256 + length < 2 ^ T.uint_bits) :
    mpu_write_mem T s mem_addr length data = (-1, s) ∧
    mpu_read_mem T s mem_addr length data_null = (-1, none, s) := by
  have hchk : ((mem_addr &&& 0xFF) + length) % 2 ^ T.uint_bits > hw.bank_size := by
    rw [and_255_eq_mod, Nat.mod_eq_of_lt hno]
    exact hgt
  constructor
  · unfold mpu_write_mem
    cases data with
    | none => rfl
    | some bytes =>
      dsimp only
      split_ifs
      · rfl
      · rfl
  · unfold mpu_read_mem
    dsimp only
    split_ifs
    · rfl
    · rfl
    · rfl

/-- A transfer that stays inside its bank, with a sensor awake and a non-null buffer,
starts with the write of the two bytes `[mem_addr / 256 % 256, mem_addr % 256]` to the
bank-select register; the data transfer, if any, follows it. -/
theorem mem_bank_select_first (T : Platform W) (s : St W) (mem_addr length : Nat)
    (bytes : List Nat) (hs : s.cfg.sensors ≠ 0) (hle : mem_addr % 256 + length ≤ 256) :
    (∃ ok rest, (mpu_write_mem T s mem_addr length (some bytes)).2.log =
        s.log ++ Ev.write reg.bank_sel [mem_addr / 256 % 256, mem_addr % 256] ok :: rest ∧
        (rest = [] ∨ ∃ ok2, rest = [Ev.write reg.mem_r_w (bytes.take length) ok2])) ∧
    (∃ ok rest, (mpu_read_mem T s mem_addr length false).2.2.log =
        s.log ++ Ev.write reg.bank_sel [mem_addr / 256 % 256, mem_addr % 256] ok :: rest ∧
        (rest = [] ∨ ∃ ok2, rest = [Ev.read reg.mem_r_w length ok2])) := by
  have hlt : mem_addr % 256 + length < 2 ^ T.uint_bits :=
    calc mem_addr % 256 + length < 2 ^ 16 := by omega
      _ ≤ 2 ^ T.uint_bits := Nat.pow_le_pow_right (by norm_num) T.uint_bits_ge
  have hchk : ¬ ((mem_addr &&& 0xFF) + length) % 2 ^ T.uint_bits > hw.bank_size := by
    rw [and_255_eq_mod, Nat.mod_eq_of_lt hlt]
    exact not_lt.mpr hle
  have hhi : (mem_addr >>> 8) % 256 = mem_addr / 256 % 256 := by
    rw [Nat.shiftRight_eq_div_pow]
  constructor
  · unfold mpu_write_mem
    dsimp only
    rw [if_neg hs, if_neg hchk, hhi, and_255_eq_mod]
    refine onFail_rule (fun r : Int × St W => ∃ ok rest, r.2.log =
        s.log ++ Ev.write reg.bank_sel [mem_addr / 256 % 256, mem_addr % 256] ok :: rest ∧
        (rest = [] ∨ ∃ ok2, rest = [Ev.write reg.mem_r_w (bytes.take length) ok2])) _ _ _
      (fun _ => ⟨_, [], rfl, Or.inl rfl⟩) (fun _ => ?_)
    exact onFail_rule (fun r : Int × St W => ∃ ok rest, r.2.log =
        s.log ++ Ev.write reg.bank_sel [mem_addr / 256 % 256, mem_addr % 256] ok :: rest ∧
        (rest = [] ∨ ∃ ok2, rest = [Ev.write reg.mem_r_w (bytes.take length) ok2])) _ _ _
      (fun _ => ⟨_, _, List.append_assoc _ _ _, Or.inr ⟨_, rfl⟩⟩)
      (fun _ => ⟨_, _, List.append_assoc _ _ _, Or.inr ⟨_, rfl⟩⟩)
  · unfold mpu_read_mem
    dsimp only
    rw [if_neg (by simp), if_neg hs, if_neg hchk, hhi, and_255_eq_mod]
    refine onFail_rule (fun r : Int × Option (List Nat) × St W => ∃ ok rest, r.2.2.log =
        s.log ++ Ev.write reg.bank_sel [mem_addr / 256 % 256, mem_addr % 256] ok :: rest ∧
        (rest = [] ∨ ∃ ok2, rest = [Ev.read reg.mem_r_w length ok2])) _ _ _
      (fun _ => ⟨_, [], rfl, Or.inl rfl⟩) (fun _ => ?_)
    exact onFailR_rule (fun r : Int × Option (List Nat) × St W => ∃ ok rest, r.2.2.log =
        s.log ++ Ev.write reg.bank_sel [mem_addr / 256 % 256, mem_addr % 256] ok :: rest ∧
        (rest = [] ∨ ∃ ok2, rest = [Ev.read reg.mem_r_w length ok2])) _ _ _
      (fun _ => ⟨_, _, List.append_assoc _ _ _, Or.inr ⟨_, rfl⟩⟩)
      (fun _ => ⟨_, _, List.append_assoc _ _ _, Or.inr ⟨_, rfl⟩⟩)

/-- C8 fails on the AVR build, where `unsigned int` has 16 bits: the end offset
`0xFF + 0xFFFF` wraps to `0xFE`, the bank-boundary test passes, and `mpu_write_mem`
writes the bank-select register and starts the data transfer although the transfer
crosses the bank; `mpu_read_mem` likewise. -/
theorem mem_bank_check_wraps_on_avr :
    okBus.uint_bits = 16 ∧ 0x00FF % 256 + 0xFFFF > 256 ∧ stAwake.cfg.sensors ≠ 0 ∧
    (∀ bytes : List Nat,
      (mpu_write_mem okBus stAwake 0x00FF 0xFFFF (some bytes)).1 = 0 ∧
      (mpu_write_mem okBus stAwake 0x00FF 0xFFFF (some bytes)).2.log =
        [Ev.write reg.bank_sel [0, 0xFF] true,
          Ev.write reg.mem_r_w (bytes.take 0xFFFF) true]) ∧
    (mpu_read_mem okBus stAwake 0x00FF 0xFFFF false).1 = 0 ∧
    (mpu_read_mem okBus stAwake 0x00FF 0xFFFF false).2.2.log =
      [Ev.write reg.bank_sel [0, 0xFF] true, Ev.read reg.mem_r_w 0xFFFF true] :=
  ⟨rfl, by decide, by decide, fun _ => ⟨rfl, rfl⟩, rfl, rfl⟩

/-! ## Aborted firmware loads -/

/-- The chunk write changes no cache field. -/
theorem chunk_write_cfg (T : Platform W) (length : Nat) (fw : List Nat) (ii : Nat) (s : St W) :
    (chunk_write T length fw ii s).2.cfg = s.cfg :=
  mpu_write_mem_cfg T s _ _ _

/-- The chunk read-back changes no cache field. -/
theorem chunk_read_cfg (T : Platform W) (length : Nat) (fw : List Nat) (ii : Nat) (s : St W) :
    (chunk_read T length fw ii s).2.2.cfg = s.cfg :=
  (mpu_read_mem_cfg T _ _ _ _).trans (chunk_write_cfg T length fw ii s)

/-- Verified chunks change no cache field. -/
theorem ChunksVerified.cfg {T : Platform W} {length : Nat} {fw : List Nat} {ii0 ii : Nat}
    {s0 s : St W} (h : ChunksVerified T length fw ii0 s0 ii s) : s.cfg = s0.cfg := by
  induction h with
  | done => rfl
  | step ii0 s0 ii s _ _ _ _ _ ih => exact ih.trans (chunk_read_cfg T length fw ii0 s0)

/-- The transfers of `mpu_write_mem` are on the bank-select and memory registers. -/
theorem mpu_write_mem_log (T : Platform W) (s : St W) (a n : Nat) (d : Option (List Nat)) :
    LogExt (fun e => e.onReg reg.bank_sel = true ∨ e.onReg reg.mem_r_w = true) s
      (mpu_write_mem T s a n d).2 := by
  unfold mpu_write_mem
  cases d with
  | none => exact LogExt.refl _ s
  | some bytes =>
    dsimp only
    split_ifs
    · exact LogExt.refl _ s
    · exact LogExt.refl _ s
    · refine onFail_inv (fun s' => LogExt _ s s') _ _ _
        (LogExt.write T s _ _ (fun _ => Or.inl rfl)) (fun _ h => h) (fun s1 h1 => ?_)
      exact onFail_inv (fun s' => LogExt _ s s') _ _ _
        (h1.trans (LogExt.write T s1 _ _ (fun _ => Or.inr rfl))) (fun _ h => h) (fun _ h => h)

/-- The transfers of `mpu_read_mem` are on the bank-select and memory registers. -/
theorem mpu_read_mem_log (T : Platform W) (s : St W) (a n : Nat) (b : Bool) :
    LogExt (fun e => e.onReg reg.bank_sel = true ∨ e.onReg reg.mem_r_w = true) s
      (mpu_read_mem T s a n b).2.2 := by
  unfold mpu_read_mem
  dsimp only
  split_ifs
  · exact LogExt.refl _ s
  · exact LogExt.refl _ s
  · exact LogExt.refl _ s
  · refine onFail_inv3 (fun s' => LogExt _ s s') _ _ _
      (LogExt.write T s _ _ (fun _ => Or.inl rfl)) (fun _ h => h) (fun s1 h1 => ?_)
    exact onFailR_inv3 (fun s' => LogExt _ s s') _ _ _
      (h1.trans (LogExt.read T s1 _ _ (fun _ => Or.inr rfl))) (fun _ h => h) (fun _ _ h => h)

/-- The transfers of a chunk write are on the bank-select and memory registers. -/
theorem chunk_write_log (T : Platform W) (length : Nat) (fw : List Nat) (ii : Nat) (s : St W) :
    LogExt (fun e => e.onReg reg.bank_sel = true ∨ e.onReg reg.mem_r_w = true) s
      (chunk_write T length fw ii s).2 :=
  mpu_write_mem_log T s _ _ _

/-- The transfers of a chunk write and read-back are on the bank-select and memory
registers. -/
theorem chunk_read_log (T : Platform W) (length : Nat) (fw : List Nat) (ii : Nat) (s : St W) :
    LogExt (fun e => e.onReg reg.bank_sel = true ∨ e.onReg reg.mem_r_w = true) s
      (chunk_read T length fw ii s).2.2 :=
  (chunk_write_log T length fw ii s).trans (mpu_read_mem_log T _ _ _ _)

/-- The transfers of verified chunks are on the bank-select and memory registers. -/
theorem ChunksVerified.log {T : Platform W} {length : Nat} {fw : List Nat} {ii0 ii : Nat}
    {s0 s : St W} (h : ChunksVerified T length fw ii0 s0 ii s) :
    LogExt (fun e => e.onReg reg.bank_sel = true ∨ e.onReg reg.mem_r_w = true) s0 s := by
  induction h with
  | done => exact LogExt.refl _ _
  | step ii0 s0 ii s _ _ _ _ _ ih => exact (chunk_read_log T length fw ii0 s0).trans ih

/-- A transfer on the bank-select or memory register is not one on the program-start
register. -/
theorem mem_event_not_prgm_start (e : Ev)
    (h : e.onReg reg.bank_sel = true ∨ e.onReg reg.mem_r_w = true) :
    e.onReg reg.prgm_start_h = false := by
  cases e with
  | write r d ok =>
    simp only [Ev.onReg, beq_iff_eq] at h
    rcases h with h | h <;> subst h <;> rfl
  | read r n ok =>
    simp only [Ev.onReg, beq_iff_eq] at h
    rcases h with h | h <;> subst h <;> rfl
  | delay ms => rfl

/-- A chunk inside the image has at least one byte and ends inside the image. -/
theorem chunk_len_bounds (length ii : Nat) (h : ii < length) :
    1 ≤ chunk_len length ii ∧ ii + chunk_len length ii ≤ length ∧ chunk_len length ii ≤ 16 := by
  unfold chunk_len LOAD_CHUNK
  omega

/-- The loop returns 0 without any transfer once the counter has reached the length. -/
theorem load_loop_done (T : Platform W) (length : Nat) (fw : List Nat) (fuel ii : Nat)
    (s : St W) (h : ¬ ii < length) : load_loop T length fw fuel ii s = some (0, s) := by
  cases fuel with
  | zero => rw [load_loop, if_neg h]
  | succ f => rw [load_loop, if_neg h]

/-- One iteration whose chunk write fails returns -2 in the state that write left. -/
theorem load_loop_write_fail (T : Platform W) (length : Nat) (fw : List Nat) (fuel ii : Nat)
    (s : St W) (hlt : ii < length) (hw : (chunk_write T length fw ii s).1 ≠ 0) :
    load_loop T length fw (fuel + 1) ii s = some (-2, (chunk_write T length fw ii s).2) := by
  rw [load_loop, if_pos hlt]
  unfold chunk_write chunk_len at *
  dsimp only
  unfold onErr
  rw [if_pos hw]

/-- One iteration whose read-back fails returns -3 in the state that read left. -/
theorem load_loop_read_fail (T : Platform W) (length : Nat) (fw : List Nat) (fuel ii : Nat)
    (s : St W) (hlt : ii < length) (hw : (chunk_write T length fw ii s).1 = 0)
    (hr : (chunk_read T length fw ii s).1 ≠ 0) :
    load_loop T length fw (fuel + 1) ii s = some (-3, (chunk_read T length fw ii s).2.2) := by
  rw [load_loop, if_pos hlt]
  unfold chunk_read chunk_write chunk_len at *
  dsimp only
  unfold onErr
  rw [if_neg (not_not.mpr hw)]
  dsimp only
  rw [if_pos hr]

/-- One iteration whose read-back differs from the chunk returns -4 in the state that
read left. -/
theorem load_loop_mismatch (T : Platform W) (length : Nat) (fw : List Nat) (fuel ii : Nat)
    (s : St W) (hlt : ii < length) (hw : (chunk_write T length fw ii s).1 = 0)
    (hr : (chunk_read T length fw ii s).1 = 0) (hm : ¬ chunk_same T length fw ii s) :
    load_loop T length fw (fuel + 1) ii s = some (-4, (chunk_read T length fw ii s).2.2) := by
  rw [load_loop, if_pos hlt]
  unfold chunk_same chunk_read chunk_write chunk_len at *
  dsimp only
  unfold onErr
  rw [if_neg (not_not.mpr hw)]
  dsimp only
  rw [if_neg (not_not.mpr hr), if_pos hm]

/-- One iteration whose chunk verifies goes on with the next chunk. -/
theorem load_loop_next (T : Platform W) (length : Nat) (fw : List Nat) (fuel ii : Nat)
    (s : St W) (hlt : ii < length) (hw : (chunk_write T length fw ii s).1 = 0)
    (hr : (chunk_read T length fw ii s).1 = 0) (hm : chunk_same T length fw ii s) :
    load_loop T length fw (fuel + 1) ii s =
      load_loop T length fw fuel ((ii + chunk_len length ii) % 65536)
        (chunk_read T length fw ii s).2.2 := by
  rw [load_loop, if_pos hlt]
  unfold chunk_same chunk_read chunk_write chunk_len at *
  dsimp only
  unfold onErr
  rw [if_neg (not_not.mpr hw)]
  dsimp only
  rw [if_neg (not_not.mpr hr), if_neg (not_not.mpr hm)]

/-- After a verified prefix the loop is where a fresh loop started at the reached counter
and state would be, with enough fuel left for the rest of the image. -/
theorem load_loop_verified {T : Platform W} {length : Nat} {fw : List Nat} {ii0 ii : Nat}
    {s0 s : St W} (hlen : length < 65536) (h : ChunksVerified T length fw ii0 s0 ii s) :
    ∀ fuel, length - ii0 ≤ fuel → ∃ fuel1, length - ii ≤ fuel1 ∧
      load_loop T length fw fuel ii0 s0 = load_loop T length fw fuel1 ii s := by
  induction h with
  | done ii s => exact fun fuel hf => ⟨fuel, hf, rfl⟩
  | step ii0 s0 ii s hlt hw hr hm _ ih =>
    intro fuel hf
    obtain ⟨h1, h2, _⟩ := chunk_len_bounds length ii0 hlt
    cases fuel with
    | zero => omega
    | succ f =>
      rw [load_loop_next T length fw f ii0 s0 hlt hw hr hm]
      have hmod : (ii0 + chunk_len length ii0) % 65536 = ii0 + chunk_len length ii0 :=
        Nat.mod_eq_of_lt (by omega)
      exact ih f (by rw [hmod]; omega)

/-- With no image loaded and a non-null image, `mpu_load_firmware` is the chunk loop
followed, when the loop returns 0, by the program-start write and the two stores. -/
theorem mpu_load_firmware_of_loop (T : Platform W) (s : St W) (length : Nat) (fw : List Nat)
    (start_addr sample_rate : Nat) (hl : s.cfg.dmp_loaded = 0) (r : Int × St W)
    (h : load_loop T length fw length 0 s = some r) :
    mpu_load_firmware T s length (some fw) start_addr sample_rate =
      if r.1 ≠ 0 then some (r.1, r.2) else
      if (i2c_write T r.2 reg.prgm_start_h [start_addr / 256 % 256, start_addr % 256]).1 = true
      then some (-5,
        (i2c_write T r.2 reg.prgm_start_h [start_addr / 256 % 256, start_addr % 256]).2)
      else some (0,
        (i2c_write T r.2 reg.prgm_start_h [start_addr / 256 % 256, start_addr % 256]).2.setCfg
          { (i2c_write T r.2 reg.prgm_start_h
              [start_addr / 256 % 256, start_addr % 256]).2.cfg with
            dmp_loaded := 1, dmp_sample_rate := sample_rate }) := by
  unfold mpu_load_firmware
  rw [if_neg (not_not.mpr hl)]
  dsimp only
  rw [h]
  dsimp only
  rw [Nat.shiftRight_eq_div_pow, and_255_eq_mod]
  unfold onErr onFail
  rfl

/-- C9: with no image loaded, suppose the chunks before counter `ii` have all been written,
read back and found equal, the loop being then in state `s1`. If `ii` is inside the image
and the chunk at `ii` cannot be written, `mpu_load_firmware` returns -2 in the state that
write left; if its read-back fails, -3 in the state that read left; if the bytes read
back differ from the chunk, -4 in the state that read left. The state returned is the one
the failing transfer left, so no later chunk is transferred; it has the cache of the
start state (`dmp_loaded` and `dmp_sample_rate` included), and no transfer since the
start is on the program-start register. If the loop is complete and the program-start
write fails, the call returns -5 in the state that write left, with the cache of the
start state. -/
theorem mpu_load_firmware_aborts (T : Platform W) (s s1 : St W) (length : Nat) (fw : List Nat)
    (start_addr sample_rate ii : Nat) (hlen : length < 65536) (hl : s.cfg.dmp_loaded = 0)
    (hv : ChunksVerified T length fw 0 s ii s1) :
    (ii < length →
      ((chunk_write T length fw ii s1).1 ≠ 0 →
        mpu_load_firmware T s length (some fw) start_addr sample_rate =
          some (-2, (chunk_write T length fw ii s1).2)) ∧
      ((chunk_write T length fw ii s1).1 = 0 → (chunk_read T length fw ii s1).1 ≠ 0 →
        mpu_load_firmware T s length (some fw) start_addr sample_rate =
          some (-3, (chunk_read T length fw ii s1).2.2)) ∧
      ((chunk_write T length fw ii s1).1 = 0 → (chunk_read T length fw ii s1).1 = 0 →
        ¬ chunk_same T length fw ii s1 →
        mpu_load_firmware T s length (some fw) start_addr sample_rate =
          some (-4, (chunk_read T length fw ii s1).2.2)) ∧
      (chunk_write T length fw ii s1).2.cfg = s.cfg ∧
      (chunk_read T length fw ii s1).2.2.cfg = s.cfg ∧
      LogExt (fun e => e.onReg reg.prgm_start_h = false) s (chunk_write T length fw ii s1).2 ∧
      LogExt (fun e => e.onReg reg.prgm_start_h = false) s
        (chunk_read T length fw ii s1).2.2) ∧
    (length ≤ ii →
      (i2c_write T s1 reg.prgm_start_h [start_addr / 256 % 256, start_addr % 256]).1 = true →
      mpu_load_firmware T s length (some fw) start_addr sample_rate =
        some (-5,
          (i2c_write T s1 reg.prgm_start_h [start_addr / 256 % 256, start_addr % 256]).2) ∧
      (i2c_write T s1 reg.prgm_start_h [start_addr / 256 % 256, start_addr % 256]).2.cfg =
        s.cfg) := by
  obtain ⟨fuel, hfuel, heq⟩ := load_loop_verified hlen hv length (by omega)
  constructor
  · intro hlt
    obtain ⟨f, rfl⟩ : ∃ f, fuel = f + 1 := ⟨fuel - 1, by omega⟩
    refine ⟨fun hw => ?_, fun hw hr => ?_, fun hw hr hm => ?_,
      (chunk_write_cfg T length fw ii s1).trans hv.cfg,
      (chunk_read_cfg T length fw ii s1).trans hv.cfg,
      ((hv.log.trans (chunk_write_log T length fw ii s1)).mono mem_event_not_prgm_start),
      ((hv.log.trans (chunk_read_log T length fw ii s1)).mono mem_event_not_prgm_start)⟩
    · rw [mpu_load_firmware_of_loop T s length fw start_addr sample_rate hl _
        (heq.trans (load_loop_write_fail T length fw f ii s1 hlt hw))]
      rfl
    · rw [mpu_load_firmware_of_loop T s length fw start_addr sample_rate hl _
        (heq.trans (load_loop_read_fail T length fw f ii s1 hlt hw hr))]
      rfl
    · rw [mpu_load_firmware_of_loop T s length fw start_addr sample_rate hl _
        (heq.trans (load_loop_mismatch T length fw f ii s1 hlt hw hr hm))]
      rfl
  · intro hge hw
    refine ⟨?_, hv.cfg⟩
    rw [mpu_load_firmware_of_loop T s length fw start_addr sample_rate hl _
      (heq.trans (load_loop_done T length fw fuel ii s1 (by omega)))]
    dsimp only
    rw [if_neg (by decide), if_pos hw]

/-- Witness for C9 on a chip whose memory cell 17 is faulty, loading a 20-byte image: the
first chunk (bytes 0..15) verifies, the second (bytes 16..19) reads back different, and
the call returns -4 after the eight transfers of these two chunks, with `dmp_loaded` still 0
and the program-start register never written. -/
theorem mpu_load_firmware_aborts_witness :
    (20 < 65536 ∧ stChip.cfg.dmp_loaded = 0) ∧
    (mpu_load_firmware (dmpChip 16 (some 17)) stChip 20 (some fw20) 0x0400 200).map Prod.fst =
      some (-4) ∧
    (mpu_load_firmware (dmpChip 16 (some 17)) stChip 20 (some fw20) 0x0400 200).map
        (fun r => (r.2.log, r.2.cfg.dmp_loaded, r.2.cfg.dmp_sample_rate, r.2.bus.prgm_start)) =
      some ([Ev.write reg.bank_sel [0, 0] true,
          Ev.write reg.mem_r_w [1, 2, 3, 4, 5, 6, 7, 8, 9, 10, 11, 12, 13, 14, 15, 16] true,
          Ev.write reg.bank_sel [0, 0] true, Ev.read reg.mem_r_w 16 true,
          Ev.write reg.bank_sel [0, 16] true, Ev.write reg.mem_r_w [17, 18, 19, 20] true,
          Ev.write reg.bank_sel [0, 16] true, Ev.read reg.mem_r_w 4 true], 0, 0, []) :=
  ⟨⟨by decide, rfl⟩,
    congrArg (Option.map Prod.fst)
      (((mpu_load_firmware_aborts (dmpChip 16 (some 17)) stChip
        (chunk_read (dmpChip 16 (some 17)) 20 fw20 0 stChip).2.2 20 fw20 0x0400 200 16
        (by decide) rfl
        (ChunksVerified.step 0 stChip 16 _ (by decide) rfl rfl (by unfold chunk_same; decide)
          (ChunksVerified.done _ _))).1 (by decide)).2.2.1 rfl rfl
        (by unfold chunk_same; decide)),
    rfl⟩

/-! ## Loading an image into a working chip -/

/-- The bank check passes for a transfer that stays inside its bank. -/
theorem bank_check_passes (T : Platform W) (a n : Nat) (h : a % 256 + n ≤ 256) :
    ¬ ((a &&& 0xFF) + n) % 2 ^ T.uint_bits > hw.bank_size := by
  have hlt : a % 256 + n < 2 ^ T.uint_bits :=
    calc a % 256 + n < 2 ^ 16 := by omega
      _ ≤ 2 ^ T.uint_bits := Nat.pow_le_pow_right (by norm_num) T.uint_bits_ge
  rw [and_255_eq_mod, Nat.mod_eq_of_lt hlt]
  exact not_lt.mpr h

/-- On the working chip an in-bank `mpu_write_mem` returns 0, selects the address and
stores the bytes there. -/
theorem chip_write_mem (bits : Nat) (bad : Option Nat) (s : St Chip) (a n : Nat)
    (bytes : List Nat) (hs : s.cfg.sensors ≠ 0) (hchk : a % 256 + n ≤ 256) (ha : a < 65536) :
    (mpu_write_mem (dmpChip bits bad) s a n (some bytes)).1 = 0 ∧
    (mpu_write_mem (dmpChip bits bad) s a n (some bytes)).2.bus =
      { bank := a / 256, start := a % 256,
        mem := Chip.writeMem ⟨a / 256, a % 256, s.bus.mem, s.bus.prgm_start⟩ (bytes.take n),
        prgm_start := s.bus.prgm_start } := by
  have hhi : (a >>> 8) % 256 = a / 256 := by
    rw [Nat.shiftRight_eq_div_pow]
    exact Nat.mod_eq_of_lt (by omega)
  unfold mpu_write_mem
  dsimp only
  rw [if_neg hs, if_neg (bank_check_passes _ a n hchk), hhi, and_255_eq_mod]
  constructor <;> rfl

/-- On the chip an in-bank `mpu_read_mem` returns 0, selects the address and returns the
bytes read there. -/
theorem chip_read_mem (bits : Nat) (bad : Option Nat) (s : St Chip) (a n : Nat)
    (hs : s.cfg.sensors ≠ 0) (hchk : a % 256 + n ≤ 256) (ha : a < 65536) :
    (mpu_read_mem (dmpChip bits bad) s a n false).1 = 0 ∧
    (mpu_read_mem (dmpChip bits bad) s a n false).2.1 =
      some (readBytes (Chip.readMem ⟨a / 256, a % 256, s.bus.mem, s.bus.prgm_start⟩ bad n) n) ∧
    (mpu_read_mem (dmpChip bits bad) s a n false).2.2.bus =
      { bank := a / 256, start := a % 256, mem := s.bus.mem,
        prgm_start := s.bus.prgm_start } := by
  have hhi : (a >>> 8) % 256 = a / 256 := by
    rw [Nat.shiftRight_eq_div_pow]
    exact Nat.mod_eq_of_lt (by omega)
  unfold mpu_read_mem
  dsimp only
  rw [if_neg (by simp), if_neg hs, if_neg (bank_check_passes _ a n hchk), hhi, and_255_eq_mod]
  refine ⟨rfl, rfl, rfl⟩

/-- A chunk has `this_write` bytes. -/
@[simp] theorem firmware_chunk_length (fw : List Nat) (ii n : Nat) :
    (firmware_chunk fw ii n).length = n := by
  simp [firmware_chunk]

/-- The bytes of a chunk are the bytes of the image from `ii` on. -/
theorem firmware_chunk_getD (fw : List Nat) (ii n i : Nat) (h : i < n) :
    (firmware_chunk fw ii n).getD i 0 = fw.getD (ii + i) 0 := by
  simp [firmware_chunk, List.getD_eq_getElem?_getD, List.getElem?_map, List.getElem?_range h]

/-- Every byte taken from an image of bytes is below 256. -/
theorem image_byte_lt (fw : List Nat) (hb : ∀ b ∈ fw, b < 256) (k : Nat) :
    fw.getD k 0 < 256 := by
  rw [List.getD_eq_getElem?_getD]
  cases h : fw[k]? with
  | none => simp
  | some b => exact hb b (List.getElem?_mem h)

/-- Two lists of the same length with the same cells are equal. -/
theorem list_eq_of_getD (l1 l2 : List Nat) (n : Nat) (h1 : l1.length = n) (h2 : l2.length = n)
    (h : ∀ i, i < n → l1.getD i 0 = l2.getD i 0) : l1 = l2 := by
  apply List.ext_getElem (h1.trans h2.symm)
  intro i hi1 hi2
  have e := h i (h1 ▸ hi1)
  rw [List.getD_eq_getElem?_getD, List.getD_eq_getElem?_getD, List.getElem?_eq_getElem hi1,
    List.getElem?_eq_getElem hi2] at e
  exact e

/-- Reading back on a chip without a faulty cell returns the bytes of the memory. -/
theorem chip_readMem_getD (c : Chip) (n i : Nat) (h : i < n) :
    (c.readMem none n).getD i 0 = c.mem (c.cell + i) := by
  simp [Chip.readMem, List.getD_eq_getElem?_getD, List.getElem?_map, List.getElem?_range h]

/-- On a chip without a faulty cell, with a sensor awake, one loop iteration at a
counter that is a multiple of 16 succeeds: the chunk is written, read back and found
equal, and afterwards the memory holds the chunk at its addresses and is otherwise as
before. -/
theorem chip_chunk (bits : Nat) (s : St Chip) (length : Nat) (fw : List Nat) (ii : Nat)
    (hs : s.cfg.sensors ≠ 0) (hlt : ii < length) (hlen : length < 65536)
    (h16 : ii % 16 = 0) (hb : ∀ b ∈ fw, b < 256) :
    (chunk_write (dmpChip bits none) length fw ii s).1 = 0 ∧
    (chunk_read (dmpChip bits none) length fw ii s).1 = 0 ∧
    chunk_same (dmpChip bits none) length fw ii s ∧
    (chunk_read (dmpChip bits none) length fw ii s).2.2.bus.prgm_start = s.bus.prgm_start ∧
    ∀ a, (chunk_read (dmpChip bits none) length fw ii s).2.2.bus.mem a =
      if ii ≤ a ∧ a < ii + chunk_len length ii then fw.getD a 0 else s.bus.mem a := by
  obtain ⟨hn1, hn2, hn3⟩ := chunk_len_bounds length ii hlt
  have hchk : ii % 256 + chunk_len length ii ≤ 256 := by omega
  have hcell : ii / 256 * 256 + ii % 256 = ii := Nat.div_add_mod' ii 256
  obtain ⟨w1, w2⟩ := chip_write_mem bits none s ii (chunk_len length ii)
    (firmware_chunk fw ii (chunk_len length ii)) hs hchk (by omega)
  have hs1 : (chunk_write (dmpChip bits none) length fw ii s).2.cfg.sensors ≠ 0 := by
    rw [chunk_write_cfg]
    exact hs
  obtain ⟨r1, r2, r3⟩ := chip_read_mem bits none
    (chunk_write (dmpChip bits none) length fw ii s).2 ii (chunk_len length ii) hs1 hchk
    (by omega)
  have hmem : ∀ a, (chunk_write (dmpChip bits none) length fw ii s).2.bus.mem a =
      if ii ≤ a ∧ a < ii + chunk_len length ii then fw.getD a 0 else s.bus.mem a := by
    intro a
    have hw : (chunk_write (dmpChip bits none) length fw ii s).2.bus = _ := w2
    rw [hw]
    simp only [Chip.writeMem, Chip.cell, hcell, List.length_take, firmware_chunk_length,
      Nat.min_self]
    by_cases ha : ii ≤ a ∧ a < ii + chunk_len length ii
    · rw [if_pos ha, if_pos ha, List.take_of_length_le (by simp),
        firmware_chunk_getD fw ii _ _ (by omega)]
      congr 1
      omega
    · rw [if_neg ha, if_neg ha]
  refine ⟨w1, r1, ?_, ?_, ?_⟩
  · unfold chunk_same
    have hr : (chunk_read (dmpChip bits none) length fw ii s).2.1 = _ := r2
    rw [hr]
    simp only [Option.getD_some]
    rw [List.take_of_length_le (by simp)]
    apply list_eq_of_getD _ _ (chunk_len length ii) (by simp) (by simp)
    intro i hi
    rw [firmware_chunk_getD fw ii _ i hi, readBytes_getD _ _ i hi, chip_readMem_getD _ _ _ hi,
      hmem]
    simp only [Chip.cell, hcell]
    rw [if_pos (by omega), Nat.mod_eq_of_lt (image_byte_lt fw hb _)]
  · have hrb : (chunk_read (dmpChip bits none) length fw ii s).2.2.bus = _ := r3
    rw [hrb]
    have hw : (chunk_write (dmpChip bits none) length fw ii s).2.bus = _ := w2
    rw [hw]
  · intro a
    have hrb : (chunk_read (dmpChip bits none) length fw ii s).2.2.bus = _ := r3
    rw [hrb]
    exact hmem a

/-- On a chip without a faulty cell, with a sensor awake, the chunk loop started at
a counter that is a multiple of 16 returns 0; the cache and the program-start register
are as before, and the memory holds the image from the counter up to the length. -/
theorem load_loop_chip (bits length : Nat) (fw : List Nat) (hlen : length < 65536)
    (hb : ∀ b ∈ fw, b < 256) :
    ∀ (fuel ii : Nat) (s : St Chip), length - ii ≤ fuel → ii ≤ length →
      (ii % 16 = 0 ∨ ii = length) → s.cfg.sensors ≠ 0 →
      ∃ s1, load_loop (dmpChip bits none) length fw fuel ii s = some (0, s1) ∧
        s1.cfg = s.cfg ∧ s1.bus.prgm_start = s.bus.prgm_start ∧
        ∀ a, s1.bus.mem a = if ii ≤ a ∧ a < length then fw.getD a 0 else s.bus.mem a := by
  intro fuel
  induction fuel with
  | zero =>
    intro ii s hf hle _ _
    refine ⟨s, load_loop_done _ length fw 0 ii s (by omega), rfl, rfl, fun a => ?_⟩
    rw [if_neg (by omega)]
  | succ f ih =>
    intro ii s hf hle h16 hs
    by_cases hlt : ii < length
    · have h16 : ii % 16 = 0 := by omega
      obtain ⟨hn1, hn2, hn3⟩ := chunk_len_bounds length ii hlt
      obtain ⟨cw, cr, cm, cp, cmem⟩ := chip_chunk bits s length fw ii hs hlt hlen h16 hb
      have hmod : (ii + chunk_len length ii) % 65536 = ii + chunk_len length ii :=
        Nat.mod_eq_of_lt (by omega)
      have hnext : (ii + chunk_len length ii) % 16 = 0 ∨ ii + chunk_len length ii = length := by
        unfold chunk_len LOAD_CHUNK at *
        omega
      have hs1 : (chunk_read (dmpChip bits none) length fw ii s).2.2.cfg.sensors ≠ 0 := by
        rw [chunk_read_cfg]
        exact hs
      obtain ⟨s1, e1, c1, p1, m1⟩ := ih (ii + chunk_len length ii)
        (chunk_read (dmpChip bits none) length fw ii s).2.2 (by omega) hn2 hnext hs1
      refine ⟨s1, ?_, c1.trans (chunk_read_cfg _ length fw ii s), p1.trans cp, fun a => ?_⟩
      · rw [load_loop_next _ length fw f ii s hlt cw cr cm, hmod]
        exact e1
      · rw [m1 a, cmem a]
        split_ifs <;> first | rfl | omega
    · refine ⟨s, load_loop_done _ length fw (f + 1) ii s hlt, rfl, rfl, fun a => ?_⟩
      rw [if_neg (by omega)]

/-- C10: on a chip on which every transfer succeeds and memory reads return what was last
written, with a sensor awake and no image loaded, `mpu_load_firmware` for an image of
`length` bytes returns 0; afterwards the memory cell of bank `i / 256`, offset `i % 256`
holds byte `i` of the image for every `i < length`, the program-start register pair holds
`[start_addr / 256, start_addr % 256]`, `dmp_loaded` is 1 and `dmp_sample_rate` is the
rate passed. -/
theorem mpu_load_firmware_loads (bits : Nat) (s : St Chip) (length : Nat) (fw : List Nat)
    (start_addr sample_rate : Nat) (hs : s.cfg.sensors ≠ 0) (hl : s.cfg.dmp_loaded = 0)
    (hlen : length < 65536) (hfw : length ≤ fw.length) (hb : ∀ b ∈ fw, b < 256)
    (hstart : start_addr < 65536) :
    ∃ s1, mpu_load_firmware (dmpChip bits none) s length (some fw) start_addr sample_rate =
        some (0, s1) ∧
      (∀ i, i < length → fw[i]? = some (s1.bus.mem (i / 256 * 256 + i % 256))) ∧
      s1.bus.prgm_start = [start_addr / 256, start_addr % 256] ∧
      s1.cfg.dmp_loaded = 1 ∧ s1.cfg.dmp_sample_rate = sample_rate := by
  obtain ⟨s1, e1, _, _, m1⟩ := load_loop_chip bits length fw hlen hb length 0 s (by omega)
    (Nat.zero_le _) (Or.inl rfl) hs
  refine ⟨_, (mpu_load_firmware_of_loop _ s length fw start_addr sample_rate hl _ e1).trans
    rfl, fun i hi => ?_, ?_, rfl, rfl⟩
  · have hm : s1.bus.mem (i / 256 * 256 + i % 256) = fw.getD i 0 := by
      rw [Nat.div_add_mod' i 256, m1 i, if_pos ⟨Nat.zero_le _, hi⟩]
    show fw[i]? = some (s1.bus.mem (i / 256 * 256 + i % 256))
    rw [hm, List.getD_eq_getElem?_getD, List.getElem?_eq_getElem (by omega)]
    rfl
  · show [start_addr / 256 % 256, start_addr % 256] = _
    rw [Nat.mod_eq_of_lt (Nat.div_lt_of_lt_mul (by omega))]

/-- Witness for C10: the 20-byte image 1, 2, ..., 20 loaded into the all-zero chip with
start address 0x0400 and rate 200. -/
theorem mpu_load_firmware_loads_witness :
    (stChip.cfg.sensors ≠ 0 ∧ stChip.cfg.dmp_loaded = 0 ∧ 20 ≤ fw20.length ∧
      ∀ b ∈ fw20, b < 256) ∧
    ∃ s1, mpu_load_firmware (dmpChip 16 none) stChip 20 (some fw20) 0x0400 200 =
        some (0, s1) ∧
      (∀ i, i < 20 → fw20[i]? = some (s1.bus.mem (i / 256 * 256 + i % 256))) ∧
      s1.bus.prgm_start = [0x0400 / 256, 0x0400 % 256] ∧
      s1.cfg.dmp_loaded = 1 ∧ s1.cfg.dmp_sample_rate = 200 :=
  ⟨⟨by decide, rfl, by decide, by decide⟩,
    mpu_load_firmware_loads 16 stChip 20 fw20 0x0400 200 (by decide) rfl (by decide)
      (by decide) (by decide) (by decide)⟩

/-! ## Bias registers over a register file -/

/-- The two bytes written for a `long` hold its value modulo 2^16, big-endian. -/
theorem bias_bytes_value (x : Int) :
    ((hiByte x : Nat) : Int) * 256 + ((loByte x : Nat) : Int) = x % 65536 := by
  unfold hiByte loByte
  rw [Int.toNat_of_nonneg (Int.emod_nonneg _ (by norm_num)),
    Int.toNat_of_nonneg (Int.emod_nonneg _ (by norm_num))]
  omega

/-- The high byte written for a `long` is a byte. -/
theorem hiByte_lt (x : Int) : hiByte x < 256 := by
  unfold hiByte
  omega

/-- The low byte written for a `long` is a byte. -/
theorem loByte_lt (x : Int) : loByte x < 256 := by
  unfold loByte
  omega

/-- The bytes written depend only on the value modulo 2^16. -/
theorem bias_bytes_congr (x y : Int) (h : x % 65536 = y % 65536) :
    hiByte x = hiByte y ∧ loByte x = loByte y := by
  unfold hiByte loByte
  constructor <;> omega

/-- The `long` that the bias readers assemble from a two-byte read. -/
theorem longAt_pair (a b : Nat) :
    longAt (readBytes [a, b] 2) 0 = ((a % 256 * 256 + b % 256 : Nat) : Int) := by
  unfold longAt
  rw [readBytes_getD _ _ _ (by norm_num), readBytes_getD _ _ _ (by norm_num)]
  have e : ((a % 256) <<< 8) ||| (b % 256) = 2 ^ 8 * (a % 256) + b % 256 := by
    rw [Nat.shiftLeft_eq, Nat.mul_comm]
    exact (Nat.mul_add_lt_is_or (by simpa using Nat.mod_lt b (by norm_num : 256 > 0)) _).symm
  simp only [List.getD_cons_zero, List.getD_cons_succ, Nat.zero_add]
  rw [e]
  congr 1
  omega

/-- A register pair written with two bytes. -/
theorem regWrite_pair (w : Nat → Nat) (r x y a : Nat) :
    regWrite w r [x, y] a = if a = r then x % 256 else if a = r + 1 then y % 256 else w a := by
  unfold regWrite
  by_cases h0 : a = r
  · subst h0
    simp
  · by_cases h1 : a = r + 1
    · subst h1
      simp
    · rw [if_neg h0, if_neg h1, if_neg]
      simp only [List.length_cons, List.length_nil]
      omega

/-- Over the register file the three bias reads succeed, return the values of the three
register pairs and leave the registers and the cache as they were. -/
theorem regFile_read_bias (bits : Nat) (s : St (Nat → Nat)) (r0 r1 r2 : Nat) :
    ∃ s1, read_bias (regFile bits) s r0 r1 r2 =
        (0, some ((reg16 s.bus r0 : Int), (reg16 s.bus r1 : Int), (reg16 s.bus r2 : Int)), s1) ∧
      s1.bus = s.bus ∧ s1.cfg = s.cfg := by
  refine ⟨(read_bias (regFile bits) s r0 r1 r2).2.2, ?_, rfl, rfl⟩
  have e : read_bias (regFile bits) s r0 r1 r2 =
      (0, some (longAt (readBytes [s.bus r0, s.bus (r0 + 1)] 2) 0,
        longAt (readBytes [s.bus r1, s.bus (r1 + 1)] 2) 0,
        longAt (readBytes [s.bus r2, s.bus (r2 + 1)] 2) 0),
        (read_bias (regFile bits) s r0 r1 r2).2.2) := rfl
  rw [e, longAt_pair, longAt_pair, longAt_pair]
  rfl

/-- Over the register file the three bias writes succeed and store the three values
modulo 2^16 in the three register pairs. -/
theorem regFile_write_bias (bits : Nat) (s : St (Nat → Nat)) (r0 r1 r2 : Nat)
    (v : Int × Int × Int) :
    (write_bias (regFile bits) s r0 r1 r2 v).1 = 0 ∧
    (write_bias (regFile bits) s r0 r1 r2 v).2.bus =
      regWrite (regWrite (regWrite s.bus r0 [hiByte v.1, loByte v.1])
        r1 [hiByte v.2.1, loByte v.2.1]) r2 [hiByte v.2.2, loByte v.2.2] :=
  ⟨rfl, rfl⟩

/-- The value of a register pair after a bias write to three disjoint pairs. -/
theorem reg16_after_bias (w : Nat → Nat) (r0 r1 r2 : Nat) (v : Int × Int × Int)
    (h01 : r0 + 1 < r1) (h12 : r1 + 1 < r2) :
    ((reg16 (regWrite (regWrite (regWrite w r0 [hiByte v.1, loByte v.1])
        r1 [hiByte v.2.1, loByte v.2.1]) r2 [hiByte v.2.2, loByte v.2.2]) r0 : Nat) : Int) =
      v.1 % 65536 ∧
    ((reg16 (regWrite (regWrite (regWrite w r0 [hiByte v.1, loByte v.1])
        r1 [hiByte v.2.1, loByte v.2.1]) r2 [hiByte v.2.2, loByte v.2.2]) r1 : Nat) : Int) =
      v.2.1 % 65536 ∧
    ((reg16 (regWrite (regWrite (regWrite w r0 [hiByte v.1, loByte v.1])
        r1 [hiByte v.2.1, loByte v.2.1]) r2 [hiByte v.2.2, loByte v.2.2]) r2 : Nat) : Int) =
      v.2.2 % 65536 := by
  have m1 := Nat.mod_eq_of_lt (hiByte_lt v.1)
  have m2 := Nat.mod_eq_of_lt (loByte_lt v.1)
  have m3 := Nat.mod_eq_of_lt (hiByte_lt v.2.1)
  have m4 := Nat.mod_eq_of_lt (loByte_lt v.2.1)
  have m5 := Nat.mod_eq_of_lt (hiByte_lt v.2.2)
  have m6 := Nat.mod_eq_of_lt (loByte_lt v.2.2)
  refine ⟨?_, ?_, ?_⟩
  · rw [← bias_bytes_value v.1]
    unfold reg16
    simp only [regWrite_pair]
    split_ifs <;> omega
  · rw [← bias_bytes_value v.2.1]
    unfold reg16
    simp only [regWrite_pair]
    split_ifs <;> omega
  · rw [← bias_bytes_value v.2.2]
    unfold reg16
    simp only [regWrite_pair]
    split_ifs <;> omega

/-- Over the register file `mpu_set_gyro_bias_reg` returns 0 and writes, to each gyro
offset pair, the value read there minus the correction. -/
theorem regFile_gyro_bias (bits : Nat) (s : St (Nat → Nat)) (d : Int × Int × Int) :
    (mpu_set_gyro_bias_reg (regFile bits) s d).1 = 0 ∧
    (mpu_set_gyro_bias_reg (regFile bits) s d).2.bus =
      regWrite (regWrite (regWrite s.bus 0x13
        [hiByte ((reg16 s.bus 0x13 : Int) - d.1), loByte ((reg16 s.bus 0x13 : Int) - d.1)])
        0x15 [hiByte ((reg16 s.bus 0x15 : Int) - d.2.1),
          loByte ((reg16 s.bus 0x15 : Int) - d.2.1)])
        0x17 [hiByte ((reg16 s.bus 0x17 : Int) - d.2.2),
          loByte ((reg16 s.bus 0x17 : Int) - d.2.2)] := by
  obtain ⟨s1, e, hb, _⟩ := regFile_read_bias bits s 0x13 0x15 0x17
  unfold mpu_set_gyro_bias_reg mpu_read_gyro_bias
  rw [e]
  dsimp only
  rw [← hb]
  exact regFile_write_bias bits s1 0x13 0x15 0x17 _

/-- Two register maps that agree after a bias write of values equal modulo 2^16. -/
theorem regWrite_bias_congr (w w1 : Nat → Nat) (r0 r1 r2 : Nat) (u v : Int × Int × Int)
    (hw : ∀ a, a ≠ r0 → a ≠ r0 + 1 → a ≠ r1 → a ≠ r1 + 1 → a ≠ r2 → a ≠ r2 + 1 → w1 a = w a)
    (h0 : u.1 % 65536 = v.1 % 65536) (h1 : u.2.1 % 65536 = v.2.1 % 65536)
    (h2 : u.2.2 % 65536 = v.2.2 % 65536) :
    regWrite (regWrite (regWrite w1 r0 [hiByte u.1, loByte u.1])
        r1 [hiByte u.2.1, loByte u.2.1]) r2 [hiByte u.2.2, loByte u.2.2] =
      regWrite (regWrite (regWrite w r0 [hiByte v.1, loByte v.1])
        r1 [hiByte v.2.1, loByte v.2.1]) r2 [hiByte v.2.2, loByte v.2.2] := by
  obtain ⟨a0, b0⟩ := bias_bytes_congr _ _ h0
  obtain ⟨a1, b1⟩ := bias_bytes_congr _ _ h1
  obtain ⟨a2, b2⟩ := bias_bytes_congr _ _ h2
  funext a
  simp only [regWrite_pair, a0, b0, a1, b1, a2, b2]
  split_ifs with c1 c2 c3 c4 c5 c6
  all_goals first | rfl | exact hw a c5 c6 c3 c4 c1 c2

/-- A register outside the three pairs keeps its byte over a bias write. -/
theorem regWrite_bias_other (w : Nat → Nat) (r0 r1 r2 : Nat) (v : Int × Int × Int) (a : Nat)
    (c0 : a ≠ r0) (c1 : a ≠ r0 + 1) (c2 : a ≠ r1) (c3 : a ≠ r1 + 1) (c4 : a ≠ r2)
    (c5 : a ≠ r2 + 1) :
    regWrite (regWrite (regWrite w r0 [hiByte v.1, loByte v.1])
        r1 [hiByte v.2.1, loByte v.2.1]) r2 [hiByte v.2.2, loByte v.2.2] a = w a := by
  simp only [regWrite_pair, if_neg c0, if_neg c1, if_neg c2, if_neg c3, if_neg c4, if_neg c5]

/-- C11: over a register file on which every transfer succeeds, `mpu_set_gyro_bias_reg`
returns 0 and leaves each axis's big-endian offset register pair (0x13, 0x15, 0x17)
holding the old value minus the correction, modulo 2^16. Hence two successive
corrections `d1` then `d2` leave the same registers as the single correction
`d1 + d2`, and +10 followed by -4 on every axis leaves the original value minus 6. -/
theorem gyro_bias_additive (bits : Nat) (s : St (Nat → Nat)) (d1 d2 : Int × Int × Int) :
    (mpu_set_gyro_bias_reg (regFile bits) s d1).1 = 0 ∧
    ((reg16 (mpu_set_gyro_bias_reg (regFile bits) s d1).2.bus 0x13 : Int) =
        ((reg16 s.bus 0x13 : Int) - d1.1) % 2 ^ 16 ∧
      (reg16 (mpu_set_gyro_bias_reg (regFile bits) s d1).2.bus 0x15 : Int) =
        ((reg16 s.bus 0x15 : Int) - d1.2.1) % 2 ^ 16 ∧
      (reg16 (mpu_set_gyro_bias_reg (regFile bits) s d1).2.bus 0x17 : Int) =
        ((reg16 s.bus 0x17 : Int) - d1.2.2) % 2 ^ 16) ∧
    (mpu_set_gyro_bias_reg (regFile bits)
        (mpu_set_gyro_bias_reg (regFile bits) s d1).2 d2).2.bus =
      (mpu_set_gyro_bias_reg (regFile bits) s
        (d1.1 + d2.1, d1.2.1 + d2.2.1, d1.2.2 + d2.2.2)).2.bus ∧
    ((reg16 (mpu_set_gyro_bias_reg (regFile bits)
          (mpu_set_gyro_bias_reg (regFile bits) s (10, 10, 10)).2 (-4, -4, -4)).2.bus 0x13 : Int) =
        ((reg16 s.bus 0x13 : Int) - 6) % 2 ^ 16 ∧
      (reg16 (mpu_set_gyro_bias_reg (regFile bits)
          (mpu_set_gyro_bias_reg (regFile bits) s (10, 10, 10)).2 (-4, -4, -4)).2.bus 0x15 : Int) =
        ((reg16 s.bus 0x15 : Int) - 6) % 2 ^ 16 ∧
      (reg16 (mpu_set_gyro_bias_reg (regFile bits)
          (mpu_set_gyro_bias_reg (regFile bits) s (10, 10, 10)).2 (-4, -4, -4)).2.bus 0x17 : Int) =
        ((reg16 s.bus 0x17 : Int) - 6) % 2 ^ 16) := by
  have one : ∀ (t : St (Nat → Nat)) (d : Int × Int × Int),
      (reg16 (mpu_set_gyro_bias_reg (regFile bits) t d).2.bus 0x13 : Int) =
        ((reg16 t.bus 0x13 : Int) - d.1) % 65536 ∧
      (reg16 (mpu_set_gyro_bias_reg (regFile bits) t d).2.bus 0x15 : Int) =
        ((reg16 t.bus 0x15 : Int) - d.2.1) % 65536 ∧
      (reg16 (mpu_set_gyro_bias_reg (regFile bits) t d).2.bus 0x17 : Int) =
        ((reg16 t.bus 0x17 : Int) - d.2.2) % 65536 := by
    intro t d
    rw [(regFile_gyro_bias bits t d).2]
    exact reg16_after_bias t.bus 0x13 0x15 0x17
      ((reg16 t.bus 0x13 : Int) - d.1, (reg16 t.bus 0x15 : Int) - d.2.1,
        (reg16 t.bus 0x17 : Int) - d.2.2) (by norm_num) (by norm_num)
  have two : ∀ (t : St (Nat → Nat)) (e1 e2 : Int × Int × Int),
      (mpu_set_gyro_bias_reg (regFile bits)
          (mpu_set_gyro_bias_reg (regFile bits) t e1).2 e2).2.bus =
        (mpu_set_gyro_bias_reg (regFile bits) t
          (e1.1 + e2.1, e1.2.1 + e2.2.1, e1.2.2 + e2.2.2)).2.bus := by
    intro t e1 e2
    obtain ⟨o1, o2, o3⟩ := one t e1
    have hb1 := (regFile_gyro_bias bits t e1).2
    have hb2 := (regFile_gyro_bias bits (mpu_set_gyro_bias_reg (regFile bits) t e1).2 e2).2
    have hb3 := (regFile_gyro_bias bits t (e1.1 + e2.1, e1.2.1 + e2.2.1, e1.2.2 + e2.2.2)).2
    generalize (mpu_set_gyro_bias_reg (regFile bits) t e1).2 = t1 at o1 o2 o3 hb1 hb2 ⊢
    rw [hb2, hb3]
    refine regWrite_bias_congr t.bus t1.bus 0x13 0x15 0x17
      ((reg16 t1.bus 0x13 : Int) - e2.1, (reg16 t1.bus 0x15 : Int) - e2.2.1,
        (reg16 t1.bus 0x17 : Int) - e2.2.2)
      ((reg16 t.bus 0x13 : Int) - (e1.1 + e2.1), (reg16 t.bus 0x15 : Int) - (e1.2.1 + e2.2.1),
        (reg16 t.bus 0x17 : Int) - (e1.2.2 + e2.2.2))
      (fun a c0 c1 c2 c3 c4 c5 => ?_) ?_ ?_ ?_
    · rw [hb1]
      exact regWrite_bias_other t.bus 0x13 0x15 0x17
        ((reg16 t.bus 0x13 : Int) - e1.1, (reg16 t.bus 0x15 : Int) - e1.2.1,
          (reg16 t.bus 0x17 : Int) - e1.2.2) a c0 c1 c2 c3 c4 c5
    · show ((reg16 t1.bus 0x13 : Int) - e2.1) % 65536 =
        ((reg16 t.bus 0x13 : Int) - (e1.1 + e2.1)) % 65536
      rw [o1]
      omega
    · show ((reg16 t1.bus 0x15 : Int) - e2.2.1) % 65536 =
        ((reg16 t.bus 0x15 : Int) - (e1.2.1 + e2.2.1)) % 65536
      rw [o2]
      omega
    · show ((reg16 t1.bus 0x17 : Int) - e2.2.2) % 65536 =
        ((reg16 t.bus 0x17 : Int) - (e1.2.2 + e2.2.2)) % 65536
      rw [o3]
      omega
  refine ⟨(regFile_gyro_bias bits s d1).1, one s d1, two s d1 d2, ?_⟩
  rw [two s (10, 10, 10) (-4, -4, -4)]
  exact one s _

/-- Over the register file `mpu_set_accel_bias_6050_reg` returns 0 and writes, to each
accel offset pair, the value read there minus the correction with bit 0 cleared. -/
theorem regFile_accel_6050_bias (bits : Nat) (s : St (Nat → Nat)) (d : Int × Int × Int) :
    (mpu_set_accel_bias_6050_reg (regFile bits) s d).1 = 0 ∧
    (mpu_set_accel_bias_6050_reg (regFile bits) s d).2.bus =
      regWrite (regWrite (regWrite s.bus 0x06
        [hiByte ((reg16 s.bus 0x06 : Int) - clearBit0 d.1),
          loByte ((reg16 s.bus 0x06 : Int) - clearBit0 d.1)])
        0x08 [hiByte ((reg16 s.bus 0x08 : Int) - clearBit0 d.2.1),
          loByte ((reg16 s.bus 0x08 : Int) - clearBit0 d.2.1)])
        0x0A [hiByte ((reg16 s.bus 0x0A : Int) - clearBit0 d.2.2),
          loByte ((reg16 s.bus 0x0A : Int) - clearBit0 d.2.2)] := by
  obtain ⟨s1, e, hb, _⟩ := regFile_read_bias bits s 0x06 0x08 0x0A
  unfold mpu_set_accel_bias_6050_reg mpu_read_6050_accel_bias
  rw [e]
  dsimp only
  rw [← hb]
  exact regFile_write_bias bits s1 0x06 0x08 0x0A _

/-- Over the register file `mpu_set_accel_bias_6500_reg` returns 0 and writes, to each
accel offset pair, the value read there minus the correction with bit 0 cleared. -/
theorem regFile_accel_6500_bias (bits : Nat) (s : St (Nat → Nat)) (d : Int × Int × Int) :
    (mpu_set_accel_bias_6500_reg (regFile bits) s d).1 = 0 ∧
    (mpu_set_accel_bias_6500_reg (regFile bits) s d).2.bus =
      regWrite (regWrite (regWrite s.bus 0x77
        [hiByte ((reg16 s.bus 0x77 : Int) - clearBit0 d.1),
          loByte ((reg16 s.bus 0x77 : Int) - clearBit0 d.1)])
        0x7A [hiByte ((reg16 s.bus 0x7A : Int) - clearBit0 d.2.1),
          loByte ((reg16 s.bus 0x7A : Int) - clearBit0 d.2.1)])
        0x7D [hiByte ((reg16 s.bus 0x7D : Int) - clearBit0 d.2.2),
          loByte ((reg16 s.bus 0x7D : Int) - clearBit0 d.2.2)] := by
  obtain ⟨s1, e, hb, _⟩ := regFile_read_bias bits s 0x77 0x7A 0x7D
  unfold mpu_set_accel_bias_6500_reg mpu_read_6500_accel_bias
  rw [e]
  dsimp only
  rw [← hb]
  exact regFile_write_bias bits s1 0x77 0x7A 0x7D _

/-- Subtracting a correction with bit 0 cleared keeps bit 0 of a 16-bit register. -/
theorem clearBit0_keeps_bit0 (old : Nat) (d : Int) (new : Nat)
    (h : (new : Int) = ((old : Int) - clearBit0 d) % 2 ^ 16) : new % 2 = old % 2 := by
  unfold clearBit0 at h
  omega

/-- C12: over a register file on which every transfer succeeds, for every correction and
every register content, `mpu_set_accel_bias_6050_reg` (pairs 0x06, 0x08, 0x0A) and
`mpu_set_accel_bias_6500_reg` (pairs 0x77, 0x7A, 0x7D) return 0 and leave each axis's
big-endian offset register pair holding the old value minus the correction with bit 0
cleared, modulo 2^16; bit 0 of every axis register is the same after the call as before. -/
theorem accel_bias_keeps_bit0 (bits : Nat) (s : St (Nat → Nat)) (d : Int × Int × Int) :
    ((mpu_set_accel_bias_6050_reg (regFile bits) s d).1 = 0 ∧
      ((reg16 (mpu_set_accel_bias_6050_reg (regFile bits) s d).2.bus 0x06 : Int) =
          ((reg16 s.bus 0x06 : Int) - clearBit0 d.1) % 2 ^ 16 ∧
        (reg16 (mpu_set_accel_bias_6050_reg (regFile bits) s d).2.bus 0x08 : Int) =
          ((reg16 s.bus 0x08 : Int) - clearBit0 d.2.1) % 2 ^ 16 ∧
        (reg16 (mpu_set_accel_bias_6050_reg (regFile bits) s d).2.bus 0x0A : Int) =
          ((reg16 s.bus 0x0A : Int) - clearBit0 d.2.2) % 2 ^ 16) ∧
      (reg16 (mpu_set_accel_bias_6050_reg (regFile bits) s d).2.bus 0x06 % 2 =
          reg16 s.bus 0x06 % 2 ∧
        reg16 (mpu_set_accel_bias_6050_reg (regFile bits) s d).2.bus 0x08 % 2 =
          reg16 s.bus 0x08 % 2 ∧
        reg16 (mpu_set_accel_bias_6050_reg (regFile bits) s d).2.bus 0x0A % 2 =
          reg16 s.bus 0x0A % 2)) ∧
    ((mpu_set_accel_bias_6500_reg (regFile bits) s d).1 = 0 ∧
      ((reg16 (mpu_set_accel_bias_6500_reg (regFile bits) s d).2.bus 0x77 : Int) =
          ((reg16 s.bus 0x77 : Int) - clearBit0 d.1) % 2 ^ 16 ∧
        (reg16 (mpu_set_accel_bias_6500_reg (regFile bits) s d).2.bus 0x7A : Int) =
          ((reg16 s.bus 0x7A : Int) - clearBit0 d.2.1) % 2 ^ 16 ∧
        (reg16 (mpu_set_accel_bias_6500_reg (regFile bits) s d).2.bus 0x7D : Int) =
          ((reg16 s.bus 0x7D : Int) - clearBit0 d.2.2) % 2 ^ 16) ∧
      (reg16 (mpu_set_accel_bias_6500_reg (regFile bits) s d).2.bus 0x77 % 2 =
          reg16 s.bus 0x77 % 2 ∧
        reg16 (mpu_set_accel_bias_6500_reg (regFile bits) s d).2.bus 0x7A % 2 =
          reg16 s.bus 0x7A % 2 ∧
        reg16 (mpu_set_accel_bias_6500_reg (regFile bits) s d).2.bus 0x7D % 2 =
          reg16 s.bus 0x7D % 2)) := by
  have a : (reg16 (mpu_set_accel_bias_6050_reg (regFile bits) s d).2.bus 0x06 : Int) =
        ((reg16 s.bus 0x06 : Int) - clearBit0 d.1) % 2 ^ 16 ∧
      (reg16 (mpu_set_accel_bias_6050_reg (regFile bits) s d).2.bus 0x08 : Int) =
        ((reg16 s.bus 0x08 : Int) - clearBit0 d.2.1) % 2 ^ 16 ∧
      (reg16 (mpu_set_accel_bias_6050_reg (regFile bits) s d).2.bus 0x0A : Int) =
        ((reg16 s.bus 0x0A : Int) - clearBit0 d.2.2) % 2 ^ 16 := by
    rw [(regFile_accel_6050_bias bits s d).2]
    exact reg16_after_bias s.bus 0x06 0x08 0x0A
      ((reg16 s.bus 0x06 : Int) - clearBit0 d.1, (reg16 s.bus 0x08 : Int) - clearBit0 d.2.1,
        (reg16 s.bus 0x0A : Int) - clearBit0 d.2.2) (by norm_num) (by norm_num)
  have b : (reg16 (mpu_set_accel_bias_6500_reg (regFile bits) s d).2.bus 0x77 : Int) =
        ((reg16 s.bus 0x77 : Int) - clearBit0 d.1) % 2 ^ 16 ∧
      (reg16 (mpu_set_accel_bias_6500_reg (regFile bits) s d).2.bus 0x7A : Int) =
        ((reg16 s.bus 0x7A : Int) - clearBit0 d.2.1) % 2 ^ 16 ∧
      (reg16 (mpu_set_accel_bias_6500_reg (regFile bits) s d).2.bus 0x7D : Int) =
        ((reg16 s.bus 0x7D : Int) - clearBit0 d.2.2) % 2 ^ 16 := by
    rw [(regFile_accel_6500_bias bits s d).2]
    exact reg16_after_bias s.bus 0x77 0x7A 0x7D
      ((reg16 s.bus 0x77 : Int) - clearBit0 d.1, (reg16 s.bus 0x7A : Int) - clearBit0 d.2.1,
        (reg16 s.bus 0x7D : Int) - clearBit0 d.2.2) (by norm_num) (by norm_num)
  exact ⟨⟨(regFile_accel_6050_bias bits s d).1, a,
      clearBit0_keeps_bit0 _ _ _ a.1, clearBit0_keeps_bit0 _ _ _ a.2.1,
      clearBit0_keeps_bit0 _ _ _ a.2.2⟩,
    ⟨(regFile_accel_6500_bias bits s d).1, b,
      clearBit0_keeps_bit0 _ _ _ b.1, clearBit0_keeps_bit0 _ _ _ b.2.1,
      clearBit0_keeps_bit0 _ _ _ b.2.2⟩⟩

/-! ## Sensor power -/

/-- The log after `mpu_set_int_latched` extends the log before it. -/
theorem mpu_set_int_latched_log_ext (T : Platform W) (s : St W) (e : Nat) :
    ∃ rest, (mpu_set_int_latched T s e).2.log = s.log ++ rest := by
  unfold mpu_set_int_latched
  split_ifs
  · exact ⟨[], by simp⟩
  · exact onFail_rule (fun r : Int × St W => ∃ rest, r.2.log = s.log ++ rest) _ _ _
      (fun _ => ⟨_, rfl⟩) (fun _ => ⟨_, rfl⟩)

/-- The three paths through `mpu_set_sensors`: a property holds of its result as soon as
it holds of the result of each path. -/
theorem mpu_set_sensors_rule (Q : Int × St W → Prop) (T : Platform W) (s : St W) (mask : Nat)
    (h1 : ∀ s1 : St W, s1.cfg.sensors = 0 →
      s1.log = s.log ++ [Ev.write reg.pwr_mgmt_1 [sensors_clk mask] false] → Q (-1, s1))
    (h2 : ∀ s1 : St W, s1.cfg.sensors = 0 →
      s1.log = s.log ++ [Ev.write reg.pwr_mgmt_1 [sensors_clk mask] true,
        Ev.write reg.pwr_mgmt_2 [sensors_stby mask] false] → Q (-1, s1))
    (h3 : ∀ (s1 : St W) (rest : List Ev), s1.cfg.sensors = mask → s1.cfg.lp_accel_mode = 0 →
      s1.log = s.log ++ Ev.write reg.pwr_mgmt_1 [sensors_clk mask] true ::
        Ev.write reg.pwr_mgmt_2 [sensors_stby mask] true :: rest → Q (0, s1)) :
    Q (mpu_set_sensors T s mask) := by
  unfold mpu_set_sensors
  dsimp only
  refine write_rule Q T s _ _ _ _ (fun s1 _ hl _ => h1 _ rfl hl) (fun s1 _ hl1 _ => ?_)
  refine write_rule Q T _ _ _ _ _ (fun s3 _ hl3 _ => h2 _ rfl ?_) (fun s3 _ hl3 _ => ?_)
  · rw [setCfg_log, hl3, setCfg_log, hl1, List.append_assoc]
    rfl
  · have h4 : ∃ rest, (if mask ≠ 0 ∧ mask ≠ INV_XYZ_ACCEL
        then (mpu_set_int_latched T s3 0).2 else s3).log = s3.log ++ rest := by
      split_ifs
      · exact mpu_set_int_latched_log_ext T s3 0
      · exact ⟨[], by simp⟩
    obtain ⟨rest, h4⟩ := h4
    refine h3 _ (rest ++ [Ev.delay 50]) rfl rfl ?_
    rw [delay_ms_log, setCfg_log, h4, hl3, setCfg_log, hl1]
    simp

/-- C13: for every mask and every transport, `mpu_set_sensors` takes one of three paths.
If the power-management-1 write fails it returns -1 with the cached `sensors` 0 and no
further transfer; if that write succeeds and the power-management-2 write fails it
returns -1 with the cached `sensors` 0 and no further transfer; if both succeed it
returns 0 with the cached `sensors` equal to the mask and `lp_accel_mode` 0. -/
theorem mpu_set_sensors_outcomes (T : Platform W) (s : St W) (mask : Nat) :
    ((mpu_set_sensors T s mask).1 = -1 ∧ (mpu_set_sensors T s mask).2.cfg.sensors = 0 ∧
      (mpu_set_sensors T s mask).2.log =
        s.log ++ [Ev.write reg.pwr_mgmt_1 [sensors_clk mask] false]) ∨
    ((mpu_set_sensors T s mask).1 = -1 ∧ (mpu_set_sensors T s mask).2.cfg.sensors = 0 ∧
      (mpu_set_sensors T s mask).2.log =
        s.log ++ [Ev.write reg.pwr_mgmt_1 [sensors_clk mask] true,
          Ev.write reg.pwr_mgmt_2 [sensors_stby mask] false]) ∨
    ((mpu_set_sensors T s mask).1 = 0 ∧ (mpu_set_sensors T s mask).2.cfg.sensors = mask ∧
      (mpu_set_sensors T s mask).2.cfg.lp_accel_mode = 0 ∧
      ∃ rest, (mpu_set_sensors T s mask).2.log =
        s.log ++ Ev.write reg.pwr_mgmt_1 [sensors_clk mask] true ::
          Ev.write reg.pwr_mgmt_2 [sensors_stby mask] true :: rest) :=
  mpu_set_sensors_rule (fun r : Int × St W =>
      (r.1 = -1 ∧ r.2.cfg.sensors = 0 ∧
        r.2.log = s.log ++ [Ev.write reg.pwr_mgmt_1 [sensors_clk mask] false]) ∨
      (r.1 = -1 ∧ r.2.cfg.sensors = 0 ∧
        r.2.log = s.log ++ [Ev.write reg.pwr_mgmt_1 [sensors_clk mask] true,
          Ev.write reg.pwr_mgmt_2 [sensors_stby mask] false]) ∨
      (r.1 = 0 ∧ r.2.cfg.sensors = mask ∧ r.2.cfg.lp_accel_mode = 0 ∧
        ∃ rest, r.2.log = s.log ++ Ev.write reg.pwr_mgmt_1 [sensors_clk mask] true ::
          Ev.write reg.pwr_mgmt_2 [sensors_stby mask] true :: rest)) T s mask
    (fun _ hc hl => Or.inl ⟨rfl, hc, hl⟩)
    (fun _ hc hl => Or.inr (Or.inl ⟨rfl, hc, hl⟩))
    (fun _ rest hc hp hl => Or.inr (Or.inr ⟨rfl, hc, hp, rest, hl⟩))

/-! ## FIFO configuration -/

/-- One more event in the log. -/
theorem LogExt.step {P : Ev → Prop} {s s1 : St W} {e : Ev} (h : s1.log = s.log ++ [e])
    (hp : P e) : LogExt P s s1 :=
  ⟨[e], h, by simpa using hp⟩

/-- A cache store leaves the log as it is. -/
theorem LogExt.setCfg {P : Ev → Prop} {s s1 : St W} (h : LogExt P s s1) (c : chip_cfg_s) :
    LogExt P s (s1.setCfg c) := h

/-- The two ways out of `mpu_reset_fifo`: it returns -1 or 0 and never changes the cache;
it returns -1 only with all sensors asleep or after a write that failed, and when it
returns 0 every transfer it issued succeeded. -/
theorem mpu_reset_fifo_rule (Q : Int × St W → Prop) (T : Platform W) (s : St W)
    (hf : ∀ s1 : St W, s1.cfg = s.cfg →
      (s.cfg.sensors = 0 ∨ ∃ r d, Ev.outcomeOf T (Ev.write r d false)) → Q (-1, s1))
    (hk : ∀ s1 : St W, s1.cfg = s.cfg →
      LogExt (fun e => e.ok = true) s s1 → Q (0, s1)) :
    Q (mpu_reset_fifo T s) := by
  have hf1 : ∀ {r : Nat} {d : List Nat}, Ev.outcomeOf T (Ev.write r d false) →
      ∀ s1 : St W, s1.cfg = s.cfg → Q (-1, s1) :=
    fun o s1 c => hf s1 c (Or.inr ⟨_, _, o⟩)
  unfold mpu_reset_fifo
  split_ifs with h0
  · exact hf s rfl (Or.inl h0)
  · refine write_rule Q T s _ _ _ _ (fun s1 c1 _ o => hf1 o s1 c1) (fun s1 c1 l1 _ => ?_)
    have L1 : LogExt (fun e => e.ok = true) s s1 := LogExt.step l1 rfl
    refine write_rule Q T s1 _ _ _ _ (fun s2 c2 _ o => hf1 o s2 (c2.trans c1))
      (fun s2 c2 l2 _ => ?_)
    have L2 := L1.trans (LogExt.step l2 rfl)
    refine write_rule Q T s2 _ _ _ _ (fun s3 c3 _ o => hf1 o s3 (c3.trans (c2.trans c1)))
      (fun s3 c3 l3 _ => ?_)
    have L3 := L2.trans (LogExt.step l3 rfl)
    have c3s := c3.trans (c2.trans c1)
    split_ifs with hdmp
    · refine write_rule Q T s3 _ _ _ _ (fun s4 c4 _ o => hf1 o s4 (c4.trans c3s))
        (fun s4 c4 l4 _ => ?_)
      have L4 := L3.trans (LogExt.step l4 rfl)
      dsimp only
      have L5 := L4.trans (LogExt.delay s4 50 rfl)
      refine write_rule Q T _ _ _ _ _ (fun s6 c6 _ o => hf1 o s6 (c6.trans (c4.trans c3s)))
        (fun s6 c6 l6 _ => ?_)
      have L6 := L5.trans (LogExt.step l6 rfl)
      have c6s := c6.trans (c4.trans c3s)
      refine write_rule Q T s6 _ _ _ _ (fun s7 c7 _ o => hf1 o s7 (c7.trans c6s))
        (fun s7 c7 l7 _ => ?_)
      have L7 := L6.trans (LogExt.step l7 rfl)
      refine write_rule Q T s7 _ _ _ _ (fun s8 c8 _ o => hf1 o s8 (c8.trans (c7.trans c6s)))
        (fun s8 c8 l8 _ => ?_)
      exact hk s8 (c8.trans (c7.trans c6s)) (L7.trans (LogExt.step l8 rfl))
    · refine write_rule Q T s3 _ _ _ _ (fun s4 c4 _ o => hf1 o s4 (c4.trans c3s))
        (fun s4 c4 l4 _ => ?_)
      have L4 := L3.trans (LogExt.step l4 rfl)
      refine write_rule Q T s4 _ _ _ _ (fun s5 c5 _ o => hf1 o s5 (c5.trans (c4.trans c3s)))
        (fun s5 c5 l5 _ => ?_)
      have L5 := L4.trans (LogExt.step l5 rfl)
      dsimp only
      have L6 := L5.trans (LogExt.delay s5 50 rfl)
      have c5s := c5.trans (c4.trans c3s)
      refine write_rule Q T _ _ _ _ _ (fun s7 c7 _ o => hf1 o s7 (c7.trans c5s))
        (fun s7 c7 l7 _ => ?_)
      have L7 := L6.trans (LogExt.step l7 rfl)
      refine write_rule Q T s7 _ _ _ _ (fun s8 c8 _ o => hf1 o s8 (c8.trans (c7.trans c5s)))
        (fun s8 c8 l8 _ => ?_)
      exact hk s8 (c8.trans (c7.trans c5s)) (L7.trans (LogExt.step l8 rfl))

/-- The events a call appended to the log are the log after the call without the log
before it. -/
theorem LogExt.drop {P : Ev → Prop} {s s1 : St W} (h : LogExt P s s1) :
    ∀ e ∈ s1.log.drop s.log.length, P e := by
  obtain ⟨evs, h1, h2⟩ := h
  rw [h1, List.drop_left]
  exact h2

/-- C14: in `mpu_configure_fifo` with DMP off, a sensor awake and a requested mask that is
non-empty without the compass bit, if the `mpu_reset_fifo` call it makes fails (it
returns non-zero, or one of the transfers it issues fails) then `mpu_configure_fifo`
returns -1 and the cached `fifo_enable` is the one from before the call. -/
theorem mpu_configure_fifo_rolls_back (T : Platform W) (s : St W) (mask : Nat)
    (hd : s.cfg.dmp_on = 0) (hs : s.cfg.sensors ≠ 0) (hm : mask &&& 0xFE ≠ 0)
    (hfail : (mpu_reset_fifo T (configure_fifo_reset_state T s mask)).1 ≠ 0 ∨
      ∃ e ∈ (mpu_reset_fifo T (configure_fifo_reset_state T s mask)).2.log.drop
        (configure_fifo_reset_state T s mask).log.length, e.ok = false) :
    (mpu_configure_fifo T s mask).1 = -1 ∧
    (mpu_configure_fifo T s mask).2.cfg.fifo_enable = s.cfg.fifo_enable := by
  have hst : (mpu_reset_fifo T (configure_fifo_reset_state T s mask)).1 ≠ 0 := by
    rcases hfail with h | ⟨e, he, hok⟩
    · exact h
    · revert he
      refine mpu_reset_fifo_rule (fun r : Int × St W =>
        e ∈ r.2.log.drop (configure_fifo_reset_state T s mask).log.length → r.1 ≠ 0) T _
        (fun _ _ _ _ => by simp) (fun s1 _ L he => ?_)
      have := L.drop e he
      rw [hok] at this
      cases this
  unfold mpu_configure_fifo
  dsimp only
  rw [if_neg (not_not.mpr hd), if_neg hs, if_pos hm, if_pos (Or.inl hm)]
  unfold onErr
  unfold configure_fifo_reset_state at hst
  rw [if_pos hst]
  exact ⟨rfl, rfl⟩

/-- Witness for C14 on a platform whose FIFO-enable register rejects writes: with the
accel streamed (`fifo_enable = 0x08`), a request for gyro and accel (0x78) fails in the
reset and leaves `fifo_enable = 0x08`. -/
theorem mpu_configure_fifo_rolls_back_witness :
    (stFifoAccel.cfg.dmp_on = 0 ∧ stFifoAccel.cfg.sensors ≠ 0 ∧ 0x78 &&& 0xFE ≠ 0 ∧
      (mpu_reset_fifo (failOn reg.fifo_en)
        (configure_fifo_reset_state (failOn reg.fifo_en) stFifoAccel 0x78)).1 ≠ 0) ∧
    (mpu_configure_fifo (failOn reg.fifo_en) stFifoAccel 0x78).1 = -1 ∧
    (mpu_configure_fifo (failOn reg.fifo_en) stFifoAccel 0x78).2.cfg.fifo_enable = 0x08 :=
  ⟨⟨rfl, by decide, by decide, by decide⟩,
    mpu_configure_fifo_rolls_back (failOn reg.fifo_en) stFifoAccel 0x78 rfl (by decide)
      (by decide) (Or.inl (by decide))⟩

/-- With a sensor awake and every write accepted, `mpu_reset_fifo` returns 0. -/
theorem mpu_reset_fifo_ok (T : Platform W) (s : St W) (hs : s.cfg.sensors ≠ 0)
    (hw : ∀ w r d, (T.write w r d).1 = true) : (mpu_reset_fifo T s).1 = 0 := by
  refine mpu_reset_fifo_rule (fun r : Int × St W => r.1 = 0) T s (fun s1 _ h => ?_)
    (fun _ _ _ => rfl)
  rcases h with h | ⟨r, d, w, h⟩
  · exact absurd h hs
  · rw [hw] at h
    cases h

/-- C15: in `mpu_configure_fifo` with DMP off, a sensor awake and every transport write
succeeding, the cached `fifo_enable` afterwards is the requested mask without the
compass bit, intersected with `sensors`. The call returns 0 exactly when that
intersection dropped no requested non-compass bit, and -1 otherwise. -/
theorem mpu_configure_fifo_intersects (T : Platform W) (s : St W) (mask : Nat)
    (hd : s.cfg.dmp_on = 0) (hs : s.cfg.sensors ≠ 0)
    (hw : ∀ w r d, (T.write w r d).1 = true) :
    (mpu_configure_fifo T s mask).2.cfg.fifo_enable = (mask &&& 0xFE) &&& s.cfg.sensors ∧
    ((mpu_configure_fifo T s mask).1 = 0 ↔
      (mask &&& 0xFE) &&& s.cfg.sensors = mask &&& 0xFE) ∧
    ((mpu_configure_fifo T s mask).1 ≠ 0 → (mpu_configure_fifo T s mask).1 = -1) := by
  have key : ∀ e, (set_int_enable T
      (s.setCfg { s.cfg with fifo_enable := mask &&& 0xFE &&& s.cfg.sensors }) e).2.cfg.fifo_enable
      = mask &&& 0xFE &&& s.cfg.sensors :=
    fun e => set_int_enable_keep (fun c => c.fifo_enable) (fun _ _ => rfl) T _ e
  have keys : ∀ e, (set_int_enable T
      (s.setCfg { s.cfg with fifo_enable := mask &&& 0xFE &&& s.cfg.sensors }) e).2.cfg.sensors
      ≠ 0 := by
    intro e
    rw [set_int_enable_keep (fun c => c.sensors) (fun _ _ => rfl) T _ e]
    exact hs
  have res : ∀ x : Int, x = (if mask &&& 0xFE &&& s.cfg.sensors ≠ mask &&& 0xFE then -1 else 0) →
      ((x = 0 ↔ (mask &&& 0xFE) &&& s.cfg.sensors = mask &&& 0xFE) ∧ (x ≠ 0 → x = -1)) := by
    intro x hx
    by_cases h : mask &&& 0xFE &&& s.cfg.sensors = mask &&& 0xFE
    · rw [if_neg (not_not.mpr h)] at hx
      subst hx
      simp [h]
    · rw [if_pos h] at hx
      subst hx
      simp [h]
  unfold mpu_configure_fifo
  dsimp only
  rw [if_neg (not_not.mpr hd), if_neg hs]
  by_cases hm : mask &&& 0xFE ≠ 0
  · rw [if_pos hm, if_pos (Or.inl hm)]
    unfold onErr
    rw [if_neg (not_not.mpr (mpu_reset_fifo_ok T _ (keys 1) hw))]
    exact ⟨(congrArg (fun c => c.fifo_enable) (mpu_reset_fifo_cfg T _)).trans (key 1),
      res _ rfl⟩
  · rw [if_neg hm]
    refine ⟨?_, res _ rfl⟩
    dsimp only
    split_ifs
    all_goals first | exact key 1 | exact key 0

/-- Witness for C15 on the always-succeeding transport: with gyro and accel awake, a
request for everything (0xFF) caches 0x78 and returns -1, because the requested bits
0x06 are not sensors that are awake. -/
theorem mpu_configure_fifo_intersects_witness :
    (stAwake.cfg.dmp_on = 0 ∧ stAwake.cfg.sensors ≠ 0) ∧
    (mpu_configure_fifo okBus stAwake 0xFF).2.cfg.fifo_enable = (0xFF &&& 0xFE) &&& 0x78 ∧
    ((mpu_configure_fifo okBus stAwake 0xFF).1 = 0 ↔ (0xFF &&& 0xFE) &&& 0x78 = 0xFF &&& 0xFE) ∧
    ((mpu_configure_fifo okBus stAwake 0xFF).1 ≠ 0 →
      (mpu_configure_fifo okBus stAwake 0xFF).1 = -1) :=
  ⟨⟨rfl, by decide⟩,
    mpu_configure_fifo_intersects okBus stAwake 0xFF rfl (by decide) (fun _ _ _ => rfl)⟩

/-! ## Setters called with the cached value -/

/-- C16: for every state and transport, a range, filter, bypass or latch setter called
with a value that maps to the value already cached returns with the state exactly as it
was: no transport write, no transport read, no cache change. For `mpu_set_gyro_fsr` and
`mpu_set_accel_fsr` the value maps to `data >> 3` of the `switch`, for `mpu_set_lpf` to
the filter code of the threshold chain, and for `mpu_set_bypass` and
`mpu_set_int_latched` to itself. -/
theorem setters_idempotent (T : Platform W) (s : St W) :
    (∀ fsr data, gyro_fsr_data fsr = some data → s.cfg.gyro_fsr = data >>> 3 →
      (mpu_set_gyro_fsr T s fsr).2 = s) ∧
    (∀ fsr data, accel_fsr_data fsr = some data → s.cfg.accel_fsr = data >>> 3 →
      (mpu_set_accel_fsr T s fsr).2 = s) ∧
    (∀ hz, s.cfg.lpf = lpf_data hz → (mpu_set_lpf T s hz).2 = s) ∧
    (∀ b, s.cfg.bypass_mode = b → mpu_set_bypass T s b = (0, s)) ∧
    (∀ e, s.cfg.latched_int = e → mpu_set_int_latched T s e = (0, s)) := by
  refine ⟨fun fsr data hd hc => ?_, fun fsr data hd hc => ?_, fun hz hc => ?_,
    fun b hc => ?_, fun e hc => ?_⟩
  · unfold mpu_set_gyro_fsr
    rw [hd]
    dsimp only
    rw [if_pos hc]
    split_ifs <;> rfl
  · unfold mpu_set_accel_fsr
    rw [hd]
    dsimp only
    rw [if_pos hc]
    split_ifs <;> rfl
  · unfold mpu_set_lpf
    dsimp only
    rw [if_pos hc]
    split_ifs <;> rfl
  · unfold mpu_set_bypass
    rw [if_pos hc]
  · unfold mpu_set_int_latched
    rw [if_pos hc]

/-- Witness for C16 on a state with 2000 dps, 2 g, the 42 Hz filter, bypass off and
unlatched interrupts cached: repeating each setting returns 0 and logs nothing, also on
a transport that would reject every write. -/
theorem setters_idempotent_witness :
    mpu_set_gyro_fsr (failOn reg.gyro_cfg) stTuned 2000 = (0, stTuned) ∧
    mpu_set_accel_fsr (failOn reg.accel_cfg) stTuned 2 = (0, stTuned) ∧
    mpu_set_lpf (failOn reg.lpf) stTuned 50 = (0, stTuned) ∧
    mpu_set_bypass (failOn reg.int_pin_cfg) stTuned 0 = (0, stTuned) ∧
    mpu_set_int_latched (failOn reg.int_pin_cfg) stTuned 0 = (0, stTuned) :=
  ⟨Prod.ext rfl ((setters_idempotent (failOn reg.gyro_cfg) stTuned).1 2000 0x18 rfl rfl),
    Prod.ext rfl ((setters_idempotent (failOn reg.accel_cfg) stTuned).2.1 2 0 rfl rfl),
    Prod.ext rfl ((setters_idempotent (failOn reg.lpf) stTuned).2.2.1 50 rfl),
    (setters_idempotent (failOn reg.int_pin_cfg) stTuned).2.2.2.1 0 rfl,
    (setters_idempotent (failOn reg.int_pin_cfg) stTuned).2.2.2.2 0 rfl⟩

/-! ## Paths through the setters that `mpu_init` calls -/

theorem Ran.nil (T : Platform W) (s : St W) : Ran T s s [] :=
  ⟨by simp, by simp⟩

theorem Ran.append {T : Platform W} {s s1 s2 : St W} {e1 e2 : List Ev} (h1 : Ran T s s1 e1)
    (h2 : Ran T s1 s2 e2) : Ran T s s2 (e1 ++ e2) := by
  refine ⟨by rw [h2.1, h1.1, List.append_assoc], fun e he => ?_⟩
  rcases List.mem_append.mp he with h | h
  · exact h1.2 e h
  · exact h2.2 e h

theorem Ran.one {T : Platform W} {s s1 : St W} {e : Ev} (h : s1.log = s.log ++ [e])
    (o : Ev.outcomeOf T e) : Ran T s s1 [e] :=
  ⟨h, by simpa using o⟩

theorem Ran.pause (T : Platform W) (s : St W) (ms : Nat) : Ran T s (delay_ms s ms) [Ev.delay ms] :=
  ⟨rfl, by simp [Ev.outcomeOf]⟩

theorem Ran.store {T : Platform W} {s s1 : St W} {evs : List Ev} (h : Ran T s s1 evs)
    (c : chip_cfg_s) : Ran T s (s1.setCfg c) evs := h

theorem Ran.of_eq {T : Platform W} {s s1 : St W} {e1 e2 : List Ev} (h : Ran T s s1 e1)
    (he : e1 = e2) : Ran T s s1 e2 := he ▸ h

/-- `onErr` after a call that returned 0. -/
theorem onErr_zero {α : Type} (s : St W) (fail k : St W → α) : onErr (0, s) fail k = k s := rfl

/-- A checked write, with the event it logs. -/
theorem write_ran {α : Type} (Q : α → Prop) (T : Platform W) (s : St W) (r : Nat)
    (d : List Nat) (fail k : St W → α)
    (hf : ∀ s1 : St W, s1.cfg = s.cfg → Ran T s s1 [Ev.write r d false] → Q (fail s1))
    (hk : ∀ s1 : St W, s1.cfg = s.cfg → Ran T s s1 [Ev.write r d true] → Q (k s1)) :
    Q (onFail (i2c_write T s r d) fail k) :=
  write_rule Q T s r d fail k (fun s1 c l o => hf s1 c (Ran.one l o))
    (fun s1 c l o => hk s1 c (Ran.one l o))

/-- A checked read, with the event it logs. -/
theorem read_ran {α : Type} (Q : α → Prop) (T : Platform W) (s : St W) (r n : Nat)
    (fail : St W → α) (k : List Nat → St W → α)
    (hf : ∀ s1 : St W, s1.cfg = s.cfg → Ran T s s1 [Ev.read r n false] → Q (fail s1))
    (hk : ∀ (data : List Nat) (s1 : St W), s1.cfg = s.cfg → Ran T s s1 [Ev.read r n true] →
      Q (k data s1)) :
    Q (onFailR (i2c_read T s r n) fail k) :=
  read_rule Q T s r n fail k (fun s1 c l o => hf s1 c (Ran.one l o))
    (fun data s1 c l o => hk data s1 c (Ran.one l o))

/-- The two paths through `mpu_set_gyro_fsr(2000)` when a sensor is awake and another
range is cached. -/
theorem mpu_set_gyro_fsr_2000_rule (Q : Int × St W → Prop) (T : Platform W) (s : St W)
    (hs : s.cfg.sensors ≠ 0) (hne : s.cfg.gyro_fsr ≠ 3)
    (hf : ∀ s1 : St W, s1.cfg = s.cfg → Ran T s s1 [Ev.write reg.gyro_cfg [0x18] false] →
      Q (-1, s1))
    (hk : ∀ s1 : St W, s1.cfg = { s.cfg with gyro_fsr := 3 } →
      Ran T s s1 [Ev.write reg.gyro_cfg [0x18] true] → Q (0, s1)) :
    Q (mpu_set_gyro_fsr T s 2000) := by
  unfold mpu_set_gyro_fsr
  rw [if_neg hs]
  have hd : gyro_fsr_data 2000 = some 0x18 := rfl
  rw [hd]
  dsimp only
  rw [if_neg (show ¬ s.cfg.gyro_fsr = 0x18 >>> 3 from hne)]
  exact write_ran Q T s _ _ _ _ hf
    (fun s1 c r => hk _ (by rw [setCfg_cfg, c]; rfl) r)

/-- The two paths through `mpu_set_accel_fsr(2)` when a sensor is awake and another
range is cached. -/
theorem mpu_set_accel_fsr_2_rule (Q : Int × St W → Prop) (T : Platform W) (s : St W)
    (hs : s.cfg.sensors ≠ 0) (hne : s.cfg.accel_fsr ≠ 0)
    (hf : ∀ s1 : St W, s1.cfg = s.cfg → Ran T s s1 [Ev.write reg.accel_cfg [0x00] false] →
      Q (-1, s1))
    (hk : ∀ s1 : St W, s1.cfg = { s.cfg with accel_fsr := 0 } →
      Ran T s s1 [Ev.write reg.accel_cfg [0x00] true] → Q (0, s1)) :
    Q (mpu_set_accel_fsr T s 2) := by
  unfold mpu_set_accel_fsr
  rw [if_neg hs]
  have hd : accel_fsr_data 2 = some 0x00 := rfl
  rw [hd]
  dsimp only
  rw [if_neg (show ¬ s.cfg.accel_fsr = 0x00 >>> 3 from hne)]
  exact write_ran Q T s _ _ _ _ hf
    (fun s1 c r => hk _ (by rw [setCfg_cfg, c]; rfl) r)

/-- The two paths through `mpu_set_lpf` when a sensor is awake and another filter code is
cached. -/
theorem mpu_set_lpf_rule (Q : Int × St W → Prop) (T : Platform W) (s : St W) (hz : Nat)
    (hs : s.cfg.sensors ≠ 0) (hne : s.cfg.lpf ≠ lpf_data hz)
    (hf : ∀ s1 : St W, s1.cfg = s.cfg → Ran T s s1 [Ev.write reg.lpf [lpf_data hz] false] →
      Q (-1, s1))
    (hk : ∀ s1 : St W, s1.cfg = { s.cfg with lpf := lpf_data hz } →
      Ran T s s1 [Ev.write reg.lpf [lpf_data hz] true] → Q (0, s1)) :
    Q (mpu_set_lpf T s hz) := by
  unfold mpu_set_lpf
  rw [if_neg hs]
  dsimp only
  rw [if_neg hne]
  exact write_ran Q T s _ _ _ _ hf
    (fun s1 c r => hk _ (by rw [setCfg_cfg, c]) r)

/-- The paths through `mpu_set_sample_rate(50)` with a sensor awake, DMP off, full-power
mode and a filter other than 20 Hz cached: the rate-divider write is checked, the
filter write that follows is not. -/
theorem mpu_set_sample_rate_50_rule (Q : Int × St W → Prop) (T : Platform W) (s : St W)
    (hs : s.cfg.sensors ≠ 0) (hd : s.cfg.dmp_on = 0) (hlp : s.cfg.lp_accel_mode = 0)
    (hne : s.cfg.lpf ≠ 4)
    (hf : ∀ s1 : St W, s1.cfg = s.cfg → Ran T s s1 [Ev.write reg.rate_div [19] false] →
      Q (-1, s1))
    (hk : ∀ (s1 : St W) (b : Bool),
      s1.cfg = { s.cfg with sample_rate := 50, lpf := if b = true then 4 else s.cfg.lpf } →
      Ran T s s1 [Ev.write reg.rate_div [19] true, Ev.write reg.lpf [4] b] → Q (0, s1)) :
    Q (mpu_set_sample_rate T s 50) := by
  unfold mpu_set_sample_rate
  rw [if_neg hs, if_neg (not_not.mpr hd), if_neg (fun h => h.1 hlp)]
  dsimp only
  rw [if_neg (not_not.mpr hlp)]
  have hdiv : rate_div_data 50 = 19 := rfl
  rw [hdiv]
  refine write_ran Q T s _ _ _ _ hf (fun s1 c1 r1 => ?_)
  have h25 : lpf_data ((s1.setCfg { s1.cfg with sample_rate := 1000 / (1 + 19) }).cfg.sample_rate
      >>> 1) = 4 := by
    show lpf_data ((1000 / (1 + 19)) >>> 1) = 4
    decide
  refine mpu_set_lpf_rule (fun r : Int × St W => Q (0, r.2)) T _ _ ?_ ?_
    (fun s2 c2 r2 => ?_) (fun s2 c2 r2 => ?_)
  · rw [setCfg_cfg, c1]
    exact hs
  · rw [h25, setCfg_cfg, c1]
    exact hne
  · rw [h25] at r2
    refine hk s2 false ?_ ((r1.store _).append r2)
    rw [c2, setCfg_cfg, c1]
    rfl
  · rw [h25] at r2 c2
    refine hk s2 true ?_ ((r1.store _).append r2)
    rw [c2, setCfg_cfg, c1]
    rfl

/-- The paths through `mpu_configure_fifo(0)` with DMP off, a sensor awake and
full-power mode: its only transfer, the interrupt-enable write, is not checked, and it
returns 0. -/
theorem mpu_configure_fifo_0_rule (Q : Int × St W → Prop) (T : Platform W) (s : St W)
    (hd : s.cfg.dmp_on = 0) (hs : s.cfg.sensors ≠ 0) (hlp : s.cfg.lp_accel_mode = 0)
    (hk : ∀ (s1 : St W) (b : Bool),
      s1.cfg =
        { s.cfg with fifo_enable := 0, int_enable := if b = true then 0 else s.cfg.int_enable } →
      Ran T s s1 [Ev.write reg.int_enable [0] b] → Q (0, s1)) :
    Q (mpu_configure_fifo T s 0) := by
  unfold mpu_configure_fifo
  have h0 : (0 : Nat) &&& 0xFE = 0 := rfl
  dsimp only
  rw [h0, Nat.zero_and, if_neg (not_not.mpr hd), if_neg hs]
  simp only [setCfg_cfg]
  rw [if_neg (show ¬ ((0 : Nat) ≠ 0) from by decide),
    if_neg (show ¬ ((0 : Nat) ≠ 0 ∨ s.cfg.lp_accel_mode ≠ 0) from by simp [hlp])]
  unfold set_int_enable
  simp only [setCfg_cfg]
  rw [if_neg (not_not.mpr hd), if_neg hs,
    if_neg (show ¬ ((0 : Nat) ≠ 0 ∧ s.cfg.int_enable ≠ 0) from fun h => h.1 rfl),
    if_neg (show ¬ ((0 : Nat) ≠ 0) from by decide)]
  refine write_ran (fun r : Int × St W => Q (0, r.2)) T _ _ _ _ _
    (fun s1 c1 r1 => hk s1 false (by rw [c1]; rfl) r1)
    (fun s1 c1 r1 => hk _ true (by rw [setCfg_cfg, c1]; rfl) r1)

/-- The paths through `mpu_set_bypass(0)` when another bypass mode is cached: the
user-control read, the user-control write and the interrupt-pin write are checked. -/
theorem mpu_set_bypass_0_rule (Q : Int × St W → Prop) (T : Platform W) (s : St W)
    (hne : s.cfg.bypass_mode ≠ 0)
    (hf : ∀ (s1 : St W) (tail : List Ev), s1.cfg = s.cfg → Ran T s s1 tail →
      (tail = [Ev.read reg.user_ctrl 1 false] ∨
        (∃ d, tail = [Ev.read reg.user_ctrl 1 true, Ev.write reg.user_ctrl [d] false]) ∨
        (∃ d, tail = [Ev.read reg.user_ctrl 1 true, Ev.write reg.user_ctrl [d] true,
          Ev.delay 3, Ev.write reg.int_pin_cfg [bypass_off_byte s.cfg] false])) → Q (-1, s1))
    (hk : ∀ (s1 : St W) (d : Nat), s1.cfg = { s.cfg with bypass_mode := 0 } →
      Ran T s s1 [Ev.read reg.user_ctrl 1 true, Ev.write reg.user_ctrl [d] true,
        Ev.delay 3, Ev.write reg.int_pin_cfg [bypass_off_byte s.cfg] true] → Q (0, s1)) :
    Q (mpu_set_bypass T s 0) := by
  unfold mpu_set_bypass
  rw [if_neg hne, if_neg (show ¬ ((0 : Nat) ≠ 0) from by decide)]
  refine read_ran Q T s _ _ _ _ (fun s1 c1 r1 => hf s1 _ c1 r1 (Or.inl rfl))
    (fun tmp s1 c1 r1 => ?_)
  refine write_ran Q T s1 _ _ _ _
    (fun s2 c2 r2 => hf s2 _ (c2.trans c1) (r1.append r2) (Or.inr (Or.inl ⟨_, rfl⟩)))
    (fun s2 c2 r2 => ?_)
  dsimp only
  have c3 : (delay_ms s2 3).cfg = s.cfg := c2.trans c1
  have r3 : Ran T s (delay_ms s2 3) _ := (r1.append r2).append (Ran.pause T s2 3)
  rw [show bypass_off_byte (delay_ms s2 3).cfg = bypass_off_byte s.cfg from by rw [c3]]
  refine write_ran Q T _ _ _ _ _
    (fun s4 c4 r4 => hf s4 _ (c4.trans c3) (r3.append r4) (Or.inr (Or.inr ⟨_, rfl⟩)))
    (fun s4 c4 r4 => hk _ _ (by rw [setCfg_cfg, c4, c3]) ((r3.append r4).store _))

/-- The paths through `mpu_set_sensors(0)` from full-power mode: in each of them the
cached `sensors` is 0 afterwards and the fields other than `sensors` and `clk_src` are as
before. -/
theorem mpu_set_sensors_0_rule (Q : St W → Prop) (T : Platform W) (s : St W)
    (hlp : s.cfg.lp_accel_mode = 0)
    (h : ∀ (s1 : St W) (tail : List Ev), Ran T s s1 tail → init_power_down tail →
      { s1.cfg with clk_src := 0 } = { s.cfg with sensors := 0, clk_src := 0 } → Q s1) :
    Q (mpu_set_sensors T s 0).2 := by
  have e : s.cfg = { s.cfg with lp_accel_mode := 0 } := by
    rw [← hlp]
  unfold mpu_set_sensors
  have hc : sensors_clk 0 = BIT_SLEEP := rfl
  have hb : sensors_stby 0 = 0x3F := rfl
  rw [hc, hb]
  dsimp only
  refine write_ran (fun r : Int × St W => Q r.2) T s _ _ _ _
    (fun s1 c1 r1 => h _ _ (r1.store _) (Or.inl rfl) (by simp only [setCfg_cfg, c1]))
    (fun s1 c1 r1 => ?_)
  refine write_ran (fun r : Int × St W => Q r.2) T _ _ _ _ _
    (fun s3 c3 r3 => h _ _ (((r1.store _).append r3).store _) (Or.inr (Or.inl rfl))
      (by simp only [setCfg_cfg, c3, c1]))
    (fun s3 c3 r3 => ?_)
  rw [if_neg (fun h0 => h0.1 rfl)]
  refine h _ _ ((((r1.store _).append r3).store _).append (Ran.pause T _ 50))
    (Or.inr (Or.inr rfl)) ?_
  simp only [setCfg_cfg, delay_ms_cfg, c3, c1]
  rw [e]

/-! ## Paths through `mpu_init` -/

/-- Every path through `mpu_init`: a property holds of its result as soon as it holds of
the result of each path. The checked transfers are the reset, wake, gyro-range,
accel-range, filter and rate-divider writes and the three transfers of
`mpu_set_bypass(0)`; the filter write inside `mpu_set_sample_rate` (flag `b1`), the
interrupt-enable write of `mpu_configure_fifo(0)` (flag `b2`) and the writes of the final
`mpu_set_sensors(0)` are not checked. -/
theorem mpu_init_rule (Q : Int × St W → Prop) (T : Platform W) (s : St W)
    (h1 : ∀ s1 : St W, Ran T s s1 [Ev.write reg.pwr_mgmt_1 [BIT_RESET] false] → Q (-1, s1))
    (h2 : ∀ s1 : St W, Ran T s s1 (init_steps.take 2 ++ [Ev.write reg.pwr_mgmt_1 [0x00] false]) →
      Q (-2, s1))
    (h30 : ∀ s1 : St W, Ran T s s1 (init_steps.take 3 ++ [Ev.write reg.gyro_cfg [0x18] false]) →
      Q (-30, s1))
    (h31 : ∀ s1 : St W, Ran T s s1 (init_steps.take 4 ++ [Ev.write reg.accel_cfg [0x00] false]) →
      Q (-31, s1))
    (h32 : ∀ s1 : St W,
      Ran T s s1 (init_steps.take 5 ++ [Ev.write reg.lpf [INV_FILTER_42HZ] false]) →
      Q (-32, s1))
    (h33 : ∀ s1 : St W, Ran T s s1 (init_steps.take 6 ++ [Ev.write reg.rate_div [19] false]) →
      Q (-33, s1))
    (h4 : ∀ (s1 : St W) (b1 b2 : Bool) (tail : List Ev),
      Ran T s s1 (init_steps ++ [Ev.write reg.lpf [INV_FILTER_20HZ] b1,
        Ev.write reg.int_enable [0] b2] ++ tail) →
      init_bypass_failure tail →
      s1.cfg.lpf = (if b1 = true then INV_FILTER_20HZ else INV_FILTER_42HZ) →
      s1.cfg.bypass_mode = 0xFF → s1.cfg.sensors = 0xFF → Q (-4, s1))
    (h0 : ∀ (s1 : St W) (b1 b2 : Bool) (d : Nat) (tail : List Ev),
      Ran T s s1 (init_steps ++ [Ev.write reg.lpf [INV_FILTER_20HZ] b1,
        Ev.write reg.int_enable [0] b2] ++ init_bypass_ok d ++ tail) →
      init_power_down tail →
      { s1.cfg with clk_src := 0 } =
        { init_cfg s.cfg with gyro_fsr := 3, accel_fsr := 0,
                              lpf := if b1 = true then INV_FILTER_20HZ else INV_FILTER_42HZ,
                              sample_rate := 50, fifo_enable := 0,
                              int_enable := if b2 = true then 0 else s.cfg.int_enable,
                              bypass_mode := 0, sensors := 0, clk_src := 0 } →
      Q (0, s1)) :
    Q (mpu_init T s) := by
  unfold mpu_init
  refine write_ran Q T s _ _ _ _ (fun s1 _ r1 => h1 s1 r1) (fun s1 c1 r1 => ?_)
  dsimp only
  have r2 : Ran T s (delay_ms s1 500) _ := r1.append (Ran.pause T s1 500)
  refine write_ran Q T _ _ _ _ _ (fun s3 _ r3 => h2 s3 (r2.append r3)) (fun s3 c3 r3 => ?_)
  have c4 : (s3.setCfg (init_cfg s3.cfg)).cfg = init_cfg s.cfg := by
    rw [setCfg_cfg, c3, delay_ms_cfg, c1]
  have r4 : Ran T s (s3.setCfg (init_cfg s3.cfg)) (init_steps.take 3) := r2.append r3
  generalize s3.setCfg (init_cfg s3.cfg) = s4 at c4 r4 ⊢
  have n0 : (0xFF : Nat) ≠ 0 := by decide
  have n3 : (0xFF : Nat) ≠ 3 := by decide
  have n4 : (3 : Nat) ≠ 4 := by decide
  refine mpu_set_gyro_fsr_2000_rule (fun r : Int × St W => Q (onErr r _ _)) T s4
    (by rw [c4]; exact n0) (by rw [c4]; exact n3) (fun s5 _ r5 => h30 s5 (r4.append r5))
    (fun s5 c5 r5 => ?_)
  rw [c4] at c5
  have r5 : Ran T s s5 (init_steps.take 4) := r4.append r5
  clear c4 r4 c3 r3 r2 c1 r1
  rw [onErr_zero]
  refine mpu_set_accel_fsr_2_rule (fun r : Int × St W => Q (onErr r _ _)) T s5
    (by rw [c5]; exact n0) (by rw [c5]; exact n0) (fun s6 _ r6 => h31 s6 (r5.append r6))
    (fun s6 c6 r6 => ?_)
  rw [c5] at c6
  have r6 : Ran T s s6 (init_steps.take 5) := r5.append r6
  clear c5 r5
  rw [onErr_zero]
  refine mpu_set_lpf_rule (fun r : Int × St W => Q (onErr r _ _)) T s6 42
    (by rw [c6]; exact n0) (by rw [c6]; exact n3) (fun s7 _ r7 => h32 s7 (r6.append r7))
    (fun s7 c7 r7 => ?_)
  rw [c6] at c7
  have r7 : Ran T s s7 (init_steps.take 6) := r6.append r7
  clear c6 r6
  rw [onErr_zero]
  refine mpu_set_sample_rate_50_rule (fun r : Int × St W => Q (onErr r _ _)) T s7
    (by rw [c7]; exact n0) (by rw [c7]; rfl) (by rw [c7]; rfl) (by rw [c7]; exact n4)
    (fun s8 _ r8 => h33 s8 (r7.append r8)) (fun s8 b1 c8 r8 => ?_)
  rw [c7] at c8
  have r8 : Ran T s s8 (init_steps ++ [Ev.write reg.lpf [INV_FILTER_20HZ] b1]) := r7.append r8
  clear c7 r7
  rw [onErr_zero]
  refine mpu_configure_fifo_0_rule (fun r : Int × St W => Q (onErr r _ _)) T s8
    (by rw [c8]; rfl) (by rw [c8]; exact n0) (by rw [c8]; rfl) (fun s9 b2 c9 r9 => ?_)
  rw [c8] at c9
  have r9 : Ran T s s9 (init_steps ++ [Ev.write reg.lpf [INV_FILTER_20HZ] b1,
      Ev.write reg.int_enable [0] b2]) := r8.append r9
  clear c8 r8
  rw [onErr_zero]
  have hb9 : bypass_off_byte s9.cfg = BIT_ACTL := by rw [c9]; rfl
  refine mpu_set_bypass_0_rule (fun r : Int × St W => Q (onErr r _ _)) T s9
    (by rw [c9]; exact n0) (fun s10 tail c10 r10 ht => ?_) (fun s10 d c10 r10 => ?_)
  · rw [hb9] at ht
    exact h4 s10 b1 b2 tail (r9.append r10) ht (by rw [c10, c9]; all_goals rfl)
      (by rw [c10, c9]; all_goals rfl) (by rw [c10, c9]; all_goals rfl)
  rw [hb9] at r10
  rw [c9] at c10
  have r10 : Ran T s s10 (init_steps ++ [Ev.write reg.lpf [INV_FILTER_20HZ] b1,
      Ev.write reg.int_enable [0] b2] ++ init_bypass_ok d) := r9.append r10
  clear c9 r9 hb9
  rw [onErr_zero]
  refine mpu_set_sensors_0_rule (fun s1 : St W => Q (0, s1)) T s10 (by rw [c10]; rfl)
    (fun s11 tail r11 ht c11 => h0 s11 b1 b2 d tail (r10.append r11) ht ?_)
  rw [c11, c10]
  rfl

/-! ## Defaults after `mpu_init` -/

/-- On a platform that accepts every write no failed write is logged. -/
theorem no_failed_write {T : Platform W} (hw : ∀ w r d, (T.write w r d).1 = true)
    {evs : List Ev} {r : Nat} {d : List Nat} (ha : ∀ e ∈ evs, Ev.outcomeOf T e)
    (hm : Ev.write r d false ∈ evs) : False := by
  obtain ⟨w, h⟩ := ha _ hm
  rw [hw] at h
  cases h

/-- On a platform that accepts every write no run ends with a failed write. -/
theorem no_failed_last {T : Platform W} (hw : ∀ w r d, (T.write w r d).1 = true)
    {p : List Ev} {r : Nat} {d : List Nat}
    (ha : ∀ e ∈ p ++ [Ev.write r d false], Ev.outcomeOf T e) : False :=
  no_failed_write hw ha (List.mem_append_right _ (List.mem_singleton_self _))

/-- On a platform that accepts every write, the `mpu_set_bypass(0)` call of `mpu_init`
can fail only at its read of the user-control register. -/
theorem bypass_failure_is_read {T : Platform W} (hw : ∀ w r d, (T.write w r d).1 = true)
    {evs tail : List Ev} (ha : ∀ e ∈ evs ++ tail, Ev.outcomeOf T e)
    (ht : init_bypass_failure tail) : tail = [Ev.read reg.user_ctrl 1 false] := by
  rcases ht with h | ⟨d, h⟩ | ⟨d, h⟩
  · exact h
  · exact (no_failed_write hw ha (r := reg.user_ctrl) (d := [d])
      (List.mem_append_right _ (by rw [h]; simp))).elim
  · exact (no_failed_write hw ha (r := reg.int_pin_cfg) (d := [BIT_ACTL])
      (List.mem_append_right _ (by rw [h]; simp))).elim

/-- C17 fails as stated: on a platform on which every write succeeds and every read
fails, `mpu_init` returns -4 from `mpu_set_bypass`, with the `sensors` and
`bypass_mode` sentinels 0xFF still cached. -/
theorem mpu_init_needs_read :
    (∀ w r d, (noReadBus.write w r d).1 = true) ∧ (mpu_init noReadBus st0).1 = -4 ∧
    (mpu_init noReadBus st0).2.cfg.sensors = 0xFF ∧
    (mpu_init noReadBus st0).2.cfg.bypass_mode = 0xFF :=
  ⟨fun _ _ _ => rfl, by decide, by decide, by decide⟩

/-- C17, amended: when every transport write and the read of the user-control register
succeed, `mpu_init` returns 0 and leaves the cache with gyro range 2000 dps, accel range
2 g, sample rate 50 Hz, `fifo_enable = 0`, `sensors = 0`, `dmp_on = 0` and
`dmp_loaded = 0`. -/
theorem mpu_init_defaults (T : Platform W) (s : St W)
    (hw : ∀ w r d, (T.write w r d).1 = true)
    (hr : ∀ w, (T.read w reg.user_ctrl 1).1.isSome = true) :
    (mpu_init T s).1 = 0 ∧ mpu_get_gyro_fsr (mpu_init T s).2 = (0, 2000) ∧
    mpu_get_accel_fsr (mpu_init T s).2 = (0, some 2) ∧
    mpu_get_sample_rate (mpu_init T s).2 = (0, some 50) ∧
    (mpu_init T s).2.cfg.fifo_enable = 0 ∧ (mpu_init T s).2.cfg.sensors = 0 ∧
    (mpu_init T s).2.cfg.dmp_on = 0 ∧ (mpu_init T s).2.cfg.dmp_loaded = 0 := by
  refine mpu_init_rule (fun r : Int × St W => r.1 = 0 ∧ mpu_get_gyro_fsr r.2 = (0, 2000) ∧
      mpu_get_accel_fsr r.2 = (0, some 2) ∧ mpu_get_sample_rate r.2 = (0, some 50) ∧
      r.2.cfg.fifo_enable = 0 ∧ r.2.cfg.sensors = 0 ∧ r.2.cfg.dmp_on = 0 ∧
      r.2.cfg.dmp_loaded = 0) T s
    (fun _ r => (no_failed_last hw (p := []) r.2).elim)
    (fun _ r => (no_failed_last hw r.2).elim) (fun _ r => (no_failed_last hw r.2).elim)
    (fun _ r => (no_failed_last hw r.2).elim) (fun _ r => (no_failed_last hw r.2).elim)
    (fun _ r => (no_failed_last hw r.2).elim)
    (fun s1 b1 b2 tail r ht _ _ _ => ?_) (fun s1 b1 b2 d tail r _ e => ?_)
  · have h := bypass_failure_is_read hw r.2 ht
    obtain ⟨w, h1⟩ := r.2 (Ev.read reg.user_ctrl 1 false)
      (List.mem_append_right _ (by rw [h]; simp))
    rw [hr] at h1
    cases h1
  · have hg : s1.cfg.gyro_fsr = 3 := congrArg (fun c => c.gyro_fsr) e
    have ha : s1.cfg.accel_fsr = 0 := congrArg (fun c => c.accel_fsr) e
    have hh : s1.cfg.accel_half = 0 := congrArg (fun c => c.accel_half) e
    have hsr : s1.cfg.sample_rate = 50 := congrArg (fun c => c.sample_rate) e
    have hd : s1.cfg.dmp_on = 0 := congrArg (fun c => c.dmp_on) e
    refine ⟨rfl, ?_, ?_, ?_, congrArg (fun c => c.fifo_enable) e,
      congrArg (fun c => c.sensors) e, hd, congrArg (fun c => c.dmp_loaded) e⟩
    · simp [mpu_get_gyro_fsr, hg]
    · simp [mpu_get_accel_fsr, ha, hh]
    · simp [mpu_get_sample_rate, hd, hsr]

/-- Witness for C17 on the always-succeeding transport. -/
theorem mpu_init_defaults_witness :
    (mpu_init okBus st0).1 = 0 ∧ mpu_get_gyro_fsr (mpu_init okBus st0).2 = (0, 2000) ∧
    mpu_get_accel_fsr (mpu_init okBus st0).2 = (0, some 2) ∧
    mpu_get_sample_rate (mpu_init okBus st0).2 = (0, some 50) ∧
    (mpu_init okBus st0).2.cfg.fifo_enable = 0 ∧ (mpu_init okBus st0).2.cfg.sensors = 0 ∧
    (mpu_init okBus st0).2.cfg.dmp_on = 0 ∧ (mpu_init okBus st0).2.cfg.dmp_loaded = 0 :=
  mpu_init_defaults okBus st0 (fun _ _ _ => rfl) (fun _ => rfl)

/-- C18 fails in the code: when every transport write succeeds, the filter cached after
`mpu_init` returns is the 20 Hz tier, not the 42 Hz one. `mpu_init` does call
`mpu_set_lpf(42)`, but the `mpu_set_sample_rate(50)` call that follows sets the filter
to half the sample rate, `mpu_set_lpf(25)`, which selects 20 Hz. -/
theorem mpu_init_lpf_is_20 (T : Platform W) (s : St W)
    (hw : ∀ w r d, (T.write w r d).1 = true) :
    mpu_get_lpf (mpu_init T s).2 = (0, 20) ∧
    (mpu_init T s).2.cfg.lpf = INV_FILTER_20HZ := by
  have key : ∀ (s1 : St W) (b1 : Bool), s1.cfg.lpf = (if b1 = true then 4 else 3) →
      b1 = true → mpu_get_lpf s1 = (0, 20) ∧ s1.cfg.lpf = INV_FILTER_20HZ := by
    intro s1 b1 h hb
    rw [hb] at h
    exact ⟨by simp [mpu_get_lpf, h], h⟩
  have flag : ∀ (evs : List Ev) (b1 : Bool), (∀ e ∈ evs, Ev.outcomeOf T e) →
      Ev.write reg.lpf [INV_FILTER_20HZ] b1 ∈ evs → b1 = true := by
    intro evs b1 ha hm
    obtain ⟨w, h⟩ := ha _ hm
    rw [hw] at h
    exact h.symm
  refine mpu_init_rule (fun r : Int × St W =>
      mpu_get_lpf r.2 = (0, 20) ∧ r.2.cfg.lpf = INV_FILTER_20HZ) T s
    (fun _ r => (no_failed_last hw (p := []) r.2).elim)
    (fun _ r => (no_failed_last hw r.2).elim) (fun _ r => (no_failed_last hw r.2).elim)
    (fun _ r => (no_failed_last hw r.2).elim) (fun _ r => (no_failed_last hw r.2).elim)
    (fun _ r => (no_failed_last hw r.2).elim)
    (fun s1 b1 b2 tail r _ hl _ _ => key s1 b1 hl (flag _ b1 r.2 (by simp)))
    (fun s1 b1 b2 d tail r _ e =>
      key s1 b1 (congrArg (fun c => c.lpf) e) (flag _ b1 r.2 (by simp)))

/-- Witness for C18 on the always-succeeding transport: after `mpu_init`, `mpu_get_lpf`
reports 20. -/
theorem mpu_init_lpf_is_20_witness :
    (mpu_init okBus st0).1 = 0 ∧ mpu_get_lpf (mpu_init okBus st0).2 = (0, 20) ∧
    (mpu_init okBus st0).2.cfg.lpf = INV_FILTER_20HZ :=
  ⟨by decide, mpu_init_lpf_is_20 okBus st0 (fun _ _ _ => rfl)⟩

/-- C19 fails as stated: on the always-succeeding transport `mpu_init` returns 0 with
`bypass_mode = 0` cached, and the only byte it writes to the interrupt-pin
configuration register is 0x80, in which the bypass-enable bit 0x02 is clear. -/
theorem mpu_init_bypass_off :
    (mpu_init okBus st0).1 = 0 ∧ (mpu_init okBus st0).2.cfg.bypass_mode = 0 ∧
    (mpu_init okBus st0).2.log.filter (Ev.onReg reg.int_pin_cfg) =
      [Ev.write reg.int_pin_cfg [0x80] true] ∧
    0x80 &&& BIT_BYPASS_EN = 0 :=
  ⟨by decide, by decide, by decide, by decide⟩

/-- C19, amended: when every transport transfer succeeds, auxiliary-bus bypass is
disabled after `mpu_init` returns. The call returns 0, the cached `bypass_mode` is 0, and
the only byte written to the interrupt-pin configuration register during the call is
`BIT_ACTL` (0x80), in which the bypass-enable bit 0x02 is clear. -/
theorem mpu_init_disables_bypass (T : Platform W) (s : St W)
    (hw : ∀ w r d, (T.write w r d).1 = true)
    (hr : ∀ w, (T.read w reg.user_ctrl 1).1.isSome = true) :
    (mpu_init T s).1 = 0 ∧ (mpu_init T s).2.cfg.bypass_mode = 0 ∧
    ((mpu_init T s).2.log.drop s.log.length).filter (Ev.onReg reg.int_pin_cfg) =
      [Ev.write reg.int_pin_cfg [BIT_ACTL] true] ∧
    BIT_ACTL &&& BIT_BYPASS_EN = 0 := by
  refine mpu_init_rule (fun r : Int × St W => r.1 = 0 ∧ r.2.cfg.bypass_mode = 0 ∧
      (r.2.log.drop s.log.length).filter (Ev.onReg reg.int_pin_cfg) =
        [Ev.write reg.int_pin_cfg [BIT_ACTL] true] ∧ BIT_ACTL &&& BIT_BYPASS_EN = 0) T s
    (fun _ r => (no_failed_last hw (p := []) r.2).elim)
    (fun _ r => (no_failed_last hw r.2).elim) (fun _ r => (no_failed_last hw r.2).elim)
    (fun _ r => (no_failed_last hw r.2).elim) (fun _ r => (no_failed_last hw r.2).elim)
    (fun _ r => (no_failed_last hw r.2).elim)
    (fun s1 b1 b2 tail r ht _ _ _ => ?_) (fun s1 b1 b2 d tail r ht e => ?_)
  · have h := bypass_failure_is_read hw r.2 ht
    obtain ⟨w, h1⟩ := r.2 (Ev.read reg.user_ctrl 1 false)
      (List.mem_append_right _ (by rw [h]; simp))
    rw [hr] at h1
    cases h1
  · refine ⟨rfl, congrArg (fun c => c.bypass_mode) e, ?_, by decide⟩
    rw [r.1, List.drop_left]
    rcases ht with h | h | h
    all_goals
      rw [h]
      cases b1 <;> cases b2 <;> rfl

/-- Witness for C19, amended, on the always-succeeding transport from the empty log. -/
theorem mpu_init_disables_bypass_witness :
    (mpu_init okBus st0).1 = 0 ∧ (mpu_init okBus st0).2.cfg.bypass_mode = 0 ∧
    ((mpu_init okBus st0).2.log.drop st0.log.length).filter (Ev.onReg reg.int_pin_cfg) =
      [Ev.write reg.int_pin_cfg [BIT_ACTL] true] ∧
    BIT_ACTL &&& BIT_BYPASS_EN = 0 :=
  mpu_init_disables_bypass okBus st0 (fun _ _ _ => rfl) (fun _ => rfl)

/-- C20 fails as stated: on a platform whose power-management-2 register rejects writes,
`mpu_init` returns 0 although one of the writes it issued (in `mpu_set_sensors(0)`)
failed. -/
theorem mpu_init_ignores_power_down :
    (mpu_init (failOn reg.pwr_mgmt_2) st0).1 = 0 ∧
    Ev.write reg.pwr_mgmt_2 [0x3F] false ∈ (mpu_init (failOn reg.pwr_mgmt_2) st0).2.log :=
  ⟨by decide, by decide⟩

/-- C20, amended: for every transport, `mpu_init` takes one of eight paths, told apart by
its status. It returns -1, -2, -30, -31, -32 or -33 when the reset, wake, gyro-range,
accel-range, filter or rate-divider write fails after all the checked transfers before
it succeeded, and -4 when the user-control read, the user-control write or the
interrupt-pin write of `mpu_set_bypass(0)` fails; in each case the failing transfer is
the last one issued. Otherwise it returns 0. Four writes are not checked: the 20 Hz
filter write inside `mpu_set_sample_rate` (flag `b1`), the interrupt-enable write of
`mpu_configure_fifo(0)` (flag `b2`) and the two power-management writes of the final
`mpu_set_sensors(0)`; -34 is never returned. -/
theorem mpu_init_status (T : Platform W) (s : St W) :
    ∃ evs, Ran T s (mpu_init T s).2 evs ∧
      (((mpu_init T s).1 = -1 ∧ evs = [Ev.write reg.pwr_mgmt_1 [BIT_RESET] false]) ∨
        ((mpu_init T s).1 = -2 ∧
          evs = init_steps.take 2 ++ [Ev.write reg.pwr_mgmt_1 [0x00] false]) ∨
        ((mpu_init T s).1 = -30 ∧
          evs = init_steps.take 3 ++ [Ev.write reg.gyro_cfg [0x18] false]) ∨
        ((mpu_init T s).1 = -31 ∧
          evs = init_steps.take 4 ++ [Ev.write reg.accel_cfg [0x00] false]) ∨
        ((mpu_init T s).1 = -32 ∧
          evs = init_steps.take 5 ++ [Ev.write reg.lpf [INV_FILTER_42HZ] false]) ∨
        ((mpu_init T s).1 = -33 ∧
          evs = init_steps.take 6 ++ [Ev.write reg.rate_div [19] false]) ∨
        ((mpu_init T s).1 = -4 ∧ ∃ b1 b2 tail, init_bypass_failure tail ∧
          evs = init_steps ++ [Ev.write reg.lpf [INV_FILTER_20HZ] b1,
            Ev.write reg.int_enable [0] b2] ++ tail) ∨
        ((mpu_init T s).1 = 0 ∧ ∃ b1 b2 d tail, init_power_down tail ∧
          evs = init_steps ++ [Ev.write reg.lpf [INV_FILTER_20HZ] b1,
            Ev.write reg.int_enable [0] b2] ++ init_bypass_ok d ++ tail)) :=
  mpu_init_rule (fun r : Int × St W => ∃ evs, Ran T s r.2 evs ∧
      ((r.1 = -1 ∧ evs = [Ev.write reg.pwr_mgmt_1 [BIT_RESET] false]) ∨
        (r.1 = -2 ∧ evs = init_steps.take 2 ++ [Ev.write reg.pwr_mgmt_1 [0x00] false]) ∨
        (r.1 = -30 ∧ evs = init_steps.take 3 ++ [Ev.write reg.gyro_cfg [0x18] false]) ∨
        (r.1 = -31 ∧ evs = init_steps.take 4 ++ [Ev.write reg.accel_cfg [0x00] false]) ∨
        (r.1 = -32 ∧ evs = init_steps.take 5 ++ [Ev.write reg.lpf [INV_FILTER_42HZ] false]) ∨
        (r.1 = -33 ∧ evs = init_steps.take 6 ++ [Ev.write reg.rate_div [19] false]) ∨
        (r.1 = -4 ∧ ∃ b1 b2 tail, init_bypass_failure tail ∧
          evs = init_steps ++ [Ev.write reg.lpf [INV_FILTER_20HZ] b1,
            Ev.write reg.int_enable [0] b2] ++ tail) ∨
        (r.1 = 0 ∧ ∃ b1 b2 d tail, init_power_down tail ∧
          evs = init_steps ++ [Ev.write reg.lpf [INV_FILTER_20HZ] b1,
            Ev.write reg.int_enable [0] b2] ++ init_bypass_ok d ++ tail))) T s
    (fun _ r => ⟨_, r, Or.inl ⟨rfl, rfl⟩⟩)
    (fun _ r => ⟨_, r, Or.inr (Or.inl ⟨rfl, rfl⟩)⟩)
    (fun _ r => ⟨_, r, Or.inr (Or.inr (Or.inl ⟨rfl, rfl⟩))⟩)
    (fun _ r => ⟨_, r, Or.inr (Or.inr (Or.inr (Or.inl ⟨rfl, rfl⟩)))⟩)
    (fun _ r => ⟨_, r, Or.inr (Or.inr (Or.inr (Or.inr (Or.inl ⟨rfl, rfl⟩))))⟩)
    (fun _ r => ⟨_, r, Or.inr (Or.inr (Or.inr (Or.inr (Or.inr (Or.inl ⟨rfl, rfl⟩)))))⟩)
    (fun _ b1 b2 tail r ht _ _ _ => ⟨_, r,
      Or.inr (Or.inr (Or.inr (Or.inr (Or.inr (Or.inr (Or.inl ⟨rfl, b1, b2, tail, ht, rfl⟩))))))⟩)
    (fun _ b1 b2 d tail r ht _ => ⟨_, r,
      Or.inr (Or.inr (Or.inr (Or.inr (Or.inr (Or.inr (Or.inr
        ⟨rfl, b1, b2, d, tail, ht, rfl⟩))))))⟩)

/-! ## Range setters -/

/-- The `switch` of `mpu_set_gyro_fsr` has a case exactly for 250, 500, 1000 and 2000. -/
theorem gyro_fsr_data_none (fsr : Nat) :
    gyro_fsr_data fsr = none ↔ (fsr ≠ 250 ∧ fsr ≠ 500 ∧ fsr ≠ 1000 ∧ fsr ≠ 2000) := by
  unfold gyro_fsr_data
  split_ifs <;> simp_all

/-- The `switch` of `mpu_set_accel_fsr` has a case exactly for 2, 4, 8 and 16. -/
theorem accel_fsr_data_none (fsr : Nat) :
    accel_fsr_data fsr = none ↔ (fsr ≠ 2 ∧ fsr ≠ 4 ∧ fsr ≠ 8 ∧ fsr ≠ 16) := by
  unfold accel_fsr_data
  split_ifs <;> simp_all

/-- A write that is rejected leaves the cache as it is and fails the setter. -/
theorem onFail_write_status (T : Platform W) (s : St W) (r : Nat) (d : List Nat)
    (c : chip_cfg_s → chip_cfg_s) :
    ((onFail (i2c_write T s r d) (fun s1 => ((-1 : Int), s1))
        (fun s1 => (0, s1.setCfg (c s1.cfg)))).1 ≠ 0 ↔ (T.write s.bus r d).1 = false) ∧
    ((onFail (i2c_write T s r d) (fun s1 => ((-1 : Int), s1))
        (fun s1 => (0, s1.setCfg (c s1.cfg)))).1 ≠ 0 →
      (onFail (i2c_write T s r d) (fun s1 => ((-1 : Int), s1))
        (fun s1 => (0, s1.setCfg (c s1.cfg)))).2.cfg = s.cfg) := by
  unfold onFail
  rw [i2c_write_fail_iff]
  cases h : (T.write s.bus r d).1
  · simp
  · simp

/-- C21: `mpu_set_gyro_fsr` returns failure exactly when no sensor is awake, or the value
is not one of 250, 500, 1000, 2000, or the value differs from the cached one and the
register write fails; `mpu_set_accel_fsr` likewise with 2, 4, 8, 16. In every failing
case the cache is unchanged, and for a sleeping chip or an unsupported value the whole
state is: no transfer is issued. -/
theorem range_setter_failures (T : Platform W) (s : St W) (fsr : Nat) :
    (((mpu_set_gyro_fsr T s fsr).1 ≠ 0 ↔
        (s.cfg.sensors = 0 ∨ (fsr ≠ 250 ∧ fsr ≠ 500 ∧ fsr ≠ 1000 ∧ fsr ≠ 2000) ∨
          ∃ data, gyro_fsr_data fsr = some data ∧ s.cfg.gyro_fsr ≠ data >>> 3 ∧
            (T.write s.bus reg.gyro_cfg [data]).1 = false)) ∧
      ((mpu_set_gyro_fsr T s fsr).1 ≠ 0 → (mpu_set_gyro_fsr T s fsr).2.cfg = s.cfg) ∧
      ((s.cfg.sensors = 0 ∨ (fsr ≠ 250 ∧ fsr ≠ 500 ∧ fsr ≠ 1000 ∧ fsr ≠ 2000)) →
        mpu_set_gyro_fsr T s fsr = (-1, s))) ∧
    (((mpu_set_accel_fsr T s fsr).1 ≠ 0 ↔
        (s.cfg.sensors = 0 ∨ (fsr ≠ 2 ∧ fsr ≠ 4 ∧ fsr ≠ 8 ∧ fsr ≠ 16) ∨
          ∃ data, accel_fsr_data fsr = some data ∧ s.cfg.accel_fsr ≠ data >>> 3 ∧
            (T.write s.bus reg.accel_cfg [data]).1 = false)) ∧
      ((mpu_set_accel_fsr T s fsr).1 ≠ 0 → (mpu_set_accel_fsr T s fsr).2.cfg = s.cfg) ∧
      ((s.cfg.sensors = 0 ∨ (fsr ≠ 2 ∧ fsr ≠ 4 ∧ fsr ≠ 8 ∧ fsr ≠ 16)) →
        mpu_set_accel_fsr T s fsr = (-1, s))) := by
  constructor
  · unfold mpu_set_gyro_fsr
    by_cases hs : s.cfg.sensors = 0
    · rw [if_pos hs]
      simp [hs]
    rw [if_neg hs]
    cases hd : gyro_fsr_data fsr with
    | none =>
      have hn := (gyro_fsr_data_none fsr).mp hd
      simp [hn]
    | some data =>
      have hn : ¬ (fsr ≠ 250 ∧ fsr ≠ 500 ∧ fsr ≠ 1000 ∧ fsr ≠ 2000) := by
        rw [← gyro_fsr_data_none, hd]
        simp
      dsimp only
      by_cases hc : s.cfg.gyro_fsr = data >>> 3
      · rw [if_pos hc]
        simp [hs, hn, hc]
      · rw [if_neg hc]
        obtain ⟨h1, h2⟩ := onFail_write_status T s reg.gyro_cfg [data]
          (fun c => { c with gyro_fsr := data >>> 3 })
        refine ⟨h1.trans ?_, h2, fun h => absurd h (by simp [hs, hn])⟩
        simp [hs, hn, hc]
  · unfold mpu_set_accel_fsr
    by_cases hs : s.cfg.sensors = 0
    · rw [if_pos hs]
      simp [hs]
    rw [if_neg hs]
    cases hd : accel_fsr_data fsr with
    | none =>
      have hn := (accel_fsr_data_none fsr).mp hd
      simp [hn]
    | some data =>
      have hn : ¬ (fsr ≠ 2 ∧ fsr ≠ 4 ∧ fsr ≠ 8 ∧ fsr ≠ 16) := by
        rw [← accel_fsr_data_none, hd]
        simp
      dsimp only
      by_cases hc : s.cfg.accel_fsr = data >>> 3
      · rw [if_pos hc]
        simp [hs, hn, hc]
      · rw [if_neg hc]
        obtain ⟨h1, h2⟩ := onFail_write_status T s reg.accel_cfg [data]
          (fun c => { c with accel_fsr := data >>> 3 })
        refine ⟨h1.trans ?_, h2, fun h => absurd h (by simp [hs, hn])⟩
        simp [hs, hn, hc]

/-- After `mpu_set_gyro_fsr` has returned 0 the cached range code is the one of the
`switch` case taken. -/
theorem mpu_set_gyro_fsr_cached (T : Platform W) (s : St W) (fsr : Nat)
    (h : (mpu_set_gyro_fsr T s fsr).1 = 0) :
    ∃ data, gyro_fsr_data fsr = some data ∧
      (mpu_set_gyro_fsr T s fsr).2.cfg.gyro_fsr = data >>> 3 := by
  revert h
  unfold mpu_set_gyro_fsr
  split_ifs with hs
  · intro h
    cases h
  cases hd : gyro_fsr_data fsr with
  | none =>
    intro h
    cases h
  | some data =>
    dsimp only
    split_ifs with hc
    · exact fun _ => ⟨data, rfl, hc⟩
    · exact onFail_rule (fun r : Int × St W => r.1 = 0 →
        ∃ d1, some data = some d1 ∧ r.2.cfg.gyro_fsr = d1 >>> 3) _ _ _
        (fun _ h => by cases h) (fun _ _ => ⟨data, rfl, rfl⟩)

/-- After `mpu_set_accel_fsr` has returned 0 the cached range code is the one of the
`switch` case taken, and the half-sensitivity flag is as before. -/
theorem mpu_set_accel_fsr_cached (T : Platform W) (s : St W) (fsr : Nat)
    (h : (mpu_set_accel_fsr T s fsr).1 = 0) :
    ∃ data, accel_fsr_data fsr = some data ∧
      (mpu_set_accel_fsr T s fsr).2.cfg.accel_fsr = data >>> 3 := by
  revert h
  unfold mpu_set_accel_fsr
  split_ifs with hs
  · intro h
    cases h
  cases hd : accel_fsr_data fsr with
  | none =>
    intro h
    cases h
  | some data =>
    dsimp only
    split_ifs with hc
    · exact fun _ => ⟨data, rfl, hc⟩
    · exact onFail_rule (fun r : Int × St W => r.1 = 0 →
        ∃ d1, some data = some d1 ∧ r.2.cfg.accel_fsr = d1 >>> 3) _ _ _
        (fun _ h => by cases h) (fun _ _ => ⟨data, rfl, rfl⟩)

/-- The range `mpu_get_gyro_fsr` reports for the code of a supported range. -/
theorem mpu_get_gyro_fsr_of_data (s : St W) (fsr data : Nat)
    (hd : gyro_fsr_data fsr = some data) (hc : s.cfg.gyro_fsr = data >>> 3) :
    mpu_get_gyro_fsr s = (0, fsr) := by
  unfold gyro_fsr_data at hd
  unfold mpu_get_gyro_fsr
  split_ifs at hd with h1 h2 h3 h4
  all_goals
    injection hd with hd
    subst hd
    rw [hc]
    simp [*]

/-- The range `mpu_get_accel_fsr` reports for the code of a supported range. -/
theorem mpu_get_accel_fsr_of_data (s : St W) (fsr data : Nat)
    (hd : accel_fsr_data fsr = some data) (hc : s.cfg.accel_fsr = data >>> 3) :
    mpu_get_accel_fsr s = (0, some (if s.cfg.accel_half ≠ 0 then 2 * fsr else fsr)) := by
  unfold accel_fsr_data at hd
  unfold mpu_get_accel_fsr
  split_ifs at hd with h1 h2 h3 h4
  all_goals
    injection hd with hd
    subst hd
    rw [hc]
    by_cases hh : s.cfg.accel_half = 0 <;> simp [*]

/-- C22: after `mpu_set_gyro_fsr(d)` has returned 0, `mpu_get_gyro_fsr` returns 0 and
reports `d`; after `mpu_set_accel_fsr(g)` has returned 0, `mpu_get_accel_fsr` returns 0
and reports `g` when the half-sensitivity flag is clear and `2 * g` when it is set. A
setter returns 0 only for the four supported values of its range. -/
theorem range_round_trip (T : Platform W) (s : St W) (d g : Nat) :
    ((mpu_set_gyro_fsr T s d).1 = 0 →
      mpu_get_gyro_fsr (mpu_set_gyro_fsr T s d).2 = (0, d) ∧
        (d = 250 ∨ d = 500 ∨ d = 1000 ∨ d = 2000)) ∧
    ((mpu_set_accel_fsr T s g).1 = 0 →
      mpu_get_accel_fsr (mpu_set_accel_fsr T s g).2 =
        (0, some (if (mpu_set_accel_fsr T s g).2.cfg.accel_half ≠ 0 then 2 * g else g)) ∧
        (mpu_set_accel_fsr T s g).2.cfg.accel_half = s.cfg.accel_half ∧
        (g = 2 ∨ g = 4 ∨ g = 8 ∨ g = 16)) := by
  constructor
  · intro h
    obtain ⟨data, hd, hc⟩ := mpu_set_gyro_fsr_cached T s d h
    refine ⟨mpu_get_gyro_fsr_of_data _ d data hd hc, ?_⟩
    by_contra hn
    have := (gyro_fsr_data_none d).mpr (by omega)
    rw [this] at hd
    cases hd
  · intro h
    obtain ⟨data, hd, hc⟩ := mpu_set_accel_fsr_cached T s g h
    refine ⟨mpu_get_accel_fsr_of_data _ g data hd hc,
      mpu_set_accel_fsr_keep (fun c => c.accel_half) (fun _ _ => rfl) T s g, ?_⟩
    by_contra hn
    have := (accel_fsr_data_none g).mpr (by omega)
    rw [this] at hd
    cases hd

/-- Witness for C22 on the always-succeeding transport with gyro and accel awake:
`mpu_set_gyro_fsr(500)` then `mpu_get_gyro_fsr` gives 500, and `mpu_set_accel_fsr(8)`
then `mpu_get_accel_fsr` gives 8. -/
theorem range_round_trip_witness :
    ((mpu_set_gyro_fsr okBus stAwake 500).1 = 0 ∧ (mpu_set_accel_fsr okBus stAwake 8).1 = 0) ∧
    mpu_get_gyro_fsr (mpu_set_gyro_fsr okBus stAwake 500).2 = (0, 500) ∧
    mpu_get_accel_fsr (mpu_set_accel_fsr okBus stAwake 8).2 = (0, some 8) :=
  ⟨⟨by decide, by decide⟩, ((range_round_trip okBus stAwake 500 8).1 (by decide)).1,
    ((range_round_trip okBus stAwake 500 8).2 (by decide)).1⟩

/-! ## Sample rate -/

/-- A write on a platform that accepts every write does not fail. -/
theorem i2c_write_ok (T : Platform W) (hw : ∀ w r d, (T.write w r d).1 = true) (s : St W)
    (r : Nat) (d : List Nat) : (i2c_write T s r d).1 = false := by
  rw [i2c_write_fail_iff, hw]
  rfl

/-- C23: after `mpu_set_sample_rate(hz)` on the full-power path (a sensor awake, DMP
off, low-power accel mode off) with every transport write succeeding, the call has
returned 0, the cached rate is `1000 / (1 + d)` for the divider byte `d` written, and
the cached filter code is the one `mpu_set_lpf` selects for half that rate (rounded
down): `mpu_get_lpf` reports the highest tier of 188, 98, 42, 20, 10, 5 that is not
above half the cached rate, or 5 if there is none. -/
theorem mpu_set_sample_rate_sets_filter (T : Platform W) (s : St W) (hz : Nat)
    (hs : s.cfg.sensors ≠ 0) (hd : s.cfg.dmp_on = 0) (hlp : s.cfg.lp_accel_mode = 0)
    (hw : ∀ w r d, (T.write w r d).1 = true) :
    (mpu_set_sample_rate T s hz).1 = 0 ∧
    (mpu_set_sample_rate T s hz).2.cfg.sample_rate = 1000 / (1 + rate_div_data hz) ∧
    (mpu_set_sample_rate T s hz).2.cfg.lpf =
      lpf_data ((mpu_set_sample_rate T s hz).2.cfg.sample_rate / 2) ∧
    mpu_get_lpf (mpu_set_sample_rate T s hz).2 =
      (0, if (mpu_set_sample_rate T s hz).2.cfg.sample_rate / 2 ≥ 188 then 188
        else if (mpu_set_sample_rate T s hz).2.cfg.sample_rate / 2 ≥ 98 then 98
        else if (mpu_set_sample_rate T s hz).2.cfg.sample_rate / 2 ≥ 42 then 42
        else if (mpu_set_sample_rate T s hz).2.cfg.sample_rate / 2 ≥ 20 then 20
        else if (mpu_set_sample_rate T s hz).2.cfg.sample_rate / 2 ≥ 10 then 10 else 5) := by
  have main : (mpu_set_sample_rate T s hz).1 = 0 ∧
      (mpu_set_sample_rate T s hz).2.cfg.sample_rate = 1000 / (1 + rate_div_data hz) ∧
      (mpu_set_sample_rate T s hz).2.cfg.lpf =
        lpf_data ((mpu_set_sample_rate T s hz).2.cfg.sample_rate / 2) := by
    unfold mpu_set_sample_rate
    rw [if_neg hs, if_neg (not_not.mpr hd), if_neg (fun h => h.1 hlp)]
    dsimp only
    rw [if_neg (not_not.mpr hlp)]
    unfold onFail
    rw [i2c_write_ok T hw]
    dsimp only
    generalize hs2 : (i2c_write T s reg.rate_div [rate_div_data hz]).2.setCfg
      { (i2c_write T s reg.rate_div [rate_div_data hz]).2.cfg with
        sample_rate := 1000 / (1 + rate_div_data hz) } = s2
    have c2 : s2.cfg.sample_rate = 1000 / (1 + rate_div_data hz) := by
      rw [← hs2]
      rfl
    have n2 : s2.cfg.sensors ≠ 0 := by
      rw [← hs2]
      exact hs
    have hk := mpu_set_lpf_keep (fun c => c.sample_rate) (fun _ _ => rfl) T s2
      (s2.cfg.sample_rate >>> 1)
    have hl := (mpu_set_lpf_ok T s2 (s2.cfg.sample_rate >>> 1) n2 (fun d => hw _ _ _)).2
    rw [if_neg (by decide)]
    refine ⟨rfl, hk.trans c2, ?_⟩
    show (mpu_set_lpf T s2 (s2.cfg.sample_rate >>> 1)).2.cfg.lpf =
      lpf_data ((mpu_set_lpf T s2 (s2.cfg.sample_rate >>> 1)).2.cfg.sample_rate / 2)
    rw [hl, hk, Nat.shiftRight_eq_div_pow]
  exact ⟨main.1, main.2.1, main.2.2, mpu_get_lpf_of_data _ _ main.2.2⟩

/-- Witness for C23 on the always-succeeding transport with gyro and accel awake: a
request for 200 Hz caches 200 Hz and the 98 Hz filter. -/
theorem mpu_set_sample_rate_sets_filter_witness :
    (stAwake.cfg.sensors ≠ 0 ∧ stAwake.cfg.dmp_on = 0 ∧ stAwake.cfg.lp_accel_mode = 0) ∧
    (mpu_set_sample_rate okBus stAwake 200).2.cfg.sample_rate = 200 ∧
    mpu_get_lpf (mpu_set_sample_rate okBus stAwake 200).2 = (0, 98) :=
  ⟨⟨by decide, rfl, rfl⟩,
    (mpu_set_sample_rate_sets_filter okBus stAwake 200 (by decide) rfl rfl
      (fun _ _ _ => rfl)).2.1,
    (mpu_set_sample_rate_sets_filter okBus stAwake 200 (by decide) rfl rfl
      (fun _ _ _ => rfl)).2.2.2⟩

/-! ## The cached sample rate stays in range -/

/-- The rate cached for a request `hz` is between the clamped request and 1000. -/
theorem cached_rate_bounds (hz : Nat) :
    min (max hz 4) 1000 ≤ 1000 / (1 + rate_div_data hz) ∧ 4 ≤ 1000 / (1 + rate_div_data hz) ∧
    1000 / (1 + rate_div_data hz) ≤ 1000 := by
  rw [(rate_div_data_eq hz).1]
  generalize hc : min (max hz 4) 1000 = c
  have h4 : 4 ≤ c := by omega
  have h1000 : c ≤ 1000 := by omega
  have hq : 1 ≤ 1000 / c := (Nat.one_le_div_iff (by omega)).mpr h1000
  have e : 1 + (1000 / c - 1) = 1000 / c := by omega
  rw [e]
  have hm : 1000 / c * c ≤ 1000 := Nat.div_mul_le_self 1000 c
  have hc1 : c ≤ 1000 / (1000 / c) := by
    rw [Nat.le_div_iff_mul_le (by omega)]
    rw [Nat.mul_comm]
    exact hm
  exact ⟨hc1, by omega, Nat.div_le_self _ _⟩

/-- `mpu_lp_accel_mode` keeps every observable that ignores `latched_int`, `lpf`,
`fifo_enable`, `int_enable`, `lp_accel_mode`, `clk_src` and `sensors`. -/
theorem mpu_lp_accel_mode_keep_fields {β : Type} (π : chip_cfg_s → β)
    (hlat : ∀ c v, π { c with latched_int := v } = π c)
    (hlpf : ∀ c v, π { c with lpf := v } = π c)
    (hfifo : ∀ c v, π { c with fifo_enable := v } = π c)
    (hint : ∀ c v, π { c with int_enable := v } = π c)
    (hlp : ∀ c v, π { c with lp_accel_mode := v } = π c)
    (hclk : ∀ c v, π { c with clk_src := v } = π c)
    (hsens : ∀ c v, π { c with sensors := v } = π c)
    (T : Platform W) (s : St W) (rate : Nat) :
    π (mpu_lp_accel_mode T s rate).2.cfg = π s.cfg := by
  unfold mpu_lp_accel_mode
  split_ifs
  · dsimp only
    exact onFail_inv (fun s' => π s'.cfg = π s.cfg) _ _ _
      (mpu_set_int_latched_keep π hlat T s 0) (fun _ h => h)
      (fun s2 h2 => (hlp s2.cfg _).trans h2)
  · dsimp only
    refine onFail_inv (fun s' => π s'.cfg = π s.cfg) _ _ _
      ((mpu_set_lpf_keep π hlpf T _ _).trans (mpu_set_int_latched_keep π hlat T s 1))
      (fun _ h => h) (fun s3 h3 => ?_)
    refine (mpu_configure_fifo_keep π hfifo hint T _ 0).trans ?_
    exact (hlp { s3.cfg with sensors := INV_XYZ_ACCEL, clk_src := 0 } 1).trans
      ((hclk { s3.cfg with sensors := INV_XYZ_ACCEL } 0).trans
        ((hsens s3.cfg INV_XYZ_ACCEL).trans h3))

/-- `mpu_lp_accel_mode` does not store `sample_rate`. -/
theorem mpu_lp_accel_mode_rate (T : Platform W) (s : St W) (rate : Nat) :
    (mpu_lp_accel_mode T s rate).2.cfg.sample_rate = s.cfg.sample_rate :=
  mpu_lp_accel_mode_keep_fields (fun c => c.sample_rate) (fun _ _ => rfl) (fun _ _ => rfl)
    (fun _ _ => rfl) (fun _ _ => rfl) (fun _ _ => rfl) (fun _ _ => rfl) (fun _ _ => rfl) T s rate

/-- `mpu_set_sample_rate` either leaves the cached rate as it was or caches the rate
`1000 / (1 + d)` for the divider byte `d` of the request; when it returns 0 without
staying in low-power accel mode it has cached that rate. -/
theorem mpu_set_sample_rate_rate (T : Platform W) (s : St W) (hz : Nat) :
    ((mpu_set_sample_rate T s hz).2.cfg.sample_rate = s.cfg.sample_rate ∨
      (mpu_set_sample_rate T s hz).2.cfg.sample_rate = 1000 / (1 + rate_div_data hz)) ∧
    (¬ (s.cfg.lp_accel_mode ≠ 0 ∧ (hz ≠ 0 ∧ hz ≤ 40)) → (mpu_set_sample_rate T s hz).1 = 0 →
      (mpu_set_sample_rate T s hz).2.cfg.sample_rate = 1000 / (1 + rate_div_data hz)) := by
  unfold mpu_set_sample_rate
  by_cases h1 : s.cfg.sensors = 0
  · rw [if_pos h1]
    exact ⟨Or.inl rfl, fun _ h => by cases h⟩
  rw [if_neg h1]
  by_cases h2 : s.cfg.dmp_on ≠ 0
  · rw [if_pos h2]
    exact ⟨Or.inl rfl, fun _ h => by cases h⟩
  rw [if_neg h2]
  by_cases h3 : s.cfg.lp_accel_mode ≠ 0 ∧ (hz ≠ 0 ∧ hz ≤ 40)
  · rw [if_pos h3]
    exact ⟨Or.inl (mpu_lp_accel_mode_rate T s hz), fun h => absurd h3 h⟩
  rw [if_neg h3]
  dsimp only
  have h0 : (if s.cfg.lp_accel_mode ≠ 0 then (mpu_lp_accel_mode T s 0).2 else s).cfg.sample_rate
      = s.cfg.sample_rate := by
    by_cases h4 : s.cfg.lp_accel_mode ≠ 0
    · rw [if_pos h4]
      exact mpu_lp_accel_mode_rate T s 0
    · rw [if_neg h4]
  revert h0
  generalize (if s.cfg.lp_accel_mode ≠ 0 then (mpu_lp_accel_mode T s 0).2 else s) = s0
  intro h0
  refine onFail_rule (fun r : Int × St W =>
    (r.2.cfg.sample_rate = s.cfg.sample_rate ∨
      r.2.cfg.sample_rate = 1000 / (1 + rate_div_data hz)) ∧
    (¬ (s.cfg.lp_accel_mode ≠ 0 ∧ (hz ≠ 0 ∧ hz ≤ 40)) → r.1 = 0 →
      r.2.cfg.sample_rate = 1000 / (1 + rate_div_data hz))) _ _ _
    (fun _ => ⟨Or.inl h0, fun _ h => by cases h⟩) (fun _ => ?_)
  dsimp only
  exact ⟨Or.inr ((mpu_set_lpf_keep (fun c => c.sample_rate) (fun _ _ => rfl) T _ _).trans rfl),
    fun _ _ => (mpu_set_lpf_keep (fun c => c.sample_rate) (fun _ _ => rfl) T _ _).trans rfl⟩

/-- `mpu_set_dmp_state` either leaves the cached rate as it was or leaves a rate in
[4, 1000]. -/
theorem mpu_set_dmp_state_rate (T : Platform W) (s : St W) (enable : Nat) :
    (mpu_set_dmp_state T s enable).2.cfg.sample_rate = s.cfg.sample_rate ∨
    (4 ≤ (mpu_set_dmp_state T s enable).2.cfg.sample_rate ∧
      (mpu_set_dmp_state T s enable).2.cfg.sample_rate ≤ 1000) := by
  unfold mpu_set_dmp_state
  split_ifs
  · exact Or.inl rfl
  · exact Or.inl rfl
  · dsimp only
    have h2 : (mpu_set_bypass T (set_int_enable T s 0).2 0).2.cfg.sample_rate =
        s.cfg.sample_rate :=
      (mpu_set_bypass_keep (fun c => c.sample_rate) (fun _ _ => rfl) T _ 0).trans
        (set_int_enable_keep (fun c => c.sample_rate) (fun _ _ => rfl) T s 0)
    revert h2
    generalize (mpu_set_bypass T (set_int_enable T s 0).2 0).2 = s2
    intro h2
    have h3 : (mpu_set_sample_rate T s2 s2.cfg.dmp_sample_rate).2.cfg.sample_rate =
          s.cfg.sample_rate ∨
        (4 ≤ (mpu_set_sample_rate T s2 s2.cfg.dmp_sample_rate).2.cfg.sample_rate ∧
          (mpu_set_sample_rate T s2 s2.cfg.dmp_sample_rate).2.cfg.sample_rate ≤ 1000) := by
      rcases (mpu_set_sample_rate_rate T s2 s2.cfg.dmp_sample_rate).1 with h | h
      · exact Or.inl (h.trans h2)
      · rw [h]
        exact Or.inr ⟨(cached_rate_bounds _).2.1, (cached_rate_bounds _).2.2⟩
    revert h3
    generalize (mpu_set_sample_rate T s2 s2.cfg.dmp_sample_rate).2 = s3
    intro h3
    refine onFail_inv (fun s' => s'.cfg.sample_rate = s.cfg.sample_rate ∨
      (4 ≤ s'.cfg.sample_rate ∧ s'.cfg.sample_rate ≤ 1000)) _ _ _ h3 (fun _ h => h)
      (fun s4 h4 => ?_)
    have e : (mpu_reset_fifo T (set_int_enable T
        (s4.setCfg { s4.cfg with dmp_on := 1 }) 1).2).2.cfg.sample_rate = s4.cfg.sample_rate :=
      (congrArg (fun c => c.sample_rate) (mpu_reset_fifo_cfg T _)).trans
        (set_int_enable_keep (fun c => c.sample_rate) (fun _ _ => rfl) T _ 1)
    show (mpu_reset_fifo T (set_int_enable T
        (s4.setCfg { s4.cfg with dmp_on := 1 }) 1).2).2.cfg.sample_rate = s.cfg.sample_rate ∨ _
    rw [e]
    exact h4
  · dsimp only
    refine onFail_inv (fun s' => s'.cfg.sample_rate = s.cfg.sample_rate ∨
      (4 ≤ s'.cfg.sample_rate ∧ s'.cfg.sample_rate ≤ 1000)) _ _ _
      (Or.inl (set_int_enable_keep (fun c => c.sample_rate) (fun _ _ => rfl) T s 0))
      (fun _ h => h) (fun s2 h2 => ?_)
    have e : (mpu_reset_fifo T (s2.setCfg { s2.cfg with dmp_on := 0 })).2.cfg.sample_rate =
        s2.cfg.sample_rate := congrArg (fun c => c.sample_rate) (mpu_reset_fifo_cfg T _)
    show (mpu_reset_fifo T (s2.setCfg { s2.cfg with dmp_on := 0 })).2.cfg.sample_rate =
      s.cfg.sample_rate ∨ _
    rw [e]
    exact h2

/-- `mpu_load_firmware` keeps every observable that ignores `dmp_loaded` and
`dmp_sample_rate`. -/
theorem mpu_load_firmware_keep_fields {β : Type} (π : chip_cfg_s → β)
    (hl : ∀ c v, π { c with dmp_loaded := v } = π c)
    (hd : ∀ c v, π { c with dmp_sample_rate := v } = π c)
    (T : Platform W) (s : St W) (length : Nat)
    (firmware : Option (List Nat)) (start_addr sample_rate : Nat) (r : Int × St W)
    (h : mpu_load_firmware T s length firmware start_addr sample_rate = some r) :
    π r.2.cfg = π s.cfg := by
  unfold mpu_load_firmware at h
  split_ifs at h with hld
  · injection h with h
    subst h
    rfl
  · cases firmware with
    | none =>
      injection h with h
      subst h
      rfl
    | some fw =>
      dsimp only at h
      cases hloop : load_loop T length fw length 0 s with
      | none => rw [hloop] at h; cases h
      | some r1 =>
        rw [hloop] at h
        dsimp only at h
        have hcfg := load_loop_cfg T length fw length 0 s r1 hloop
        revert h
        refine onErr_rule (fun x : Option (Int × St W) => x = some r →
            π r.2.cfg = π s.cfg) _ _ _
          (fun _ h => ?_) (fun _ => ?_)
        · injection h with h
          subst h
          exact congrArg π hcfg
        · refine onFail_rule (fun x : Option (Int × St W) => x = some r →
              π r.2.cfg = π s.cfg) _ _ _
            (fun _ h => ?_) (fun _ h => ?_)
          · injection h with h
            subst h
            exact congrArg π hcfg
          · injection h with h
            subst h
            exact (hd { (i2c_write T r1.2 reg.prgm_start_h
                [(start_addr >>> 8) % 256, start_addr &&& 0xFF]).2.cfg with dmp_loaded := 1 }
                sample_rate).trans
              ((hl _ 1).trans (congrArg π hcfg))

/-- `mpu_load_firmware` does not store `sample_rate`. -/
theorem mpu_load_firmware_rate (T : Platform W) (s : St W) (length : Nat)
    (firmware : Option (List Nat)) (start_addr sample_rate : Nat) (r : Int × St W)
    (h : mpu_load_firmware T s length firmware start_addr sample_rate = some r) :
    r.2.cfg.sample_rate = s.cfg.sample_rate :=
  mpu_load_firmware_keep_fields (fun c => c.sample_rate) (fun _ _ => rfl) (fun _ _ => rfl)
    T s length firmware start_addr sample_rate r h

/-- Every operation other than `mpu_init` either leaves the cached sample rate as it was
or leaves a rate in [4, 1000]. -/
theorem applyOp_rate (T : Platform W) (s s1 : St W) (op : Op) (hi : op.isInit = false)
    (h : applyOp T s op = some s1) :
    s1.cfg.sample_rate = s.cfg.sample_rate ∨
    (4 ≤ s1.cfg.sample_rate ∧ s1.cfg.sample_rate ≤ 1000) := by
  cases op with
  | init => simp [Op.isInit] at hi
  | load_firmware n f a r =>
    change Option.map Prod.snd (mpu_load_firmware T s n f a r) = some s1 at h
    cases hr : mpu_load_firmware T s n f a r with
    | none => rw [hr] at h; cases h
    | some x =>
      rw [hr] at h
      injection h with h
      subst h
      exact Or.inl (mpu_load_firmware_rate T s n f a r x hr)
  | reg_dump =>
    injection h with h; subst h
    exact Or.inl (congrArg (fun c => c.sample_rate) (mpu_reg_dump_cfg T s))
  | read_reg r =>
    injection h with h; subst h
    exact Or.inl (congrArg (fun c => c.sample_rate) (mpu_read_reg_cfg T s r))
  | lp_accel_mode rate =>
    injection h with h; subst h; exact Or.inl (mpu_lp_accel_mode_rate T s rate)
  | get_gyro_reg =>
    injection h with h; subst h
    exact Or.inl (congrArg (fun c => c.sample_rate) (mpu_get_gyro_reg_cfg T s))
  | get_accel_reg =>
    injection h with h; subst h
    exact Or.inl (congrArg (fun c => c.sample_rate) (mpu_get_accel_reg_cfg T s))
  | get_temperature =>
    injection h with h; subst h
    exact Or.inl (congrArg (fun c => c.sample_rate) (mpu_get_temperature_cfg T s))
  | read_6500_accel_bias =>
    injection h with h; subst h
    exact Or.inl (congrArg (fun c => c.sample_rate) (read_bias_cfg T s _ _ _))
  | read_6050_accel_bias =>
    injection h with h; subst h
    exact Or.inl (congrArg (fun c => c.sample_rate) (read_bias_cfg T s _ _ _))
  | read_gyro_bias =>
    injection h with h; subst h
    exact Or.inl (congrArg (fun c => c.sample_rate) (read_bias_cfg T s _ _ _))
  | set_gyro_bias_reg b =>
    injection h with h; subst h
    exact Or.inl (congrArg (fun c => c.sample_rate) (mpu_set_gyro_bias_reg_cfg T s b))
  | set_accel_bias_6050_reg b =>
    injection h with h; subst h
    exact Or.inl (congrArg (fun c => c.sample_rate) (mpu_set_accel_bias_6050_reg_cfg T s b))
  | set_accel_bias_6500_reg b =>
    injection h with h; subst h
    exact Or.inl (congrArg (fun c => c.sample_rate) (mpu_set_accel_bias_6500_reg_cfg T s b))
  | reset_fifo =>
    injection h with h; subst h
    exact Or.inl (congrArg (fun c => c.sample_rate) (mpu_reset_fifo_cfg T s))
  | set_gyro_fsr fsr =>
    injection h with h; subst h
    exact Or.inl (mpu_set_gyro_fsr_keep (fun c => c.sample_rate) (fun _ _ => rfl) T s fsr)
  | set_accel_fsr fsr =>
    injection h with h; subst h
    exact Or.inl (mpu_set_accel_fsr_keep (fun c => c.sample_rate) (fun _ _ => rfl) T s fsr)
  | set_lpf lpf =>
    injection h with h; subst h
    exact Or.inl (mpu_set_lpf_keep (fun c => c.sample_rate) (fun _ _ => rfl) T s lpf)
  | set_sample_rate rate =>
    injection h with h; subst h
    rcases (mpu_set_sample_rate_rate T s rate).1 with h | h
    · exact Or.inl h
    · rw [h]
      exact Or.inr ⟨(cached_rate_bounds _).2.1, (cached_rate_bounds _).2.2⟩
  | set_compass_sample_rate rate =>
    injection h with h; subst h; exact Or.inl rfl
  | configure_fifo m =>
    injection h with h; subst h
    exact Or.inl (mpu_configure_fifo_keep (fun c => c.sample_rate) (fun _ _ => rfl)
      (fun _ _ => rfl) T s m)
  | set_sensors m =>
    injection h with h; subst h
    exact Or.inl (mpu_set_sensors_keep (fun c => c.sample_rate) (fun _ _ => rfl)
      (fun _ _ => rfl) (fun _ _ => rfl) (fun _ _ => rfl) T s m)
  | get_int_status =>
    injection h with h; subst h
    exact Or.inl (congrArg (fun c => c.sample_rate) (mpu_get_int_status_cfg T s))
  | read_fifo =>
    injection h with h; subst h
    exact Or.inl (congrArg (fun c => c.sample_rate) (mpu_read_fifo_cfg T s))
  | read_fifo_stream n =>
    injection h with h; subst h
    exact Or.inl (congrArg (fun c => c.sample_rate) (mpu_read_fifo_stream_cfg T s n))
  | set_bypass b =>
    injection h with h; subst h
    exact Or.inl (mpu_set_bypass_keep (fun c => c.sample_rate) (fun _ _ => rfl) T s b)
  | set_int_level a =>
    injection h with h; subst h; exact Or.inl rfl
  | set_int_latched e =>
    injection h with h; subst h
    exact Or.inl (mpu_set_int_latched_keep (fun c => c.sample_rate) (fun _ _ => rfl) T s e)
  | write_mem a n d =>
    injection h with h; subst h
    exact Or.inl (congrArg (fun c => c.sample_rate) (mpu_write_mem_cfg T s a n d))
  | read_mem a n b =>
    injection h with h; subst h
    exact Or.inl (congrArg (fun c => c.sample_rate) (mpu_read_mem_cfg T s a n b))
  | set_dmp_state e =>
    injection h with h; subst h; exact mpu_set_dmp_state_rate T s e

/-- No sequence of operations without `mpu_init` takes the cached sample rate out of
[4, 1000]. -/
theorem runOps_rate (T : Platform W) (ops : List Op) (s s1 : St W)
    (hi : ∀ op ∈ ops, op.isInit = false)
    (hr : 4 ≤ s.cfg.sample_rate ∧ s.cfg.sample_rate ≤ 1000)
    (h : runOps T s ops = some s1) : 4 ≤ s1.cfg.sample_rate ∧ s1.cfg.sample_rate ≤ 1000 := by
  induction ops generalizing s with
  | nil =>
    injection h with h
    subst h
    exact hr
  | cons op rest ih =>
    unfold runOps at h
    cases hop : applyOp T s op with
    | none => rw [hop] at h; cases h
    | some s2 =>
      rw [hop] at h
      refine ih s2 (fun o ho => hi o (List.mem_cons_of_mem _ ho)) ?_ h
      rcases applyOp_rate T s s2 op (hi op (List.mem_cons_self _ _)) hop with h2 | h2
      · rw [h2]
        exact hr
      · exact h2

/-- A successful `mpu_init` leaves the cached sample rate at 50 Hz. -/
theorem mpu_init_rate (T : Platform W) (s : St W) :
    (mpu_init T s).1 = 0 → (mpu_init T s).2.cfg.sample_rate = 50 := by
  have n1 : ¬ ((-1 : Int) = 0) := by decide
  have n2 : ¬ ((-2 : Int) = 0) := by decide
  have n30 : ¬ ((-30 : Int) = 0) := by decide
  have n31 : ¬ ((-31 : Int) = 0) := by decide
  have n32 : ¬ ((-32 : Int) = 0) := by decide
  have n33 : ¬ ((-33 : Int) = 0) := by decide
  have n4 : ¬ ((-4 : Int) = 0) := by decide
  refine mpu_init_rule (fun r : Int × St W => r.1 = 0 → r.2.cfg.sample_rate = 50) T s
    (fun _ _ h => absurd h n1) (fun _ _ h => absurd h n2)
    (fun _ _ h => absurd h n30) (fun _ _ h => absurd h n31)
    (fun _ _ h => absurd h n32) (fun _ _ h => absurd h n33)
    (fun _ _ _ _ _ _ _ _ _ h => absurd h n4)
    (fun s1 b1 b2 d tail _ _ e _ => congrArg (fun c => c.sample_rate) e)

/-- C24 as stated fails on the low-power path: on the always-succeeding transport, after
a successful `mpu_init`, waking the accelerometer, selecting 4 Hz and entering low-power
accel mode, `mpu_set_sample_rate(40)` returns 0 while the cached rate is still 4, below
min(max(40, 4), 1000) = 40. -/
theorem low_power_rate_not_cached :
    (mpu_init okBus st0).1 = 0 ∧
    ∃ s1 : St Unit,
      runOps okBus (mpu_init okBus st0).2
        [Op.set_sensors 0x08, Op.set_sample_rate 4, Op.lp_accel_mode 5] = some s1 ∧
      (mpu_set_sample_rate okBus s1 40).1 = 0 ∧
      (mpu_set_sample_rate okBus s1 40).2.cfg.sample_rate = 4 ∧
      ¬ (min (max 40 4) 1000 ≤ (mpu_set_sample_rate okBus s1 40).2.cfg.sample_rate) :=
  ⟨by decide, _, rfl, by decide, by decide, by decide⟩

/-- C24, amended: in every state reachable from a successful `mpu_init` by any sequence
of driver operations other than `mpu_init` (any arguments, any transport) the cached
sample rate lies in [4, 1000]. A `mpu_set_sample_rate(hz)` call that returns 0 there
without taking the low-power route (low-power accel mode on and 0 < hz ≤ 40) caches
`1000 / (1 + d)` for the divider byte `d`, which is at least min(max(hz, 4), 1000); a call
that takes the low-power route leaves the cached rate as it was. -/
theorem sample_rate_in_range (T : Platform W) (s s2 : St W) (ops : List Op) (hz : Nat)
    (hinit : (mpu_init T s).1 = 0) (hops : ∀ op ∈ ops, op.isInit = false)
    (hrun : runOps T (mpu_init T s).2 ops = some s2) :
    (4 ≤ s2.cfg.sample_rate ∧ s2.cfg.sample_rate ≤ 1000) ∧
    ((mpu_set_sample_rate T s2 hz).1 = 0 →
      ¬ (s2.cfg.lp_accel_mode ≠ 0 ∧ (hz ≠ 0 ∧ hz ≤ 40)) →
      (mpu_set_sample_rate T s2 hz).2.cfg.sample_rate = 1000 / (1 + rate_div_data hz) ∧
      min (max hz 4) 1000 ≤ (mpu_set_sample_rate T s2 hz).2.cfg.sample_rate) ∧
    ((s2.cfg.lp_accel_mode ≠ 0 ∧ (hz ≠ 0 ∧ hz ≤ 40)) →
      (mpu_set_sample_rate T s2 hz).2.cfg.sample_rate = s2.cfg.sample_rate) := by
  refine ⟨runOps_rate T ops _ s2 hops ?_ hrun, fun h0 hn => ?_, fun hlp => ?_⟩
  · rw [mpu_init_rate T s hinit]
    exact ⟨by decide, by decide⟩
  · have e := (mpu_set_sample_rate_rate T s2 hz).2 hn h0
    rw [e]
    exact ⟨rfl, (cached_rate_bounds hz).1⟩
  · unfold mpu_set_sample_rate
    by_cases h1 : s2.cfg.sensors = 0
    · rw [if_pos h1]
    rw [if_neg h1]
    by_cases h2 : s2.cfg.dmp_on ≠ 0
    · rw [if_pos h2]
    rw [if_neg h2, if_pos hlp]
    exact mpu_lp_accel_mode_rate T s2 hz

/-- Witness for C24 on the always-succeeding transport: after `mpu_init`, waking every
sensor and asking for 7 Hz, the cached rate is in range, and a further request for
300 Hz caches 333 Hz. -/
theorem sample_rate_in_range_witness :
    (mpu_init okBus st0).1 = 0 ∧
    ∃ s2 : St Unit,
      runOps okBus (mpu_init okBus st0).2 [Op.set_sensors 0x78, Op.set_sample_rate 7] =
        some s2 ∧
      (4 ≤ s2.cfg.sample_rate ∧ s2.cfg.sample_rate ≤ 1000) ∧
      (mpu_set_sample_rate okBus s2 300).2.cfg.sample_rate = 333 :=
  ⟨by decide, _, rfl,
    (sample_rate_in_range okBus st0 _ [Op.set_sensors 0x78, Op.set_sample_rate 7] 300
      (by decide) (by decide) rfl).1,
    ((sample_rate_in_range okBus st0 _ [Op.set_sensors 0x78, Op.set_sample_rate 7] 300
      (by decide) (by decide) rfl).2.1 (by decide) (by decide)).1.trans (by decide)⟩

/-! ## Guards on the DMP state and on sleeping sensors -/

/-- C25: while the DMP is on, `mpu_set_sample_rate` returns -1, `mpu_get_sample_rate`
returns -1 without storing a rate, `mpu_configure_fifo` returns 0 and `mpu_read_fifo`
returns -1 with every output untouched; each returns the state it was given, so no
transfer is issued and no cache field changes. While the DMP is off,
`mpu_read_fifo_stream` returns -1 with the state and the outputs untouched. -/
theorem dmp_owns_rate_and_fifo (T : Platform W) (s : St W) (hz mask length : Nat) :
    (s.cfg.dmp_on ≠ 0 →
      mpu_set_sample_rate T s hz = (-1, s) ∧ mpu_get_sample_rate s = (-1, none) ∧
      mpu_configure_fifo T s mask = (0, s) ∧
      mpu_read_fifo T s = (-1, fifo_out.untouched, s)) ∧
    (s.cfg.dmp_on = 0 → mpu_read_fifo_stream T s length = (-1, ⟨none, none, false⟩, s)) := by
  refine ⟨fun h => ⟨?_, ?_, ?_, ?_⟩, fun h => ?_⟩
  · unfold mpu_set_sample_rate
    by_cases hs : s.cfg.sensors = 0
    · rw [if_pos hs]
    · rw [if_neg hs, if_pos h]
  · unfold mpu_get_sample_rate
    rw [if_pos h]
  · unfold mpu_configure_fifo
    dsimp only
    rw [if_pos h]
  · unfold mpu_read_fifo
    dsimp only
    rw [if_pos h]
  · unfold mpu_read_fifo_stream
    dsimp only
    rw [if_pos h]

/-- Witness for C25: with the DMP on the four calls return at once, and with the DMP off
`mpu_read_fifo_stream` does. -/
theorem dmp_owns_rate_and_fifo_witness :
    (stDmp.cfg.dmp_on ≠ 0 ∧ stAwake.cfg.dmp_on = 0) ∧
    mpu_set_sample_rate okBus stDmp 100 = (-1, stDmp) ∧
    mpu_configure_fifo okBus stDmp 0x78 = (0, stDmp) ∧
    mpu_read_fifo okBus stDmp = (-1, fifo_out.untouched, stDmp) ∧
    mpu_read_fifo_stream okBus stAwake 28 = (-1, ⟨none, none, false⟩, stAwake) :=
  ⟨⟨by decide, rfl⟩,
    ((dmp_owns_rate_and_fifo okBus stDmp 100 0x78 28).1 (by decide)).1,
    ((dmp_owns_rate_and_fifo okBus stDmp 100 0x78 28).1 (by decide)).2.2.1,
    ((dmp_owns_rate_and_fifo okBus stDmp 100 0x78 28).1 (by decide)).2.2.2,
    (dmp_owns_rate_and_fifo okBus stAwake 100 0x78 28).2 rfl⟩

/-- C26: with no sensor awake, `mpu_set_gyro_fsr`, `mpu_set_accel_fsr`, `mpu_set_lpf`,
`mpu_set_sample_rate`, `mpu_reset_fifo`, `mpu_write_mem`, `mpu_read_mem` and, with the
DMP off, `mpu_configure_fifo` and `mpu_read_fifo` return -1 for every argument and hand
back the state they were given: no transfer, no cache change. `mpu_read_mem` stores no
data; `mpu_read_fifo` has stored only the empty sensor mask. -/
theorem asleep_calls_fail (T : Platform W) (s : St W) (fsr afsr lpf hz mask a n : Nat)
    (d : Option (List Nat)) (b : Bool) (hs : s.cfg.sensors = 0) :
    mpu_set_gyro_fsr T s fsr = (-1, s) ∧ mpu_set_accel_fsr T s afsr = (-1, s) ∧
    mpu_set_lpf T s lpf = (-1, s) ∧ mpu_set_sample_rate T s hz = (-1, s) ∧
    mpu_reset_fifo T s = (-1, s) ∧ mpu_write_mem T s a n d = (-1, s) ∧
    mpu_read_mem T s a n b = (-1, none, s) ∧
    (s.cfg.dmp_on = 0 →
      mpu_configure_fifo T s mask = (-1, s) ∧
      mpu_read_fifo T s = (-1, { fifo_out.untouched with sensors := some 0 }, s)) := by
  refine ⟨?_, ?_, ?_, ?_, ?_, ?_, ?_, fun hd => ⟨?_, ?_⟩⟩
  · unfold mpu_set_gyro_fsr
    rw [if_pos hs]
  · unfold mpu_set_accel_fsr
    rw [if_pos hs]
  · unfold mpu_set_lpf
    rw [if_pos hs]
  · unfold mpu_set_sample_rate
    rw [if_pos hs]
  · unfold mpu_reset_fifo
    rw [if_pos hs]
  · unfold mpu_write_mem
    cases d with
    | none => rfl
    | some bytes =>
      dsimp only
      rw [if_pos hs]
  · unfold mpu_read_mem
    cases b with
    | true => rfl
    | false =>
      rw [if_neg (by decide), if_pos hs]
  · unfold mpu_configure_fifo
    dsimp only
    rw [if_neg (not_not.mpr hd), if_pos hs]
  · unfold mpu_read_fifo
    dsimp only
    rw [if_neg (not_not.mpr hd), if_pos hs]

/-- Witness for C26 on the all-zero state (no sensor awake, DMP off). -/
theorem asleep_calls_fail_witness :
    st0.cfg.sensors = 0 ∧ mpu_set_gyro_fsr okBus st0 2000 = (-1, st0) ∧
    mpu_reset_fifo okBus st0 = (-1, st0) ∧
    mpu_write_mem okBus st0 0 4 (some [1, 2, 3, 4]) = (-1, st0) ∧
    mpu_configure_fifo okBus st0 0x78 = (-1, st0) :=
  ⟨rfl, (asleep_calls_fail okBus st0 2000 2 42 50 0x78 0 4 (some [1, 2, 3, 4]) false rfl).1,
    (asleep_calls_fail okBus st0 2000 2 42 50 0x78 0 4 (some [1, 2, 3, 4]) false rfl).2.2.2.2.1,
    (asleep_calls_fail okBus st0 2000 2 42 50 0x78 0 4
      (some [1, 2, 3, 4]) false rfl).2.2.2.2.2.1,
    ((asleep_calls_fail okBus st0 2000 2 42 50 0x78 0 4
      (some [1, 2, 3, 4]) false rfl).2.2.2.2.2.2.2 rfl).1⟩

/-! ## Turning the DMP on -/

/-- `mpu_set_sample_rate` keeps every observable that ignores `sample_rate` and the
fields `mpu_lp_accel_mode` stores. -/
theorem mpu_set_sample_rate_keep_fields {β : Type} (π : chip_cfg_s → β)
    (hr : ∀ c v, π { c with sample_rate := v } = π c)
    (hlat : ∀ c v, π { c with latched_int := v } = π c)
    (hlpf : ∀ c v, π { c with lpf := v } = π c)
    (hfifo : ∀ c v, π { c with fifo_enable := v } = π c)
    (hint : ∀ c v, π { c with int_enable := v } = π c)
    (hlp : ∀ c v, π { c with lp_accel_mode := v } = π c)
    (hclk : ∀ c v, π { c with clk_src := v } = π c)
    (hsens : ∀ c v, π { c with sensors := v } = π c)
    (T : Platform W) (s : St W) (rate : Nat) :
    π (mpu_set_sample_rate T s rate).2.cfg = π s.cfg := by
  unfold mpu_set_sample_rate
  dsimp only
  split_ifs
  all_goals first
    | rfl
    | exact mpu_lp_accel_mode_keep_fields π hlat hlpf hfifo hint hlp hclk hsens T s rate
    | exact onFail_inv (fun s' => π s'.cfg = π s.cfg) _ _ _
        (mpu_lp_accel_mode_keep_fields π hlat hlpf hfifo hint hlp hclk hsens T s 0)
        (fun _ h => h)
        (fun s1 h1 => (mpu_set_lpf_keep π hlpf T _ _).trans ((hr s1.cfg _).trans h1))
    | exact onFail_inv (fun s' => π s'.cfg = π s.cfg) _ _ _ rfl (fun _ h => h)
        (fun s1 h1 => (mpu_set_lpf_keep π hlpf T _ _).trans ((hr s1.cfg _).trans h1))

/-- `mpu_init` leaves the two DMP flags as they were (when it fails before its
assignments) or clears both. -/
theorem mpu_init_flags (T : Platform W) (s : St W) :
    ((mpu_init T s).2.cfg.dmp_on, (mpu_init T s).2.cfg.dmp_loaded) =
      (s.cfg.dmp_on, s.cfg.dmp_loaded) ∨
    ((mpu_init T s).2.cfg.dmp_on, (mpu_init T s).2.cfg.dmp_loaded) = (0, 0) := by
  unfold mpu_init
  refine onFail_inv (fun s' => (s'.cfg.dmp_on, s'.cfg.dmp_loaded) =
      (s.cfg.dmp_on, s.cfg.dmp_loaded) ∨ (s'.cfg.dmp_on, s'.cfg.dmp_loaded) = (0, 0)) _ _ _
    (Or.inl rfl) (fun _ h => h) (fun s1 h1 => ?_)
  dsimp only
  refine onFail_inv (fun s' => (s'.cfg.dmp_on, s'.cfg.dmp_loaded) =
      (s.cfg.dmp_on, s.cfg.dmp_loaded) ∨ (s'.cfg.dmp_on, s'.cfg.dmp_loaded) = (0, 0)) _ _ _
    h1 (fun _ h => h) (fun s3 _ => Or.inr ?_)
  have h4 : (fun c : chip_cfg_s => (c.dmp_on, c.dmp_loaded))
      (s3.setCfg (init_cfg s3.cfg)).cfg = (0, 0) := rfl
  generalize s3.setCfg (init_cfg s3.cfg) = s4 at h4 ⊢
  refine onErr_inv (fun s' => (fun c : chip_cfg_s => (c.dmp_on, c.dmp_loaded)) s'.cfg = (0, 0))
    _ _ _ ((mpu_set_gyro_fsr_keep
      (fun c : chip_cfg_s => (c.dmp_on, c.dmp_loaded)) (fun _ _ => rfl) T s4 2000).trans h4) (fun _ h => h)
    (fun s5 h5 => ?_)
  refine onErr_inv (fun s' => (fun c : chip_cfg_s => (c.dmp_on, c.dmp_loaded)) s'.cfg = (0, 0))
    _ _ _ ((mpu_set_accel_fsr_keep
      (fun c : chip_cfg_s => (c.dmp_on, c.dmp_loaded)) (fun _ _ => rfl) T s5 2).trans h5) (fun _ h => h)
    (fun s6 h6 => ?_)
  refine onErr_inv (fun s' => (fun c : chip_cfg_s => (c.dmp_on, c.dmp_loaded)) s'.cfg = (0, 0))
    _ _ _ ((mpu_set_lpf_keep
      (fun c : chip_cfg_s => (c.dmp_on, c.dmp_loaded)) (fun _ _ => rfl) T s6 42).trans h6) (fun _ h => h)
    (fun s7 h7 => ?_)
  refine onErr_inv (fun s' => (fun c : chip_cfg_s => (c.dmp_on, c.dmp_loaded)) s'.cfg = (0, 0))
    _ _ _ ((mpu_set_sample_rate_keep_fields
      (fun c : chip_cfg_s => (c.dmp_on, c.dmp_loaded)) (fun _ _ => rfl) (fun _ _ => rfl)
      (fun _ _ => rfl) (fun _ _ => rfl) (fun _ _ => rfl) (fun _ _ => rfl) (fun _ _ => rfl)
      (fun _ _ => rfl) T s7 50).trans h7) (fun _ h => h) (fun s8 h8 => ?_)
  refine onErr_inv (fun s' => (fun c : chip_cfg_s => (c.dmp_on, c.dmp_loaded)) s'.cfg = (0, 0))
    _ _ _ ((mpu_configure_fifo_keep
      (fun c : chip_cfg_s => (c.dmp_on, c.dmp_loaded)) (fun _ _ => rfl) (fun _ _ => rfl) T s8 0).trans h8)
    (fun _ h => h) (fun s9 h9 => ?_)
  refine onErr_inv (fun s' => (fun c : chip_cfg_s => (c.dmp_on, c.dmp_loaded)) s'.cfg = (0, 0))
    _ _ _ ((mpu_set_bypass_keep
      (fun c : chip_cfg_s => (c.dmp_on, c.dmp_loaded)) (fun _ _ => rfl) T s9 0).trans h9)
    (fun _ h => h) (fun s10 h10 => ?_)
  exact (mpu_set_sensors_keep (fun c : chip_cfg_s => (c.dmp_on, c.dmp_loaded)) (fun _ _ => rfl)
    (fun _ _ => rfl) (fun _ _ => rfl) (fun _ _ => rfl) T s10 0).trans h10

/-- What `mpu_set_dmp_state` does to `dmp_on`: it keeps it, clears it, or sets it to 1,
the last only for a non-zero argument in a state with the firmware flag set. -/
theorem mpu_set_dmp_state_dmp_on (T : Platform W) (s : St W) (enable : Nat) :
    (mpu_set_dmp_state T s enable).2.cfg.dmp_on = s.cfg.dmp_on ∨
    (mpu_set_dmp_state T s enable).2.cfg.dmp_on = 0 ∨
    ((mpu_set_dmp_state T s enable).2.cfg.dmp_on = 1 ∧ enable ≠ 0 ∧ s.cfg.dmp_loaded ≠ 0) := by
  unfold mpu_set_dmp_state
  by_cases h1 : s.cfg.dmp_on = enable
  · rw [if_pos h1]
    exact Or.inl rfl
  rw [if_neg h1]
  by_cases h2 : enable ≠ 0
  · rw [if_pos h2]
    by_cases h3 : s.cfg.dmp_loaded = 0
    · rw [if_pos h3]
      exact Or.inl rfl
    rw [if_neg h3]
    dsimp only
    have h5 : (mpu_set_sample_rate T (mpu_set_bypass T (set_int_enable T s 0).2 0).2
        (mpu_set_bypass T (set_int_enable T s 0).2 0).2.cfg.dmp_sample_rate).2.cfg.dmp_on =
        s.cfg.dmp_on :=
      (mpu_set_sample_rate_keep_fields (fun c => c.dmp_on) (fun _ _ => rfl) (fun _ _ => rfl)
        (fun _ _ => rfl) (fun _ _ => rfl) (fun _ _ => rfl) (fun _ _ => rfl) (fun _ _ => rfl)
        (fun _ _ => rfl) T _ _).trans
        ((mpu_set_bypass_keep (fun c => c.dmp_on) (fun _ _ => rfl) T _ 0).trans
          (set_int_enable_keep (fun c => c.dmp_on) (fun _ _ => rfl) T s 0))
    refine onFail_rule (fun r : Int × St W => r.2.cfg.dmp_on = s.cfg.dmp_on ∨
      r.2.cfg.dmp_on = 0 ∨ (r.2.cfg.dmp_on = 1 ∧ enable ≠ 0 ∧ s.cfg.dmp_loaded ≠ 0)) _ _ _
      (fun _ => Or.inl h5) (fun _ => Or.inr (Or.inr ⟨?_, h2, h3⟩))
    exact (congrArg (fun c => c.dmp_on) (mpu_reset_fifo_cfg T _)).trans
      (set_int_enable_keep (fun c => c.dmp_on) (fun _ _ => rfl) T _ 1)
  · rw [if_neg h2]
    dsimp only
    refine onFail_rule (fun r : Int × St W => r.2.cfg.dmp_on = s.cfg.dmp_on ∨
      r.2.cfg.dmp_on = 0 ∨ (r.2.cfg.dmp_on = 1 ∧ enable ≠ 0 ∧ s.cfg.dmp_loaded ≠ 0)) _ _ _
      (fun _ => Or.inl (set_int_enable_keep (fun c => c.dmp_on) (fun _ _ => rfl) T s 0))
      (fun _ => Or.inr (Or.inl ?_))
    exact congrArg (fun c => c.dmp_on) (mpu_reset_fifo_cfg T _)

/-- What one operation does to `dmp_on`: it keeps it, clears it, or sets it to 1, the
last only for `mpu_set_dmp_state` with a non-zero argument in a state with the firmware
flag set. -/
theorem applyOp_dmp_on (T : Platform W) (s s1 : St W) (op : Op)
    (h : applyOp T s op = some s1) :
    s1.cfg.dmp_on = s.cfg.dmp_on ∨ s1.cfg.dmp_on = 0 ∨
    (s1.cfg.dmp_on = 1 ∧ s.cfg.dmp_loaded ≠ 0 ∧ ∃ e, e ≠ 0 ∧ op = Op.set_dmp_state e) := by
  cases op with
  | init =>
    injection h with h; subst h
    rcases mpu_init_flags T s with h | h
    · exact Or.inl (congrArg Prod.fst h)
    · exact Or.inr (Or.inl (congrArg Prod.fst h))
  | load_firmware n f a r =>
    change Option.map Prod.snd (mpu_load_firmware T s n f a r) = some s1 at h
    cases hr : mpu_load_firmware T s n f a r with
    | none => rw [hr] at h; cases h
    | some x =>
      rw [hr] at h
      injection h with h
      subst h
      exact Or.inl (mpu_load_firmware_keep_fields (fun c => c.dmp_on) (fun _ _ => rfl)
        (fun _ _ => rfl) T s n f a r x hr)
  | reg_dump =>
    injection h with h; subst h
    exact Or.inl (congrArg (fun c => c.dmp_on) (mpu_reg_dump_cfg T s))
  | read_reg r =>
    injection h with h; subst h
    exact Or.inl (congrArg (fun c => c.dmp_on) (mpu_read_reg_cfg T s r))
  | lp_accel_mode rate =>
    injection h with h; subst h
    exact Or.inl (mpu_lp_accel_mode_keep_fields (fun c => c.dmp_on) (fun _ _ => rfl)
      (fun _ _ => rfl) (fun _ _ => rfl) (fun _ _ => rfl) (fun _ _ => rfl) (fun _ _ => rfl)
      (fun _ _ => rfl) T s rate)
  | get_gyro_reg =>
    injection h with h; subst h
    exact Or.inl (congrArg (fun c => c.dmp_on) (mpu_get_gyro_reg_cfg T s))
  | get_accel_reg =>
    injection h with h; subst h
    exact Or.inl (congrArg (fun c => c.dmp_on) (mpu_get_accel_reg_cfg T s))
  | get_temperature =>
    injection h with h; subst h
    exact Or.inl (congrArg (fun c => c.dmp_on) (mpu_get_temperature_cfg T s))
  | read_6500_accel_bias =>
    injection h with h; subst h
    exact Or.inl (congrArg (fun c => c.dmp_on) (read_bias_cfg T s _ _ _))
  | read_6050_accel_bias =>
    injection h with h; subst h
    exact Or.inl (congrArg (fun c => c.dmp_on) (read_bias_cfg T s _ _ _))
  | read_gyro_bias =>
    injection h with h; subst h
    exact Or.inl (congrArg (fun c => c.dmp_on) (read_bias_cfg T s _ _ _))
  | set_gyro_bias_reg b =>
    injection h with h; subst h
    exact Or.inl (congrArg (fun c => c.dmp_on) (mpu_set_gyro_bias_reg_cfg T s b))
  | set_accel_bias_6050_reg b =>
    injection h with h; subst h
    exact Or.inl (congrArg (fun c => c.dmp_on) (mpu_set_accel_bias_6050_reg_cfg T s b))
  | set_accel_bias_6500_reg b =>
    injection h with h; subst h
    exact Or.inl (congrArg (fun c => c.dmp_on) (mpu_set_accel_bias_6500_reg_cfg T s b))
  | reset_fifo =>
    injection h with h; subst h
    exact Or.inl (congrArg (fun c => c.dmp_on) (mpu_reset_fifo_cfg T s))
  | set_gyro_fsr fsr =>
    injection h with h; subst h
    exact Or.inl (mpu_set_gyro_fsr_keep (fun c => c.dmp_on) (fun _ _ => rfl) T s fsr)
  | set_accel_fsr fsr =>
    injection h with h; subst h
    exact Or.inl (mpu_set_accel_fsr_keep (fun c => c.dmp_on) (fun _ _ => rfl) T s fsr)
  | set_lpf lpf =>
    injection h with h; subst h
    exact Or.inl (mpu_set_lpf_keep (fun c => c.dmp_on) (fun _ _ => rfl) T s lpf)
  | set_sample_rate rate =>
    injection h with h; subst h
    exact Or.inl (mpu_set_sample_rate_keep_fields (fun c => c.dmp_on) (fun _ _ => rfl)
      (fun _ _ => rfl) (fun _ _ => rfl) (fun _ _ => rfl) (fun _ _ => rfl) (fun _ _ => rfl)
      (fun _ _ => rfl) (fun _ _ => rfl) T s rate)
  | set_compass_sample_rate rate =>
    injection h with h; subst h; exact Or.inl rfl
  | configure_fifo m =>
    injection h with h; subst h
    exact Or.inl (mpu_configure_fifo_keep (fun c => c.dmp_on) (fun _ _ => rfl)
      (fun _ _ => rfl) T s m)
  | set_sensors m =>
    injection h with h; subst h
    exact Or.inl (mpu_set_sensors_keep (fun c => c.dmp_on) (fun _ _ => rfl)
      (fun _ _ => rfl) (fun _ _ => rfl) (fun _ _ => rfl) T s m)
  | get_int_status =>
    injection h with h; subst h
    exact Or.inl (congrArg (fun c => c.dmp_on) (mpu_get_int_status_cfg T s))
  | read_fifo =>
    injection h with h; subst h
    exact Or.inl (congrArg (fun c => c.dmp_on) (mpu_read_fifo_cfg T s))
  | read_fifo_stream n =>
    injection h with h; subst h
    exact Or.inl (congrArg (fun c => c.dmp_on) (mpu_read_fifo_stream_cfg T s n))
  | set_bypass b =>
    injection h with h; subst h
    exact Or.inl (mpu_set_bypass_keep (fun c => c.dmp_on) (fun _ _ => rfl) T s b)
  | set_int_level a =>
    injection h with h; subst h; exact Or.inl rfl
  | set_int_latched e =>
    injection h with h; subst h
    exact Or.inl (mpu_set_int_latched_keep (fun c => c.dmp_on) (fun _ _ => rfl) T s e)
  | write_mem a n d =>
    injection h with h; subst h
    exact Or.inl (congrArg (fun c => c.dmp_on) (mpu_write_mem_cfg T s a n d))
  | read_mem a n b =>
    injection h with h; subst h
    exact Or.inl (congrArg (fun c => c.dmp_on) (mpu_read_mem_cfg T s a n b))
  | set_dmp_state e =>
    injection h with h; subst h
    rcases mpu_set_dmp_state_dmp_on T s e with h | h | ⟨h, he, hl⟩
    · exact Or.inl h
    · exact Or.inr (Or.inl h)
    · exact Or.inr (Or.inr ⟨h, hl, e, he, rfl⟩)

/-- Every operation keeps the firmware flag a 0/1 flag. -/
theorem applyOp_loaded_le (T : Platform W) (s s1 : St W) (op : Op)
    (hl : s.cfg.dmp_loaded ≤ 1) (h : applyOp T s op = some s1) : s1.cfg.dmp_loaded ≤ 1 := by
  by_cases hi : op.isInit = true
  · cases op <;> simp [Op.isInit] at hi
    injection h with h
    subst h
    rcases mpu_init_flags T s with h | h
    · rw [show (mpu_init T s).2.cfg.dmp_loaded = s.cfg.dmp_loaded from congrArg Prod.snd h]
      exact hl
    · rw [show (mpu_init T s).2.cfg.dmp_loaded = 0 from congrArg Prod.snd h]
      exact Nat.zero_le 1
  · by_cases hop : ∃ n f a r, op = Op.load_firmware n f a r
    · obtain ⟨n, f, a, r, rfl⟩ := hop
      change Option.map Prod.snd (mpu_load_firmware T s n f a r) = some s1 at h
      cases hr : mpu_load_firmware T s n f a r with
      | none => rw [hr] at h; cases h
      | some x =>
        rw [hr] at h
        injection h with h
        subst h
        have hx := mpu_load_firmware_dmp_loaded T s n f a r x hr
        by_cases h0 : x.1 = 0
        · rw [hx.1 h0]
        · rw [hx.2 h0]
          exact hl
    · rw [applyOp_keep (fun c => c.dmp_loaded) ignoresConfig_dmp_loaded T s s1 op
        (by simpa using hi) (fun n f a r he => hop ⟨n, f, a, r, he⟩) h]
      exact hl

/-- Every sequence of operations keeps the firmware flag a 0/1 flag. -/
theorem runOps_loaded_le (T : Platform W) (ops : List Op) (s s1 : St W)
    (hl : s.cfg.dmp_loaded ≤ 1) (h : runOps T s ops = some s1) : s1.cfg.dmp_loaded ≤ 1 := by
  induction ops generalizing s with
  | nil =>
    injection h with h
    subst h
    exact hl
  | cons op rest ih =>
    unfold runOps at h
    cases hop : applyOp T s op with
    | none => rw [hop] at h; cases h
    | some s2 =>
      rw [hop] at h
      exact ih s2 (applyOp_loaded_le T s s2 op hl hop) h

/-- C27: `mpu_set_dmp_state(enable)` with `enable` non-zero, `dmp_on = 0` and
`dmp_loaded = 0` returns -1 and hands back the state it was given: no transfer, no cache
change, `dmp_on` still 0. And in every state reachable by driver operations from a state
whose firmware flag is 0 or 1 (such as the zero-initialised driver state), an operation
that takes `dmp_on` from 0 to non-zero is `mpu_set_dmp_state` with a non-zero argument,
run in a state with `dmp_loaded = 1`; it leaves `dmp_on = 1` and `dmp_loaded = 1`. -/
theorem dmp_enable_needs_firmware (T : Platform W) (s0 s : St W) (ops : List Op)
    (h0 : s0.cfg.dmp_loaded ≤ 1) (hrun : runOps T s0 ops = some s) :
    (∀ (s' : St W) (enable : Nat), enable ≠ 0 → s'.cfg.dmp_on = 0 → s'.cfg.dmp_loaded = 0 →
      mpu_set_dmp_state T s' enable = (-1, s')) ∧
    (∀ (op : Op) (s1 : St W), applyOp T s op = some s1 → s.cfg.dmp_on = 0 →
      s1.cfg.dmp_on ≠ 0 →
      s.cfg.dmp_loaded = 1 ∧ s1.cfg.dmp_loaded = 1 ∧ s1.cfg.dmp_on = 1 ∧
      ∃ e, e ≠ 0 ∧ op = Op.set_dmp_state e) := by
  refine ⟨fun s' enable he hd hl => ?_, fun op s1 hop hd hn => ?_⟩
  · unfold mpu_set_dmp_state
    rw [if_neg (fun h => he (h.symm.trans hd)), if_pos he, if_pos hl]
  · have hle := runOps_loaded_le T ops s0 s h0 hrun
    rcases applyOp_dmp_on T s s1 op hop with h | h | ⟨h, hl, e, he, rfl⟩
    · exact absurd (h.trans hd) hn
    · exact absurd h hn
    · have h1 : s.cfg.dmp_loaded = 1 := by omega
      injection hop with hop
      subst hop
      exact ⟨h1, (mpu_set_dmp_state_keep (fun c => c.dmp_loaded) ignoresConfig_dmp_loaded
        T s e).trans h1, h, e, he, rfl⟩

/-- Witness for C27 on the always-succeeding transport: in the zero state enabling the
DMP is refused; after waking the sensors and loading a four-byte image, enabling it is
done in a state with `dmp_loaded = 1`. -/
theorem dmp_enable_needs_firmware_witness :
    st0.cfg.dmp_loaded ≤ 1 ∧
    ∃ s : St Unit,
      runOps okBus st0 [Op.set_sensors 0x78, Op.load_firmware 4 (some [0, 0, 0, 0]) 0x400 200] =
        some s ∧
      mpu_set_dmp_state okBus st0 1 = (-1, st0) ∧
      (mpu_set_dmp_state okBus s 1).2.cfg.dmp_on ≠ 0 ∧ s.cfg.dmp_loaded = 1 :=
  ⟨by decide, _, rfl,
    (dmp_enable_needs_firmware okBus st0 _
      [Op.set_sensors 0x78, Op.load_firmware 4 (some [0, 0, 0, 0]) 0x400 200]
      (by decide) rfl).1 st0 1 (by decide) rfl rfl,
    by decide,
    ((dmp_enable_needs_firmware okBus st0 _
      [Op.set_sensors 0x78, Op.load_firmware 4 (some [0, 0, 0, 0]) 0x400 200]
      (by decide) rfl).2 (Op.set_dmp_state 1) _ rfl rfl (by decide)).1⟩

/-! ## Empty firmware image -/

/-- The chunk loop over an image of length 0 transfers nothing. -/
theorem load_loop_empty (T : Platform W) (fw : List Nat) (s : St W) :
    load_loop T 0 fw 0 0 s = some (0, s) := rfl

/-- C28 as stated fails: on the always-succeeding transport, from the zero state
(`dmp_loaded = 0`), `mpu_load_firmware` with length 0 and a non-null image pointer
returns 0 and leaves `dmp_loaded = 1`. -/
theorem empty_firmware_accepted :
    st0.cfg.dmp_loaded = 0 ∧
    (mpu_load_firmware okBus st0 0 (some []) 0x0400 200).map
      (fun r => (r.1, r.2.cfg.dmp_loaded)) = some (0, 1) :=
  ⟨rfl, rfl⟩

/-- C28, amended: called with `dmp_loaded = 0` and length 0, `mpu_load_firmware` rejects
only a null image pointer (-1, state untouched). With a non-null pointer it transfers no
chunk and goes straight to the write of the program start address: if that write
succeeds it returns 0 with `dmp_loaded = 1` and `dmp_sample_rate` stored, and if it fails
it returns -5 with the cache unchanged; either way that write is the only transfer. -/
theorem mpu_load_firmware_empty (T : Platform W) (s : St W) (fw : List Nat)
    (start_addr sample_rate : Nat) (hl : s.cfg.dmp_loaded = 0) :
    mpu_load_firmware T s 0 none start_addr sample_rate = some (-1, s) ∧
    ∃ r : Int × St W, mpu_load_firmware T s 0 (some fw) start_addr sample_rate = some r ∧
      r.2.log = s.log ++ [Ev.write reg.prgm_start_h
        [(start_addr >>> 8) % 256, start_addr &&& 0xFF]
        (T.write s.bus reg.prgm_start_h [(start_addr >>> 8) % 256, start_addr &&& 0xFF]).1] ∧
      ((T.write s.bus reg.prgm_start_h
          [(start_addr >>> 8) % 256, start_addr &&& 0xFF]).1 = true →
        r.1 = 0 ∧
        r.2.cfg = { s.cfg with dmp_loaded := 1, dmp_sample_rate := sample_rate }) ∧
      ((T.write s.bus reg.prgm_start_h
          [(start_addr >>> 8) % 256, start_addr &&& 0xFF]).1 = false →
        r.1 = -5 ∧ r.2.cfg = s.cfg) := by
  constructor
  · unfold mpu_load_firmware
    rw [if_neg (not_not.mpr hl)]
  · unfold mpu_load_firmware
    rw [if_neg (not_not.mpr hl)]
    dsimp only
    rw [load_loop_empty]
    dsimp only
    rw [onErr_zero]
    unfold onFail
    rw [i2c_write_fail_iff]
    cases hw : (T.write s.bus reg.prgm_start_h
      [(start_addr >>> 8) % 256, start_addr &&& 0xFF]).1 with
    | true =>
      refine ⟨_, rfl, ?_, fun _ => ⟨rfl, rfl⟩, fun h => by cases h⟩
      show s.log ++ [Ev.write reg.prgm_start_h [(start_addr >>> 8) % 256, start_addr &&& 0xFF]
        (T.write s.bus reg.prgm_start_h [(start_addr >>> 8) % 256, start_addr &&& 0xFF]).1] = _
      rw [hw]
    | false =>
      refine ⟨_, rfl, ?_, (fun h => by cases h), fun _ => ⟨rfl, rfl⟩⟩
      show s.log ++ [Ev.write reg.prgm_start_h [(start_addr >>> 8) % 256, start_addr &&& 0xFF]
        (T.write s.bus reg.prgm_start_h [(start_addr >>> 8) % 256, start_addr &&& 0xFF]).1] = _
      rw [hw]

/-- Witness for C28 on the always-succeeding transport: the empty image is accepted from
the zero state. -/
theorem mpu_load_firmware_empty_witness :
    st0.cfg.dmp_loaded = 0 ∧
    ∃ r : Int × St Unit, mpu_load_firmware okBus st0 0 (some []) 0x0400 200 = some r ∧
      r.1 = 0 ∧ r.2.cfg.dmp_loaded = 1 ∧ r.2.log = [Ev.write reg.prgm_start_h [4, 0] true] := by
  obtain ⟨r, hr, hlog, hok, _⟩ := (mpu_load_firmware_empty okBus st0 [] 0x0400 200 rfl).2
  exact ⟨rfl, r, hr, (hok rfl).1, congrArg (fun c => c.dmp_loaded) (hok rfl).2, hlog⟩

/-! ## No packet buffered -/

/-- C29: in `mpu_read_fifo` with the DMP off, a sensor awake and a non-empty FIFO mask,
when the count read succeeds and the big-endian 16-bit count is below the packet size,
the call returns 0 with the sensor mask output 0 and no other output written (no gyro,
accel or `more` cell); the cache is unchanged and the count read is the only transfer,
so the FIFO data register is not read. -/
theorem mpu_read_fifo_no_packet (T : Platform W) (s : St W) (cnt : List Nat) (w1 : W)
    (hd : s.cfg.dmp_on = 0) (hs : s.cfg.sensors ≠ 0) (hf : s.cfg.fifo_enable ≠ 0)
    (hc : T.read s.bus reg.fifo_count_h 2 = (some cnt, w1))
    (hlt : cnt.getD 0 0 % 256 * 256 + cnt.getD 1 0 % 256 <
      fifo_packet_size s.cfg.fifo_enable) :
    mpu_read_fifo T s = (0, { fifo_out.untouched with sensors := some 0 },
      ⟨s.cfg, w1, s.log ++ [Ev.read reg.fifo_count_h 2 true]⟩) := by
  have hb : fifo_count_of (bufStore (List.replicate MAX_PACKET_LENGTH 0) (readBytes cnt 2)) =
      cnt.getD 0 0 % 256 * 256 + cnt.getD 1 0 % 256 := by
    rw [← fifo_count_of_read cnt]
    unfold fifo_count_of
    rw [bufStore_getD _ _ 0 (by simp), bufStore_getD _ _ 1 (by simp)]
  unfold mpu_read_fifo
  simp only [hd, ne_eq, not_true_eq_false, if_false, if_neg hs, if_neg hf]
  rw [i2c_read_ok T s _ _ cnt w1 hc]
  simp only [onFailR, Bool.false_eq_true, if_false, hb, if_pos hlt]

/-- Witness for C29 on the always-succeeding transport, whose FIFO count reads as 0:
with gyro and accel in the FIFO (packet size 12) the call returns 0 with mask 0 after
the count read alone. -/
theorem mpu_read_fifo_no_packet_witness :
    (stFifo.cfg.dmp_on = 0 ∧ stFifo.cfg.sensors ≠ 0 ∧ stFifo.cfg.fifo_enable ≠ 0 ∧
      okBus.read stFifo.bus reg.fifo_count_h 2 = (some [0, 0], ()) ∧
      [0, 0].getD 0 0 % 256 * 256 + [0, 0].getD 1 0 % 256 <
        fifo_packet_size stFifo.cfg.fifo_enable) ∧
    mpu_read_fifo okBus stFifo = (0, { fifo_out.untouched with sensors := some 0 },
      ⟨stFifo.cfg, (), [Ev.read reg.fifo_count_h 2 true]⟩) :=
  ⟨⟨rfl, by decide, by decide, rfl, by decide⟩,
    mpu_read_fifo_no_packet okBus stFifo [0, 0] () rfl (by decide) (by decide) rfl
      (by decide)⟩

/-! ## The `more` output -/

/-- The decoding tail of `mpu_read_fifo` does not write `more`. -/
theorem fifo_decode_more (data : List Nat) (packet_size fifo_enable : Nat) (out : fifo_out) :
    (fifo_decode data packet_size fifo_enable out).1.more = out.more := by
  unfold fifo_decode
  dsimp only
  split_ifs <;> rfl

/-- The packet-reading tail of `mpu_read_fifo` after a successful data read: status 0,
and `more` holds the low byte of `fifo_count / packet_size - 1`. -/
theorem read_fifo_packet_more (T : Platform W) (s : St W) (data pkt : List Nat)
    (packet_size fifo_count : Nat) (out : fifo_out) (w1 : W)
    (hp : T.read s.bus reg.fifo_r_w packet_size = (some pkt, w1)) :
    (read_fifo_packet T s data packet_size fifo_count out).1 = 0 ∧
    (read_fifo_packet T s data packet_size fifo_count out).2.1.more =
      some ((fifo_count / packet_size - 1) % 256) := by
  unfold read_fifo_packet
  rw [i2c_read_ok T s _ _ pkt w1 hp]
  simp only [onFailR, Bool.false_eq_true, if_false]
  exact ⟨trivial, fifo_decode_more _ _ _ _⟩

/-- The tail of `mpu_read_fifo_stream` after a successful data read: status 0, and `more`
holds the low byte of `fifo_count / length - 1`. -/
theorem read_stream_packet_more (T : Platform W) (s : St W) (pkt : List Nat)
    (length fifo_count : Nat) (w1 : W)
    (hp : T.read s.bus reg.fifo_r_w length = (some pkt, w1)) :
    (read_stream_packet T s length fifo_count).1 = 0 ∧
    (read_stream_packet T s length fifo_count).2.1.more =
      some ((fifo_count / length - 1) % 256) := by
  unfold read_stream_packet
  rw [i2c_read_ok T s _ _ pkt w1 hp]
  simp only [onFailR, Bool.false_eq_true, if_false]
  exact ⟨trivial, trivial⟩

/-- C30 fails in the code: `more` is an `unsigned char`, so what is reported is the low
byte of `fifo_count / packet_size - 1`. With the count read as `count` (big-endian, two
bytes) and a packet size of at least 2: while `count` is at most half the FIFO the value
reported is `count / packet_size - 1`; above half the FIFO with the overflow bit clear
it is `(count / packet_size - 1) % 256`, which differs from the number of further
packets as soon as that number reaches 256 (count 514 with packet size 2 reports 0).
`mpu_read_fifo_stream` reports `(count / length - 1) % 256` in the same way. -/
theorem fifo_more_truncated (T : Platform W) (s : St W) (cnt : List Nat) (w1 : W) (count : Nat)
    (hs : s.cfg.sensors ≠ 0) (hc : T.read s.bus reg.fifo_count_h 2 = (some cnt, w1))
    (hcount : count = cnt.getD 0 0 % 256 * 256 + cnt.getD 1 0 % 256) :
    (∀ (pkt : List Nat) (w2 : W), s.cfg.dmp_on = 0 → s.cfg.fifo_enable ≠ 0 →
      2 ≤ fifo_packet_size s.cfg.fifo_enable → fifo_packet_size s.cfg.fifo_enable ≤ count →
      count ≤ hw.max_fifo / 2 →
      T.read w1 reg.fifo_r_w (fifo_packet_size s.cfg.fifo_enable) = (some pkt, w2) →
      (mpu_read_fifo T s).1 = 0 ∧
      (mpu_read_fifo T s).2.1.more = some (count / fifo_packet_size s.cfg.fifo_enable - 1)) ∧
    (∀ (st pkt : List Nat) (w2 w3 : W), s.cfg.dmp_on = 0 → s.cfg.fifo_enable ≠ 0 →
      2 ≤ fifo_packet_size s.cfg.fifo_enable → hw.max_fifo / 2 < count →
      T.read w1 reg.int_status 1 = (some st, w2) →
      st.getD 0 0 % 256 &&& BIT_FIFO_OVERFLOW = 0 →
      T.read w2 reg.fifo_r_w (fifo_packet_size s.cfg.fifo_enable) = (some pkt, w3) →
      (mpu_read_fifo T s).1 = 0 ∧
      (mpu_read_fifo T s).2.1.more =
        some ((count / fifo_packet_size s.cfg.fifo_enable - 1) % 256) ∧
      (256 ≤ count / fifo_packet_size s.cfg.fifo_enable - 1 →
        (mpu_read_fifo T s).2.1.more ≠
          some (count / fifo_packet_size s.cfg.fifo_enable - 1))) ∧
    (∀ (length : Nat) (st pkt : List Nat) (w2 w3 : W), s.cfg.dmp_on ≠ 0 → 0 < length →
      length ≤ count → hw.max_fifo / 2 < count →
      T.read w1 reg.int_status 1 = (some st, w2) →
      st.getD 0 0 % 256 &&& BIT_FIFO_OVERFLOW = 0 →
      T.read w2 reg.fifo_r_w length = (some pkt, w3) →
      (mpu_read_fifo_stream T s length).1 = 0 ∧
      (mpu_read_fifo_stream T s length).2.1.more = some ((count / length - 1) % 256)) := by
  have hcnt := fifo_count_of_read cnt
  rw [← hcount] at hcnt
  have hmax : hw.max_fifo >>> 1 = hw.max_fifo / 2 := by decide
  have hb : fifo_count_of (bufStore (List.replicate MAX_PACKET_LENGTH 0) (readBytes cnt 2)) =
      count := by
    rw [← hcnt]
    unfold fifo_count_of
    rw [bufStore_getD _ _ 0 (by simp), bufStore_getD _ _ 1 (by simp)]
  refine ⟨?_, ?_, ?_⟩
  · intro pkt w2 hd hf h2 hge hle hp
    have e : mpu_read_fifo T s = read_fifo_packet T
        ⟨s.cfg, w1, s.log ++ [Ev.read reg.fifo_count_h 2 true]⟩
        (bufStore (List.replicate MAX_PACKET_LENGTH 0) (readBytes cnt 2))
        (fifo_packet_size s.cfg.fifo_enable) count
        { fifo_out.untouched with sensors := some 0 } := by
      unfold mpu_read_fifo
      simp only [hd, ne_eq, not_true_eq_false, if_false, if_neg hs, if_neg hf]
      rw [i2c_read_ok T s _ _ cnt w1 hc]
      simp only [onFailR, Bool.false_eq_true, if_false, hb, if_neg (not_lt.mpr hge), hmax,
        if_neg (not_lt.mpr hle)]
    rw [e]
    have hm := read_fifo_packet_more T ⟨s.cfg, w1, s.log ++ [Ev.read reg.fifo_count_h 2 true]⟩
      (bufStore (List.replicate MAX_PACKET_LENGTH 0) (readBytes cnt 2)) pkt
      (fifo_packet_size s.cfg.fifo_enable) count
      { fifo_out.untouched with sensors := some 0 } w2 hp
    refine ⟨hm.1, hm.2.trans ?_⟩
    have h512 : hw.max_fifo / 2 = 512 := by decide
    have hq : count / fifo_packet_size s.cfg.fifo_enable ≤ 256 := by
      calc count / fifo_packet_size s.cfg.fifo_enable ≤ count / 2 :=
            Nat.div_le_div_left h2 (by decide)
        _ ≤ 256 := by omega
    rw [Nat.mod_eq_of_lt (by omega)]
  · intro st pkt w2 w3 hd hf h2 hgt hi ho hp
    have hst : (bufStore (bufStore (List.replicate MAX_PACKET_LENGTH 0) (readBytes cnt 2))
        (readBytes st 1)).getD 0 0 = st.getD 0 0 % 256 := by
      rw [bufStore_getD _ _ 0 (by simp), readBytes_getD _ _ _ (by norm_num)]
    have hge : fifo_packet_size s.cfg.fifo_enable ≤ count := by
      have : fifo_packet_size s.cfg.fifo_enable ≤ 12 := by
        unfold fifo_packet_size
        dsimp only
        split_ifs <;> decide
      have : hw.max_fifo / 2 = 512 := by decide
      omega
    have e : mpu_read_fifo T s = read_fifo_packet T
        ⟨s.cfg, w2, s.log ++ [Ev.read reg.fifo_count_h 2 true] ++
          [Ev.read reg.int_status 1 true]⟩
        (bufStore (bufStore (List.replicate MAX_PACKET_LENGTH 0) (readBytes cnt 2))
          (readBytes st 1))
        (fifo_packet_size s.cfg.fifo_enable) count
        { fifo_out.untouched with sensors := some 0 } := by
      unfold mpu_read_fifo
      simp only [hd, ne_eq, not_true_eq_false, if_false, if_neg hs, if_neg hf]
      rw [i2c_read_ok T s _ _ cnt w1 hc]
      simp only [onFailR, Bool.false_eq_true, if_false, hb, if_neg (not_lt.mpr hge), hmax,
        if_pos hgt]
      rw [i2c_read_ok T _ _ _ st w2 hi]
      simp only [Bool.false_eq_true, if_false, hst, ho, ne_eq, not_true_eq_false]
    rw [e]
    have hm := read_fifo_packet_more T
      ⟨s.cfg, w2, s.log ++ [Ev.read reg.fifo_count_h 2 true] ++
        [Ev.read reg.int_status 1 true]⟩
      (bufStore (bufStore (List.replicate MAX_PACKET_LENGTH 0) (readBytes cnt 2))
        (readBytes st 1)) pkt
      (fifo_packet_size s.cfg.fifo_enable) count
      { fifo_out.untouched with sensors := some 0 } w3 hp
    refine ⟨hm.1, hm.2, fun hbig heq => ?_⟩
    rw [hm.2] at heq
    injection heq with heq
    have := Nat.mod_lt (count / fifo_packet_size s.cfg.fifo_enable - 1)
      (show 0 < 256 by decide)
    omega
  · intro length st pkt w2 w3 hd hl0 hge hgt hi ho hp
    have hst : (readBytes st 1).getD 0 0 = st.getD 0 0 % 256 :=
      readBytes_getD _ _ _ (by norm_num)
    have e : mpu_read_fifo_stream T s length = read_stream_packet T
        ⟨s.cfg, w2, s.log ++ [Ev.read reg.fifo_count_h 2 true] ++
          [Ev.read reg.int_status 1 true]⟩ length count := by
      unfold mpu_read_fifo_stream
      simp only [if_neg hd, if_neg hs]
      rw [i2c_read_ok T s _ _ cnt w1 hc]
      simp only [onFailR, Bool.false_eq_true, if_false, hcnt, if_neg (not_lt.mpr hge), hmax,
        if_pos hgt]
      rw [i2c_read_ok T _ _ _ st w2 hi]
      simp only [Bool.false_eq_true, if_false, hst, ho, ne_eq, not_true_eq_false]
    rw [e]
    exact read_stream_packet_more T _ pkt length count w3 hp

/-- Witness for C30: with only gyro X in the FIFO (packet size 2), a count of 514 bytes
and the overflow bit clear, `mpu_read_fifo` returns 0 and reports `more = 0` although
514 / 2 - 1 = 256 further packets are buffered; `mpu_read_fifo_stream` asked for 2 bytes
reports 0 as well. -/
theorem fifo_more_truncated_witness :
    (fifo_packet_size stFifoGyroX.cfg.fifo_enable = 2 ∧ 514 / 2 - 1 = 256) ∧
    (mpu_read_fifo cntBus stFifoGyroX).1 = 0 ∧
    (mpu_read_fifo cntBus stFifoGyroX).2.1.more = some 0 ∧
    (mpu_read_fifo_stream cntBus stDmp 2).1 = 0 ∧
    (mpu_read_fifo_stream cntBus stDmp 2).2.1.more = some 0 :=
  ⟨⟨by decide, by decide⟩,
    ((fifo_more_truncated cntBus stFifoGyroX [2, 2] () 514 (by decide) rfl (by decide)).2.1
      [0] [0, 0] () () rfl (by decide) (by decide) (by decide) rfl (by decide) rfl).1,
    ((fifo_more_truncated cntBus stFifoGyroX [2, 2] () 514 (by decide) rfl (by decide)).2.1
      [0] [0, 0] () () rfl (by decide) (by decide) (by decide) rfl (by decide) rfl).2.1,
    ((fifo_more_truncated cntBus stDmp [2, 2] () 514 (by decide) rfl (by decide)).2.2
      2 [0] [0, 0] () () (by decide) (by decide) (by decide) (by decide) rfl (by decide)
      rfl).1,
    ((fifo_more_truncated cntBus stDmp [2, 2] () 514 (by decide) rfl (by decide)).2.2
      2 [0] [0, 0] () () (by decide) (by decide) (by decide) (by decide) rfl (by decide)
      rfl).2⟩

/-! ## Runs on a transport that accepts every write -/

/-- A checked write on a transport that accepts every write: the continuation runs in
the state with the world the transport returned and the successful write logged. -/
theorem onFail_write_ok {α : Type} (T : Platform W)
    (hw : ∀ w r d, (T.write w r d).1 = true) (s : St W) (r : Nat) (d : List Nat)
    (fail k : St W → α) :
    onFail (i2c_write T s r d) fail k =
      k ⟨s.cfg, (T.write s.bus r d).2, s.log ++ [Ev.write r d true]⟩ := by
  unfold onFail i2c_write
  simp [hw]

/-- The events of `mpu_reset_fifo` with a sensor awake on a transport that accepts every
write: status 0, cache unchanged, and the writes in order. -/
theorem mpu_reset_fifo_events (T : Platform W) (s : St W) (hs : s.cfg.sensors ≠ 0)
    (hw : ∀ w r d, (T.write w r d).1 = true) :
    (mpu_reset_fifo T s).1 = 0 ∧ (mpu_reset_fifo T s).2.cfg = s.cfg ∧
    (mpu_reset_fifo T s).2.log = s.log ++
      (if s.cfg.dmp_on ≠ 0 then
        [Ev.write reg.int_enable [0] true, Ev.write reg.fifo_en [0] true,
          Ev.write reg.user_ctrl [0] true,
          Ev.write reg.user_ctrl [BIT_FIFO_RST ||| BIT_DMP_RST] true, Ev.delay 50,
          Ev.write reg.user_ctrl [reset_dmp_user_ctrl s.cfg] true,
          Ev.write reg.int_enable [if s.cfg.int_enable ≠ 0 then BIT_DMP_INT_EN else 0] true,
          Ev.write reg.fifo_en [0] true]
      else
        [Ev.write reg.int_enable [0] true, Ev.write reg.fifo_en [0] true,
          Ev.write reg.user_ctrl [0] true, Ev.write reg.user_ctrl [BIT_FIFO_RST] true,
          Ev.write reg.user_ctrl [reset_fifo_user_ctrl s.cfg] true, Ev.delay 50,
          Ev.write reg.int_enable [if s.cfg.int_enable ≠ 0 then BIT_DATA_RDY_EN else 0] true,
          Ev.write reg.fifo_en [s.cfg.fifo_enable] true]) := by
  unfold mpu_reset_fifo
  rw [if_neg hs, onFail_write_ok T hw, onFail_write_ok T hw, onFail_write_ok T hw]
  by_cases hd : s.cfg.dmp_on ≠ 0
  · rw [if_pos hd, if_pos hd, onFail_write_ok T hw]
    dsimp only
    rw [onFail_write_ok T hw, onFail_write_ok T hw, onFail_write_ok T hw]
    refine ⟨rfl, rfl, ?_⟩
    simp [delay_ms]
  · rw [if_neg hd, if_neg hd, onFail_write_ok T hw, onFail_write_ok T hw]
    dsimp only
    rw [onFail_write_ok T hw, onFail_write_ok T hw]
    refine ⟨rfl, rfl, ?_⟩
    simp [delay_ms]

/-! ## The data-ready interrupt after `mpu_configure_fifo` -/

/-- Enabling the data-ready interrupt (DMP off, a sensor awake, writes accepted): nothing
happens when it is cached as enabled; otherwise 0x01 is written and cached. -/
theorem set_int_enable_on (T : Platform W) (s : St W) (hd : s.cfg.dmp_on = 0)
    (hs : s.cfg.sensors ≠ 0) (hw : ∀ w r d, (T.write w r d).1 = true) :
    (set_int_enable T s 1).2.cfg =
      { s.cfg with int_enable := if s.cfg.int_enable ≠ 0 then s.cfg.int_enable else 0x01 } ∧
    (set_int_enable T s 1).2.log =
      s.log ++ (if s.cfg.int_enable ≠ 0 then [] else [Ev.write reg.int_enable [0x01] true]) := by
  unfold set_int_enable
  rw [if_neg (not_not.mpr hd), if_neg hs]
  by_cases hi : s.cfg.int_enable ≠ 0
  · rw [if_pos ⟨by decide, hi⟩, if_pos hi, if_pos hi]
    exact ⟨rfl, by simp⟩
  · rw [if_neg (fun h => hi h.2), if_neg hi, if_neg hi]
    dsimp only
    rw [onFail_write_ok T hw]
    exact ⟨rfl, rfl⟩

/-- Disabling the data-ready interrupt (DMP off, a sensor awake, writes accepted): 0 is
written and cached. -/
theorem set_int_enable_off (T : Platform W) (s : St W) (hd : s.cfg.dmp_on = 0)
    (hs : s.cfg.sensors ≠ 0) (hw : ∀ w r d, (T.write w r d).1 = true) :
    (set_int_enable T s 0).2.cfg = { s.cfg with int_enable := 0 } ∧
    (set_int_enable T s 0).2.log = s.log ++ [Ev.write reg.int_enable [0] true] := by
  unfold set_int_enable
  rw [if_neg (not_not.mpr hd), if_neg hs, if_neg (fun h => h.1 rfl)]
  dsimp only
  rw [onFail_write_ok T hw]
  exact ⟨rfl, rfl⟩

/-- C31 as stated fails: on the always-succeeding transport with only the accelerometer
awake, a request for the gyro channels (0x70) leaves the FIFO mask empty and low-power
accel mode off, yet the data-ready interrupt is enabled: the test is on the requested
mask, not on the resulting one. -/
theorem int_enabled_with_empty_fifo :
    (stAccel.cfg.dmp_on = 0 ∧ stAccel.cfg.sensors ≠ 0) ∧
    (mpu_configure_fifo okBus stAccel 0x70).2.cfg.fifo_enable = 0 ∧
    (mpu_configure_fifo okBus stAccel 0x70).2.cfg.lp_accel_mode = 0 ∧
    (mpu_configure_fifo okBus stAccel 0x70).2.cfg.int_enable = 0x01 ∧
    (mpu_configure_fifo okBus stAccel 0x70).2.log.getLast? =
      some (Ev.write reg.fifo_en [0] true) ∧
    Ev.write reg.int_enable [0x01] true ∈ (mpu_configure_fifo okBus stAccel 0x70).2.log := by
  decide

/-- C31, amended: in `mpu_configure_fifo(mask)` with DMP off, a sensor awake and every
write succeeding, the data-ready interrupt ends enabled exactly when the requested mask
without the compass bit is non-empty or low-power accel mode is on, whatever the
resulting `fifo_enable` (the requested mask intersected with `sensors`). Enabled means:
the cached `int_enable` is non-zero (0x01 unless it was non-zero before), 0x01 is written
to the interrupt-enable register unless it was cached as enabled already, and for a
non-empty request the FIFO reset that follows ends by writing 0x01 again. Otherwise
`int_enable` is 0 and the only transfer is the write of 0 to the interrupt-enable
register. -/
theorem configure_fifo_interrupt (T : Platform W) (s : St W) (mask : Nat)
    (hd : s.cfg.dmp_on = 0) (hs : s.cfg.sensors ≠ 0)
    (hw : ∀ w r d, (T.write w r d).1 = true) :
    (mpu_configure_fifo T s mask).2.cfg.fifo_enable = (mask &&& 0xFE) &&& s.cfg.sensors ∧
    ((mpu_configure_fifo T s mask).2.cfg.int_enable ≠ 0 ↔
      (mask &&& 0xFE ≠ 0 ∨ s.cfg.lp_accel_mode ≠ 0)) ∧
    (mask &&& 0xFE ≠ 0 →
      (mpu_configure_fifo T s mask).2.cfg.int_enable =
        (if s.cfg.int_enable ≠ 0 then s.cfg.int_enable else 0x01) ∧
      (mpu_configure_fifo T s mask).2.log = s.log ++
        (if s.cfg.int_enable ≠ 0 then [] else [Ev.write reg.int_enable [0x01] true]) ++
        [Ev.write reg.int_enable [0] true, Ev.write reg.fifo_en [0] true,
          Ev.write reg.user_ctrl [0] true, Ev.write reg.user_ctrl [0x04] true,
          Ev.write reg.user_ctrl [reset_fifo_user_ctrl s.cfg] true, Ev.delay 50,
          Ev.write reg.int_enable [0x01] true,
          Ev.write reg.fifo_en [(mask &&& 0xFE) &&& s.cfg.sensors] true]) ∧
    (mask &&& 0xFE = 0 → s.cfg.lp_accel_mode ≠ 0 →
      (mpu_configure_fifo T s mask).2.cfg.int_enable =
        (if s.cfg.int_enable ≠ 0 then s.cfg.int_enable else 0x01) ∧
      (mpu_configure_fifo T s mask).2.log = s.log ++
        (if s.cfg.int_enable ≠ 0 then [] else [Ev.write reg.int_enable [0x01] true])) ∧
    (mask &&& 0xFE = 0 → s.cfg.lp_accel_mode = 0 →
      (mpu_configure_fifo T s mask).2.cfg.int_enable = 0 ∧
      (mpu_configure_fifo T s mask).2.log = s.log ++ [Ev.write reg.int_enable [0] true]) := by
  have hon := set_int_enable_on T
    (s.setCfg { s.cfg with fifo_enable := mask &&& 0xFE &&& s.cfg.sensors }) hd hs hw
  have hoff := set_int_enable_off T
    (s.setCfg { s.cfg with fifo_enable := mask &&& 0xFE &&& s.cfg.sensors }) hd hs hw
  have hne : (if s.cfg.int_enable ≠ 0 then s.cfg.int_enable else 0x01) ≠ 0 := by
    split_ifs with h
    · exact h
    · decide
  have A : mask &&& 0xFE ≠ 0 →
      (mpu_configure_fifo T s mask).2.cfg =
        { s.cfg with fifo_enable := mask &&& 0xFE &&& s.cfg.sensors,
                     int_enable := if s.cfg.int_enable ≠ 0 then s.cfg.int_enable else 0x01 } ∧
      (mpu_configure_fifo T s mask).2.log = s.log ++
        (if s.cfg.int_enable ≠ 0 then [] else [Ev.write reg.int_enable [0x01] true]) ++
        [Ev.write reg.int_enable [0] true, Ev.write reg.fifo_en [0] true,
          Ev.write reg.user_ctrl [0] true, Ev.write reg.user_ctrl [0x04] true,
          Ev.write reg.user_ctrl [reset_fifo_user_ctrl s.cfg] true, Ev.delay 50,
          Ev.write reg.int_enable [0x01] true,
          Ev.write reg.fifo_en [(mask &&& 0xFE) &&& s.cfg.sensors] true] := by
    intro hm
    have hs2 : (set_int_enable T
        (s.setCfg { s.cfg with fifo_enable := mask &&& 0xFE &&& s.cfg.sensors }) 1).2.cfg.sensors
        ≠ 0 := by
      rw [hon.1]
      exact hs
    have hd2 : (set_int_enable T
        (s.setCfg { s.cfg with fifo_enable := mask &&& 0xFE &&& s.cfg.sensors }) 1).2.cfg.dmp_on
        = 0 := by
      rw [hon.1]
      exact hd
    have hi2 : (set_int_enable T
        (s.setCfg { s.cfg with fifo_enable := mask &&& 0xFE &&& s.cfg.sensors }) 1).2.cfg.int_enable
        ≠ 0 := by
      rw [hon.1]
      exact hne
    obtain ⟨r1, r2, r3⟩ := mpu_reset_fifo_events T _ hs2 hw
    rw [if_neg (not_not.mpr hd2), if_pos hi2] at r3
    unfold mpu_configure_fifo
    dsimp only
    simp only [setCfg_cfg]
    rw [if_neg (not_not.mpr hd), if_neg hs, if_pos hm, if_pos (Or.inl hm)]
    unfold onErr
    rw [if_neg (not_not.mpr r1)]
    refine ⟨r2.trans hon.1, ?_⟩
    rw [r3, hon.2, hon.1]
    rfl
  have B : mask &&& 0xFE = 0 → s.cfg.lp_accel_mode ≠ 0 →
      (mpu_configure_fifo T s mask).2 = (set_int_enable T
        (s.setCfg { s.cfg with fifo_enable := mask &&& 0xFE &&& s.cfg.sensors }) 1).2 := by
    intro hm hlp
    unfold mpu_configure_fifo
    dsimp only
    simp only [setCfg_cfg]
    rw [if_neg (not_not.mpr hd), if_neg hs, if_neg (not_not.mpr hm), if_pos (Or.inr hlp)]
  have C : mask &&& 0xFE = 0 → s.cfg.lp_accel_mode = 0 →
      (mpu_configure_fifo T s mask).2 = (set_int_enable T
        (s.setCfg { s.cfg with fifo_enable := mask &&& 0xFE &&& s.cfg.sensors }) 0).2 := by
    intro hm hlp
    unfold mpu_configure_fifo
    dsimp only
    simp only [setCfg_cfg]
    rw [if_neg (not_not.mpr hd), if_neg hs, if_neg (not_not.mpr hm),
      if_neg (show ¬ (mask &&& 0xFE ≠ 0 ∨ s.cfg.lp_accel_mode ≠ 0) from
        fun h => h.elim (fun h1 => h1 hm) (fun h1 => h1 hlp))]
  refine ⟨?_, ?_, fun hm => ⟨?_, (A hm).2⟩, fun hm hlp => ?_, fun hm hlp => ?_⟩
  · by_cases hm : mask &&& 0xFE ≠ 0
    · rw [(A hm).1]
    · by_cases hlp : s.cfg.lp_accel_mode ≠ 0
      · rw [B (not_not.mp hm) hlp, hon.1]
        rfl
      · rw [C (not_not.mp hm) (not_not.mp hlp), hoff.1]
        rfl
  · by_cases hm : mask &&& 0xFE ≠ 0
    · rw [(A hm).1]
      exact ⟨fun _ => Or.inl hm, fun _ => hne⟩
    · by_cases hlp : s.cfg.lp_accel_mode ≠ 0
      · rw [B (not_not.mp hm) hlp, hon.1]
        exact ⟨fun _ => Or.inr hlp, fun _ => hne⟩
      · rw [C (not_not.mp hm) (not_not.mp hlp), hoff.1]
        exact ⟨fun h => absurd rfl h, fun h => h.elim (fun h1 => absurd h1 hm)
          (fun h1 => absurd h1 hlp)⟩
  · rw [(A hm).1]
  · rw [B hm hlp, hon.1, hon.2]
    exact ⟨rfl, rfl⟩
  · rw [C hm hlp, hoff.1, hoff.2]
    exact ⟨rfl, rfl⟩

/-- Witness for the amended C31 on the always-succeeding transport with gyro and accel
awake: a request for the accelerometer enables the interrupt, a request for nothing
disables it. -/
theorem configure_fifo_interrupt_witness :
    (stAwake.cfg.dmp_on = 0 ∧ stAwake.cfg.sensors ≠ 0) ∧
    (mpu_configure_fifo okBus stAwake 0x08).2.cfg.int_enable ≠ 0 ∧
    (mpu_configure_fifo okBus stAwake 0).2.cfg.int_enable = 0 ∧
    (mpu_configure_fifo okBus stAwake 0).2.log = [Ev.write reg.int_enable [0] true] :=
  ⟨⟨rfl, by decide⟩,
    (configure_fifo_interrupt okBus stAwake 0x08 rfl (by decide) (fun _ _ _ => rfl)).2.1.mpr
      (Or.inl (by decide)),
    ((configure_fifo_interrupt okBus stAwake 0 rfl (by decide)
      (fun _ _ _ => rfl)).2.2.2.2 rfl rfl).1,
    ((configure_fifo_interrupt okBus stAwake 0 rfl (by decide)
      (fun _ _ _ => rfl)).2.2.2.2 rfl rfl).2⟩

/-! ## Latched interrupts after `mpu_set_sensors` -/

/-- On a transport that accepts every write, `mpu_set_int_latched` returns 0 and leaves
the requested value cached. -/
theorem mpu_set_int_latched_ok (T : Platform W) (s : St W) (enable : Nat)
    (hw : ∀ w r d, (T.write w r d).1 = true) :
    (mpu_set_int_latched T s enable).1 = 0 ∧
    (mpu_set_int_latched T s enable).2.cfg = { s.cfg with latched_int := enable } := by
  unfold mpu_set_int_latched
  by_cases h : s.cfg.latched_int = enable
  · rw [if_pos h]
    refine ⟨rfl, ?_⟩
    rw [← h]
  · rw [if_neg h, onFail_write_ok T hw]
    exact ⟨rfl, rfl⟩

/-- C32 as stated fails for the empty mask: on the always-succeeding transport, with
latched interrupts on, `mpu_set_sensors(0)` returns 0 and `latched_int` is still 1,
although 0 is not the accel-only selection. -/
theorem set_sensors_zero_keeps_latch :
    (mpu_set_int_latched okBus stAwake 1).2.cfg.latched_int = 1 ∧ (0 : Nat) ≠ INV_XYZ_ACCEL ∧
    (mpu_set_sensors okBus (mpu_set_int_latched okBus stAwake 1).2 0).1 = 0 ∧
    (mpu_set_sensors okBus (mpu_set_int_latched okBus stAwake 1).2 0).2.cfg.latched_int = 1 := by
  decide

/-- C32, amended: with every write succeeding `mpu_set_sensors(mask)` returns 0, and for
every mask that is neither empty nor the accel-only selection the cached `latched_int`
is 0 afterwards; for the empty mask and for the accel-only selection `latched_int` is
left as it was. -/
theorem mpu_set_sensors_unlatches (T : Platform W) (s : St W) (mask : Nat)
    (hw : ∀ w r d, (T.write w r d).1 = true) :
    (mpu_set_sensors T s mask).1 = 0 ∧
    (mask ≠ 0 → mask ≠ INV_XYZ_ACCEL → (mpu_set_sensors T s mask).2.cfg.latched_int = 0) ∧
    ((mask = 0 ∨ mask = INV_XYZ_ACCEL) →
      (mpu_set_sensors T s mask).2.cfg.latched_int = s.cfg.latched_int) := by
  unfold mpu_set_sensors
  dsimp only
  rw [onFail_write_ok T hw]
  dsimp only
  rw [onFail_write_ok T hw]
  refine ⟨rfl, fun h0 ha => ?_, fun h => ?_⟩
  · rw [if_pos ⟨h0, ha⟩]
    exact congrArg (fun c => c.latched_int) (mpu_set_int_latched_ok T _ 0 hw).2
  · rw [if_neg (fun h1 => h.elim (fun e => h1.1 e) (fun e => h1.2 e))]
    rfl

/-- Witness for the amended C32 on the always-succeeding transport: with latched
interrupts on, waking gyro and accel clears the latch. -/
theorem mpu_set_sensors_unlatches_witness :
    ((0x78 : Nat) ≠ 0 ∧ (0x78 : Nat) ≠ INV_XYZ_ACCEL ∧
      (mpu_set_int_latched okBus stAwake 1).2.cfg.latched_int = 1) ∧
    (mpu_set_sensors okBus (mpu_set_int_latched okBus stAwake 1).2 0x78).1 = 0 ∧
    (mpu_set_sensors okBus (mpu_set_int_latched okBus stAwake 1).2 0x78).2.cfg.latched_int = 0 :=
  ⟨⟨by decide, by decide, by decide⟩,
    (mpu_set_sensors_unlatches okBus (mpu_set_int_latched okBus stAwake 1).2 0x78
      (fun _ _ _ => rfl)).1,
    (mpu_set_sensors_unlatches okBus (mpu_set_int_latched okBus stAwake 1).2 0x78
      (fun _ _ _ => rfl)).2.1 (by decide) (by decide)⟩

/-! ## The interrupt-pin configuration byte -/

/-- The byte `mpu_set_int_latched` composes: 0x02 for bypass, 0x80 for active-low,
0x30 for latching. -/
theorem int_latched_byte_eq (c : chip_cfg_s) (l : Nat) :
    int_latched_byte c l =
      (if c.bypass_mode ≠ 0 then 0x02 else 0) ||| (if c.active_low_int ≠ 0 then 0x80 else 0) |||
        (if l ≠ 0 then 0x30 else 0) := by
  unfold int_latched_byte
  dsimp only
  split_ifs <;> rfl

/-- The byte `mpu_set_bypass` composes when it turns bypass on. -/
theorem bypass_on_byte_eq (c : chip_cfg_s) :
    bypass_on_byte c =
      0x02 ||| (if c.active_low_int ≠ 0 then 0x80 else 0) |||
        (if c.latched_int ≠ 0 then 0x30 else 0) := by
  unfold bypass_on_byte
  dsimp only
  split_ifs <;> rfl

/-- The byte `mpu_set_bypass` composes when it turns bypass off. -/
theorem bypass_off_byte_eq (c : chip_cfg_s) :
    bypass_off_byte c =
      0 ||| (if c.active_low_int ≠ 0 then 0x80 else 0) |||
        (if c.latched_int ≠ 0 then 0x30 else 0) := by
  unfold bypass_off_byte
  dsimp only
  split_ifs <;> rfl

/-- A changing `mpu_set_int_latched` on a transport that accepts every write: status 0,
the flag stored, one write of the composed byte. -/
theorem mpu_set_int_latched_events (T : Platform W) (s : St W) (l : Nat)
    (hne : s.cfg.latched_int ≠ l) (hw : ∀ w r d, (T.write w r d).1 = true) :
    (mpu_set_int_latched T s l).1 = 0 ∧
    (mpu_set_int_latched T s l).2.cfg = { s.cfg with latched_int := l } ∧
    (mpu_set_int_latched T s l).2.log = s.log ++
      [Ev.write reg.int_pin_cfg
        [(if s.cfg.bypass_mode ≠ 0 then 0x02 else 0) |||
          (if s.cfg.active_low_int ≠ 0 then 0x80 else 0) ||| (if l ≠ 0 then 0x30 else 0)]
        true] := by
  unfold mpu_set_int_latched
  rw [if_neg hne, onFail_write_ok T hw, int_latched_byte_eq]
  exact ⟨rfl, rfl, rfl⟩

/-- C33 as stated fails: `mpu_set_int_level` with a value different from the cached one
writes nothing. Over a register file with all registers 0, setting the level to
active-low leaves the log empty and the interrupt-pin configuration register at 0. -/
theorem int_level_not_written :
    (⟨cfg0, fun _ => 0, []⟩ : St (Nat → Nat)).cfg.active_low_int ≠ 1 ∧
    (mpu_set_int_level (⟨cfg0, fun _ => 0, []⟩ : St (Nat → Nat)) 1).1 = 0 ∧
    (mpu_set_int_level (⟨cfg0, fun _ => 0, []⟩ : St (Nat → Nat)) 1).2.cfg.active_low_int = 1 ∧
    (mpu_set_int_level (⟨cfg0, fun _ => 0, []⟩ : St (Nat → Nat)) 1).2.log = [] ∧
    (mpu_set_int_level (⟨cfg0, fun _ => 0, []⟩ : St (Nat → Nat)) 1).2.bus reg.int_pin_cfg = 0 :=
  ⟨by decide, rfl, rfl, rfl, rfl⟩

/-- C33, amended: `mpu_set_int_level(active_low)` returns 0 and only stores the flag in
the cache, whether or not it differs from the cached value: no transfer is issued, the
world behind the transport and every other cache field are as before. The level reaches
the interrupt-pin configuration register with the next write of that register: a
following `mpu_set_int_latched` that changes its flag writes, on a transport that accepts
every write, the byte with 0x80 set exactly when `active_low` is non-zero. -/
theorem mpu_set_int_level_stores_only (T : Platform W) (s : St W) (active_low l : Nat) :
    mpu_set_int_level s active_low =
      (0, ⟨{ s.cfg with active_low_int := active_low }, s.bus, s.log⟩) ∧
    (s.cfg.latched_int ≠ l → (∀ w r d, (T.write w r d).1 = true) →
      (mpu_set_int_latched T (mpu_set_int_level s active_low).2 l).2.log = s.log ++
        [Ev.write reg.int_pin_cfg
          [(if s.cfg.bypass_mode ≠ 0 then 0x02 else 0) |||
            (if active_low ≠ 0 then 0x80 else 0) ||| (if l ≠ 0 then 0x30 else 0)] true]) :=
  ⟨rfl, fun hne hw =>
    (mpu_set_int_latched_events T (mpu_set_int_level s active_low).2 l hne hw).2.2⟩

/-- Witness for the amended C33 on the always-succeeding transport: after
`mpu_set_int_level(1)`, which logs nothing, `mpu_set_int_latched(1)` writes 0xB0. -/
theorem mpu_set_int_level_stores_only_witness :
    stAwake.cfg.latched_int ≠ 1 ∧ (mpu_set_int_level stAwake 1).2.log = [] ∧
    (mpu_set_int_latched okBus (mpu_set_int_level stAwake 1).2 1).2.log =
      [Ev.write reg.int_pin_cfg [0xB0] true] :=
  ⟨by decide, congrArg (fun r => r.2.log) (mpu_set_int_level_stores_only okBus stAwake 1 1).1,
    (mpu_set_int_level_stores_only okBus stAwake 1 1).2 (by decide) (fun _ _ _ => rfl)⟩

/-- A failing `mpu_set_int_latched` leaves the cache as it was. -/
theorem mpu_set_int_latched_fail (T : Platform W) (s : St W) (l : Nat) :
    (mpu_set_int_latched T s l).1 ≠ 0 → (mpu_set_int_latched T s l).2.cfg = s.cfg := by
  unfold mpu_set_int_latched
  split_ifs
  · exact fun _ => rfl
  · exact onFail_rule (fun r : Int × St W => r.1 ≠ 0 → r.2.cfg = s.cfg) _ _ _
      (fun _ _ => rfl) (fun _ h => absurd rfl h)

/-- A failing `mpu_set_bypass` leaves the cache as it was. -/
theorem mpu_set_bypass_fail (T : Platform W) (s : St W) (b : Nat) :
    (mpu_set_bypass T s b).1 ≠ 0 → (mpu_set_bypass T s b).2.cfg = s.cfg := by
  unfold mpu_set_bypass
  split_ifs
  · exact fun _ => rfl
  · refine onFailR_rule (fun r : Int × St W => r.1 ≠ 0 → r.2.cfg = s.cfg) _ _ _
      (fun _ _ => rfl) (fun _ => ?_)
    refine onFail_rule (fun r : Int × St W => r.1 ≠ 0 → r.2.cfg = s.cfg) _ _ _
      (fun _ _ => rfl) (fun _ => ?_)
    exact onFail_rule (fun r : Int × St W => r.1 ≠ 0 → r.2.cfg = s.cfg) _ _ _
      (fun _ _ => rfl) (fun _ h => absurd rfl h)
  · refine onFailR_rule (fun r : Int × St W => r.1 ≠ 0 → r.2.cfg = s.cfg) _ _ _
      (fun _ _ => rfl) (fun _ => ?_)
    refine onFail_rule (fun r : Int × St W => r.1 ≠ 0 → r.2.cfg = s.cfg) _ _ _
      (fun _ _ => rfl) (fun _ => ?_)
    exact onFail_rule (fun r : Int × St W => r.1 ≠ 0 → r.2.cfg = s.cfg) _ _ _
      (fun _ _ => rfl) (fun _ h => absurd rfl h)

/-- A changing `mpu_set_bypass` whose user-control read succeeds, on a transport that
accepts every write: status 0, the flag stored, and the four events in order. -/
theorem mpu_set_bypass_events (T : Platform W) (s : St W) (b : Nat) (u : List Nat) (w1 : W)
    (hne : s.cfg.bypass_mode ≠ b) (hw : ∀ w r d, (T.write w r d).1 = true)
    (hr : T.read s.bus reg.user_ctrl 1 = (some u, w1)) :
    (mpu_set_bypass T s b).1 = 0 ∧
    (mpu_set_bypass T s b).2.cfg = { s.cfg with bypass_mode := b } ∧
    ∃ d, (mpu_set_bypass T s b).2.log = s.log ++
      [Ev.read reg.user_ctrl 1 true, Ev.write reg.user_ctrl [d] true, Ev.delay 3,
        Ev.write reg.int_pin_cfg
          [(if b ≠ 0 then 0x02 else 0) ||| (if s.cfg.active_low_int ≠ 0 then 0x80 else 0) |||
            (if s.cfg.latched_int ≠ 0 then 0x30 else 0)] true] := by
  unfold mpu_set_bypass
  rw [if_neg hne]
  by_cases hb : b ≠ 0
  · rw [if_pos hb, i2c_read_ok T s _ _ u w1 hr]
    unfold onFailR
    rw [if_neg (show ¬ (false = true) from by decide)]
    dsimp only
    rw [onFail_write_ok T hw]
    dsimp only
    rw [onFail_write_ok T hw]
    refine ⟨rfl, rfl, (readBytes u 1).getD 0 0 &&& 0xDF, ?_⟩
    rw [if_pos hb]
    show _ ++ [Ev.write reg.int_pin_cfg [bypass_on_byte s.cfg] true] = _
    rw [bypass_on_byte_eq]
    simp
  · rw [if_neg hb, i2c_read_ok T s _ _ u w1 hr]
    unfold onFailR
    rw [if_neg (show ¬ (false = true) from by decide)]
    dsimp only
    rw [onFail_write_ok T hw]
    dsimp only
    rw [onFail_write_ok T hw]
    refine ⟨rfl, rfl, bypass_off_user_ctrl s.cfg ((readBytes u 1).getD 0 0), ?_⟩
    rw [if_neg hb]
    show _ ++ [Ev.write reg.int_pin_cfg [bypass_off_byte s.cfg] true] = _
    rw [bypass_off_byte_eq]
    simp

/-- C34: whenever `mpu_set_int_latched(l)` or `mpu_set_bypass(b)` changes its flag and
every transfer succeeds, the call returns 0, the cached flag is the requested value, and
the one byte written to the interrupt-pin configuration register is 0x02 if bypass is on
after the call, or-ed with 0x80 if the cached `active_low_int` is set, or-ed with 0x30 if
latching is on after the call, and nothing else. A call that fails leaves the whole cache,
and so the flag, as it was. -/
theorem pin_cfg_byte_composed (T : Platform W) (s : St W) (b l : Nat) (u : List Nat) (w1 : W)
    (hw : ∀ w r d, (T.write w r d).1 = true)
    (hr : T.read s.bus reg.user_ctrl 1 = (some u, w1)) :
    (s.cfg.latched_int ≠ l →
      (mpu_set_int_latched T s l).1 = 0 ∧
      (mpu_set_int_latched T s l).2.cfg = { s.cfg with latched_int := l } ∧
      (mpu_set_int_latched T s l).2.log = s.log ++
        [Ev.write reg.int_pin_cfg
          [(if s.cfg.bypass_mode ≠ 0 then 0x02 else 0) |||
            (if s.cfg.active_low_int ≠ 0 then 0x80 else 0) ||| (if l ≠ 0 then 0x30 else 0)]
          true]) ∧
    (s.cfg.bypass_mode ≠ b →
      (mpu_set_bypass T s b).1 = 0 ∧
      (mpu_set_bypass T s b).2.cfg = { s.cfg with bypass_mode := b } ∧
      ∃ d, (mpu_set_bypass T s b).2.log = s.log ++
        [Ev.read reg.user_ctrl 1 true, Ev.write reg.user_ctrl [d] true, Ev.delay 3,
          Ev.write reg.int_pin_cfg
            [(if b ≠ 0 then 0x02 else 0) |||
              (if s.cfg.active_low_int ≠ 0 then 0x80 else 0) |||
              (if s.cfg.latched_int ≠ 0 then 0x30 else 0)] true]) ∧
    (∀ (T1 : Platform W) (s1 : St W),
      ((mpu_set_int_latched T1 s1 l).1 ≠ 0 → (mpu_set_int_latched T1 s1 l).2.cfg = s1.cfg) ∧
      ((mpu_set_bypass T1 s1 b).1 ≠ 0 → (mpu_set_bypass T1 s1 b).2.cfg = s1.cfg)) :=
  ⟨fun hne => mpu_set_int_latched_events T s l hne hw,
    fun hne => mpu_set_bypass_events T s b u w1 hne hw hr,
    fun T1 s1 => ⟨mpu_set_int_latched_fail T1 s1 l, mpu_set_bypass_fail T1 s1 b⟩⟩

/-- Witness for C34 on the always-succeeding transport, from a state with active-low
interrupts cached: turning latching on writes 0xB0, turning bypass on writes 0x82; on a
transport that refuses writes to the interrupt-pin configuration register the flag stays
as it was. -/
theorem pin_cfg_byte_composed_witness :
    (okBus.read (mpu_set_int_level stAwake 1).2.bus reg.user_ctrl 1 = (some [0], ()) ∧
      (mpu_set_int_level stAwake 1).2.cfg.latched_int ≠ 1 ∧
      (mpu_set_int_level stAwake 1).2.cfg.bypass_mode ≠ 1) ∧
    (mpu_set_int_latched okBus (mpu_set_int_level stAwake 1).2 1).2.log =
      [Ev.write reg.int_pin_cfg [0xB0] true] ∧
    (∃ d, (mpu_set_bypass okBus (mpu_set_int_level stAwake 1).2 1).2.log =
      [Ev.read reg.user_ctrl 1 true, Ev.write reg.user_ctrl [d] true, Ev.delay 3,
        Ev.write reg.int_pin_cfg [0x82] true]) ∧
    (mpu_set_int_latched (failOn reg.int_pin_cfg) stAwake 1).1 ≠ 0 ∧
    (mpu_set_int_latched (failOn reg.int_pin_cfg) stAwake 1).2.cfg = stAwake.cfg :=
  ⟨⟨rfl, by decide, by decide⟩,
    ((pin_cfg_byte_composed okBus (mpu_set_int_level stAwake 1).2 1 1 [0] ()
      (fun _ _ _ => rfl) rfl).1 (by decide)).2.2,
    ((pin_cfg_byte_composed okBus (mpu_set_int_level stAwake 1).2 1 1 [0] ()
      (fun _ _ _ => rfl) rfl).2.1 (by decide)).2.2,
    by decide,
    ((pin_cfg_byte_composed okBus (mpu_set_int_level stAwake 1).2 1 1 [0] ()
      (fun _ _ _ => rfl) rfl).2.2 (failOn reg.int_pin_cfg) stAwake).1 (by decide)⟩

/-! ## The FIFO reset sequence -/

/-- The user-control byte of the non-DMP branch is 0x60 when the compass is in `sensors`
and bypass is off, and 0x40 otherwise. -/
theorem reset_fifo_user_ctrl_eq (c : chip_cfg_s) :
    reset_fifo_user_ctrl c =
      if c.sensors &&& INV_XYZ_COMPASS ≠ 0 ∧ c.bypass_mode = 0 then 0x60 else 0x40 := by
  unfold reset_fifo_user_ctrl
  by_cases h : c.sensors &&& INV_XYZ_COMPASS ≠ 0 ∧ c.bypass_mode = 0
  · rw [if_pos h, if_neg (fun h1 => h1.elim (fun hb => hb h.2) (fun hc => hc h.1))]
    rfl
  · rw [if_neg h, if_pos]
    by_cases hb : c.bypass_mode = 0
    · exact Or.inr (fun hc => h ⟨hc, hb⟩)
    · exact Or.inl hb

/-- The user-control byte of the DMP branch is 0xE0 when the compass is in `sensors`, and
0xC0 otherwise. -/
theorem reset_dmp_user_ctrl_eq (c : chip_cfg_s) :
    reset_dmp_user_ctrl c = if c.sensors &&& INV_XYZ_COMPASS ≠ 0 then 0xE0 else 0xC0 := by
  unfold reset_dmp_user_ctrl
  by_cases hc : c.sensors &&& INV_XYZ_COMPASS ≠ 0
  · rw [if_pos hc, if_pos hc]
    rfl
  · rw [if_neg hc, if_neg hc]
    rfl

/-- C35: with a sensor awake and every write succeeding, `mpu_reset_fifo` returns 0,
changes no cache field and logs exactly these transfers, in order. DMP off:
int_enable <- 0, fifo_en <- 0, user_ctrl <- 0, user_ctrl <- 0x04, user_ctrl <- 0x40
(0x60 when the compass is in `sensors` and `bypass_mode` is 0), a 50 ms delay,
int_enable <- 0x01 if the cached `int_enable` is non-zero and 0 otherwise,
fifo_en <- the cached `fifo_enable`. DMP on: int_enable <- 0, fifo_en <- 0,
user_ctrl <- 0, user_ctrl <- 0x0C, a 50 ms delay, user_ctrl <- 0xC0 (0xE0 when the
compass is in `sensors`), int_enable <- 0x02 if the cached `int_enable` is non-zero and 0
otherwise, fifo_en <- 0. -/
theorem mpu_reset_fifo_sequence (T : Platform W) (s : St W) (hs : s.cfg.sensors ≠ 0)
    (hw : ∀ w r d, (T.write w r d).1 = true) :
    (mpu_reset_fifo T s).1 = 0 ∧ (mpu_reset_fifo T s).2.cfg = s.cfg ∧
    (s.cfg.dmp_on = 0 →
      (mpu_reset_fifo T s).2.log = s.log ++
        [Ev.write reg.int_enable [0] true, Ev.write reg.fifo_en [0] true,
          Ev.write reg.user_ctrl [0] true, Ev.write reg.user_ctrl [0x04] true,
          Ev.write reg.user_ctrl
            [if s.cfg.sensors &&& INV_XYZ_COMPASS ≠ 0 ∧ s.cfg.bypass_mode = 0
              then 0x60 else 0x40] true,
          Ev.delay 50,
          Ev.write reg.int_enable [if s.cfg.int_enable ≠ 0 then 0x01 else 0] true,
          Ev.write reg.fifo_en [s.cfg.fifo_enable] true]) ∧
    (s.cfg.dmp_on ≠ 0 →
      (mpu_reset_fifo T s).2.log = s.log ++
        [Ev.write reg.int_enable [0] true, Ev.write reg.fifo_en [0] true,
          Ev.write reg.user_ctrl [0] true, Ev.write reg.user_ctrl [0x0C] true,
          Ev.delay 50,
          Ev.write reg.user_ctrl
            [if s.cfg.sensors &&& INV_XYZ_COMPASS ≠ 0 then 0xE0 else 0xC0] true,
          Ev.write reg.int_enable [if s.cfg.int_enable ≠ 0 then 0x02 else 0] true,
          Ev.write reg.fifo_en [0] true]) := by
  obtain ⟨h1, h2, h3⟩ := mpu_reset_fifo_events T s hs hw
  refine ⟨h1, h2, fun hd => ?_, fun hd => ?_⟩
  · rw [h3, if_neg (not_not.mpr hd), reset_fifo_user_ctrl_eq]
  · rw [h3, if_pos hd, reset_dmp_user_ctrl_eq]
    rfl

/-- Witness for C35 on the always-succeeding transport: the non-DMP sequence with gyro and
accel in the FIFO, and the DMP sequence. -/
theorem mpu_reset_fifo_sequence_witness :
    (stFifo.cfg.sensors ≠ 0 ∧ stFifo.cfg.dmp_on = 0 ∧ stDmp.cfg.sensors ≠ 0 ∧
      stDmp.cfg.dmp_on ≠ 0) ∧
    (mpu_reset_fifo okBus stFifo).2.log =
      [Ev.write 0x38 [0] true, Ev.write 0x23 [0] true, Ev.write 0x6A [0] true,
        Ev.write 0x6A [0x04] true, Ev.write 0x6A [0x40] true, Ev.delay 50,
        Ev.write 0x38 [0] true, Ev.write 0x23 [0x78] true] ∧
    (mpu_reset_fifo okBus stDmp).2.log =
      [Ev.write 0x38 [0] true, Ev.write 0x23 [0] true, Ev.write 0x6A [0] true,
        Ev.write 0x6A [0x0C] true, Ev.delay 50, Ev.write 0x6A [0xC0] true,
        Ev.write 0x38 [0] true, Ev.write 0x23 [0] true] :=
  ⟨⟨by decide, rfl, by decide, by decide⟩,
    (mpu_reset_fifo_sequence okBus stFifo (by decide) (fun _ _ _ => rfl)).2.2.1 rfl,
    (mpu_reset_fifo_sequence okBus stDmp (by decide) (fun _ _ _ => rfl)).2.2.2 (by decide)⟩

/-! ## Low-power accel mode and the requested wake rate -/

/-- The log after `set_int_enable` extends the log before it. -/
theorem set_int_enable_log_ext (T : Platform W) (s : St W) (e : Nat) :
    LogExt (fun _ => True) s (set_int_enable T s e).2 := by
  unfold set_int_enable
  dsimp only
  split_ifs
  all_goals first
    | exact LogExt.refl _ s
    | exact onFail_inv (LogExt _ s) _ _ _ (LogExt.write T s _ _ (fun _ => trivial))
        (fun _ h => h) (fun _ h => h)

/-- The log after `mpu_configure_fifo` extends the log before it. -/
theorem mpu_configure_fifo_log_ext (T : Platform W) (s : St W) (m : Nat) :
    LogExt (fun _ => True) s (mpu_configure_fifo T s m).2 := by
  unfold mpu_configure_fifo
  dsimp only
  have key : ∀ e, LogExt (fun _ => True) s (set_int_enable T
      (s.setCfg { s.cfg with fifo_enable := m &&& 0xFE &&& s.cfg.sensors }) e).2 :=
    fun e => set_int_enable_log_ext T _ e
  split_ifs
  all_goals first
    | exact LogExt.refl _ s
    | exact key 1
    | exact key 0
    | exact onErr_inv (LogExt _ s) _ _ _
        ((key 1).trans ((mpu_reset_fifo_log T _).mono (fun _ _ => trivial)))
        (fun _ h => h) (fun _ h => h)
    | exact onErr_inv (LogExt _ s) _ _ _
        ((key 0).trans ((mpu_reset_fifo_log T _).mono (fun _ _ => trivial)))
        (fun _ h => h) (fun _ h => h)

/-- The power-management byte that carries the wake-frequency code fits a byte. -/
theorem lpa_byte_eq (rate : Nat) :
    ((lpa_rate rate <<< 6) ||| BIT_STBY_XYZG) % 256 =
      ((if rate = 1 then 0 else if rate ≤ 5 then 1 else if rate ≤ 20 then 2 else 3) <<< 6)
        ||| 0x07 := by
  unfold lpa_rate
  split_ifs <;> rfl

/-- C36 fails in the code: `mpu_lp_accel_mode` has no test for rates above 40 Hz. For
every non-zero rate, 41..255 included, with every write succeeding it returns 0, leaves
low-power accel mode on and writes to the power-management registers the cycle bit 0x20
and the wake-frequency code in bits 7..6 of the second byte: 0 (1.25 Hz) for rate 1,
1 (5 Hz) for 2..5, 2 (20 Hz) for 6..20 and 3 (40 Hz) for every rate above 20. -/
theorem lp_accel_mode_accepts_any_rate (T : Platform W) (s : St W) (rate : Nat)
    (hr : rate ≠ 0) (hw : ∀ w r d, (T.write w r d).1 = true) :
    (mpu_lp_accel_mode T s rate).1 = 0 ∧
    (mpu_lp_accel_mode T s rate).2.cfg.lp_accel_mode = 1 ∧
    Ev.write reg.pwr_mgmt_1
      [0x20, ((if rate = 1 then 0 else if rate ≤ 5 then 1 else if rate ≤ 20 then 2 else 3)
        <<< 6) ||| 0x07] true ∈ (mpu_lp_accel_mode T s rate).2.log := by
  unfold mpu_lp_accel_mode
  rw [if_neg hr]
  dsimp only
  rw [onFail_write_ok T hw, lpa_byte_eq]
  refine ⟨rfl, ?_, ?_⟩
  · exact mpu_configure_fifo_keep (fun c => c.lp_accel_mode) (fun _ _ => rfl)
      (fun _ _ => rfl) T _ 0
  · obtain ⟨evs, he, _⟩ := mpu_configure_fifo_log_ext T
      (St.setCfg ⟨(mpu_set_lpf T (mpu_set_int_latched T s 1).2 (lpa_lpf rate)).2.cfg,
          (T.write (mpu_set_lpf T (mpu_set_int_latched T s 1).2 (lpa_lpf rate)).2.bus
            reg.pwr_mgmt_1 [BIT_LPA_CYCLE,
              ((if rate = 1 then 0 else if rate ≤ 5 then 1 else if rate ≤ 20 then 2 else 3)
                <<< 6) ||| 0x07]).2,
          (mpu_set_lpf T (mpu_set_int_latched T s 1).2 (lpa_lpf rate)).2.log ++
            [Ev.write reg.pwr_mgmt_1 [BIT_LPA_CYCLE,
              ((if rate = 1 then 0 else if rate ≤ 5 then 1 else if rate ≤ 20 then 2 else 3)
                <<< 6) ||| 0x07] true]⟩
        { (mpu_set_lpf T (mpu_set_int_latched T s 1).2 (lpa_lpf rate)).2.cfg with
          sensors := INV_XYZ_ACCEL, clk_src := 0, lp_accel_mode := 1 }) 0
    rw [he]
    simp [St.setCfg]

/-- Witness for C36 on the always-succeeding transport: a request for 41 Hz, above the
documented maximum, returns 0 and selects the 40 Hz code (second byte 0xC7); so does a
request for 255 Hz. -/
theorem lp_accel_mode_accepts_any_rate_witness :
    ((41 : Nat) ≠ 0 ∧ 40 < 41) ∧ (mpu_lp_accel_mode okBus stAwake 41).1 = 0 ∧
    Ev.write reg.pwr_mgmt_1 [0x20, 0xC7] true ∈ (mpu_lp_accel_mode okBus stAwake 41).2.log ∧
    (mpu_lp_accel_mode okBus stAwake 255).1 = 0 :=
  ⟨⟨by decide, by decide⟩,
    (lp_accel_mode_accepts_any_rate okBus stAwake 41 (by decide) (fun _ _ _ => rfl)).1,
    (lp_accel_mode_accepts_any_rate okBus stAwake 41 (by decide) (fun _ _ _ => rfl)).2.2,
    (lp_accel_mode_accepts_any_rate okBus stAwake 255 (by decide) (fun _ _ _ => rfl)).1⟩

/-! ## Packet size zero -/

/-- The chunk loop returns a status for every transport behaviour: the bound on its
iterations is never hit. -/
theorem load_loop_total (T : Platform W) (length : Nat) (fw : List Nat)
    (hlen : length < 65536) :
    ∀ (fuel ii : Nat) (s : St W), ii ≤ length → length - ii ≤ fuel →
      ∃ r, load_loop T length fw fuel ii s = some r := by
  intro fuel
  induction fuel with
  | zero =>
    intro ii s _ hf
    exact ⟨_, load_loop_done T length fw 0 ii s (by omega)⟩
  | succ f ih =>
    intro ii s hle hf
    by_cases hlt : ii < length
    · obtain ⟨h1, h2, _⟩ := chunk_len_bounds length ii hlt
      by_cases hw : (chunk_write T length fw ii s).1 = 0
      · by_cases hr : (chunk_read T length fw ii s).1 = 0
        · by_cases hm : chunk_same T length fw ii s
          · rw [load_loop_next T length fw f ii s hlt hw hr hm,
              Nat.mod_eq_of_lt (show ii + chunk_len length ii < 65536 by omega)]
            exact ih _ _ h2 (by omega)
          · exact ⟨_, load_loop_mismatch T length fw f ii s hlt hw hr hm⟩
        · exact ⟨_, load_loop_read_fail T length fw f ii s hlt hw hr⟩
      · exact ⟨_, load_loop_write_fail T length fw f ii s hlt hw⟩
    · exact ⟨_, load_loop_done T length fw (f + 1) ii s hlt⟩

/-- No iteration once the counter has reached the length. -/
theorem load_chunks_done (length fuel ii : Nat) (h : ¬ ii < length) :
    load_chunks length fuel ii = [] := by
  cases fuel with
  | zero => rfl
  | succ f => rw [load_chunks, if_neg h]

/-- One iteration of the loop header. -/
theorem load_chunks_step (length fuel ii : Nat) (h : ii < length) :
    load_chunks length (fuel + 1) ii =
      (ii, chunk_len length ii) ::
        load_chunks length fuel ((ii + chunk_len length ii) % 65536) := by
  rw [load_chunks, if_pos h]
  rfl

/-- The iterations from a counter that is a multiple of 16: chunk `j` further on starts
16 bytes after chunk `j - 1` and holds 16 bytes, or what is left of the image. -/
theorem load_chunks_from (length : Nat) (hlen : length < 65536) :
    ∀ (fuel k : Nat), (length - 16 * k + 15) / 16 ≤ fuel →
      load_chunks length fuel (16 * k) =
        (List.range ((length - 16 * k + 15) / 16)).map
          (fun j => (16 * (k + j), min 16 (length - 16 * (k + j)))) := by
  intro fuel
  induction fuel with
  | zero =>
    intro k hf
    rw [Nat.le_zero.mp hf]
    rfl
  | succ f ih =>
    intro k hf
    by_cases hlt : 16 * k < length
    · rw [load_chunks_step length f (16 * k) hlt]
      unfold chunk_len LOAD_CHUNK
      by_cases h16 : 16 ≤ length - 16 * k
      · have hn : (length - 16 * k + 15) / 16 = (length - 16 * (k + 1) + 15) / 16 + 1 := by
          omega
        have hnext : (16 * k + min 16 (length - 16 * k)) % 65536 = 16 * (k + 1) := by
          rw [Nat.min_eq_left h16]
          omega
        rw [hnext, ih (k + 1) (by omega), hn, List.range_succ_eq_map, List.map_cons,
          List.map_map]
        refine congrArg₂ List.cons rfl (List.map_congr_left (fun j _ => ?_))
        show (16 * (k + 1 + j), min 16 (length - 16 * (k + 1 + j))) =
          (16 * (k + (j + 1)), min 16 (length - 16 * (k + (j + 1))))
        rw [Nat.add_assoc k 1 j, Nat.add_comm 1 j]
      · have hn : (length - 16 * k + 15) / 16 = 1 := by omega
        have hnext : (16 * k + min 16 (length - 16 * k)) % 65536 = length := by
          rw [Nat.min_eq_right (by omega)]
          omega
        rw [hnext, load_chunks_done length f length (Nat.lt_irrefl _), hn]
        rfl
    · rw [load_chunks_done length (f + 1) (16 * k) hlt]
      have hn : (length - 16 * k + 15) / 16 = 0 := by omega
      rw [hn]
      rfl

/-- The whole schedule: chunk `j` is `(16 * j, min 16 (length - 16 * j))`, for `j` below
the number of chunks, `length` divided by 16 and rounded up. -/
theorem load_chunks_all (length : Nat) (hlen : length < 65536) :
    load_chunks length length 0 =
      (List.range ((length + 15) / 16)).map (fun j => (16 * j, min 16 (length - 16 * j))) := by
  have h := load_chunks_from length hlen length 0 (by omega)
  simpa using h

/-- The counters a verified run passes through are counters of the loop header. -/
theorem chunks_visited {T : Platform W} {length : Nat} {fw : List Nat} {ii0 ii : Nat}
    {s0 s : St W} (hlen : length < 65536) (h : ChunksVerified T length fw ii0 s0 ii s) :
    ∀ fuel, length - ii0 ≤ fuel → ∃ fuel1 p, length - ii ≤ fuel1 ∧
      load_chunks length fuel ii0 = p ++ load_chunks length fuel1 ii := by
  induction h with
  | done ii s => exact fun fuel hf => ⟨fuel, [], hf, rfl⟩
  | step ii0 s0 ii s hlt hw hr hm _ ih =>
    intro fuel hf
    obtain ⟨h1, h2, _⟩ := chunk_len_bounds length ii0 hlt
    cases fuel with
    | zero => omega
    | succ f =>
      have hmod : (ii0 + chunk_len length ii0) % 65536 = ii0 + chunk_len length ii0 :=
        Nat.mod_eq_of_lt (by omega)
      obtain ⟨fuel1, p, hf1, hp⟩ := ih f (by rw [hmod]; omega)
      exact ⟨fuel1, (ii0, chunk_len length ii0) :: p, hf1, by
        rw [load_chunks_step length f ii0 hlt, hp]
        rfl⟩

/-- `mpu_load_firmware` returns a status for every 16-bit length, every image pointer and
every transport behaviour. -/
theorem mpu_load_firmware_total (T : Platform W) (s : St W) (length : Nat)
    (firmware : Option (List Nat)) (start_addr sample_rate : Nat) (hlen : length < 65536) :
    ∃ r, mpu_load_firmware T s length firmware start_addr sample_rate = some r := by
  unfold mpu_load_firmware
  split_ifs
  · exact ⟨_, rfl⟩
  · cases firmware with
    | none => exact ⟨_, rfl⟩
    | some fw =>
      obtain ⟨r, hr⟩ := load_loop_total T length fw hlen length 0 s (Nat.zero_le _)
        (Nat.le_refl _)
      dsimp only
      rw [hr]
      dsimp only
      refine onErr_rule (fun x : Option (Int × St W) => ∃ r, x = some r) _ _ _
        (fun _ => ⟨_, rfl⟩) (fun _ => ?_)
      exact onFail_rule (fun x : Option (Int × St W) => ∃ r, x = some r) _ _ _
        (fun _ => ⟨_, rfl⟩) (fun _ => ⟨_, rfl⟩)

/-- One step of the specification on the chunk of the loop iteration at `ii`. -/
theorem spec_load_chunks_cons (T : Platform W) (length : Nat) (fw : List Nat) (ii : Nat)
    (rest : List (Nat × Nat)) (s : St W) :
    spec_load_chunks T fw ((ii, chunk_len length ii) :: rest) s =
      if (chunk_write T length fw ii s).1 ≠ 0 then (-2, (chunk_write T length fw ii s).2)
      else if (chunk_read T length fw ii s).1 ≠ 0 then
        (-3, (chunk_read T length fw ii s).2.2)
      else if firmware_chunk fw ii (chunk_len length ii) ≠
          ((chunk_read T length fw ii s).2.1.getD []).take (chunk_len length ii) then
        (-4, (chunk_read T length fw ii s).2.2)
      else spec_load_chunks T fw rest (chunk_read T length fw ii s).2.2 := rfl

/-- The loop of the source against the specification: from any counter, the loop does
what passing the iterations of its header to `mpu_write_mem` and `mpu_read_mem` does. -/
theorem load_loop_eq_spec (T : Platform W) (length : Nat) (fw : List Nat)
    (hlen : length < 65536) :
    ∀ (fuel ii : Nat) (s : St W), ii ≤ length → length - ii ≤ fuel →
      load_loop T length fw fuel ii s =
        some (spec_load_chunks T fw (load_chunks length fuel ii) s) := by
  intro fuel
  induction fuel with
  | zero =>
    intro ii s _ hf
    rw [load_loop_done T length fw 0 ii s (by omega)]
    rfl
  | succ f ih =>
    intro ii s hle hf
    by_cases hlt : ii < length
    · obtain ⟨h1, h2, _⟩ := chunk_len_bounds length ii hlt
      rw [load_chunks_step length f ii hlt, spec_load_chunks_cons]
      by_cases hw : (chunk_write T length fw ii s).1 = 0
      · by_cases hr : (chunk_read T length fw ii s).1 = 0
        · by_cases hm : chunk_same T length fw ii s
          · rw [load_loop_next T length fw f ii s hlt hw hr hm]
            rw [if_neg (not_not.mpr hw), if_neg (not_not.mpr hr),
              if_neg (not_not.mpr (show firmware_chunk fw ii (chunk_len length ii) =
                ((chunk_read T length fw ii s).2.1.getD []).take (chunk_len length ii)
                from hm))]
            rw [Nat.mod_eq_of_lt (show ii + chunk_len length ii < 65536 by omega)]
            exact ih _ _ h2 (by omega)
          · rw [load_loop_mismatch T length fw f ii s hlt hw hr hm]
            rw [if_neg (not_not.mpr hw), if_neg (not_not.mpr hr),
              if_pos (show firmware_chunk fw ii (chunk_len length ii) ≠
                ((chunk_read T length fw ii s).2.1.getD []).take (chunk_len length ii)
                from hm)]
        · rw [load_loop_read_fail T length fw f ii s hlt hw hr]
          rw [if_neg (not_not.mpr hw), if_pos hr]
      · rw [load_loop_write_fail T length fw f ii s hlt hw]
        rw [if_pos hw]
    · rw [load_loop_done T length fw (f + 1) ii s hlt, load_chunks_done length (f + 1) ii hlt]
      rfl

/-- The iterations of the loop header are the chunks of the specification. -/
theorem load_chunks_spec (length : Nat) (hlen : length < 65536) :
    load_chunks length length 0 = spec_chunks length :=
  load_chunks_all length hlen

/-- The chunk loop of the source, started as `mpu_load_firmware` starts it, does what the
specification says: it passes the chunks of the schedule, in order, until one fails. -/
theorem load_loop_spec (T : Platform W) (s : St W) (fw : List Nat) (length : Nat)
    (hlen : length < 65536) :
    load_loop T length fw length 0 s =
      some (spec_load_chunks T fw (spec_chunks length) s) := by
  rw [load_loop_eq_spec T length fw hlen length 0 s (Nat.zero_le _) (Nat.le_refl _),
    load_chunks_spec length hlen]

/-- The high byte of a 16-bit address. -/
theorem addr_hi_eq (a : Nat) (ha : a < 65536) : (a >>> 8) % 256 = a / 256 := by
  rw [Nat.shiftRight_eq_div_pow]
  exact Nat.mod_eq_of_lt (by omega)

/-- With a sensor awake, an in-bank `mpu_write_mem` gets past the bank test: its first
transfer is the bank-select write of the address. -/
theorem mpu_write_mem_selects (T : Platform W) (s : St W) (a n : Nat) (bytes : List Nat)
    (hs : s.cfg.sensors ≠ 0) (hchk : a % 256 + n ≤ 256) (ha : a < 65536) :
    ∃ rest, (mpu_write_mem T s a n (some bytes)).2.log =
      s.log ++ Ev.write reg.bank_sel [a / 256, a % 256]
        (T.write s.bus reg.bank_sel [a / 256, a % 256]).1 :: rest := by
  unfold mpu_write_mem
  dsimp only
  rw [if_neg hs, if_neg (bank_check_passes T a n hchk), addr_hi_eq a ha, and_255_eq_mod]
  refine onFail_rule (fun r : Int × St W => ∃ rest, r.2.log =
      s.log ++ Ev.write reg.bank_sel [a / 256, a % 256]
        (T.write s.bus reg.bank_sel [a / 256, a % 256]).1 :: rest) _ _ _
    (fun _ => ⟨[], rfl⟩) (fun _ => ?_)
  exact onFail_rule (fun r : Int × St W => ∃ rest, r.2.log =
      s.log ++ Ev.write reg.bank_sel [a / 256, a % 256]
        (T.write s.bus reg.bank_sel [a / 256, a % 256]).1 :: rest) _ _ _
    (fun _ => ⟨[Ev.write reg.mem_r_w (bytes.take n)
      (T.write (i2c_write T s reg.bank_sel [a / 256, a % 256]).2.bus reg.mem_r_w
        (bytes.take n)).1], by simp⟩)
    (fun _ => ⟨[Ev.write reg.mem_r_w (bytes.take n)
      (T.write (i2c_write T s reg.bank_sel [a / 256, a % 256]).2.bus reg.mem_r_w
        (bytes.take n)).1], by simp⟩)

/-- With a sensor awake, an in-bank `mpu_read_mem` gets past the bank test: its first
transfer is the bank-select write of the address. -/
theorem mpu_read_mem_selects (T : Platform W) (s : St W) (a n : Nat)
    (hs : s.cfg.sensors ≠ 0) (hchk : a % 256 + n ≤ 256) (ha : a < 65536) :
    ∃ rest, (mpu_read_mem T s a n false).2.2.log =
      s.log ++ Ev.write reg.bank_sel [a / 256, a % 256]
        (T.write s.bus reg.bank_sel [a / 256, a % 256]).1 :: rest := by
  unfold mpu_read_mem
  dsimp only
  rw [if_neg (show ¬ (false = true) from by decide), if_neg hs,
    if_neg (bank_check_passes T a n hchk), addr_hi_eq a ha, and_255_eq_mod]
  refine onFail_rule (fun r : Int × Option (List Nat) × St W => ∃ rest, r.2.2.log =
      s.log ++ Ev.write reg.bank_sel [a / 256, a % 256]
        (T.write s.bus reg.bank_sel [a / 256, a % 256]).1 :: rest) _ _ _
    (fun _ => ⟨[], rfl⟩) (fun _ => ?_)
  exact onFailR_rule (fun r : Int × Option (List Nat) × St W => ∃ rest, r.2.2.log =
      s.log ++ Ev.write reg.bank_sel [a / 256, a % 256]
        (T.write s.bus reg.bank_sel [a / 256, a % 256]).1 :: rest) _ _ _
    (fun _ => ⟨[Ev.read reg.mem_r_w n
      (T.read (i2c_write T s reg.bank_sel [a / 256, a % 256]).2.bus reg.mem_r_w
        n).1.isSome], by simp⟩)
    (fun _ => ⟨[Ev.read reg.mem_r_w n
      (T.read (i2c_write T s reg.bank_sel [a / 256, a % 256]).2.bus reg.mem_r_w
        n).1.isSome], by simp⟩)

/-- Every write of the chip succeeds. -/
theorem dmpChip_write_ok (bits : Nat) (bad : Option Nat) :
    ∀ (w : Chip) (r : Nat) (d : List Nat), ((dmpChip bits bad).write w r d).1 = true := by
  intro w r d
  unfold dmpChip
  dsimp only
  split_ifs <;> rfl

/-- The transfers of one loop iteration on the chip: bank select, the chunk, bank select,
the read-back, all successful. -/
theorem chip_chunk_log (bits : Nat) (bad : Option Nat) (s : St Chip) (length : Nat)
    (fw : List Nat) (ii : Nat) (hs : s.cfg.sensors ≠ 0) (hlt : ii < length)
    (hlen : length < 65536) (h16 : ii % 16 = 0) :
    (chunk_read (dmpChip bits bad) length fw ii s).2.2.log =
      s.log ++ spec_chunk_events fw (ii, chunk_len length ii) := by
  obtain ⟨hn1, hn2, hn3⟩ := chunk_len_bounds length ii hlt
  have hchk : ii % 256 + chunk_len length ii ≤ 256 := by omega
  have ha : ii < 65536 := by omega
  have hwr : (chunk_write (dmpChip bits bad) length fw ii s).2.log =
      s.log ++ [Ev.write reg.bank_sel [ii / 256, ii % 256] true,
        Ev.write reg.mem_r_w (firmware_chunk fw ii (chunk_len length ii)) true] := by
    unfold chunk_write mpu_write_mem
    dsimp only
    rw [if_neg hs, if_neg (bank_check_passes _ ii _ hchk), addr_hi_eq ii ha, and_255_eq_mod,
      onFail_write_ok _ (dmpChip_write_ok bits bad),
      onFail_write_ok _ (dmpChip_write_ok bits bad),
      List.take_of_length_le (by simp)]
    simp
  have hs1 : (chunk_write (dmpChip bits bad) length fw ii s).2.cfg.sensors ≠ 0 := by
    rw [chunk_write_cfg]
    exact hs
  unfold chunk_read mpu_read_mem
  dsimp only
  rw [if_neg (show ¬ (false = true) from by decide), if_neg hs1,
    if_neg (bank_check_passes _ ii _ hchk), addr_hi_eq ii ha, and_255_eq_mod,
    onFail_write_ok _ (dmpChip_write_ok bits bad)]
  rw [i2c_read_ok (dmpChip bits bad) _ reg.mem_r_w (chunk_len length ii) _ _ rfl]
  unfold onFailR
  rw [if_neg (show ¬ (false = true) from by decide)]
  show _ ++ [Ev.write reg.bank_sel [ii / 256, ii % 256] true] ++
    [Ev.read reg.mem_r_w (chunk_len length ii) true] = _
  rw [hwr]
  simp [spec_chunk_events]

/-- On a chip without a faulty cell, with a sensor awake, the chunk loop started at a
counter that is a multiple of 16 returns 0 and has logged the four transfers of each
iteration of its header, in order, and nothing else. -/
theorem load_loop_chip_log (bits length : Nat) (fw : List Nat) (hlen : length < 65536)
    (hb : ∀ b ∈ fw, b < 256) :
    ∀ (fuel ii : Nat) (s : St Chip), length - ii ≤ fuel → ii ≤ length →
      (ii % 16 = 0 ∨ ii = length) → s.cfg.sensors ≠ 0 →
      ∃ s1, load_loop (dmpChip bits none) length fw fuel ii s = some (0, s1) ∧
        s1.log = s.log ++ (load_chunks length fuel ii).flatMap (spec_chunk_events fw) := by
  intro fuel
  induction fuel with
  | zero =>
    intro ii s hf hle _ _
    exact ⟨s, load_loop_done _ length fw 0 ii s (by omega), by simp [load_chunks]⟩
  | succ f ih =>
    intro ii s hf hle h16 hs
    by_cases hlt : ii < length
    · have h16 : ii % 16 = 0 := by omega
      obtain ⟨hn1, hn2, hn3⟩ := chunk_len_bounds length ii hlt
      obtain ⟨cw, cr, cm, _, _⟩ := chip_chunk bits s length fw ii hs hlt hlen h16 hb
      have hmod : (ii + chunk_len length ii) % 65536 = ii + chunk_len length ii :=
        Nat.mod_eq_of_lt (by omega)
      have hnext : (ii + chunk_len length ii) % 16 = 0 ∨ ii + chunk_len length ii = length := by
        unfold chunk_len LOAD_CHUNK at *
        omega
      have hs1 : (chunk_read (dmpChip bits none) length fw ii s).2.2.cfg.sensors ≠ 0 := by
        rw [chunk_read_cfg]
        exact hs
      obtain ⟨s1, e1, l1⟩ := ih (ii + chunk_len length ii)
        (chunk_read (dmpChip bits none) length fw ii s).2.2 (by omega) hn2 hnext hs1
      refine ⟨s1, ?_, ?_⟩
      · rw [load_loop_next _ length fw f ii s hlt cw cr cm, hmod]
        exact e1
      · rw [l1, chip_chunk_log bits none s length fw ii hs hlt hlen h16,
          load_chunks_step length f ii hlt, hmod, List.flatMap_cons, List.append_assoc]
    · refine ⟨s, load_loop_done _ length fw (f + 1) ii s hlt, ?_⟩
      rw [load_chunks_done length (f + 1) ii hlt]
      simp

/-- C38: for every 16-bit length the chunk loop of `mpu_load_firmware` terminates and
follows the schedule of `length / 16` (rounded up) chunks `(16 * j, min 16 (length -
16 * j))`. For every transport, the loop as `mpu_load_firmware` starts it equals passing
exactly these chunks, in order, to `mpu_write_mem` and `mpu_read_mem` until one of them
fails, so the loop and the function return a status whatever the transport does. Each
chunk has between 1 and 16 bytes, stays inside its 256-byte bank, ends where the next
one starts (the last one at `length`), and its end stays below 65536, so the 16-bit
counter never wraps. The bank test never fires: with a sensor awake, `mpu_write_mem` and
`mpu_read_mem` called on a chunk of the schedule issue their bank-select write. On a chip
on which every transfer succeeds and reads return what was written, the loop returns 0
and the transfers logged are the four of each chunk of the schedule (bank select, chunk
bytes, bank select, read-back), in order, and nothing else. -/
theorem firmware_chunk_schedule (T : Platform W) (s : St W) (fw : List Nat) (length : Nat)
    (hlen : length < 65536) :
    load_loop T length fw length 0 s =
      some (spec_load_chunks T fw (spec_chunks length) s) ∧
    (∀ (firmware : Option (List Nat)) (start_addr sample_rate : Nat),
      ∃ r, mpu_load_firmware T s length firmware start_addr sample_rate = some r) ∧
    spec_chunks length =
      (List.range ((length + 15) / 16)).map (fun j => (16 * j, min 16 (length - 16 * j))) ∧
    (∀ j, j < (length + 15) / 16 →
      1 ≤ min 16 (length - 16 * j) ∧ min 16 (length - 16 * j) ≤ 16 ∧
      (16 * j) % 256 + min 16 (length - 16 * j) ≤ 256 ∧
      ¬ (((16 * j) &&& 0xFF) + min 16 (length - 16 * j)) % 2 ^ T.uint_bits > hw.bank_size ∧
      16 * j + min 16 (length - 16 * j) < 65536 ∧
      16 * j + min 16 (length - 16 * j) =
        (if j + 1 < (length + 15) / 16 then 16 * (j + 1) else length)) ∧
    (∀ (j : Nat) (s1 : St W) (bytes : List Nat), j < (length + 15) / 16 →
      s1.cfg.sensors ≠ 0 →
      (∃ rest, (mpu_write_mem T s1 (16 * j) (min 16 (length - 16 * j)) (some bytes)).2.log =
        s1.log ++ Ev.write reg.bank_sel [16 * j / 256, 16 * j % 256]
          (T.write s1.bus reg.bank_sel [16 * j / 256, 16 * j % 256]).1 :: rest) ∧
      (∃ rest, (mpu_read_mem T s1 (16 * j) (min 16 (length - 16 * j)) false).2.2.log =
        s1.log ++ Ev.write reg.bank_sel [16 * j / 256, 16 * j % 256]
          (T.write s1.bus reg.bank_sel [16 * j / 256, 16 * j % 256]).1 :: rest)) ∧
    (∀ (bits : Nat) (sc : St Chip), sc.cfg.sensors ≠ 0 → (∀ b ∈ fw, b < 256) →
      ∃ s1, load_loop (dmpChip bits none) length fw length 0 sc = some (0, s1) ∧
        s1.log = sc.log ++ (spec_chunks length).flatMap (spec_chunk_events fw)) := by
  refine ⟨load_loop_spec T s fw length hlen,
    fun firmware a r => mpu_load_firmware_total T s length firmware a r hlen,
    rfl, fun j hj => ?_, fun j s1 bytes hj hs1 => ?_, fun bits sc hsc hb => ?_⟩
  · have hb : (16 * j) % 256 + min 16 (length - 16 * j) ≤ 256 := by omega
    refine ⟨by omega, by omega, hb, bank_check_passes T _ _ hb, by omega, ?_⟩
    split_ifs with h1
    · omega
    · omega
  · have hb : (16 * j) % 256 + min 16 (length - 16 * j) ≤ 256 := by omega
    exact ⟨mpu_write_mem_selects T s1 _ _ bytes hs1 hb (by omega),
      mpu_read_mem_selects T s1 _ _ hs1 hb (by omega)⟩
  · obtain ⟨s1, e1, l1⟩ := load_loop_chip_log bits length fw hlen hb length 0 sc
      (by omega) (Nat.zero_le _) (Or.inl rfl) hsc
    exact ⟨s1, e1, by rw [l1, load_chunks_spec length hlen]⟩

/-- Witness for C38: a 20-byte image is loaded in the two chunks (0, 16) and (16, 4); on
the chip the loop returns 0 after exactly the eight transfers of these two chunks. -/
theorem firmware_chunk_schedule_witness :
    (20 : Nat) < 65536 ∧ spec_chunks 20 = [(0, 16), (16, 4)] ∧
    (∃ r, mpu_load_firmware okBus stAwake 20 (some fw20) 0x0400 200 = some r) ∧
    ∃ s1, load_loop (dmpChip 16 none) 20 fw20 20 0 stChip = some (0, s1) ∧
      s1.log =
        [Ev.write reg.bank_sel [0, 0] true,
          Ev.write reg.mem_r_w [1, 2, 3, 4, 5, 6, 7, 8, 9, 10, 11, 12, 13, 14, 15, 16] true,
          Ev.write reg.bank_sel [0, 0] true, Ev.read reg.mem_r_w 16 true,
          Ev.write reg.bank_sel [0, 16] true, Ev.write reg.mem_r_w [17, 18, 19, 20] true,
          Ev.write reg.bank_sel [0, 16] true, Ev.read reg.mem_r_w 4 true] := by
  obtain ⟨s1, e1, l1⟩ := (firmware_chunk_schedule okBus stAwake fw20 20 (by decide)).2.2.2.2.2
    16 stChip (by decide) (by decide)
  exact ⟨by decide,
    (firmware_chunk_schedule okBus stAwake fw20 20 (by decide)).2.2.1.trans (by decide),
    (firmware_chunk_schedule okBus stAwake fw20 20 (by decide)).2.1 (some fw20) 0x0400 200,
    s1, e1, l1.trans (by decide)⟩

/-! ## The statuses of `mpu_init` -/

/-- With the DMP off and a sensor awake, `mpu_configure_fifo(0)` returns 0 whatever the
transport does: the result of its interrupt-enable write is not looked at. -/
theorem mpu_configure_fifo_0_status (T : Platform W) (s : St W) (hd : s.cfg.dmp_on = 0)
    (hs : s.cfg.sensors ≠ 0) : (mpu_configure_fifo T s 0).1 = 0 := by
  unfold mpu_configure_fifo
  have h0 : (0 : Nat) &&& 0xFE = 0 := rfl
  dsimp only
  rw [h0, Nat.zero_and, if_neg (not_not.mpr hd), if_neg hs]
  simp only [setCfg_cfg]
  rw [if_neg (show ¬ ((0 : Nat) ≠ 0) from by decide)]
  rfl

/-- C39: for every transport and every start state, the status of `mpu_init` is one of
0, -1, -2, -30, -31, -32, -33, -4, and never -34: `mpu_configure_fifo(0)`, called with
the DMP off and a sensor cached as awake, returns 0 whatever its interrupt-enable write
does. Each of the eight statuses is returned on some transport. -/
theorem mpu_init_never_34 (T : Platform W) (s : St W) :
    ((mpu_init T s).1 = 0 ∨ (mpu_init T s).1 = -1 ∨ (mpu_init T s).1 = -2 ∨
      (mpu_init T s).1 = -30 ∨ (mpu_init T s).1 = -31 ∨ (mpu_init T s).1 = -32 ∨
      (mpu_init T s).1 = -33 ∨ (mpu_init T s).1 = -4) ∧
    (mpu_init T s).1 ≠ -34 ∧
    (∀ s1 : St W, s1.cfg.dmp_on = 0 → s1.cfg.sensors ≠ 0 →
      (mpu_configure_fifo T s1 0).1 = 0) ∧
    ((mpu_init okBus st0).1 = 0 ∧ (mpu_init (failOn reg.pwr_mgmt_1) st0).1 = -1 ∧
      (mpu_init failWake st0).1 = -2 ∧ (mpu_init (failOn reg.gyro_cfg) st0).1 = -30 ∧
      (mpu_init (failOn reg.accel_cfg) st0).1 = -31 ∧
      (mpu_init (failOn reg.lpf) st0).1 = -32 ∧
      (mpu_init (failOn reg.rate_div) st0).1 = -33 ∧ (mpu_init noReadBus st0).1 = -4) := by
  have key : (mpu_init T s).1 = 0 ∨ (mpu_init T s).1 = -1 ∨ (mpu_init T s).1 = -2 ∨
      (mpu_init T s).1 = -30 ∨ (mpu_init T s).1 = -31 ∨ (mpu_init T s).1 = -32 ∨
      (mpu_init T s).1 = -33 ∨ (mpu_init T s).1 = -4 :=
    mpu_init_rule (fun r : Int × St W => r.1 = 0 ∨ r.1 = -1 ∨ r.1 = -2 ∨ r.1 = -30 ∨
        r.1 = -31 ∨ r.1 = -32 ∨ r.1 = -33 ∨ r.1 = -4) T s
      (fun _ _ => Or.inr (Or.inl rfl))
      (fun _ _ => Or.inr (Or.inr (Or.inl rfl)))
      (fun _ _ => Or.inr (Or.inr (Or.inr (Or.inl rfl))))
      (fun _ _ => Or.inr (Or.inr (Or.inr (Or.inr (Or.inl rfl)))))
      (fun _ _ => Or.inr (Or.inr (Or.inr (Or.inr (Or.inr (Or.inl rfl))))))
      (fun _ _ => Or.inr (Or.inr (Or.inr (Or.inr (Or.inr (Or.inr (Or.inl rfl)))))))
      (fun _ _ _ _ _ _ _ _ _ =>
        Or.inr (Or.inr (Or.inr (Or.inr (Or.inr (Or.inr (Or.inr rfl)))))))
      (fun _ _ _ _ _ _ _ _ => Or.inl rfl)
  refine ⟨key, fun h => ?_, fun s1 hd hs => mpu_configure_fifo_0_status T s1 hd hs,
    by decide⟩
  rw [h] at key
  revert key
  decide

/-! ## Accel sensitivity against full-scale range -/

/-- C40 fails in the code: the sensitivity table has 8092 LSB/g for the 4 g range where
8192 is needed. Whenever both getters succeed, sensitivity times range is 32768 for the
cached ranges 2 g, 8 g and 16 g, with either value of the half-sensitivity flag, and
32368 for the cached range 4 g. -/
theorem accel_sens_times_fsr (s : St W) (sens fsr : Nat)
    (h1 : mpu_get_accel_sens s = (0, some sens)) (h2 : mpu_get_accel_fsr s = (0, some fsr)) :
    sens * fsr = (if s.cfg.accel_fsr = INV_FSR_4G then 32368 else 32768) ∧
    (s.cfg.accel_fsr = INV_FSR_2G ∨ s.cfg.accel_fsr = INV_FSR_4G ∨
      s.cfg.accel_fsr = INV_FSR_8G ∨ s.cfg.accel_fsr = INV_FSR_16G) := by
  unfold mpu_get_accel_sens at h1
  unfold mpu_get_accel_fsr at h2
  dsimp only at h1 h2
  by_cases c0 : s.cfg.accel_fsr = INV_FSR_2G
  · rw [if_pos c0] at h1 h2
    dsimp only at h1 h2
    rw [if_neg (show ¬ s.cfg.accel_fsr = INV_FSR_4G from by rw [c0]; decide)]
    refine ⟨?_, Or.inl c0⟩
    by_cases hh : s.cfg.accel_half ≠ 0
    · rw [if_pos hh] at h1 h2
      cases h1
      cases h2
      rfl
    · rw [if_neg hh] at h1 h2
      cases h1
      cases h2
      rfl
  rw [if_neg c0] at h1 h2
  by_cases c1 : s.cfg.accel_fsr = INV_FSR_4G
  · rw [if_pos c1] at h1 h2
    dsimp only at h1 h2
    rw [if_pos c1]
    refine ⟨?_, Or.inr (Or.inl c1)⟩
    by_cases hh : s.cfg.accel_half ≠ 0
    · rw [if_pos hh] at h1 h2
      cases h1
      cases h2
      rfl
    · rw [if_neg hh] at h1 h2
      cases h1
      cases h2
      rfl
  rw [if_neg c1] at h1 h2
  rw [if_neg c1]
  by_cases c2 : s.cfg.accel_fsr = INV_FSR_8G
  · rw [if_pos c2] at h1 h2
    dsimp only at h1 h2
    refine ⟨?_, Or.inr (Or.inr (Or.inl c2))⟩
    by_cases hh : s.cfg.accel_half ≠ 0
    · rw [if_pos hh] at h1 h2
      cases h1
      cases h2
      rfl
    · rw [if_neg hh] at h1 h2
      cases h1
      cases h2
      rfl
  rw [if_neg c2] at h1 h2
  by_cases c3 : s.cfg.accel_fsr = INV_FSR_16G
  · rw [if_pos c3] at h1 h2
    dsimp only at h1 h2
    refine ⟨?_, Or.inr (Or.inr (Or.inr c3))⟩
    by_cases hh : s.cfg.accel_half ≠ 0
    · rw [if_pos hh] at h1 h2
      cases h1
      cases h2
      rfl
    · rw [if_neg hh] at h1 h2
      cases h1
      cases h2
      rfl
  rw [if_neg c3] at h1 h2
  cases h1

/-- Witness for C40: with the 4 g range cached the getters report 8092 LSB/g and 4 g,
whose product is 32368, not 32768; with the half-sensitivity flag set they report 4046
and 8, with the same product. -/
theorem accel_sens_times_fsr_witness :
    mpu_get_accel_sens (⟨{ cfg0 with accel_fsr := INV_FSR_4G }, (), []⟩ : St Unit) =
      (0, some 8092) ∧
    mpu_get_accel_fsr (⟨{ cfg0 with accel_fsr := INV_FSR_4G }, (), []⟩ : St Unit) =
      (0, some 4) ∧
    8092 * 4 = 32368 ∧ 8092 * 4 ≠ 32768 ∧
    mpu_get_accel_sens
      (⟨{ cfg0 with accel_fsr := INV_FSR_4G, accel_half := 1 }, (), []⟩ : St Unit) =
      (0, some 4046) ∧
    4046 * 8 = 32368 :=
  ⟨rfl, rfl,
    (accel_sens_times_fsr (⟨{ cfg0 with accel_fsr := INV_FSR_4G }, (), []⟩ : St Unit) 8092 4
      rfl rfl).1,
    by decide, rfl,
    (accel_sens_times_fsr
      (⟨{ cfg0 with accel_fsr := INV_FSR_4G, accel_half := 1 }, (), []⟩ : St Unit) 4046 8
      rfl rfl).1⟩

end InvMpu
